import Mathlib

/-!
# Recursive-descent parser: a shallow embedding of `Parser.cpp`

The C++ class `Parser` holds an immutable `std::vector<Token> tokens` and a mutable cursor
`size_t pos`.  Every rule function reads tokens through the cursor helpers, returns a freshly
built `Node*`, and calls `exit(1)` on the first syntax error.

The embedding keeps that shape:

* the parser object is the record `Parser` (token list and cursor), threaded explicitly;
* a call has one of four outcomes (`Res`): it returns a value and the new parser state, it
  stops the process with a diagnostic (`ParseError`, kept with the parser state in which it is
  printed), it reads the vector out of range (which C++ leaves undefined), or the model's
  recursion budget ran out;
* recursion among the rule functions, and every `while` loop, consumes one unit of a `fuel`
  argument, so that all definitions are structurally recursive and executable.
-/

namespace RDP

set_option linter.unusedTactic false
set_option linter.unnecessarySeqFocus false
set_option linter.unreachableTactic false

/-- A lexical token: `struct Token { category; lexeme; line; }` of `Token.h`. -/
structure Token where
  category : String
  lexeme : String
  line : Int
deriving DecidableEq, Repr

/-- A tree node: `struct Node { symbol; children; }` of `Node.h`. -/
inductive Node where
  | mk (symbol : String) (children : List Node)
deriving Repr

namespace Node

/-- The label of a node. -/
def symbol : Node → String
  | mk s _ => s

/-- The ordered children of a node. -/
def children : Node → List Node
  | mk _ cs => cs

/-- The effect of `node->children.push_back(c)`. -/
def push_back : Node → Node → Node
  | mk s cs, c => mk s (cs ++ [c])

end Node

/-- The state of a `Parser` object: the token vector and the cursor. -/
structure Parser where
  tokens : List Token
  pos : Nat
deriving DecidableEq, Repr

/-- The four diagnostics the parser prints before `exit(1)`. -/
inductive ParseError where
  /-- `expectLexeme`: "Syntax error at line L: expected 'lex' but got 'actual'" -/
  | unexpectedLexeme (line : Int) (expected : String) (actual : String)
  /-- `expectCategory`: "expected category 'cat' but got 'actualCategory' (actualLexeme)" -/
  | unexpectedCategory (line : Int) (expected : String) (actualCategory : String)
      (actualLexeme : String)
  /-- `parseTypeSpec`: "Invalid type at line L" -/
  | invalidType (line : Int)
  /-- `parsePrimary`: "Unexpected token in primary: lexeme at line L" -/
  | unexpectedPrimary (lexeme : String) (line : Int)
deriving DecidableEq, Repr

/-- The outcome of running a piece of the parser from some state. -/
inductive Res (α : Type) where
  /-- normal return with the state afterwards -/
  | ok (value : α) (state : Parser)
  /-- diagnostic printed, process terminated by `exit(1)`; `state` is the parser state at that
  moment -/
  | error (e : ParseError) (state : Parser)
  /-- a vector access out of range (`tokens[pos]` with `pos ≥ size`, or `back()` on an empty
  vector): undefined behaviour in the source -/
  | undefined
  /-- the fuel of the model is exhausted; says nothing about the source -/
  | timeout

/-- A computation over the parser state. -/
def P (α : Type) : Type := Parser → Res α

namespace P

/-- Sequencing: run `m`, and on normal return continue with `f`. -/
def bind {α β : Type} (m : P α) (f : α → P β) : P β := fun s =>
  match m s with
  | Res.ok a s1 => f a s1
  | Res.error e s1 => Res.error e s1
  | Res.undefined => Res.undefined
  | Res.timeout => Res.timeout

/-- Normal return without touching the state. -/
def ret {α : Type} (a : α) : P α := fun s => Res.ok a s

/-- Print a diagnostic and `exit(1)`. -/
def fail {α : Type} (e : ParseError) : P α := fun s => Res.error e s

/-- Fuel exhausted. -/
def timeout {α : Type} : P α := fun _ => Res.timeout

end P

instance : Monad P where
  pure := P.ret
  bind := P.bind

namespace Parser

/-! ## Cursor helpers -/

/-- `Parser::peek`: `index = pos + offset; if (index >= tokens.size()) return tokens.back();
return tokens[index];`.  The offset is an `int` in the source; every call site passes 0, 1 or 2,
and only non-negative offsets are modelled, for which `pos + offset` cannot wrap. -/
def peek (offset : Nat) : P Token := fun s =>
  let index := s.pos + offset
  if index ≥ s.tokens.length then
    match s.tokens.getLast? with
    | some t => Res.ok t s
    | none => Res.undefined
  else
    match s.tokens[index]? with
    | some t => Res.ok t s
    | none => Res.undefined

/-- `Parser::advance`: `return tokens[pos++];` (an unchecked read). -/
def advance : P Token := fun s =>
  match s.tokens[s.pos]? with
  | some t => Res.ok t { s with pos := s.pos + 1 }
  | none => Res.undefined

/-- `Parser::checkLexeme`: `peek(offset).lexeme == lex`. -/
def checkLexeme (lex : String) (offset : Nat) : P Bool := do
  let t ← peek offset
  pure (t.lexeme == lex)

/-- `Parser::checkCategory`: `peek(offset).category == cat`. -/
def checkCategory (cat : String) (offset : Nat) : P Bool := do
  let t ← peek offset
  pure (t.category == cat)

/-- `Parser::expectLexeme`: consume the current token or fail with the lexeme diagnostic. -/
def expectLexeme (lex : String) : P Token := do
  if !(← checkLexeme lex 0) then
    let t ← peek 0
    P.fail (ParseError.unexpectedLexeme t.line lex t.lexeme)
  else
    advance

/-- `Parser::expectCategory`: consume the current token or fail with the category diagnostic. -/
def expectCategory (cat : String) : P Token := do
  if !(← checkCategory cat 0) then
    let t ← peek 0
    P.fail (ParseError.unexpectedCategory t.line cat t.category t.lexeme)
  else
    advance

/-- `Parser::matchLexeme`: `if (checkLexeme(lex)) { advance(); return true; } return false;`. -/
def matchLexeme (lex : String) : P Bool := do
  if (← checkLexeme lex 0) then
    let _ ← advance
    pure true
  else
    pure false


/-! ## Types and pointer markers -/

/-- `Parser::parseTypeSpec`: optional `const`, then `struct IDENTIFIER` or a base-type keyword;
anything else is the "Invalid type" diagnostic. -/
def parseTypeSpec : P Node := do
  let node := Node.mk "TypeSpec" []
  let node := if (← matchLexeme "const") then node.push_back (Node.mk "const" []) else node
  if (← checkLexeme "struct" 0) then
    let _ ← advance
    let id ← expectCategory "IDENTIFIER"
    pure (node.push_back (Node.mk ("struct " ++ id.lexeme) []))
  else if (← checkLexeme "int" 0) || (← checkLexeme "char" 0) || (← checkLexeme "float" 0)
      || (← checkLexeme "void" 0) || (← checkLexeme "size_t" 0) then
    let base ← advance
    pure (node.push_back (Node.mk ("BaseType(" ++ base.lexeme ++ ")") []))
  else
    let t ← peek 0
    P.fail (ParseError.invalidType t.line)

/-- The loop `while (matchLexeme("*")) n->children.push_back(new Node("*"));` which occurs with
the same body in `parseParam` and in `parseDeclStmt`. -/
def parseStars : Nat → Node → P Node
  | 0, _ => P.timeout
  | fuel + 1, n => do
    if (← matchLexeme "*") then
      parseStars fuel (n.push_back (Node.mk "*" []))
    else
      pure n

/-- The optional array suffix `[ NUMBER? ]` which occurs with the same body in `parseParam` and
in `parseDeclStmt`: `if (matchLexeme("[")) { push "["; if (checkCategory("NUMBER")) push
NUM(advance()); expectLexeme("]"); push "]"; }`. -/
def parseArraySuffix (n : Node) : P Node := do
  if (← matchLexeme "[") then
    let n := n.push_back (Node.mk "[" [])
    let n ← (do
      if (← checkCategory "NUMBER" 0) then
        let num ← advance
        pure (n.push_back (Node.mk ("NUM(" ++ num.lexeme ++ ")") []))
      else
        pure n)
    let _ ← expectLexeme "]"
    pure (n.push_back (Node.mk "]" []))
  else
    pure n

/-! ## Statements and expressions -/

mutual

/-- `Parser::parseCompoundStmt`: `{` StmtList `}`. -/
def parseCompoundStmt : Nat → P Node
  | 0 => P.timeout
  | fuel + 1 => do
    let node := Node.mk "CompoundStmt" []
    let _ ← expectLexeme "\x7b"
    let node := node.push_back (← parseStmtList fuel)
    let _ ← expectLexeme "\x7d"
    pure node

/-- `Parser::parseStmtList`: a fresh `StmtList` node filled by the loop below. -/
def parseStmtList : Nat → P Node
  | 0 => P.timeout
  | fuel + 1 => parseStmtListLoop fuel (Node.mk "StmtList" [])

/-- The loop of `parseStmtList`:
`while (!checkLexeme("}") && !checkLexeme("EOF")) push(parseStmt());`. -/
def parseStmtListLoop : Nat → Node → P Node
  | 0, _ => P.timeout
  | fuel + 1, node => do
    if !(← checkLexeme "\x7d" 0) && !(← checkLexeme "EOF" 0) then
      let st ← parseStmt fuel
      parseStmtListLoop fuel (node.push_back st)
    else
      pure node

/-- `Parser::parseStmt`: dispatch on the current lexeme. -/
def parseStmt : Nat → P Node
  | 0 => P.timeout
  | fuel + 1 => do
    if (← checkLexeme "if" 0) then parseIfStmt fuel
    else if (← checkLexeme "for" 0) then parseForStmt fuel
    else if (← checkLexeme "return" 0) then parseReturnStmt fuel
    else if (← checkLexeme "\x7b" 0) then parseCompoundStmt fuel
    else if (← checkLexeme "int" 0) || (← checkLexeme "char" 0) || (← checkLexeme "float" 0)
        || (← checkLexeme "void" 0) || (← checkLexeme "size_t" 0) || (← checkLexeme "struct" 0)
        || (← checkLexeme "const" 0) then
      parseDeclStmt fuel true
    else
      parseExprStmt fuel

/-- `Parser::parseIfStmt`: `if ( expr ) stmt [else stmt]`. -/
def parseIfStmt : Nat → P Node
  | 0 => P.timeout
  | fuel + 1 => do
    let node := Node.mk "IfStmt" []
    let _ ← expectLexeme "if"
    let _ ← expectLexeme "("
    let node := node.push_back (← parseExpr fuel)
    let _ ← expectLexeme ")"
    let node := node.push_back (← parseStmt fuel)
    if (← matchLexeme "else") then
      let e := Node.mk "Else" []
      let e := e.push_back (← parseStmt fuel)
      pure (node.push_back e)
    else
      pure node

/-- `Parser::parseForStmt`: `for ( [init] ; [cond] ; [iter] ) stmt`. -/
def parseForStmt : Nat → P Node
  | 0 => P.timeout
  | fuel + 1 => do
    let node := Node.mk "ForStmt" []
    let _ ← expectLexeme "for"
    let _ ← expectLexeme "("
    let node ← (do
      if !(← checkLexeme ";" 0) then
        if (← checkLexeme "int" 0) || (← checkLexeme "char" 0) || (← checkLexeme "float" 0)
            || (← checkLexeme "void" 0) || (← checkLexeme "size_t" 0)
            || (← checkLexeme "struct" 0) || (← checkLexeme "const" 0) then
          pure (node.push_back (← parseDeclStmt fuel false))
        else
          let init := Node.mk "ForInitExpr" []
          let init := init.push_back (← parseExpr fuel)
          pure (node.push_back init)
      else
        pure node)
    let _ ← expectLexeme ";"
    let node ← (do
      if !(← checkLexeme ";" 0) then
        pure (node.push_back (← parseExpr fuel))
      else
        pure node)
    let _ ← expectLexeme ";"
    let node ← (do
      if !(← checkLexeme ")" 0) then
        let iter := Node.mk "ForIterExpr" []
        let iter := iter.push_back (← parseExpr fuel)
        pure (node.push_back iter)
      else
        pure node)
    let _ ← expectLexeme ")"
    pure (node.push_back (← parseStmt fuel))

/-- `Parser::parseReturnStmt`: `return [expr] ;`. -/
def parseReturnStmt : Nat → P Node
  | 0 => P.timeout
  | fuel + 1 => do
    let node := Node.mk "ReturnStmt" []
    let _ ← expectLexeme "return"
    let node ← (do
      if !(← checkLexeme ";" 0) then
        pure (node.push_back (← parseExpr fuel))
      else
        pure node)
    let _ ← expectLexeme ";"
    pure node

/-- `Parser::parseDeclStmt(withSemi)`: type specifier, the declarator loop, and the `;` only when
`withSemi` is set. -/
def parseDeclStmt : Nat → Bool → P Node
  | 0, _ => P.timeout
  | fuel + 1, withSemi => do
    let node := Node.mk "DeclStmt" []
    let node := node.push_back (← parseTypeSpec)
    let node ← parseDeclarators fuel node
    if withSemi then
      let _ ← expectLexeme ";"
      pure node
    else
      pure node

/-- The `do { ... } while (matchLexeme(","));` loop of `parseDeclStmt`: one declarator per
iteration, appended to `node`. -/
def parseDeclarators : Nat → Node → P Node
  | 0, _ => P.timeout
  | fuel + 1, node => do
    let decl := Node.mk "Declarator" []
    let decl ← parseStars fuel decl
    let id ← expectCategory "IDENTIFIER"
    let decl := decl.push_back (Node.mk ("Var(" ++ id.lexeme ++ ")") [])
    let decl ← parseArraySuffix decl
    let decl ← (do
      if (← matchLexeme "=") then
        let decl := decl.push_back (Node.mk "=" [])
        pure (decl.push_back (← parseExpr fuel))
      else
        pure decl)
    let node := node.push_back decl
    if (← matchLexeme ",") then
      parseDeclarators fuel node
    else
      pure node

/-- `Parser::parseExprStmt`: `expr ;`. -/
def parseExprStmt : Nat → P Node
  | 0 => P.timeout
  | fuel + 1 => do
    let node := Node.mk "ExprStmt" []
    let node := node.push_back (← parseExpr fuel)
    let _ ← expectLexeme ";"
    pure node

/-- `Parser::parseExpr`: `return parseAssignExpr();`. -/
def parseExpr : Nat → P Node
  | 0 => P.timeout
  | fuel + 1 => parseAssignExpr fuel

/-- `Parser::parseAssignExpr`: right-associative `=` and the two-token `+ =`. -/
def parseAssignExpr : Nat → P Node
  | 0 => P.timeout
  | fuel + 1 => do
    let left ← parseOrExpr fuel
    if (← checkLexeme "=" 0) || ((← checkLexeme "+" 0) && (← checkLexeme "=" 1)) then
      let node := Node.mk "AssignExpr" []
      let node := node.push_back left
      let node ← (do
        if (← checkLexeme "+" 0) && (← checkLexeme "=" 1) then
          let _ ← advance
          let _ ← advance
          pure (node.push_back (Node.mk "+=" []))
        else
          let _ ← advance
          pure (node.push_back (Node.mk "=" [])))
      pure (node.push_back (← parseAssignExpr fuel))
    else
      pure left

/-- `Parser::parseOrExpr`: one operand, then the `||` loop. -/
def parseOrExpr : Nat → P Node
  | 0 => P.timeout
  | fuel + 1 => do
    let node ← parseAndExpr fuel
    parseOrLoop fuel node

/-- The loop `while (matchLexeme("||")) node = OrExpr[node, "||", parseAndExpr()]`. -/
def parseOrLoop : Nat → Node → P Node
  | 0, _ => P.timeout
  | fuel + 1, node => do
    if (← matchLexeme "||") then
      let parent := Node.mk "OrExpr" []
      let parent := parent.push_back node
      let parent := parent.push_back (Node.mk "||" [])
      let parent := parent.push_back (← parseAndExpr fuel)
      parseOrLoop fuel parent
    else
      pure node

/-- `Parser::parseAndExpr`: one operand, then the `&&` loop. -/
def parseAndExpr : Nat → P Node
  | 0 => P.timeout
  | fuel + 1 => do
    let node ← parseEqualityExpr fuel
    parseAndLoop fuel node

/-- The loop `while (matchLexeme("&&")) node = AndExpr[node, "&&", parseEqualityExpr()]`. -/
def parseAndLoop : Nat → Node → P Node
  | 0, _ => P.timeout
  | fuel + 1, node => do
    if (← matchLexeme "&&") then
      let parent := Node.mk "AndExpr" []
      let parent := parent.push_back node
      let parent := parent.push_back (Node.mk "&&" [])
      let parent := parent.push_back (← parseEqualityExpr fuel)
      parseAndLoop fuel parent
    else
      pure node

/-- `Parser::parseEqualityExpr`: one operand, then the `==` loop. -/
def parseEqualityExpr : Nat → P Node
  | 0 => P.timeout
  | fuel + 1 => do
    let node ← parseRelExpr fuel
    parseEqualityLoop fuel node

/-- The loop `while (matchLexeme("==")) node = EqExpr[node, "==", parseRelExpr()]`. -/
def parseEqualityLoop : Nat → Node → P Node
  | 0, _ => P.timeout
  | fuel + 1, node => do
    if (← matchLexeme "==") then
      let parent := Node.mk "EqExpr" []
      let parent := parent.push_back node
      let parent := parent.push_back (Node.mk "==" [])
      let parent := parent.push_back (← parseRelExpr fuel)
      parseEqualityLoop fuel parent
    else
      pure node

/-- `Parser::parseRelExpr`: one operand, then the relational loop. -/
def parseRelExpr : Nat → P Node
  | 0 => P.timeout
  | fuel + 1 => do
    let node ← parseAddExpr fuel
    parseRelLoop fuel node

/-- The loop `while (check "<" || check ">" || check "<=" || check ">=")
node = RelExpr[node, advance().lexeme, parseAddExpr()]`. -/
def parseRelLoop : Nat → Node → P Node
  | 0, _ => P.timeout
  | fuel + 1, node => do
    if (← checkLexeme "<" 0) || (← checkLexeme ">" 0) || (← checkLexeme "<=" 0)
        || (← checkLexeme ">=" 0) then
      let op ← advance
      let parent := Node.mk "RelExpr" []
      let parent := parent.push_back node
      let parent := parent.push_back (Node.mk op.lexeme [])
      let parent := parent.push_back (← parseAddExpr fuel)
      parseRelLoop fuel parent
    else
      pure node

/-- `Parser::parseAddExpr`: one operand, then the additive loop. -/
def parseAddExpr : Nat → P Node
  | 0 => P.timeout
  | fuel + 1 => do
    let node ← parseMulExpr fuel
    parseAddLoop fuel node

/-- The loop `while ((check "+" && !check("=", 1)) || check "-")
node = AddExpr[node, advance().lexeme, parseMulExpr()]`. -/
def parseAddLoop : Nat → Node → P Node
  | 0, _ => P.timeout
  | fuel + 1, node => do
    if ((← checkLexeme "+" 0) && !(← checkLexeme "=" 1)) || (← checkLexeme "-" 0) then
      let op ← advance
      let parent := Node.mk "AddExpr" []
      let parent := parent.push_back node
      let parent := parent.push_back (Node.mk op.lexeme [])
      let parent := parent.push_back (← parseMulExpr fuel)
      parseAddLoop fuel parent
    else
      pure node

/-- `Parser::parseMulExpr`: one operand, then the multiplicative loop. -/
def parseMulExpr : Nat → P Node
  | 0 => P.timeout
  | fuel + 1 => do
    let node ← parseUnaryExpr fuel
    parseMulLoop fuel node

/-- The loop `while (check "*" || check "/" || check "%")
node = MulExpr[node, advance().lexeme, parseUnaryExpr()]`. -/
def parseMulLoop : Nat → Node → P Node
  | 0, _ => P.timeout
  | fuel + 1, node => do
    if (← checkLexeme "*" 0) || (← checkLexeme "/" 0) || (← checkLexeme "%" 0) then
      let op ← advance
      let parent := Node.mk "MulExpr" []
      let parent := parent.push_back node
      let parent := parent.push_back (Node.mk op.lexeme [])
      let parent := parent.push_back (← parseUnaryExpr fuel)
      parseMulLoop fuel parent
    else
      pure node

/-- `Parser::parseUnaryExpr`: prefix `+`, `-`, `!` (right-recursive), else a postfix
expression. -/
def parseUnaryExpr : Nat → P Node
  | 0 => P.timeout
  | fuel + 1 => do
    if (← checkLexeme "+" 0) || (← checkLexeme "-" 0) || (← checkLexeme "!" 0) then
      let op ← advance
      let node := Node.mk "UnaryExpr" []
      let node := node.push_back (Node.mk op.lexeme [])
      pure (node.push_back (← parseUnaryExpr fuel))
    else
      parsePostfixExpr fuel

/-- `Parser::parsePostfixExpr`: one primary, then the postfix loop. -/
def parsePostfixExpr : Nat → P Node
  | 0 => P.timeout
  | fuel + 1 => do
    let node ← parsePrimary fuel
    parsePostfixLoop fuel node

/-- The `while (true)` loop of `parsePostfixExpr`: `[expr]`, `(args)`, `.IDENTIFIER`, `++`,
else `break`. -/
def parsePostfixLoop : Nat → Node → P Node
  | 0, _ => P.timeout
  | fuel + 1, node => do
    if (← matchLexeme "[") then
      let parent := Node.mk "ArrayAccess" []
      let parent := parent.push_back node
      let parent := parent.push_back (← parseExpr fuel)
      let _ ← expectLexeme "]"
      parsePostfixLoop fuel parent
    else if (← matchLexeme "(") then
      let parent := Node.mk "FuncCall" []
      let parent := parent.push_back node
      let args := Node.mk "Args" []
      let args ← (do
        if !(← checkLexeme ")" 0) then
          let args := args.push_back (← parseExpr fuel)
          parseArgsLoop fuel args
        else
          pure args)
      let _ ← expectLexeme ")"
      let parent := parent.push_back args
      parsePostfixLoop fuel parent
    else if (← matchLexeme ".") then
      let field ← expectCategory "IDENTIFIER"
      let parent := Node.mk "FieldAccess" []
      let parent := parent.push_back node
      let parent := parent.push_back (Node.mk ("Field(" ++ field.lexeme ++ ")") [])
      parsePostfixLoop fuel parent
    else if (← matchLexeme "++") then
      let parent := Node.mk "PostInc" []
      let parent := parent.push_back node
      parsePostfixLoop fuel parent
    else
      pure node

/-- The loop `while (matchLexeme(",")) args->children.push_back(parseExpr());` of the call
case. -/
def parseArgsLoop : Nat → Node → P Node
  | 0, _ => P.timeout
  | fuel + 1, args => do
    if (← matchLexeme ",") then
      let args := args.push_back (← parseExpr fuel)
      parseArgsLoop fuel args
    else
      pure args

/-- `Parser::parsePrimary`: parenthesised expression, identifier, number, character constant,
string; anything else is the "Unexpected token in primary" diagnostic. -/
def parsePrimary : Nat → P Node
  | 0 => P.timeout
  | fuel + 1 => do
    if (← matchLexeme "(") then
      let node ← parseExpr fuel
      let _ ← expectLexeme ")"
      pure node
    else if (← checkCategory "IDENTIFIER" 0) then
      let id ← advance
      pure (Node.mk ("ID(" ++ id.lexeme ++ ")") [])
    else if (← checkCategory "NUMBER" 0) then
      let n ← advance
      pure (Node.mk ("NUM(" ++ n.lexeme ++ ")") [])
    else if (← checkCategory "CHAR_CONSTANT" 0) then
      let c ← advance
      pure (Node.mk ("CHAR(" ++ c.lexeme ++ ")") [])
    else if (← checkCategory "STRING" 0) then
      let str ← advance
      pure (Node.mk ("STR(" ++ str.lexeme ++ ")") [])
    else
      let t ← peek 0
      P.fail (ParseError.unexpectedPrimary t.lexeme t.line)

end

/-! ## Parameters, functions, structs, program -/

/-- `Parser::parseParam`: type specifier, pointer markers, name, optional array suffix. -/
def parseParam (fuel : Nat) : P Node := do
  let node := Node.mk "Param" []
  let node := node.push_back (← parseTypeSpec)
  let node ← parseStars fuel node
  let id ← expectCategory "IDENTIFIER"
  let node := node.push_back (Node.mk ("ParamName(" ++ id.lexeme ++ ")") [])
  parseArraySuffix node

/-- The loop `while (matchLexeme(",")) node->children.push_back(parseParam());` of
`parseParamList`. -/
def parseParamListLoop : Nat → Node → P Node
  | 0, _ => P.timeout
  | fuel + 1, node => do
    if (← matchLexeme ",") then
      let node := node.push_back (← parseParam fuel)
      parseParamListLoop fuel node
    else
      pure node

/-- `Parser::parseParamList`: one parameter, then the comma loop. -/
def parseParamList (fuel : Nat) : P Node := do
  let node := Node.mk "ParamList" []
  let node := node.push_back (← parseParam fuel)
  parseParamListLoop fuel node

/-- `Parser::parseParamListOpt`: the epsilon marker when the current token is `)`. -/
def parseParamListOpt (fuel : Nat) : P Node := do
  if (← checkLexeme ")" 0) then
    pure (Node.mk "ParamList(ε)" [])
  else
    parseParamList fuel

/-- `Parser::parseFunctionDecl`: type, name, `(` parameters `)`, body. -/
def parseFunctionDecl (fuel : Nat) : P Node := do
  let node := Node.mk "FunctionDecl" []
  let node := node.push_back (← parseTypeSpec)
  let fname ← expectCategory "IDENTIFIER"
  let node := node.push_back (Node.mk ("FuncName(" ++ fname.lexeme ++ ")") [])
  let _ ← expectLexeme "("
  let node := node.push_back (← parseParamListOpt fuel)
  let _ ← expectLexeme ")"
  pure (node.push_back (← parseCompoundStmt fuel))

/-- The loop `while (!checkLexeme("}")) members->children.push_back(parseDeclStmt(true));` of
`parseStructDecl`. -/
def parseStructMembers : Nat → Node → P Node
  | 0, _ => P.timeout
  | fuel + 1, members => do
    if !(← checkLexeme "\x7d" 0) then
      let members := members.push_back (← parseDeclStmt fuel true)
      parseStructMembers fuel members
    else
      pure members

/-- `Parser::parseStructDecl`: `struct` name `{` members `}` `;`. -/
def parseStructDecl (fuel : Nat) : P Node := do
  let node := Node.mk "StructDecl" []
  let _ ← expectLexeme "struct"
  let name ← expectCategory "IDENTIFIER"
  let node := node.push_back (Node.mk ("StructName(" ++ name.lexeme ++ ")") [])
  let _ ← expectLexeme "\x7b"
  let members := Node.mk "StructMemberList" []
  let members ← parseStructMembers fuel members
  let _ ← expectLexeme "\x7d"
  let _ ← expectLexeme ";"
  pure (node.push_back members)

/-- `Parser::parseExternalDecl`: three tokens of lookahead choose the struct path, everything
else is a function. -/
def parseExternalDecl (fuel : Nat) : P Node := do
  if (← checkLexeme "struct" 0) && (← checkCategory "IDENTIFIER" 1)
      && (← checkLexeme "\x7b" 2) then
    parseStructDecl fuel
  else
    parseFunctionDecl fuel

/-- The loop `while (!checkLexeme("EOF")) node->children.push_back(parseExternalDecl());` of
`parseProgram`. -/
def parseProgramLoop : Nat → Node → P Node
  | 0, _ => P.timeout
  | fuel + 1, node => do
    if !(← checkLexeme "EOF" 0) then
      let node := node.push_back (← parseExternalDecl fuel)
      parseProgramLoop fuel node
    else
      pure node

/-- `Parser::parseProgram`: a fresh `Program` node filled by the loop above. -/
def parseProgram (fuel : Nat) : P Node :=
  parseProgramLoop fuel (Node.mk "Program" [])


/-! ## Vocabulary of the statements -/

/-- The token a `peek(i)` resolves to, clamp to the last token included.  It is a pure view of
the state used to state lemmas; on an empty vector, where `peek` is undefined, it is a dummy. -/
def look (s : Parser) (i : Nat) : Token :=
  (if s.pos + i ≥ s.tokens.length then s.tokens.getLast? else s.tokens[s.pos + i]?).getD
    ⟨"", "", 0⟩

/-- The state with the cursor moved by `k` tokens. -/
def skip (s : Parser) (k : Nat) : Parser := ⟨s.tokens, s.pos + k⟩

/-- The sentinel `{ "EOF", "EOF", -1 }` that `readTokens` appends to every token sequence. -/
def eofToken : Token := ⟨"EOF", "EOF", -1⟩

/-- A token sequence as the parser is meant to receive it: non-empty, with the last token carrying
category `EOF` and lexeme `EOF`. -/
def sentinelTerminated (toks : List Token) : Prop :=
  ∃ t, toks.getLast? = some t ∧ t.category = "EOF" ∧ t.lexeme = "EOF"

/-- With fuel `N` or more, `f` returns `a` from `s`, leaving the parser in state `s1`. -/
def ReturnsBy {α : Type} (N : Nat) (f : Nat → P α) (s : Parser) (a : α) (s1 : Parser) : Prop :=
  ∀ n, N ≤ n → f n s = Res.ok a s1

/-- With fuel `N` or more, `f` stops from `s` with the diagnostic `e`, printed in the state
`s1`. -/
def FailsBy {α : Type} (N : Nat) (f : Nat → P α) (s : Parser) (e : ParseError)
    (s1 : Parser) : Prop :=
  ∀ n, N ≤ n → f n s = Res.error e s1

/-- An identifier token as a C tokenizer produces it: category `IDENTIFIER` and a non-empty
lexeme of letters, digits and underscores. -/
def isIdentifier (t : Token) : Bool :=
  t.category == "IDENTIFIER" && !t.lexeme.data.isEmpty &&
    t.lexeme.data.all (fun c => c.isAlphanum || c == '_')

/-- The leaf `ID(lexeme)` that `parsePrimary` builds for an identifier token. -/
def idNode (t : Token) : Node := Node.mk ("ID(" ++ t.lexeme ++ ")") []

/-- The lexemes the postfix loop reacts to. -/
def postfixOps : List String := ["[", "(", ".", "++"]

/-- The lexemes `parseUnaryExpr` reacts to. -/
def unaryOps : List String := ["+", "-", "!"]

/-- The operators of the multiplicative level. -/
def mulOps : List String := ["*", "/", "%"]

/-- The operators of the additive level. -/
def addOps : List String := ["+", "-"]

/-- The operators of the relational level. -/
def relOps : List String := ["<", ">", "<=", ">="]

/-- The operator of the equality level. -/
def eqOps : List String := ["=="]

/-- The operator of the logical-and level. -/
def andOps : List String := ["&&"]

/-- The operator of the logical-or level. -/
def orOps : List String := ["||"]

/-- The six binary levels of the ladder, loosest first: node label and operator set. -/
def binaryLevels : List (String × List String) :=
  [("OrExpr", orOps), ("AndExpr", andOps), ("EqExpr", eqOps), ("RelExpr", relOps),
   ("AddExpr", addOps), ("MulExpr", mulOps)]

/-- The additive loop does not start at the current token: it is not `-`, and if it is `+` then
an `=` follows. -/
def addStops (s : Parser) : Prop :=
  (look s 0).lexeme ≠ "-" ∧ ((look s 0).lexeme = "+" → (look s 1).lexeme = "=")

/-- The lexemes that would continue an expression at some level looser than a finished
operand. -/
def continuingOps : List String :=
  ["=", "+", "-", "||", "&&", "==", "<", ">", "<=", ">=", "*", "/", "%"]

/-- `m1` agrees with `m` wherever `m` does not run out of fuel. -/
def P.Le {α : Type} (m m1 : P α) : Prop := ∀ s, m s ≠ Res.timeout → m1 s = m s

/-- Whenever `m` returns normally, the returned value satisfies `Q`. -/
def P.Post {α : Type} (m : P α) (Q : α → Prop) : Prop :=
  ∀ s a s1, m s = Res.ok a s1 → Q a

/-- The three tokens at the cursor exist and read `struct`, an `IDENTIFIER`, `{`. -/
def structAhead (s : Parser) : Bool :=
  match s.tokens[s.pos]?, s.tokens[s.pos + 1]?, s.tokens[s.pos + 2]? with
  | some t0, some t1, some t2 =>
    t0.lexeme == "struct" && t1.category == "IDENTIFIER" && t2.lexeme == "\x7b"
  | _, _, _ => false

/-- The tokens of `struct Point { int x ; int y ; } ;` with the sentinel. -/
def structExample : List Token :=
  [⟨"KEYWORD", "struct", 1⟩, ⟨"IDENTIFIER", "Point", 1⟩, ⟨"DELIMITER", "\x7b", 1⟩,
   ⟨"KEYWORD", "int", 2⟩, ⟨"IDENTIFIER", "x", 2⟩, ⟨"DELIMITER", ";", 2⟩,
   ⟨"KEYWORD", "int", 3⟩, ⟨"IDENTIFIER", "y", 3⟩, ⟨"DELIMITER", ";", 3⟩,
   ⟨"DELIMITER", "\x7d", 4⟩, ⟨"DELIMITER", ";", 4⟩, eofToken]

/-- The tokens of `struct Point make ( ) { return p ; }` with the sentinel. -/
def structFunctionExample : List Token :=
  [⟨"KEYWORD", "struct", 1⟩, ⟨"IDENTIFIER", "Point", 1⟩, ⟨"IDENTIFIER", "make", 1⟩,
   ⟨"DELIMITER", "(", 1⟩, ⟨"DELIMITER", ")", 1⟩, ⟨"DELIMITER", "\x7b", 1⟩,
   ⟨"KEYWORD", "return", 2⟩, ⟨"IDENTIFIER", "p", 2⟩, ⟨"DELIMITER", ";", 2⟩,
   ⟨"DELIMITER", "\x7d", 3⟩, eofToken]

/-- The tokens of `int x = 1 }` with the sentinel; the `}` is on line 8. -/
def missingSemiExample : List Token :=
  [⟨"KEYWORD", "int", 7⟩, ⟨"IDENTIFIER", "x", 7⟩, ⟨"OPERATOR", "=", 7⟩, ⟨"NUMBER", "1", 7⟩,
   ⟨"DELIMITER", "\x7d", 8⟩, eofToken]

/-- The tokens of `int f ( ) { }` with the sentinel. -/
def emptyParamsExample : List Token :=
  [⟨"KEYWORD", "int", 1⟩, ⟨"IDENTIFIER", "f", 1⟩, ⟨"DELIMITER", "(", 1⟩,
   ⟨"DELIMITER", ")", 1⟩, ⟨"DELIMITER", "\x7b", 1⟩, ⟨"DELIMITER", "\x7d", 1⟩, eofToken]

/-- Whenever `m` returns normally, the token sequence is the same and the cursor has not moved
backward. -/
def P.Forward {α : Type} (m : P α) : Prop :=
  ∀ s a s1, m s = Res.ok a s1 → s1.tokens = s.tokens ∧ s.pos ≤ s1.pos

/-- The state is one the parser is meant to run from: the sequence ends in the sentinel and the
cursor is inside the sequence. -/
def InRange (s : Parser) : Prop :=
  sentinelTerminated s.tokens ∧ s.pos < s.tokens.length

/-- From the state `s`, whenever `m` returns normally the token sequence is the same and the
cursor is still inside it. -/
def P.SafeAt {α : Type} (s : Parser) (m : P α) : Prop :=
  ∀ a s1, m s = Res.ok a s1 → s1.tokens = s.tokens ∧ s1.pos < s1.tokens.length

/-- From every state in range, `m` keeps the cursor inside the sequence. -/
def P.Safe {α : Type} (m : P α) : Prop := ∀ s, InRange s → P.SafeAt s m

/-- The token is not the sentinel. -/
def notSentinel (t : Token) : Prop := ¬ (t.lexeme = "EOF" ∧ t.category = "EOF")

/-- The run of `parseProgram`'s loop, as the spec words it: from `s`, while the current lexeme is
not `EOF`, `parseExternalDecl` is called again and again; the calls return the nodes `ds` in this
order, and the run ends in the state `s1`, whose current lexeme is `EOF`. -/
inductive DeclRun (fuel : Nat) : Parser → List Node → Parser → Prop where
  | done (s : Parser) (h : checkLexeme "EOF" 0 s = Res.ok true s) : DeclRun fuel s [] s
  | step (s s1 s2 : Parser) (d : Node) (ds : List Node)
      (hc : checkLexeme "EOF" 0 s = Res.ok false s)
      (hd : parseExternalDecl fuel s = Res.ok d s1) (hr : DeclRun fuel s1 ds s2) :
      DeclRun fuel s (d :: ds) s2

/-- The tokens of `int f ( ) { } EOF int g ( ) { }`, where `EOF` is an identifier of the source
program (the macro of `stdio.h`), followed by the sentinel. -/
def earlyEofExample : List Token :=
  [⟨"KEYWORD", "int", 1⟩, ⟨"IDENTIFIER", "f", 1⟩, ⟨"DELIMITER", "(", 1⟩,
   ⟨"DELIMITER", ")", 1⟩, ⟨"DELIMITER", "\x7b", 1⟩, ⟨"DELIMITER", "\x7d", 1⟩,
   ⟨"IDENTIFIER", "EOF", 2⟩,
   ⟨"KEYWORD", "int", 3⟩, ⟨"IDENTIFIER", "g", 3⟩, ⟨"DELIMITER", "(", 3⟩,
   ⟨"DELIMITER", ")", 3⟩, ⟨"DELIMITER", "\x7b", 3⟩, ⟨"DELIMITER", "\x7d", 3⟩, eofToken]

/-! ## Reading the leaves of a tree -/

/-- The labels that name a grammar rule or a synthetic wrapper: a node carrying one of them
stands for no token of its own. -/
def ruleNames : List String :=
  ["Program", "StructDecl", "StructMemberList", "FunctionDecl", "TypeSpec", "ParamList(ε)",
   "ParamList", "Param", "CompoundStmt", "StmtList", "IfStmt", "Else", "ForStmt",
   "ForInitExpr", "ForIterExpr", "ReturnStmt", "DeclStmt", "Declarator", "ExprStmt",
   "AssignExpr", "OrExpr", "AndExpr", "EqExpr", "RelExpr", "AddExpr", "MulExpr", "UnaryExpr",
   "ArrayAccess", "FuncCall", "Args", "FieldAccess", "PostInc"]

/-- The openings of the value wrappers `ID(...)`, `NUM(...)`, ... around a lexeme. -/
def valueWrappers : List String :=
  ["ID(", "NUM(", "CHAR(", "STR(", "Var(", "StructName(", "FuncName(", "ParamName(", "Field(",
   "BaseType("]

/-- `dropLead p l` is what follows `p` in `l` when `l` starts with `p`. -/
def dropLead : List Char → List Char → Option (List Char)
  | [], l => some l
  | _ :: _, [] => none
  | c :: cs, d :: ds => if c = d then dropLead cs ds else none

/-- The lexemes a wrapped label stands for: `W(x)` stands for `x`, and the type label
`struct n` for the two lexemes `struct` and `n`. -/
def unwrap (l : String) : Option (List String) :=
  match valueWrappers.findSome? (fun p => dropLead p.data l.data) with
  | some rest => some [String.mk rest.dropLast]
  | none =>
    match dropLead "struct ".data l.data with
    | some rest => some ["struct", String.mk rest]
    | none => none

/-- The lexemes a leaf label stands for: a wrapped value is stripped, a rule name or epsilon
marker stands for nothing, the fused `+=` for its two tokens, anything else for itself. -/
def leafLexemes (l : String) : List String :=
  match unwrap l with
  | some ws => ws
  | none => if l ∈ ruleNames then [] else if l = "+=" then ["+", "="] else [l]

mutual

/-- The lexemes read off the leaves of a tree, left to right. -/
def yield : Node → List String
  | Node.mk sym [] => leafLexemes sym
  | Node.mk _ (c :: cs) => yield c ++ yieldList cs

/-- The lexemes read off the leaves of a list of trees. -/
def yieldList : List Node → List String
  | [] => []
  | c :: cs => yield c ++ yieldList cs

end

mutual

/-- The labels of the leaves of a tree, left to right. -/
def leafLabels : Node → List String
  | Node.mk sym [] => [sym]
  | Node.mk _ (c :: cs) => leafLabels c ++ leafLabelsList cs

/-- The labels of the leaves of a list of trees. -/
def leafLabelsList : List Node → List String
  | [] => []
  | c :: cs => leafLabels c ++ leafLabelsList cs

end

/-- The lexemes the parser consumes without recording them in the tree: brackets, separators
and the keywords that only select a rule. -/
def droppedLexemes : List String :=
  ["(", ")", "\x7b", "\x7d", "[", "]", ";", ",", ".", "++", "if", "else", "for", "return",
   "struct"]

/-- `Kept v w`: the sequence `v` is what remains of `w` after deleting some occurrences of the
dropped lexemes, and nothing else. -/
inductive Kept : List String → List String → Prop
  | nil : Kept [] []
  | keep (x : String) {v w : List String} : Kept v w → Kept (x :: v) (x :: w)
  | drop {x : String} {v w : List String} : x ∈ droppedLexemes → Kept v w → Kept v (x :: w)

/-- The lexemes of the tokens between two cursor positions of one sequence. -/
def consumed (s s1 : Parser) : List String :=
  ((s.tokens.drop s.pos).take (s1.pos - s.pos)).map Token.lexeme

/-- The lexemes `w` are exactly those of the tokens between the state `s0` and the state `s` of
one token sequence. -/
def Trace (s0 : Parser) (w : List String) (s : Parser) : Prop :=
  s.tokens = s0.tokens ∧ s0.pos ≤ s.pos ∧ consumed s0 s = w

/-- Running `m` from `s`, reached from `s0` by consuming `w`: whenever `m` returns a node, the
lexemes read off its leaves are `b` followed by what is kept of the lexemes consumed since
`s0`. -/
def P.YieldsAt (s0 : Parser) (b w : List String) (s : Parser) (m : P Node) : Prop :=
  Trace s0 w s → ∀ a s1, m s = Res.ok a s1 →
    s1.tokens = s0.tokens ∧ s0.pos ≤ s1.pos ∧
      ∃ v, yield a = b ++ v ∧ Kept v (consumed s0 s1)

/-- Whenever `m` returns a node, the lexemes read off its leaves are what is kept of the
lexemes of the tokens it consumed. -/
def P.Yields (m : P Node) : Prop :=
  ∀ s a s1, m s = Res.ok a s1 →
    s1.tokens = s.tokens ∧ s.pos ≤ s1.pos ∧ Kept (yield a) (consumed s s1)

/-- A loop that grows the node it is given: the leaves of the result read as those of the given
node followed by what is kept of the lexemes the loop consumed. -/
def P.YieldsWrap (f : Node → P Node) : Prop :=
  ∀ node s a s1, f node s = Res.ok a s1 →
    s1.tokens = s.tokens ∧ s.pos ≤ s1.pos ∧
      ∃ v, yield a = yield node ++ v ∧ Kept v (consumed s s1)

/-- The same for a loop that appends children to a node labelled with a rule name. -/
def P.YieldsPush (f : Node → P Node) : Prop :=
  ∀ node s a s1, node.symbol ∈ ruleNames → f node s = Res.ok a s1 →
    s1.tokens = s.tokens ∧ s.pos ≤ s1.pos ∧
      ∃ v, yield a = yield node ++ v ∧ Kept v (consumed s s1)

/-- The lexemes that appear as a leaf label unwrapped. -/
def rawLexemes : List String :=
  ["const", "*", "[", "]", "=", "||", "&&", "==", "<", ">", "<=", ">=", "+", "-", "/", "%",
   "!"]

/-! ## Where `advance` is called -/

/-- `GuardedAt s m`: the run of `m` from the state `s` is put together from the cursor helpers,
and every call of `advance` in it is made at a position strictly below the last one
(`pos + 1 < length`, that is `pos < length - 1`).  The rules follow a run step by step: in
`m >>= f` the continuation is looked at only from the states `m` returns to. -/
inductive GuardedAt : {α : Type} → Parser → P α → Prop
  | atPure {α : Type} (s : Parser) (a : α) : GuardedAt s (Pure.pure a : P α)
  | atFail {α : Type} (s : Parser) (e : ParseError) : GuardedAt s (P.fail e : P α)
  | atTimeout {α : Type} (s : Parser) : GuardedAt s (P.timeout : P α)
  | atPeek (s : Parser) (i : Nat) : GuardedAt s (Parser.peek i)
  | atAdvance (s : Parser) (h : s.pos + 1 < s.tokens.length) : GuardedAt s Parser.advance
  | atBind {α β : Type} {s : Parser} {m : P α} {f : α → P β} (hm : GuardedAt s m)
      (hf : ∀ a s1, m s = Res.ok a s1 → GuardedAt s1 (f a)) : GuardedAt s (m >>= f)

/-- From every state in range, every call of `advance` made by `m` is below the last
position. -/
def P.Guarded {α : Type} (m : P α) : Prop := ∀ s, InRange s → GuardedAt s m

/-! ## What a diagnostic reports -/

/-- The lexemes that open a type specifier after the optional `const`. -/
def typeLexemes : List String := ["struct", "int", "char", "float", "void", "size_t"]

/-- The base-type keywords of `parseTypeSpec`. -/
def baseTypeLexemes : List String := ["int", "char", "float", "void", "size_t"]

/-- The number of tokens the optional leading `const` of a type specifier takes up at `s`. -/
def constCount (s : Parser) : Nat := if (look s 0).lexeme = "const" then 1 else 0

/-- The children the optional leading `const` contributes to the `TypeSpec` node. -/
def constNodes (s : Parser) : List Node :=
  if (look s 0).lexeme = "const" then [Node.mk "const" []] else []

/-- The tokens of `const struct Point` with the sentinel. -/
def constStructExample : List Token :=
  [⟨"KEYWORD", "const", 1⟩, ⟨"KEYWORD", "struct", 1⟩, ⟨"IDENTIFIER", "Point", 1⟩, eofToken]

/-- The lexemes on which `parseStmt` chooses a declaration. -/
def declStartLexemes : List String :=
  ["int", "char", "float", "void", "size_t", "struct", "const"]

/-- The label `parseStmt` gives its result, from the lexeme of the current token: the checks
`if`, `for`, `return`, `{`, type-introducing keyword, in this order, else an expression
statement. -/
def stmtLabel (l : String) : String :=
  if l = "if" then "IfStmt"
  else if l = "for" then "ForStmt"
  else if l = "return" then "ReturnStmt"
  else if l = "\x7b" then "CompoundStmt"
  else if l ∈ declStartLexemes then "DeclStmt"
  else "ExprStmt"

/-- The tokens of `int x ;` with the sentinel. -/
def declStmtExample : List Token :=
  [⟨"KEYWORD", "int", 1⟩, ⟨"IDENTIFIER", "x", 1⟩, ⟨"DELIMITER", ";", 1⟩, eofToken]

/-- The tokens of `for ( int i ; ; ) { }` with the sentinel. -/
def forDeclExample : List Token :=
  [⟨"KEYWORD", "for", 1⟩, ⟨"DELIMITER", "(", 1⟩, ⟨"KEYWORD", "int", 1⟩, ⟨"IDENTIFIER", "i", 1⟩,
   ⟨"DELIMITER", ";", 1⟩, ⟨"DELIMITER", ";", 1⟩, ⟨"DELIMITER", ")", 1⟩,
   ⟨"DELIMITER", "\x7b", 1⟩, ⟨"DELIMITER", "\x7d", 1⟩, eofToken]

/-- The tokens of `for ( i ; j ; k ) { }` with the sentinel. -/
def forExprExample : List Token :=
  [⟨"KEYWORD", "for", 1⟩, ⟨"DELIMITER", "(", 1⟩, ⟨"IDENTIFIER", "i", 1⟩,
   ⟨"DELIMITER", ";", 1⟩, ⟨"IDENTIFIER", "j", 1⟩, ⟨"DELIMITER", ";", 1⟩,
   ⟨"IDENTIFIER", "k", 1⟩, ⟨"DELIMITER", ")", 1⟩,
   ⟨"DELIMITER", "\x7b", 1⟩, ⟨"DELIMITER", "\x7d", 1⟩, eofToken]

/-- The tokens of `if ( a ) b ; else c ;` with the sentinel. -/
def ifElseExample : List Token :=
  [⟨"KEYWORD", "if", 1⟩, ⟨"DELIMITER", "(", 1⟩, ⟨"IDENTIFIER", "a", 1⟩, ⟨"DELIMITER", ")", 1⟩,
   ⟨"IDENTIFIER", "b", 1⟩, ⟨"DELIMITER", ";", 1⟩, ⟨"KEYWORD", "else", 2⟩,
   ⟨"IDENTIFIER", "c", 2⟩, ⟨"DELIMITER", ";", 2⟩, eofToken]

/-! ## The postfix chain -/

/-- One postfix operator as `parsePostfixExpr` consumes it: `[ e ]`, `( args )`, `. name`,
`++`. -/
inductive PostfixOp where
  | index (e : Node)
  | call (args : Node)
  | field (name : String)
  | inc

/-- The node one pass of the postfix loop builds around the operand `node`. -/
def PostfixOp.wrap (node : Node) : PostfixOp → Node
  | PostfixOp.index e => Node.mk "ArrayAccess" [node, e]
  | PostfixOp.call args => Node.mk "FuncCall" [node, args]
  | PostfixOp.field name => Node.mk "FieldAccess" [node, Node.mk ("Field(" ++ name ++ ")") []]
  | PostfixOp.inc => Node.mk "PostInc" [node]

/-- The argument list of a call, read from the state `x` after `(`: the childless `Args` when
the current lexeme is `)`, else one expression and then the comma loop. -/
def CallArgs (k : Nat) (x : Parser) (args : Node) (sA : Parser) : Prop :=
  ((look x 0).lexeme = ")" ∧ args = Node.mk "Args" [] ∧ sA = x) ∨
  ((look x 0).lexeme ≠ ")" ∧ ∃ e s', parseExpr k x = Res.ok e s' ∧
    parseArgsLoop k (Node.mk "Args" [e]) s' = Res.ok args sA)

/-- The run of the postfix loop with fuel `n` from `s`: the operators it consumes, in the order
they occur, and the state it stops in, whose current lexeme starts no postfix operator. -/
inductive PostfixRun : Nat → Parser → List PostfixOp → Parser → Prop
  | done (k : Nat) (s : Parser) (hne : s.tokens ≠ []) (h : (look s 0).lexeme ∉ postfixOps) :
      PostfixRun (k + 1) s [] s
  | index (k : Nat) (s sA s1 : Parser) (e : Node) (ops : List PostfixOp)
      (h : (look s 0).lexeme = "[") (he : parseExpr k (skip s 1) = Res.ok e sA)
      (hc : (look sA 0).lexeme = "]") (hr : PostfixRun k (skip sA 1) ops s1) :
      PostfixRun (k + 1) s (PostfixOp.index e :: ops) s1
  | call (k : Nat) (s sA s1 : Parser) (args : Node) (ops : List PostfixOp)
      (h : (look s 0).lexeme = "(") (ha : CallArgs k (skip s 1) args sA)
      (hc : (look sA 0).lexeme = ")") (hr : PostfixRun k (skip sA 1) ops s1) :
      PostfixRun (k + 1) s (PostfixOp.call args :: ops) s1
  | field (k : Nat) (s s1 : Parser) (ops : List PostfixOp)
      (h : (look s 0).lexeme = ".") (hc : (look s 1).category = "IDENTIFIER")
      (hr : PostfixRun k (skip s 2) ops s1) :
      PostfixRun (k + 1) s (PostfixOp.field (look s 1).lexeme :: ops) s1
  | inc (k : Nat) (s s1 : Parser) (ops : List PostfixOp)
      (h : (look s 0).lexeme = "++") (hr : PostfixRun k (skip s 1) ops s1) :
      PostfixRun (k + 1) s (PostfixOp.inc :: ops) s1

/-- The tokens of `a . b [ 0 ] ( x ) ++` with the sentinel. -/
def postfixExample : List Token :=
  [⟨"IDENTIFIER", "a", 1⟩, ⟨"OPERATOR", ".", 1⟩, ⟨"IDENTIFIER", "b", 1⟩,
   ⟨"DELIMITER", "[", 1⟩, ⟨"NUMBER", "0", 1⟩, ⟨"DELIMITER", "]", 1⟩,
   ⟨"DELIMITER", "(", 1⟩, ⟨"IDENTIFIER", "x", 1⟩, ⟨"DELIMITER", ")", 1⟩,
   ⟨"OPERATOR", "++", 1⟩, eofToken]

/-! ## The precedence ladder by level -/

/-- The rule function of a binary level, loosest first (0 is `||`, 5 is multiplicative); beyond
the binary levels comes `parseUnaryExpr`, the operand of the multiplicative level. -/
def levelExpr : Nat → Nat → P Node
  | 0 => parseOrExpr
  | 1 => parseAndExpr
  | 2 => parseEqualityExpr
  | 3 => parseRelExpr
  | 4 => parseAddExpr
  | 5 => parseMulExpr
  | _ => parseUnaryExpr

/-- The operators of a binary level. -/
def levelOps : Nat → List String
  | 0 => orOps
  | 1 => andOps
  | 2 => eqOps
  | 3 => relOps
  | 4 => addOps
  | 5 => mulOps
  | _ => []

/-- The node label of a binary level. -/
def levelLabel : Nat → String
  | 0 => "OrExpr"
  | 1 => "AndExpr"
  | 2 => "EqExpr"
  | 3 => "RelExpr"
  | 4 => "AddExpr"
  | 5 => "MulExpr"
  | _ => "UnaryExpr"

/-- The loop of level `i` stops at the current token: its lexeme is no operator of the level;
for the additive level, it is not `-`, and if it is `+` then `=` follows. -/
def stops (i : Nat) (s : Parser) : Prop :=
  if i = 4 then addStops s else (look s 0).lexeme ∉ levelOps i

/-- The current token continues no expression at level `i` or tighter: it starts no postfix
operator and stops the loop of every level from `i` on. -/
def closes (i : Nat) (s : Parser) : Prop :=
  (look s 0).lexeme ∉ postfixOps ∧ ∀ k, i ≤ k → stops k s

/-! ## Progress and termination -/

/-- The number of tokens from the cursor to the end of the sequence (0 once the cursor is at or
past the end). -/
def remaining (s : Parser) : Nat := s.tokens.length - s.pos

/-- Whenever `m` returns normally, fewer tokens remain than before: it has consumed at least one
token. -/
def P.Drops {α : Type} (m : P α) : Prop :=
  ∀ s a s1, m s = Res.ok a s1 → remaining s1 < remaining s

/-- Whenever `m` returns normally, no more tokens remain than before. -/
def P.Keeps {α : Type} (m : P α) : Prop :=
  ∀ s a s1, m s = Res.ok a s1 → remaining s1 ≤ remaining s

/-- Whenever `m` returns normally from the state `s`, fewer than `r` tokens remain. -/
def P.DropsAt {α : Type} (r : Nat) (s : Parser) (m : P α) : Prop :=
  ∀ a s1, m s = Res.ok a s1 → remaining s1 < r

/-- From the state `s`, the run of `m` does not exhaust the fuel. -/
def P.HaltsAt {α : Type} (s : Parser) (m : P α) : Prop := m s ≠ Res.timeout

/-- One pass of a loop, seen from the state `s0` in which the pass began: whenever the rest `m`
of the pass returns `r` in the state `s2`, either the pass left the loop with an outcome that
satisfies `E`, or the loop was entered again, in a state with the same tokens and fewer of them
remaining, and that run returned `r` in `s2`. -/
def P.RepeatsAt (L : Node → P Node) (E : Node → Parser → Prop) (s0 s : Parser)
    (m : P Node) : Prop :=
  s.tokens = s0.tokens → ∀ r s2, m s = Res.ok r s2 →
    E r s2 ∨ ∃ node1 s1, s1.tokens = s0.tokens ∧ remaining s1 < remaining s0 ∧
      L node1 s1 = Res.ok r s2

/-- A `while` loop of the parser, `L fuel node`, makes progress: a pass either leaves the loop at
once, returning its node without moving the cursor, or enters the loop again with the cursor
strictly further on, and the result of the pass is the result of that run. -/
def Repeats (L : Nat → Node → P Node) : Prop :=
  ∀ n node s r s2, L (n + 1) node s = Res.ok r s2 →
    (r = node ∧ s2 = s) ∨
    ∃ node1 s1, s1.tokens = s.tokens ∧ s.pos < s1.pos ∧ L n node1 s1 = Res.ok r s2

/-- Whenever `m` returns normally, the token sequence is the same and the cursor is strictly
further on. -/
def P.Advances {α : Type} (m : P α) : Prop :=
  ∀ s a s1, m s = Res.ok a s1 → s1.tokens = s.tokens ∧ s.pos < s1.pos

/-- The tokens of `int f ( int a ) { }` with the sentinel. -/
def oneParamExample : List Token :=
  [⟨"KEYWORD", "int", 1⟩, ⟨"IDENTIFIER", "f", 1⟩, ⟨"DELIMITER", "(", 1⟩,
   ⟨"KEYWORD", "int", 1⟩, ⟨"IDENTIFIER", "a", 1⟩,
   ⟨"DELIMITER", ")", 1⟩, ⟨"DELIMITER", "\x7b", 1⟩, ⟨"DELIMITER", "\x7d", 1⟩, eofToken]

/-! ## Running the cursor helpers -/

theorem P.bind_eq {α β : Type} (m : P α) (f : α → P β) : (m >>= f) = P.bind m f := rfl

theorem P.pure_eq {α : Type} (a : α) : (pure a : P α) = P.ret a := rfl

theorem P.bind_ok {α β : Type} {m : P α} {f : α → P β} {s s1 : Parser} {a : α}
    (h : m s = Res.ok a s1) : (m >>= f) s = f a s1 := by
  simp only [P.bind_eq, P.bind, h]

theorem P.bind_error {α β : Type} {m : P α} {f : α → P β} {s s1 : Parser} {e : ParseError}
    (h : m s = Res.error e s1) : (m >>= f) s = Res.error e s1 := by
  simp only [P.bind_eq, P.bind, h]

theorem tokens_ne_nil {s : Parser} (h : s.pos < s.tokens.length) : s.tokens ≠ [] := by
  intro h0
  simp [h0] at h

theorem peek_look (i : Nat) (s : Parser) (h : s.tokens ≠ []) :
    peek i s = Res.ok (look s i) s := by
  unfold peek look
  by_cases hi : s.pos + i ≥ s.tokens.length
  · simp only [hi, if_true]
    cases hl : s.tokens.getLast? with
    | none => simp [List.getLast?_eq_none_iff] at hl; exact absurd hl h
    | some t => simp
  · simp only [hi, if_false]
    have : s.pos + i < s.tokens.length := by omega
    simp [List.getElem?_eq_getElem this]

theorem checkLexeme_look (lex : String) (i : Nat) (s : Parser) (h : s.tokens ≠ []) :
    checkLexeme lex i s = Res.ok ((look s i).lexeme == lex) s := by
  simp only [checkLexeme, P.bind_eq, P.bind, peek_look i s h, P.pure_eq, P.ret]

theorem checkCategory_look (cat : String) (i : Nat) (s : Parser) (h : s.tokens ≠ []) :
    checkCategory cat i s = Res.ok ((look s i).category == cat) s := by
  simp only [checkCategory, P.bind_eq, P.bind, peek_look i s h, P.pure_eq, P.ret]

theorem advance_look (s : Parser) (h : s.pos < s.tokens.length) :
    advance s = Res.ok (look s 0) (skip s 1) := by
  unfold advance look skip
  rw [if_neg (by omega)]
  simp [List.getElem?_eq_getElem h]

theorem matchLexeme_ne (lex : String) (s : Parser) (h : s.tokens ≠ [])
    (hl : (look s 0).lexeme ≠ lex) : matchLexeme lex s = Res.ok false s := by
  simp [matchLexeme, P.bind_eq, P.bind, checkLexeme_look lex 0 s h, hl, P.pure_eq, P.ret]

theorem matchLexeme_eq (lex : String) (s : Parser) (h : s.pos < s.tokens.length)
    (hl : (look s 0).lexeme = lex) : matchLexeme lex s = Res.ok true (skip s 1) := by
  simp [matchLexeme, P.bind_eq, P.bind, checkLexeme_look lex 0 s (tokens_ne_nil h), hl,
    advance_look s h, P.pure_eq, P.ret]

theorem expectLexeme_eq (lex : String) (s : Parser) (h : s.pos < s.tokens.length)
    (hl : (look s 0).lexeme = lex) : expectLexeme lex s = Res.ok (look s 0) (skip s 1) := by
  simp [expectLexeme, P.bind_eq, P.bind, checkLexeme_look lex 0 s (tokens_ne_nil h), hl,
    advance_look s h]

theorem expectLexeme_ne (lex : String) (s : Parser) (h : s.tokens ≠ [])
    (hl : (look s 0).lexeme ≠ lex) :
    expectLexeme lex s =
      Res.error (ParseError.unexpectedLexeme (look s 0).line lex (look s 0).lexeme) s := by
  simp [expectLexeme, P.bind_eq, P.bind, checkLexeme_look lex 0 s h, hl, peek_look 0 s h,
    P.fail]

theorem expectCategory_eq (cat : String) (s : Parser) (h : s.pos < s.tokens.length)
    (hl : (look s 0).category = cat) : expectCategory cat s = Res.ok (look s 0) (skip s 1) := by
  simp [expectCategory, P.bind_eq, P.bind, checkCategory_look cat 0 s (tokens_ne_nil h), hl,
    advance_look s h]

theorem expectCategory_ne (cat : String) (s : Parser) (h : s.tokens ≠ [])
    (hl : (look s 0).category ≠ cat) :
    expectCategory cat s =
      Res.error (ParseError.unexpectedCategory (look s 0).line cat (look s 0).category
        (look s 0).lexeme) s := by
  simp [expectCategory, P.bind_eq, P.bind, checkCategory_look cat 0 s h, hl, peek_look 0 s h,
    P.fail]

theorem isIdentifier_category {t : Token} (h : isIdentifier t = true) :
    t.category = "IDENTIFIER" := by
  simp [isIdentifier] at h
  exact h.1.1

/-- An identifier lexeme differs from every lexeme that holds a character other than a letter,
a digit or an underscore. -/
theorem isIdentifier_ne {t : Token} (h : isIdentifier t = true) (l : String)
    (hl : l.data.any (fun c => !(c.isAlphanum || c == '_')) = true) : t.lexeme ≠ l := by
  intro heq
  subst heq
  simp only [isIdentifier, Bool.and_eq_true, List.all_eq_true] at h
  simp only [List.any_eq_true] at hl
  obtain ⟨c, hc, hc2⟩ := hl
  have := h.2 c hc
  simp [this] at hc2

theorem ReturnsBy.mono {α : Type} {N M : Nat} {f : Nat → P α} {s s1 : Parser} {a : α}
    (h : ReturnsBy N f s a s1) (hNM : N ≤ M) : ReturnsBy M f s a s1 :=
  fun n hn => h n (le_trans hNM hn)

theorem exists_succ_of_le {N n : Nat} (h : N + 1 ≤ n) : ∃ m, n = m + 1 ∧ N ≤ m :=
  ⟨n - 1, by omega, by omega⟩

/-! ## The expression ladder, one rung at a time -/

theorem parsePrimary_ident (s : Parser) (h : s.pos < s.tokens.length)
    (hid : isIdentifier (look s 0) = true) :
    ReturnsBy 1 parsePrimary s (idNode (look s 0)) (skip s 1) := by
  intro n hn
  obtain ⟨m, rfl, -⟩ := exists_succ_of_le hn
  have h1 := isIdentifier_ne hid "(" (by decide)
  have h2 := isIdentifier_category hid
  simp [parsePrimary, P.bind_eq, P.bind, matchLexeme_ne _ s (tokens_ne_nil h) h1,
    checkCategory_look _ _ s (tokens_ne_nil h), h2, advance_look s h, P.pure_eq, P.ret, idNode]

theorem parsePostfixLoop_stop (s : Parser) (node : Node) (h : s.tokens ≠ [])
    (hl : (look s 0).lexeme ∉ postfixOps) :
    ReturnsBy 1 (fun n => parsePostfixLoop n node) s node s := by
  intro n hn
  obtain ⟨m, rfl, -⟩ := exists_succ_of_le hn
  simp only [postfixOps, List.mem_cons, List.mem_singleton, List.not_mem_nil, or_false,
    not_or] at hl
  obtain ⟨h1, h2, h3, h4⟩ := hl
  simp [parsePostfixLoop, P.bind_eq, P.bind, matchLexeme_ne _ s h h1, matchLexeme_ne _ s h h2,
    matchLexeme_ne _ s h h3, matchLexeme_ne _ s h h4, P.pure_eq, P.ret]

theorem parsePostfixExpr_of {N : Nat} {s s1 s2 : Parser} {a r : Node}
    (hp : ReturnsBy N parsePrimary s a s1)
    (hk : ReturnsBy N (fun n => parsePostfixLoop n a) s1 r s2) :
    ReturnsBy (N + 1) parsePostfixExpr s r s2 := by
  intro n hn
  obtain ⟨m, rfl, hm⟩ := exists_succ_of_le hn
  simp only [parsePostfixExpr]
  rw [P.bind_ok (hp m hm)]
  exact hk m hm

theorem parseUnaryExpr_of {N : Nat} {s s1 : Parser} {a : Node} (h : s.tokens ≠ [])
    (hl : (look s 0).lexeme ∉ unaryOps) (hp : ReturnsBy N parsePostfixExpr s a s1) :
    ReturnsBy (N + 1) parseUnaryExpr s a s1 := by
  intro n hn
  obtain ⟨m, rfl, hm⟩ := exists_succ_of_le hn
  simp only [unaryOps, List.mem_cons, List.mem_singleton, List.not_mem_nil, or_false,
    not_or] at hl
  obtain ⟨h1, h2, h3⟩ := hl
  simp [parseUnaryExpr, P.bind_eq, P.bind, checkLexeme_look _ _ s h, h1, h2, h3, hp m hm]

theorem parseUnaryExpr_op {N : Nat} {s s1 : Parser} {r : Node} (h : s.pos < s.tokens.length)
    (hl : (look s 0).lexeme ∈ unaryOps) (hr : ReturnsBy N parseUnaryExpr (skip s 1) r s1) :
    ReturnsBy (N + 1) parseUnaryExpr s
      (Node.mk "UnaryExpr" [Node.mk (look s 0).lexeme [], r]) s1 := by
  intro n hn
  obtain ⟨m, rfl, hm⟩ := exists_succ_of_le hn
  have hc : ((look s 0).lexeme == "+" || (look s 0).lexeme == "-"
      || (look s 0).lexeme == "!") = true := by
    simp only [unaryOps, List.mem_cons, List.mem_singleton, List.not_mem_nil, or_false] at hl
    rcases hl with h1 | h1 | h1 <;> simp [h1]
  simp only [parseUnaryExpr, P.bind_eq, P.bind, checkLexeme_look _ _ s (tokens_ne_nil h), hc,
    if_true, advance_look s h, hr m hm, P.pure_eq, P.ret, Node.push_back, List.nil_append,
    List.cons_append]

theorem parseMulLoop_stop (s : Parser) (node : Node) (h : s.tokens ≠ [])
    (hl : (look s 0).lexeme ∉ mulOps) :
    ReturnsBy 1 (fun n => parseMulLoop n node) s node s := by
  intro n hn
  obtain ⟨m, rfl, -⟩ := exists_succ_of_le hn
  simp only [mulOps, List.mem_cons, List.mem_singleton, List.not_mem_nil, or_false,
    not_or] at hl
  obtain ⟨h1, h2, h3⟩ := hl
  simp [parseMulLoop, P.bind_eq, P.bind, checkLexeme_look _ _ s h, h1, h2, h3, P.pure_eq, P.ret]

theorem parseMulLoop_step {N : Nat} (s : Parser) (node : Node) {s1 s2 : Parser} {r res : Node}
    (h : s.pos < s.tokens.length) (hl : (look s 0).lexeme ∈ mulOps)
    (hr : ReturnsBy N parseUnaryExpr (skip s 1) r s1)
    (hk : ReturnsBy N (fun n => parseMulLoop n
      (Node.mk "MulExpr" [node, Node.mk (look s 0).lexeme [], r])) s1 res s2) :
    ReturnsBy (N + 1) (fun n => parseMulLoop n node) s res s2 := by
  intro n hn
  obtain ⟨m, rfl, hm⟩ := exists_succ_of_le hn
  have hc : ((look s 0).lexeme == "*" || (look s 0).lexeme == "/" || (look s 0).lexeme == "%") = true := by
    simp only [mulOps, List.mem_cons, List.mem_singleton, List.not_mem_nil, or_false] at hl
    rcases hl with h1 | h1 | h1 <;> simp [h1]
  simp only [parseMulLoop, P.bind_eq, P.bind, checkLexeme_look _ _ s (tokens_ne_nil h), hc, if_true,
    advance_look s h, hr m hm, P.pure_eq, P.ret, Node.push_back, List.nil_append,
    List.cons_append]
  exact hk m hm

theorem parseMulExpr_of {N : Nat} {s s1 s2 : Parser} {a res : Node}
    (ho : ReturnsBy N parseUnaryExpr s a s1)
    (hk : ReturnsBy N (fun n => parseMulLoop n a) s1 res s2) :
    ReturnsBy (N + 1) parseMulExpr s res s2 := by
  intro n hn
  obtain ⟨m, rfl, hm⟩ := exists_succ_of_le hn
  simp only [parseMulExpr]
  rw [P.bind_ok (ho m hm)]
  exact hk m hm

theorem parseRelLoop_stop (s : Parser) (node : Node) (h : s.tokens ≠ [])
    (hl : (look s 0).lexeme ∉ relOps) :
    ReturnsBy 1 (fun n => parseRelLoop n node) s node s := by
  intro n hn
  obtain ⟨m, rfl, -⟩ := exists_succ_of_le hn
  simp only [relOps, List.mem_cons, List.mem_singleton, List.not_mem_nil, or_false,
    not_or] at hl
  obtain ⟨h1, h2, h3, h4⟩ := hl
  simp [parseRelLoop, P.bind_eq, P.bind, checkLexeme_look _ _ s h, h1, h2, h3, h4, P.pure_eq, P.ret]

theorem parseRelLoop_step {N : Nat} (s : Parser) (node : Node) {s1 s2 : Parser} {r res : Node}
    (h : s.pos < s.tokens.length) (hl : (look s 0).lexeme ∈ relOps)
    (hr : ReturnsBy N parseAddExpr (skip s 1) r s1)
    (hk : ReturnsBy N (fun n => parseRelLoop n
      (Node.mk "RelExpr" [node, Node.mk (look s 0).lexeme [], r])) s1 res s2) :
    ReturnsBy (N + 1) (fun n => parseRelLoop n node) s res s2 := by
  intro n hn
  obtain ⟨m, rfl, hm⟩ := exists_succ_of_le hn
  have hc : ((look s 0).lexeme == "<" || (look s 0).lexeme == ">" || (look s 0).lexeme == "<=" || (look s 0).lexeme == ">=") = true := by
    simp only [relOps, List.mem_cons, List.mem_singleton, List.not_mem_nil, or_false] at hl
    rcases hl with h1 | h1 | h1 | h1 <;> simp [h1]
  simp only [parseRelLoop, P.bind_eq, P.bind, checkLexeme_look _ _ s (tokens_ne_nil h), hc, if_true,
    advance_look s h, hr m hm, P.pure_eq, P.ret, Node.push_back, List.nil_append,
    List.cons_append]
  exact hk m hm

theorem parseRelExpr_of {N : Nat} {s s1 s2 : Parser} {a res : Node}
    (ho : ReturnsBy N parseAddExpr s a s1)
    (hk : ReturnsBy N (fun n => parseRelLoop n a) s1 res s2) :
    ReturnsBy (N + 1) parseRelExpr s res s2 := by
  intro n hn
  obtain ⟨m, rfl, hm⟩ := exists_succ_of_le hn
  simp only [parseRelExpr]
  rw [P.bind_ok (ho m hm)]
  exact hk m hm

theorem parseEqualityLoop_stop (s : Parser) (node : Node) (h : s.tokens ≠ [])
    (hl : (look s 0).lexeme ∉ eqOps) :
    ReturnsBy 1 (fun n => parseEqualityLoop n node) s node s := by
  intro n hn
  obtain ⟨m, rfl, -⟩ := exists_succ_of_le hn
  simp only [eqOps, List.mem_cons, List.mem_singleton, List.not_mem_nil, or_false,
    not_or] at hl
  have h1 := hl
  simp [parseEqualityLoop, P.bind_eq, P.bind, matchLexeme_ne _ s h h1, P.pure_eq, P.ret]

theorem parseEqualityLoop_step {N : Nat} (s : Parser) (node : Node) {s1 s2 : Parser} {r res : Node}
    (h : s.pos < s.tokens.length) (hl : (look s 0).lexeme ∈ eqOps)
    (hr : ReturnsBy N parseRelExpr (skip s 1) r s1)
    (hk : ReturnsBy N (fun n => parseEqualityLoop n
      (Node.mk "EqExpr" [node, Node.mk (look s 0).lexeme [], r])) s1 res s2) :
    ReturnsBy (N + 1) (fun n => parseEqualityLoop n node) s res s2 := by
  intro n hn
  obtain ⟨m, rfl, hm⟩ := exists_succ_of_le hn
  simp only [eqOps, List.mem_singleton] at hl
  rw [hl] at hk
  simp only [parseEqualityLoop, P.bind_eq, P.bind, matchLexeme_eq _ s h hl, if_true, hr m hm, P.pure_eq,
    P.ret, Node.push_back, List.nil_append, List.cons_append]
  exact hk m hm

theorem parseEqualityExpr_of {N : Nat} {s s1 s2 : Parser} {a res : Node}
    (ho : ReturnsBy N parseRelExpr s a s1)
    (hk : ReturnsBy N (fun n => parseEqualityLoop n a) s1 res s2) :
    ReturnsBy (N + 1) parseEqualityExpr s res s2 := by
  intro n hn
  obtain ⟨m, rfl, hm⟩ := exists_succ_of_le hn
  simp only [parseEqualityExpr]
  rw [P.bind_ok (ho m hm)]
  exact hk m hm

theorem parseAndLoop_stop (s : Parser) (node : Node) (h : s.tokens ≠ [])
    (hl : (look s 0).lexeme ∉ andOps) :
    ReturnsBy 1 (fun n => parseAndLoop n node) s node s := by
  intro n hn
  obtain ⟨m, rfl, -⟩ := exists_succ_of_le hn
  simp only [andOps, List.mem_cons, List.mem_singleton, List.not_mem_nil, or_false,
    not_or] at hl
  have h1 := hl
  simp [parseAndLoop, P.bind_eq, P.bind, matchLexeme_ne _ s h h1, P.pure_eq, P.ret]

theorem parseAndLoop_step {N : Nat} (s : Parser) (node : Node) {s1 s2 : Parser} {r res : Node}
    (h : s.pos < s.tokens.length) (hl : (look s 0).lexeme ∈ andOps)
    (hr : ReturnsBy N parseEqualityExpr (skip s 1) r s1)
    (hk : ReturnsBy N (fun n => parseAndLoop n
      (Node.mk "AndExpr" [node, Node.mk (look s 0).lexeme [], r])) s1 res s2) :
    ReturnsBy (N + 1) (fun n => parseAndLoop n node) s res s2 := by
  intro n hn
  obtain ⟨m, rfl, hm⟩ := exists_succ_of_le hn
  simp only [andOps, List.mem_singleton] at hl
  rw [hl] at hk
  simp only [parseAndLoop, P.bind_eq, P.bind, matchLexeme_eq _ s h hl, if_true, hr m hm, P.pure_eq,
    P.ret, Node.push_back, List.nil_append, List.cons_append]
  exact hk m hm

theorem parseAndExpr_of {N : Nat} {s s1 s2 : Parser} {a res : Node}
    (ho : ReturnsBy N parseEqualityExpr s a s1)
    (hk : ReturnsBy N (fun n => parseAndLoop n a) s1 res s2) :
    ReturnsBy (N + 1) parseAndExpr s res s2 := by
  intro n hn
  obtain ⟨m, rfl, hm⟩ := exists_succ_of_le hn
  simp only [parseAndExpr]
  rw [P.bind_ok (ho m hm)]
  exact hk m hm

theorem parseOrLoop_stop (s : Parser) (node : Node) (h : s.tokens ≠ [])
    (hl : (look s 0).lexeme ∉ orOps) :
    ReturnsBy 1 (fun n => parseOrLoop n node) s node s := by
  intro n hn
  obtain ⟨m, rfl, -⟩ := exists_succ_of_le hn
  simp only [orOps, List.mem_cons, List.mem_singleton, List.not_mem_nil, or_false,
    not_or] at hl
  have h1 := hl
  simp [parseOrLoop, P.bind_eq, P.bind, matchLexeme_ne _ s h h1, P.pure_eq, P.ret]

theorem parseOrLoop_step {N : Nat} (s : Parser) (node : Node) {s1 s2 : Parser} {r res : Node}
    (h : s.pos < s.tokens.length) (hl : (look s 0).lexeme ∈ orOps)
    (hr : ReturnsBy N parseAndExpr (skip s 1) r s1)
    (hk : ReturnsBy N (fun n => parseOrLoop n
      (Node.mk "OrExpr" [node, Node.mk (look s 0).lexeme [], r])) s1 res s2) :
    ReturnsBy (N + 1) (fun n => parseOrLoop n node) s res s2 := by
  intro n hn
  obtain ⟨m, rfl, hm⟩ := exists_succ_of_le hn
  simp only [orOps, List.mem_singleton] at hl
  rw [hl] at hk
  simp only [parseOrLoop, P.bind_eq, P.bind, matchLexeme_eq _ s h hl, if_true, hr m hm, P.pure_eq,
    P.ret, Node.push_back, List.nil_append, List.cons_append]
  exact hk m hm

theorem parseOrExpr_of {N : Nat} {s s1 s2 : Parser} {a res : Node}
    (ho : ReturnsBy N parseAndExpr s a s1)
    (hk : ReturnsBy N (fun n => parseOrLoop n a) s1 res s2) :
    ReturnsBy (N + 1) parseOrExpr s res s2 := by
  intro n hn
  obtain ⟨m, rfl, hm⟩ := exists_succ_of_le hn
  simp only [parseOrExpr]
  rw [P.bind_ok (ho m hm)]
  exact hk m hm

theorem parseAddLoop_stop (s : Parser) (node : Node) (h : s.tokens ≠ [])
    (hminus : (look s 0).lexeme ≠ "-")
    (hplus : (look s 0).lexeme = "+" → (look s 1).lexeme = "=") :
    ReturnsBy 1 (fun n => parseAddLoop n node) s node s := by
  intro n hn
  obtain ⟨m, rfl, -⟩ := exists_succ_of_le hn
  have hc : (((look s 0).lexeme == "+" && !((look s 1).lexeme == "="))
      || (look s 0).lexeme == "-") = false := by
    by_cases hp : (look s 0).lexeme = "+"
    · simp [hp, hplus hp]
    · simp [hp, hminus]
  simp only [parseAddLoop, P.bind_eq, P.bind, checkLexeme_look _ _ s h, hc, Bool.false_eq_true,
    if_false, P.pure_eq, P.ret]

theorem parseAddLoop_step {N : Nat} (s : Parser) (node : Node) {s1 s2 : Parser} {r res : Node}
    (h : s.pos < s.tokens.length) (hl : (look s 0).lexeme ∈ addOps)
    (hplus : (look s 0).lexeme = "+" → (look s 1).lexeme ≠ "=")
    (hr : ReturnsBy N parseMulExpr (skip s 1) r s1)
    (hk : ReturnsBy N (fun n => parseAddLoop n
      (Node.mk "AddExpr" [node, Node.mk (look s 0).lexeme [], r])) s1 res s2) :
    ReturnsBy (N + 1) (fun n => parseAddLoop n node) s res s2 := by
  intro n hn
  obtain ⟨m, rfl, hm⟩ := exists_succ_of_le hn
  have hc : (((look s 0).lexeme == "+" && !((look s 1).lexeme == "="))
      || (look s 0).lexeme == "-") = true := by
    simp only [addOps, List.mem_cons, List.mem_singleton, List.not_mem_nil, or_false] at hl
    rcases hl with h1 | h1
    · simp [h1, hplus h1]
    · simp [h1]
  simp only [parseAddLoop, P.bind_eq, P.bind, checkLexeme_look _ _ s (tokens_ne_nil h), hc,
    if_true, advance_look s h, hr m hm, P.pure_eq, P.ret, Node.push_back, List.nil_append,
    List.cons_append]
  exact hk m hm

theorem parseAddExpr_of {N : Nat} {s s1 s2 : Parser} {a res : Node}
    (ho : ReturnsBy N parseMulExpr s a s1)
    (hk : ReturnsBy N (fun n => parseAddLoop n a) s1 res s2) :
    ReturnsBy (N + 1) parseAddExpr s res s2 := by
  intro n hn
  obtain ⟨m, rfl, hm⟩ := exists_succ_of_le hn
  simp only [parseAddExpr]
  rw [P.bind_ok (ho m hm)]
  exact hk m hm

theorem skip_skip (s : Parser) (a b : Nat) : skip (skip s a) b = skip s (a + b) := by
  simp [skip, Nat.add_assoc]

theorem skip_zero (s : Parser) : skip s 0 = s := rfl

theorem skip_tokens (s : Parser) (k : Nat) : (skip s k).tokens = s.tokens := rfl

theorem skip_pos (s : Parser) (k : Nat) : (skip s k).pos = s.pos + k := rfl

theorem parseExpr_of {N : Nat} {s s1 : Parser} {a : Node}
    (h : ReturnsBy N parseAssignExpr s a s1) : ReturnsBy (N + 1) parseExpr s a s1 := by
  intro n hn
  obtain ⟨m, rfl, hm⟩ := exists_succ_of_le hn
  simp only [parseExpr]
  exact h m hm

theorem parseAssignExpr_plain {N : Nat} {s s1 : Parser} {a : Node}
    (ho : ReturnsBy N parseOrExpr s a s1) (h : s1.tokens ≠ [])
    (heq : (look s1 0).lexeme ≠ "=")
    (hplus : (look s1 0).lexeme = "+" → (look s1 1).lexeme ≠ "=") :
    ReturnsBy (N + 1) parseAssignExpr s a s1 := by
  intro n hn
  obtain ⟨m, rfl, hm⟩ := exists_succ_of_le hn
  have hc : ((look s1 0).lexeme == "=" || ((look s1 0).lexeme == "+"
      && (look s1 1).lexeme == "=")) = false := by
    by_cases hp : (look s1 0).lexeme = "+"
    · simp [hp, hplus hp]
    · simp [hp, heq]
  simp only [parseAssignExpr, P.bind_eq, P.bind, ho m hm, checkLexeme_look _ _ s1 h, hc,
    Bool.false_eq_true, if_false, P.pure_eq, P.ret]

theorem parseAssignExpr_assign {N : Nat} {s s1 s2 : Parser} {a r : Node}
    (ho : ReturnsBy N parseOrExpr s a s1) (h : s1.pos < s1.tokens.length)
    (heq : (look s1 0).lexeme = "=")
    (hr : ReturnsBy N parseAssignExpr (skip s1 1) r s2) :
    ReturnsBy (N + 1) parseAssignExpr s
      (Node.mk "AssignExpr" [a, Node.mk "=" [], r]) s2 := by
  intro n hn
  obtain ⟨m, rfl, hm⟩ := exists_succ_of_le hn
  simp [parseAssignExpr, P.bind_eq, P.bind, ho m hm, checkLexeme_look _ _ s1 (tokens_ne_nil h),
    heq, advance_look s1 h, hr m hm, P.pure_eq, P.ret, Node.push_back]

theorem parseAssignExpr_plusAssign {N : Nat} {s s1 s2 : Parser} {a r : Node}
    (ho : ReturnsBy N parseOrExpr s a s1) (h : s1.pos + 1 < s1.tokens.length)
    (hp : (look s1 0).lexeme = "+") (heq : (look s1 1).lexeme = "=")
    (hr : ReturnsBy N parseAssignExpr (skip s1 2) r s2) :
    ReturnsBy (N + 1) parseAssignExpr s
      (Node.mk "AssignExpr" [a, Node.mk "+=" [], r]) s2 := by
  intro n hn
  obtain ⟨m, rfl, hm⟩ := exists_succ_of_le hn
  have h0 : s1.pos < s1.tokens.length := by omega
  have h1 : (skip s1 1).pos < (skip s1 1).tokens.length := by
    simp only [skip_pos, skip_tokens]; exact h
  simp [parseAssignExpr, P.bind_eq, P.bind, ho m hm, checkLexeme_look _ _ s1 (tokens_ne_nil h0),
    hp, heq, advance_look s1 h0, advance_look _ h1, skip_skip, hr m hm, P.pure_eq, P.ret,
    Node.push_back]

theorem ReturnsBy.one_le {α : Type} {N : Nat} {f : Nat → P α} {s s1 : Parser} {a : α}
    (h : ReturnsBy N f s a s1) (h0 : f 0 s = Res.timeout) : 1 ≤ N := by
  by_contra hN
  have hz : N = 0 := by omega
  subst hz
  have := h 0 (le_refl 0)
  rw [h0] at this
  exact Res.noConfusion this

theorem parseMulExpr_pass {N : Nat} {s s1 : Parser} {a : Node}
    (ho : ReturnsBy N parseUnaryExpr s a s1) (h : s1.tokens ≠ [])
    (hl : (look s1 0).lexeme ∉ mulOps) : ReturnsBy (N + 1) parseMulExpr s a s1 :=
  parseMulExpr_of ho ((parseMulLoop_stop s1 a h hl).mono (ho.one_le rfl))

theorem parseAddExpr_pass {N : Nat} {s s1 : Parser} {a : Node}
    (ho : ReturnsBy N parseMulExpr s a s1) (h : s1.tokens ≠ [])
    (hminus : (look s1 0).lexeme ≠ "-")
    (hplus : (look s1 0).lexeme = "+" → (look s1 1).lexeme = "=") :
    ReturnsBy (N + 1) parseAddExpr s a s1 :=
  parseAddExpr_of ho ((parseAddLoop_stop s1 a h hminus hplus).mono (ho.one_le rfl))

theorem parseRelExpr_pass {N : Nat} {s s1 : Parser} {a : Node}
    (ho : ReturnsBy N parseAddExpr s a s1) (h : s1.tokens ≠ [])
    (hl : (look s1 0).lexeme ∉ relOps) : ReturnsBy (N + 1) parseRelExpr s a s1 :=
  parseRelExpr_of ho ((parseRelLoop_stop s1 a h hl).mono (ho.one_le rfl))

theorem parseEqualityExpr_pass {N : Nat} {s s1 : Parser} {a : Node}
    (ho : ReturnsBy N parseRelExpr s a s1) (h : s1.tokens ≠ [])
    (hl : (look s1 0).lexeme ∉ eqOps) : ReturnsBy (N + 1) parseEqualityExpr s a s1 :=
  parseEqualityExpr_of ho ((parseEqualityLoop_stop s1 a h hl).mono (ho.one_le rfl))

theorem parseAndExpr_pass {N : Nat} {s s1 : Parser} {a : Node}
    (ho : ReturnsBy N parseEqualityExpr s a s1) (h : s1.tokens ≠ [])
    (hl : (look s1 0).lexeme ∉ andOps) : ReturnsBy (N + 1) parseAndExpr s a s1 :=
  parseAndExpr_of ho ((parseAndLoop_stop s1 a h hl).mono (ho.one_le rfl))

theorem parseOrExpr_pass {N : Nat} {s s1 : Parser} {a : Node}
    (ho : ReturnsBy N parseAndExpr s a s1) (h : s1.tokens ≠ [])
    (hl : (look s1 0).lexeme ∉ orOps) : ReturnsBy (N + 1) parseOrExpr s a s1 :=
  parseOrExpr_of ho ((parseOrLoop_stop s1 a h hl).mono (ho.one_le rfl))

/-- An identifier followed by a token that starts no postfix operator is a complete unary
expression. -/
theorem parseUnaryExpr_ident (s : Parser) (h : s.pos < s.tokens.length)
    (hid : isIdentifier (look s 0) = true)
    (hpost : (look (skip s 1) 0).lexeme ∉ postfixOps) :
    ReturnsBy 3 parseUnaryExpr s (idNode (look s 0)) (skip s 1) := by
  have hne := tokens_ne_nil h
  have hu : (look s 0).lexeme ∉ unaryOps := by
    have h1 := isIdentifier_ne hid "+" (by decide)
    have h2 := isIdentifier_ne hid "-" (by decide)
    have h3 := isIdentifier_ne hid "!" (by decide)
    simp [unaryOps, h1, h2, h3]
  exact parseUnaryExpr_of hne hu
    (parsePostfixExpr_of (parsePrimary_ident s h hid) (parsePostfixLoop_stop _ _ hne hpost))

theorem skip_ne_nil {s : Parser} (h : s.pos < s.tokens.length) (k : Nat) :
    (skip s k).tokens ≠ [] :=
  @tokens_ne_nil s h

theorem addStops_of_not_mem {s : Parser} (h : (look s 0).lexeme ∉ addOps) : addStops s := by
  simp only [addOps, List.mem_cons, List.mem_singleton, List.not_mem_nil, or_false,
    not_or] at h
  exact ⟨h.2, fun hp => absurd hp h.1⟩

theorem parseMulExpr_ident (s : Parser) (h : s.pos < s.tokens.length)
    (hid : isIdentifier (look s 0) = true)
    (hpm : (look (skip s 1) 0).lexeme ∉ postfixOps ++ mulOps) :
    ReturnsBy 4 parseMulExpr s (idNode (look s 0)) (skip s 1) := by
  simp only [List.mem_append, not_or] at hpm
  exact parseMulExpr_pass (parseUnaryExpr_ident s h hid hpm.1) (skip_ne_nil h 1) hpm.2

theorem parseAddExpr_ident (s : Parser) (h : s.pos < s.tokens.length)
    (hid : isIdentifier (look s 0) = true)
    (hpm : (look (skip s 1) 0).lexeme ∉ postfixOps ++ mulOps) (hadd : addStops (skip s 1)) :
    ReturnsBy 5 parseAddExpr s (idNode (look s 0)) (skip s 1) :=
  parseAddExpr_pass (parseMulExpr_ident s h hid hpm) (skip_ne_nil h 1) hadd.1 hadd.2

theorem parseRelExpr_ident (s : Parser) (h : s.pos < s.tokens.length)
    (hid : isIdentifier (look s 0) = true)
    (hpm : (look (skip s 1) 0).lexeme ∉ postfixOps ++ mulOps) (hadd : addStops (skip s 1))
    (hl : (look (skip s 1) 0).lexeme ∉ relOps) :
    ReturnsBy 6 parseRelExpr s (idNode (look s 0)) (skip s 1) :=
  parseRelExpr_pass (parseAddExpr_ident s h hid hpm hadd) (skip_ne_nil h 1) hl

theorem parseEqualityExpr_ident (s : Parser) (h : s.pos < s.tokens.length)
    (hid : isIdentifier (look s 0) = true)
    (hpm : (look (skip s 1) 0).lexeme ∉ postfixOps ++ mulOps) (hadd : addStops (skip s 1))
    (hl : (look (skip s 1) 0).lexeme ∉ relOps ++ eqOps) :
    ReturnsBy 7 parseEqualityExpr s (idNode (look s 0)) (skip s 1) := by
  simp only [List.mem_append, not_or] at hl
  exact parseEqualityExpr_pass (parseRelExpr_ident s h hid hpm hadd hl.1) (skip_ne_nil h 1) hl.2

theorem parseAndExpr_ident (s : Parser) (h : s.pos < s.tokens.length)
    (hid : isIdentifier (look s 0) = true)
    (hpm : (look (skip s 1) 0).lexeme ∉ postfixOps ++ mulOps) (hadd : addStops (skip s 1))
    (hl : (look (skip s 1) 0).lexeme ∉ relOps ++ eqOps ++ andOps) :
    ReturnsBy 8 parseAndExpr s (idNode (look s 0)) (skip s 1) := by
  rw [List.mem_append, not_or] at hl
  exact parseAndExpr_pass (parseEqualityExpr_ident s h hid hpm hadd hl.1) (skip_ne_nil h 1) hl.2

theorem parseOrExpr_ident (s : Parser) (h : s.pos < s.tokens.length)
    (hid : isIdentifier (look s 0) = true)
    (hpm : (look (skip s 1) 0).lexeme ∉ postfixOps ++ mulOps) (hadd : addStops (skip s 1))
    (hl : (look (skip s 1) 0).lexeme ∉ relOps ++ eqOps ++ andOps ++ orOps) :
    ReturnsBy 9 parseOrExpr s (idNode (look s 0)) (skip s 1) := by
  rw [List.mem_append, not_or] at hl
  exact parseOrExpr_pass (parseAndExpr_ident s h hid hpm hadd hl.1) (skip_ne_nil h 1) hl.2

/-! ### From a level up to `parseExpr`, when no looser operator follows -/

theorem parseExpr_of_or {N : Nat} {s s1 : Parser} {a : Node}
    (ho : ReturnsBy N parseOrExpr s a s1) (h : s1.tokens ≠ [])
    (hl : (look s1 0).lexeme ∉ continuingOps) : ReturnsBy (N + 2) parseExpr s a s1 := by
  have h1 : (look s1 0).lexeme ≠ "=" := fun e => hl (by rw [e]; decide)
  have h2 : (look s1 0).lexeme ≠ "+" := fun e => hl (by rw [e]; decide)
  exact parseExpr_of (parseAssignExpr_plain ho h h1 (fun e => absurd e h2))

theorem parseExpr_of_and {N : Nat} {s s1 : Parser} {a : Node}
    (ho : ReturnsBy N parseAndExpr s a s1) (h : s1.tokens ≠ [])
    (hl : (look s1 0).lexeme ∉ continuingOps) : ReturnsBy (N + 3) parseExpr s a s1 :=
  parseExpr_of_or (parseOrExpr_pass ho h (fun e => hl (by
    simp only [orOps, List.mem_singleton] at e; rw [e]; decide))) h hl

theorem parseExpr_of_equality {N : Nat} {s s1 : Parser} {a : Node}
    (ho : ReturnsBy N parseEqualityExpr s a s1) (h : s1.tokens ≠ [])
    (hl : (look s1 0).lexeme ∉ continuingOps) : ReturnsBy (N + 4) parseExpr s a s1 :=
  parseExpr_of_and (parseAndExpr_pass ho h (fun e => hl (by
    simp only [andOps, List.mem_singleton] at e; rw [e]; decide))) h hl

theorem parseExpr_of_rel {N : Nat} {s s1 : Parser} {a : Node}
    (ho : ReturnsBy N parseRelExpr s a s1) (h : s1.tokens ≠ [])
    (hl : (look s1 0).lexeme ∉ continuingOps) : ReturnsBy (N + 5) parseExpr s a s1 :=
  parseExpr_of_equality (parseEqualityExpr_pass ho h (fun e => hl (by
    simp only [eqOps, List.mem_singleton] at e; rw [e]; decide))) h hl

theorem mem_continuingOps_of_mem {x : String} {ops : List String}
    (hsub : ∀ y ∈ ops, y ∈ continuingOps) (e : x ∈ ops) : x ∈ continuingOps := hsub x e

theorem parseExpr_of_add {N : Nat} {s s1 : Parser} {a : Node}
    (ho : ReturnsBy N parseAddExpr s a s1) (h : s1.tokens ≠ [])
    (hl : (look s1 0).lexeme ∉ continuingOps) : ReturnsBy (N + 6) parseExpr s a s1 :=
  parseExpr_of_rel (parseRelExpr_pass ho h
    (fun e => hl (mem_continuingOps_of_mem (by decide) e))) h hl

theorem parseExpr_of_mul {N : Nat} {s s1 : Parser} {a : Node}
    (ho : ReturnsBy N parseMulExpr s a s1) (h : s1.tokens ≠ [])
    (hl : (look s1 0).lexeme ∉ continuingOps) : ReturnsBy (N + 7) parseExpr s a s1 :=
  parseExpr_of_add (parseAddExpr_pass ho h
    (fun e => hl (by rw [e]; decide))
    (fun e => absurd (show (look s1 0).lexeme ∈ continuingOps by rw [e]; decide) hl)) h hl

/-! ### Three identifiers joined by two operators of one level -/

theorem mul_left_fold (a b c o1 o2 : Token) (ha : isIdentifier a = true)
    (hb : isIdentifier b = true) (hc : isIdentifier c = true)
    (h1 : o1.lexeme ∈ mulOps) (h2 : o2.lexeme ∈ mulOps) :
    ReturnsBy 13 parseExpr ⟨[a, o1, b, eofToken], 0⟩
      (Node.mk "MulExpr" [idNode a, Node.mk o1.lexeme [], idNode b])
      ⟨[a, o1, b, eofToken], 3⟩ ∧
    ReturnsBy 13 parseExpr ⟨[a, o1, b, o2, c, eofToken], 0⟩
      (Node.mk "MulExpr" [Node.mk "MulExpr" [idNode a, Node.mk o1.lexeme [], idNode b],
        Node.mk o2.lexeme [], idNode c])
      ⟨[a, o1, b, o2, c, eofToken], 5⟩ := by
  have q1 : ∀ x ∈ "EOF" :: mulOps, x ∉ postfixOps := by decide
  have e2 : eofToken.lexeme ∉ mulOps := by decide
  have e3 : eofToken.lexeme ∉ continuingOps := by decide
  constructor
  · have A := parseUnaryExpr_ident ⟨[a, o1, b, eofToken], 0⟩ (by simp) ha (q1 _ (List.mem_cons_of_mem _ h1))
    have B := parseUnaryExpr_ident ⟨[a, o1, b, eofToken], 2⟩ (by simp) hb (q1 _ (List.mem_cons_self _ _))
    have S := parseMulLoop_stop ⟨[a, o1, b, eofToken], 3⟩
      (Node.mk "MulExpr" [idNode a, Node.mk o1.lexeme [], idNode b]) (by simp) e2
    have L1 := parseMulLoop_step ⟨[a, o1, b, eofToken], 1⟩ (idNode a) (by simp) h1 B
      (S.mono (by decide))
    have M := parseMulExpr_of (A.mono (by decide)) L1
    exact (parseExpr_of_mul M (by simp) e3).mono (by decide)
  · have A := parseUnaryExpr_ident ⟨[a, o1, b, o2, c, eofToken], 0⟩ (by simp) ha (q1 _ (List.mem_cons_of_mem _ h1))
    have B := parseUnaryExpr_ident ⟨[a, o1, b, o2, c, eofToken], 2⟩ (by simp) hb (q1 _ (List.mem_cons_of_mem _ h2))
    have C := parseUnaryExpr_ident ⟨[a, o1, b, o2, c, eofToken], 4⟩ (by simp) hc (q1 _ (List.mem_cons_self _ _))
    have S := parseMulLoop_stop ⟨[a, o1, b, o2, c, eofToken], 5⟩
      (Node.mk "MulExpr" [Node.mk "MulExpr" [idNode a, Node.mk o1.lexeme [], idNode b],
        Node.mk o2.lexeme [], idNode c]) (by simp) e2
    have L2 := parseMulLoop_step ⟨[a, o1, b, o2, c, eofToken], 3⟩
      (Node.mk "MulExpr" [idNode a, Node.mk o1.lexeme [], idNode b])
      (by simp) h2 C (S.mono (by decide))
    have L1 := parseMulLoop_step ⟨[a, o1, b, o2, c, eofToken], 1⟩ (idNode a) (by simp) h1
      (B.mono (by decide)) L2
    have M := parseMulExpr_of (A.mono (by decide)) L1
    exact (parseExpr_of_mul M (by simp) e3).mono (by decide)

theorem add_left_fold (a b c o1 o2 : Token) (ha : isIdentifier a = true)
    (hb : isIdentifier b = true) (hc : isIdentifier c = true)
    (h1 : o1.lexeme ∈ addOps) (h2 : o2.lexeme ∈ addOps) :
    ReturnsBy 13 parseExpr ⟨[a, o1, b, eofToken], 0⟩
      (Node.mk "AddExpr" [idNode a, Node.mk o1.lexeme [], idNode b])
      ⟨[a, o1, b, eofToken], 3⟩ ∧
    ReturnsBy 13 parseExpr ⟨[a, o1, b, o2, c, eofToken], 0⟩
      (Node.mk "AddExpr" [Node.mk "AddExpr" [idNode a, Node.mk o1.lexeme [], idNode b],
        Node.mk o2.lexeme [], idNode c])
      ⟨[a, o1, b, o2, c, eofToken], 5⟩ := by
  have q1 : ∀ x ∈ "EOF" :: addOps, x ∉ postfixOps ++ mulOps := by decide
  have e2 : eofToken.lexeme ∉ addOps := by decide
  have e3 : eofToken.lexeme ∉ continuingOps := by decide
  constructor
  · have A := parseMulExpr_ident ⟨[a, o1, b, eofToken], 0⟩ (by simp) ha (q1 _ (List.mem_cons_of_mem _ h1))
    have B := parseMulExpr_ident ⟨[a, o1, b, eofToken], 2⟩ (by simp) hb (q1 _ (List.mem_cons_self _ _))
    have S := parseAddLoop_stop ⟨[a, o1, b, eofToken], 3⟩
      (Node.mk "AddExpr" [idNode a, Node.mk o1.lexeme [], idNode b]) (by simp)
      (@addStops_of_not_mem ⟨[a, o1, b, eofToken], 3⟩ e2).1
      (@addStops_of_not_mem ⟨[a, o1, b, eofToken], 3⟩ e2).2
    have L1 := parseAddLoop_step ⟨[a, o1, b, eofToken], 1⟩ (idNode a) (by simp) h1 (fun _ => isIdentifier_ne hb "=" (by decide)) B
      (S.mono (by decide))
    have M := parseAddExpr_of (A.mono (by decide)) L1
    exact (parseExpr_of_add M (by simp) e3).mono (by decide)
  · have A := parseMulExpr_ident ⟨[a, o1, b, o2, c, eofToken], 0⟩ (by simp) ha (q1 _ (List.mem_cons_of_mem _ h1))
    have B := parseMulExpr_ident ⟨[a, o1, b, o2, c, eofToken], 2⟩ (by simp) hb (q1 _ (List.mem_cons_of_mem _ h2))
    have C := parseMulExpr_ident ⟨[a, o1, b, o2, c, eofToken], 4⟩ (by simp) hc (q1 _ (List.mem_cons_self _ _))
    have S := parseAddLoop_stop ⟨[a, o1, b, o2, c, eofToken], 5⟩
      (Node.mk "AddExpr" [Node.mk "AddExpr" [idNode a, Node.mk o1.lexeme [], idNode b],
        Node.mk o2.lexeme [], idNode c]) (by simp)
      (@addStops_of_not_mem ⟨[a, o1, b, o2, c, eofToken], 5⟩ e2).1
      (@addStops_of_not_mem ⟨[a, o1, b, o2, c, eofToken], 5⟩ e2).2
    have L2 := parseAddLoop_step ⟨[a, o1, b, o2, c, eofToken], 3⟩
      (Node.mk "AddExpr" [idNode a, Node.mk o1.lexeme [], idNode b])
      (by simp) h2 (fun _ => isIdentifier_ne hc "=" (by decide)) C (S.mono (by decide))
    have L1 := parseAddLoop_step ⟨[a, o1, b, o2, c, eofToken], 1⟩ (idNode a) (by simp) h1 (fun _ => isIdentifier_ne hb "=" (by decide))
      (B.mono (by decide)) L2
    have M := parseAddExpr_of (A.mono (by decide)) L1
    exact (parseExpr_of_add M (by simp) e3).mono (by decide)

theorem rel_left_fold (a b c o1 o2 : Token) (ha : isIdentifier a = true)
    (hb : isIdentifier b = true) (hc : isIdentifier c = true)
    (h1 : o1.lexeme ∈ relOps) (h2 : o2.lexeme ∈ relOps) :
    ReturnsBy 13 parseExpr ⟨[a, o1, b, eofToken], 0⟩
      (Node.mk "RelExpr" [idNode a, Node.mk o1.lexeme [], idNode b])
      ⟨[a, o1, b, eofToken], 3⟩ ∧
    ReturnsBy 13 parseExpr ⟨[a, o1, b, o2, c, eofToken], 0⟩
      (Node.mk "RelExpr" [Node.mk "RelExpr" [idNode a, Node.mk o1.lexeme [], idNode b],
        Node.mk o2.lexeme [], idNode c])
      ⟨[a, o1, b, o2, c, eofToken], 5⟩ := by
  have q1 : ∀ x ∈ "EOF" :: relOps, x ∉ postfixOps ++ mulOps := by decide
  have q2 : ∀ x ∈ "EOF" :: relOps, x ∉ addOps := by decide
  have e2 : eofToken.lexeme ∉ relOps := by decide
  have e3 : eofToken.lexeme ∉ continuingOps := by decide
  constructor
  · have A := parseAddExpr_ident ⟨[a, o1, b, eofToken], 0⟩ (by simp) ha (q1 _ (List.mem_cons_of_mem _ h1)) (addStops_of_not_mem (q2 _ (List.mem_cons_of_mem _ h1)))
    have B := parseAddExpr_ident ⟨[a, o1, b, eofToken], 2⟩ (by simp) hb (q1 _ (List.mem_cons_self _ _)) (addStops_of_not_mem (q2 _ (List.mem_cons_self _ _)))
    have S := parseRelLoop_stop ⟨[a, o1, b, eofToken], 3⟩
      (Node.mk "RelExpr" [idNode a, Node.mk o1.lexeme [], idNode b]) (by simp) e2
    have L1 := parseRelLoop_step ⟨[a, o1, b, eofToken], 1⟩ (idNode a) (by simp) h1 B
      (S.mono (by decide))
    have M := parseRelExpr_of (A.mono (by decide)) L1
    exact (parseExpr_of_rel M (by simp) e3).mono (by decide)
  · have A := parseAddExpr_ident ⟨[a, o1, b, o2, c, eofToken], 0⟩ (by simp) ha (q1 _ (List.mem_cons_of_mem _ h1)) (addStops_of_not_mem (q2 _ (List.mem_cons_of_mem _ h1)))
    have B := parseAddExpr_ident ⟨[a, o1, b, o2, c, eofToken], 2⟩ (by simp) hb (q1 _ (List.mem_cons_of_mem _ h2)) (addStops_of_not_mem (q2 _ (List.mem_cons_of_mem _ h2)))
    have C := parseAddExpr_ident ⟨[a, o1, b, o2, c, eofToken], 4⟩ (by simp) hc (q1 _ (List.mem_cons_self _ _)) (addStops_of_not_mem (q2 _ (List.mem_cons_self _ _)))
    have S := parseRelLoop_stop ⟨[a, o1, b, o2, c, eofToken], 5⟩
      (Node.mk "RelExpr" [Node.mk "RelExpr" [idNode a, Node.mk o1.lexeme [], idNode b],
        Node.mk o2.lexeme [], idNode c]) (by simp) e2
    have L2 := parseRelLoop_step ⟨[a, o1, b, o2, c, eofToken], 3⟩
      (Node.mk "RelExpr" [idNode a, Node.mk o1.lexeme [], idNode b])
      (by simp) h2 C (S.mono (by decide))
    have L1 := parseRelLoop_step ⟨[a, o1, b, o2, c, eofToken], 1⟩ (idNode a) (by simp) h1
      (B.mono (by decide)) L2
    have M := parseRelExpr_of (A.mono (by decide)) L1
    exact (parseExpr_of_rel M (by simp) e3).mono (by decide)

theorem equality_left_fold (a b c o1 o2 : Token) (ha : isIdentifier a = true)
    (hb : isIdentifier b = true) (hc : isIdentifier c = true)
    (h1 : o1.lexeme ∈ eqOps) (h2 : o2.lexeme ∈ eqOps) :
    ReturnsBy 13 parseExpr ⟨[a, o1, b, eofToken], 0⟩
      (Node.mk "EqExpr" [idNode a, Node.mk o1.lexeme [], idNode b])
      ⟨[a, o1, b, eofToken], 3⟩ ∧
    ReturnsBy 13 parseExpr ⟨[a, o1, b, o2, c, eofToken], 0⟩
      (Node.mk "EqExpr" [Node.mk "EqExpr" [idNode a, Node.mk o1.lexeme [], idNode b],
        Node.mk o2.lexeme [], idNode c])
      ⟨[a, o1, b, o2, c, eofToken], 5⟩ := by
  have q1 : ∀ x ∈ "EOF" :: eqOps, x ∉ postfixOps ++ mulOps := by decide
  have q2 : ∀ x ∈ "EOF" :: eqOps, x ∉ addOps := by decide
  have q3 : ∀ x ∈ "EOF" :: eqOps, x ∉ relOps := by decide
  have e2 : eofToken.lexeme ∉ eqOps := by decide
  have e3 : eofToken.lexeme ∉ continuingOps := by decide
  constructor
  · have A := parseRelExpr_ident ⟨[a, o1, b, eofToken], 0⟩ (by simp) ha (q1 _ (List.mem_cons_of_mem _ h1)) (addStops_of_not_mem (q2 _ (List.mem_cons_of_mem _ h1))) (q3 _ (List.mem_cons_of_mem _ h1))
    have B := parseRelExpr_ident ⟨[a, o1, b, eofToken], 2⟩ (by simp) hb (q1 _ (List.mem_cons_self _ _)) (addStops_of_not_mem (q2 _ (List.mem_cons_self _ _))) (q3 _ (List.mem_cons_self _ _))
    have S := parseEqualityLoop_stop ⟨[a, o1, b, eofToken], 3⟩
      (Node.mk "EqExpr" [idNode a, Node.mk o1.lexeme [], idNode b]) (by simp) e2
    have L1 := parseEqualityLoop_step ⟨[a, o1, b, eofToken], 1⟩ (idNode a) (by simp) h1 B
      (S.mono (by decide))
    have M := parseEqualityExpr_of (A.mono (by decide)) L1
    exact (parseExpr_of_equality M (by simp) e3).mono (by decide)
  · have A := parseRelExpr_ident ⟨[a, o1, b, o2, c, eofToken], 0⟩ (by simp) ha (q1 _ (List.mem_cons_of_mem _ h1)) (addStops_of_not_mem (q2 _ (List.mem_cons_of_mem _ h1))) (q3 _ (List.mem_cons_of_mem _ h1))
    have B := parseRelExpr_ident ⟨[a, o1, b, o2, c, eofToken], 2⟩ (by simp) hb (q1 _ (List.mem_cons_of_mem _ h2)) (addStops_of_not_mem (q2 _ (List.mem_cons_of_mem _ h2))) (q3 _ (List.mem_cons_of_mem _ h2))
    have C := parseRelExpr_ident ⟨[a, o1, b, o2, c, eofToken], 4⟩ (by simp) hc (q1 _ (List.mem_cons_self _ _)) (addStops_of_not_mem (q2 _ (List.mem_cons_self _ _))) (q3 _ (List.mem_cons_self _ _))
    have S := parseEqualityLoop_stop ⟨[a, o1, b, o2, c, eofToken], 5⟩
      (Node.mk "EqExpr" [Node.mk "EqExpr" [idNode a, Node.mk o1.lexeme [], idNode b],
        Node.mk o2.lexeme [], idNode c]) (by simp) e2
    have L2 := parseEqualityLoop_step ⟨[a, o1, b, o2, c, eofToken], 3⟩
      (Node.mk "EqExpr" [idNode a, Node.mk o1.lexeme [], idNode b])
      (by simp) h2 C (S.mono (by decide))
    have L1 := parseEqualityLoop_step ⟨[a, o1, b, o2, c, eofToken], 1⟩ (idNode a) (by simp) h1
      (B.mono (by decide)) L2
    have M := parseEqualityExpr_of (A.mono (by decide)) L1
    exact (parseExpr_of_equality M (by simp) e3).mono (by decide)

theorem and_left_fold (a b c o1 o2 : Token) (ha : isIdentifier a = true)
    (hb : isIdentifier b = true) (hc : isIdentifier c = true)
    (h1 : o1.lexeme ∈ andOps) (h2 : o2.lexeme ∈ andOps) :
    ReturnsBy 13 parseExpr ⟨[a, o1, b, eofToken], 0⟩
      (Node.mk "AndExpr" [idNode a, Node.mk o1.lexeme [], idNode b])
      ⟨[a, o1, b, eofToken], 3⟩ ∧
    ReturnsBy 13 parseExpr ⟨[a, o1, b, o2, c, eofToken], 0⟩
      (Node.mk "AndExpr" [Node.mk "AndExpr" [idNode a, Node.mk o1.lexeme [], idNode b],
        Node.mk o2.lexeme [], idNode c])
      ⟨[a, o1, b, o2, c, eofToken], 5⟩ := by
  have q1 : ∀ x ∈ "EOF" :: andOps, x ∉ postfixOps ++ mulOps := by decide
  have q2 : ∀ x ∈ "EOF" :: andOps, x ∉ addOps := by decide
  have q3 : ∀ x ∈ "EOF" :: andOps, x ∉ relOps ++ eqOps := by decide
  have e2 : eofToken.lexeme ∉ andOps := by decide
  have e3 : eofToken.lexeme ∉ continuingOps := by decide
  constructor
  · have A := parseEqualityExpr_ident ⟨[a, o1, b, eofToken], 0⟩ (by simp) ha (q1 _ (List.mem_cons_of_mem _ h1)) (addStops_of_not_mem (q2 _ (List.mem_cons_of_mem _ h1))) (q3 _ (List.mem_cons_of_mem _ h1))
    have B := parseEqualityExpr_ident ⟨[a, o1, b, eofToken], 2⟩ (by simp) hb (q1 _ (List.mem_cons_self _ _)) (addStops_of_not_mem (q2 _ (List.mem_cons_self _ _))) (q3 _ (List.mem_cons_self _ _))
    have S := parseAndLoop_stop ⟨[a, o1, b, eofToken], 3⟩
      (Node.mk "AndExpr" [idNode a, Node.mk o1.lexeme [], idNode b]) (by simp) e2
    have L1 := parseAndLoop_step ⟨[a, o1, b, eofToken], 1⟩ (idNode a) (by simp) h1 B
      (S.mono (by decide))
    have M := parseAndExpr_of (A.mono (by decide)) L1
    exact (parseExpr_of_and M (by simp) e3).mono (by decide)
  · have A := parseEqualityExpr_ident ⟨[a, o1, b, o2, c, eofToken], 0⟩ (by simp) ha (q1 _ (List.mem_cons_of_mem _ h1)) (addStops_of_not_mem (q2 _ (List.mem_cons_of_mem _ h1))) (q3 _ (List.mem_cons_of_mem _ h1))
    have B := parseEqualityExpr_ident ⟨[a, o1, b, o2, c, eofToken], 2⟩ (by simp) hb (q1 _ (List.mem_cons_of_mem _ h2)) (addStops_of_not_mem (q2 _ (List.mem_cons_of_mem _ h2))) (q3 _ (List.mem_cons_of_mem _ h2))
    have C := parseEqualityExpr_ident ⟨[a, o1, b, o2, c, eofToken], 4⟩ (by simp) hc (q1 _ (List.mem_cons_self _ _)) (addStops_of_not_mem (q2 _ (List.mem_cons_self _ _))) (q3 _ (List.mem_cons_self _ _))
    have S := parseAndLoop_stop ⟨[a, o1, b, o2, c, eofToken], 5⟩
      (Node.mk "AndExpr" [Node.mk "AndExpr" [idNode a, Node.mk o1.lexeme [], idNode b],
        Node.mk o2.lexeme [], idNode c]) (by simp) e2
    have L2 := parseAndLoop_step ⟨[a, o1, b, o2, c, eofToken], 3⟩
      (Node.mk "AndExpr" [idNode a, Node.mk o1.lexeme [], idNode b])
      (by simp) h2 C (S.mono (by decide))
    have L1 := parseAndLoop_step ⟨[a, o1, b, o2, c, eofToken], 1⟩ (idNode a) (by simp) h1
      (B.mono (by decide)) L2
    have M := parseAndExpr_of (A.mono (by decide)) L1
    exact (parseExpr_of_and M (by simp) e3).mono (by decide)

theorem or_left_fold (a b c o1 o2 : Token) (ha : isIdentifier a = true)
    (hb : isIdentifier b = true) (hc : isIdentifier c = true)
    (h1 : o1.lexeme ∈ orOps) (h2 : o2.lexeme ∈ orOps) :
    ReturnsBy 13 parseExpr ⟨[a, o1, b, eofToken], 0⟩
      (Node.mk "OrExpr" [idNode a, Node.mk o1.lexeme [], idNode b])
      ⟨[a, o1, b, eofToken], 3⟩ ∧
    ReturnsBy 13 parseExpr ⟨[a, o1, b, o2, c, eofToken], 0⟩
      (Node.mk "OrExpr" [Node.mk "OrExpr" [idNode a, Node.mk o1.lexeme [], idNode b],
        Node.mk o2.lexeme [], idNode c])
      ⟨[a, o1, b, o2, c, eofToken], 5⟩ := by
  have q1 : ∀ x ∈ "EOF" :: orOps, x ∉ postfixOps ++ mulOps := by decide
  have q2 : ∀ x ∈ "EOF" :: orOps, x ∉ addOps := by decide
  have q3 : ∀ x ∈ "EOF" :: orOps, x ∉ relOps ++ eqOps ++ andOps := by decide
  have e2 : eofToken.lexeme ∉ orOps := by decide
  have e3 : eofToken.lexeme ∉ continuingOps := by decide
  constructor
  · have A := parseAndExpr_ident ⟨[a, o1, b, eofToken], 0⟩ (by simp) ha (q1 _ (List.mem_cons_of_mem _ h1)) (addStops_of_not_mem (q2 _ (List.mem_cons_of_mem _ h1))) (q3 _ (List.mem_cons_of_mem _ h1))
    have B := parseAndExpr_ident ⟨[a, o1, b, eofToken], 2⟩ (by simp) hb (q1 _ (List.mem_cons_self _ _)) (addStops_of_not_mem (q2 _ (List.mem_cons_self _ _))) (q3 _ (List.mem_cons_self _ _))
    have S := parseOrLoop_stop ⟨[a, o1, b, eofToken], 3⟩
      (Node.mk "OrExpr" [idNode a, Node.mk o1.lexeme [], idNode b]) (by simp) e2
    have L1 := parseOrLoop_step ⟨[a, o1, b, eofToken], 1⟩ (idNode a) (by simp) h1 B
      (S.mono (by decide))
    have M := parseOrExpr_of (A.mono (by decide)) L1
    exact (parseExpr_of_or M (by simp) e3).mono (by decide)
  · have A := parseAndExpr_ident ⟨[a, o1, b, o2, c, eofToken], 0⟩ (by simp) ha (q1 _ (List.mem_cons_of_mem _ h1)) (addStops_of_not_mem (q2 _ (List.mem_cons_of_mem _ h1))) (q3 _ (List.mem_cons_of_mem _ h1))
    have B := parseAndExpr_ident ⟨[a, o1, b, o2, c, eofToken], 2⟩ (by simp) hb (q1 _ (List.mem_cons_of_mem _ h2)) (addStops_of_not_mem (q2 _ (List.mem_cons_of_mem _ h2))) (q3 _ (List.mem_cons_of_mem _ h2))
    have C := parseAndExpr_ident ⟨[a, o1, b, o2, c, eofToken], 4⟩ (by simp) hc (q1 _ (List.mem_cons_self _ _)) (addStops_of_not_mem (q2 _ (List.mem_cons_self _ _))) (q3 _ (List.mem_cons_self _ _))
    have S := parseOrLoop_stop ⟨[a, o1, b, o2, c, eofToken], 5⟩
      (Node.mk "OrExpr" [Node.mk "OrExpr" [idNode a, Node.mk o1.lexeme [], idNode b],
        Node.mk o2.lexeme [], idNode c]) (by simp) e2
    have L2 := parseOrLoop_step ⟨[a, o1, b, o2, c, eofToken], 3⟩
      (Node.mk "OrExpr" [idNode a, Node.mk o1.lexeme [], idNode b])
      (by simp) h2 C (S.mono (by decide))
    have L1 := parseOrLoop_step ⟨[a, o1, b, o2, c, eofToken], 1⟩ (idNode a) (by simp) h1
      (B.mono (by decide)) L2
    have M := parseOrExpr_of (A.mono (by decide)) L1
    exact (parseExpr_of_or M (by simp) e3).mono (by decide)

/-! ## Associativity and the `+=` lookahead -/

/-- C1 (left-associativity of the binary levels).  For identifier tokens `a`, `b`, `c` and two
operator tokens `o1`, `o2` of one binary level (`||`, `&&`, `==`, relational, additive,
multiplicative), `parseExpr` on `a o1 b o2 c` followed by the sentinel returns, with fuel 13 or
more, the node of that level whose first child is the tree returned for `a o1 b` and whose last
child is `ID(c)`; it stops on the sentinel.  For `o1 = o2 = -` this is
`AddExpr[AddExpr[ID(a), -, ID(b)], -, ID(c)]`. -/
theorem C1_left_associative (a b c o1 o2 : Token) (ha : isIdentifier a = true)
    (hb : isIdentifier b = true) (hc : isIdentifier c = true) (label : String)
    (ops : List String) (hlevel : (label, ops) ∈ binaryLevels)
    (h1 : o1.lexeme ∈ ops) (h2 : o2.lexeme ∈ ops) :
    ReturnsBy 13 parseExpr ⟨[a, o1, b, eofToken], 0⟩
      (Node.mk label [idNode a, Node.mk o1.lexeme [], idNode b])
      ⟨[a, o1, b, eofToken], 3⟩ ∧
    ReturnsBy 13 parseExpr ⟨[a, o1, b, o2, c, eofToken], 0⟩
      (Node.mk label [Node.mk label [idNode a, Node.mk o1.lexeme [], idNode b],
        Node.mk o2.lexeme [], idNode c])
      ⟨[a, o1, b, o2, c, eofToken], 5⟩ := by
  simp only [binaryLevels, List.mem_cons, Prod.mk.injEq, List.mem_singleton, List.not_mem_nil,
    or_false] at hlevel
  rcases hlevel with ⟨rfl, rfl⟩ | ⟨rfl, rfl⟩ | ⟨rfl, rfl⟩ | ⟨rfl, rfl⟩ | ⟨rfl, rfl⟩ | ⟨rfl, rfl⟩
  · exact or_left_fold a b c o1 o2 ha hb hc h1 h2
  · exact and_left_fold a b c o1 o2 ha hb hc h1 h2
  · exact equality_left_fold a b c o1 o2 ha hb hc h1 h2
  · exact rel_left_fold a b c o1 o2 ha hb hc h1 h2
  · exact add_left_fold a b c o1 o2 ha hb hc h1 h2
  · exact mul_left_fold a b c o1 o2 ha hb hc h1 h2

theorem C1_left_associative_witness :
    parseExpr 13 ⟨[⟨"IDENTIFIER", "a", 1⟩, ⟨"OPERATOR", "-", 1⟩, ⟨"IDENTIFIER", "b", 1⟩,
      ⟨"OPERATOR", "-", 1⟩, ⟨"IDENTIFIER", "c", 1⟩, eofToken], 0⟩ =
    Res.ok (Node.mk "AddExpr" [Node.mk "AddExpr" [Node.mk "ID(a)" [], Node.mk "-" [],
        Node.mk "ID(b)" []], Node.mk "-" [], Node.mk "ID(c)" []])
      ⟨[⟨"IDENTIFIER", "a", 1⟩, ⟨"OPERATOR", "-", 1⟩, ⟨"IDENTIFIER", "b", 1⟩,
      ⟨"OPERATOR", "-", 1⟩, ⟨"IDENTIFIER", "c", 1⟩, eofToken], 5⟩ :=
  (C1_left_associative ⟨"IDENTIFIER", "a", 1⟩ ⟨"IDENTIFIER", "b", 1⟩ ⟨"IDENTIFIER", "c", 1⟩
    ⟨"OPERATOR", "-", 1⟩ ⟨"OPERATOR", "-", 1⟩ (by decide) (by decide) (by decide)
    "AddExpr" addOps (by decide) (by decide) (by decide)).2 13 (le_refl 13)

/-- C2 (assignment is right-associative).  For identifier tokens `a`, `b`, `c` and two tokens
with lexeme `=`, `parseExpr` on `a = b = c` followed by the sentinel returns, with fuel 15 or
more, `AssignExpr[ID(a), =, AssignExpr[ID(b), =, ID(c)]]` and stops on the sentinel. -/
theorem C2_assignment_right_associative (a b c o1 o2 : Token) (ha : isIdentifier a = true)
    (hb : isIdentifier b = true) (hc : isIdentifier c = true)
    (h1 : o1.lexeme = "=") (h2 : o2.lexeme = "=") :
    ReturnsBy 15 parseExpr ⟨[a, o1, b, o2, c, eofToken], 0⟩
      (Node.mk "AssignExpr" [idNode a, Node.mk "=" [],
        Node.mk "AssignExpr" [idNode b, Node.mk "=" [], idNode c]])
      ⟨[a, o1, b, o2, c, eofToken], 5⟩ := by
  have q1 : ∀ x ∈ ["EOF", "="], x ∉ postfixOps ++ mulOps := by decide
  have q2 : ∀ x ∈ ["EOF", "="], x ∉ addOps := by decide
  have q3 : ∀ x ∈ ["EOF", "="], x ∉ relOps ++ eqOps ++ andOps ++ orOps := by decide
  have m1 : o1.lexeme ∈ ["EOF", "="] := by rw [h1]; decide
  have m2 : o2.lexeme ∈ ["EOF", "="] := by rw [h2]; decide
  have me : eofToken.lexeme ∈ ["EOF", "="] := by decide
  have A := parseOrExpr_ident ⟨[a, o1, b, o2, c, eofToken], 0⟩ (by simp) ha (q1 _ m1)
    (addStops_of_not_mem (q2 _ m1)) (q3 _ m1)
  have B := parseOrExpr_ident ⟨[a, o1, b, o2, c, eofToken], 2⟩ (by simp) hb (q1 _ m2)
    (addStops_of_not_mem (q2 _ m2)) (q3 _ m2)
  have C := parseOrExpr_ident ⟨[a, o1, b, o2, c, eofToken], 4⟩ (by simp) hc (q1 _ me)
    (addStops_of_not_mem (q2 _ me)) (q3 _ me)
  have C1 : ReturnsBy 10 parseAssignExpr ⟨[a, o1, b, o2, c, eofToken], 4⟩ (idNode c)
      ⟨[a, o1, b, o2, c, eofToken], 5⟩ :=
    parseAssignExpr_plain C (by simp) (show eofToken.lexeme ≠ "=" by decide)
      (fun h => absurd h (show eofToken.lexeme ≠ "+" by decide))
  have B1 := parseAssignExpr_assign (B.mono (by decide : 9 ≤ 10)) (by simp [skip]) h2 C1
  have A1 := parseAssignExpr_assign (A.mono (by decide : 9 ≤ 11)) (by simp [skip]) h1
    (B1.mono (by decide))
  exact (parseExpr_of A1).mono (by decide)

theorem C2_assignment_right_associative_witness :
    parseExpr 15 ⟨[⟨"IDENTIFIER", "a", 1⟩, ⟨"OPERATOR", "=", 1⟩, ⟨"IDENTIFIER", "b", 1⟩,
      ⟨"OPERATOR", "=", 1⟩, ⟨"IDENTIFIER", "c", 1⟩, eofToken], 0⟩ =
    Res.ok (Node.mk "AssignExpr" [Node.mk "ID(a)" [], Node.mk "=" [],
        Node.mk "AssignExpr" [Node.mk "ID(b)" [], Node.mk "=" [], Node.mk "ID(c)" []]])
      ⟨[⟨"IDENTIFIER", "a", 1⟩, ⟨"OPERATOR", "=", 1⟩, ⟨"IDENTIFIER", "b", 1⟩,
      ⟨"OPERATOR", "=", 1⟩, ⟨"IDENTIFIER", "c", 1⟩, eofToken], 5⟩ :=
  C2_assignment_right_associative ⟨"IDENTIFIER", "a", 1⟩ ⟨"IDENTIFIER", "b", 1⟩
    ⟨"IDENTIFIER", "c", 1⟩ ⟨"OPERATOR", "=", 1⟩ ⟨"OPERATOR", "=", 1⟩ (by decide) (by decide)
    (by decide) rfl rfl 15 (le_refl 15)

/-- C3 (`+=` disambiguation).  For identifier tokens `a`, `b`: on `a + b` (one token `+`)
`parseExpr` returns `AddExpr[ID(a), +, ID(b)]`; on `a += b`, the operator supplied as the two
tokens `+` and `=`, `parseExpr` returns `AssignExpr[ID(a), +=, ID(b)]` with the cursor on the
sentinel, and `parseAddExpr` from the start returns just `ID(a)` with the cursor right after
`a`, so the `+` is left for the assignment level and no `=` is left over. -/
theorem C3_plus_assign_disambiguation (a b p e : Token) (ha : isIdentifier a = true)
    (hb : isIdentifier b = true) (hp : p.lexeme = "+") (he : e.lexeme = "=") :
    ReturnsBy 13 parseExpr ⟨[a, p, b, eofToken], 0⟩
      (Node.mk "AddExpr" [idNode a, Node.mk "+" [], idNode b]) ⟨[a, p, b, eofToken], 3⟩ ∧
    ReturnsBy 13 parseExpr ⟨[a, p, e, b, eofToken], 0⟩
      (Node.mk "AssignExpr" [idNode a, Node.mk "+=" [], idNode b])
      ⟨[a, p, e, b, eofToken], 4⟩ ∧
    ReturnsBy 13 parseAddExpr ⟨[a, p, e, b, eofToken], 0⟩ (idNode a)
      ⟨[a, p, e, b, eofToken], 1⟩ := by
  have q1 : ∀ x ∈ ["EOF", "+"], x ∉ postfixOps ++ mulOps := by decide
  have q2 : ∀ x ∈ ["EOF", "+"], x ∉ relOps ++ eqOps ++ andOps ++ orOps := by decide
  have mp : p.lexeme ∈ ["EOF", "+"] := by rw [hp]; decide
  have me : eofToken.lexeme ∈ ["EOF", "+"] := by decide
  have sp : addStops ⟨[a, p, e, b, eofToken], 1⟩ :=
    ⟨show p.lexeme ≠ "-" by rw [hp]; decide, fun _ => he⟩
  refine ⟨?_, ?_, ?_⟩
  · have h := (add_left_fold a b b p p ha hb hb (by rw [hp]; decide) (by rw [hp]; decide)).1
    rw [hp] at h
    exact h
  · have A := parseOrExpr_ident ⟨[a, p, e, b, eofToken], 0⟩ (by simp) ha (q1 _ mp) sp
      (q2 _ mp)
    have B := parseOrExpr_ident ⟨[a, p, e, b, eofToken], 3⟩ (by simp) hb (q1 _ me)
      (addStops_of_not_mem (show eofToken.lexeme ∉ addOps by decide)) (q2 _ me)
    have B1 : ReturnsBy 10 parseAssignExpr ⟨[a, p, e, b, eofToken], 3⟩ (idNode b)
        ⟨[a, p, e, b, eofToken], 4⟩ :=
      parseAssignExpr_plain B (by simp) (show eofToken.lexeme ≠ "=" by decide)
        (fun h => absurd h (show eofToken.lexeme ≠ "+" by decide))
    have A1 := parseAssignExpr_plusAssign (A.mono (by decide : 9 ≤ 10)) (by simp [skip]) hp he
      B1
    exact (parseExpr_of A1).mono (by decide)
  · exact (parseAddExpr_ident ⟨[a, p, e, b, eofToken], 0⟩ (by simp) ha (q1 _ mp) sp).mono
      (by decide)

theorem C3_plus_assign_disambiguation_witness :
    parseExpr 13 ⟨[⟨"IDENTIFIER", "a", 1⟩, ⟨"OPERATOR", "+", 1⟩, ⟨"OPERATOR", "=", 1⟩,
      ⟨"IDENTIFIER", "b", 1⟩, eofToken], 0⟩ =
    Res.ok (Node.mk "AssignExpr" [Node.mk "ID(a)" [], Node.mk "+=" [], Node.mk "ID(b)" []])
      ⟨[⟨"IDENTIFIER", "a", 1⟩, ⟨"OPERATOR", "+", 1⟩, ⟨"OPERATOR", "=", 1⟩,
      ⟨"IDENTIFIER", "b", 1⟩, eofToken], 4⟩ :=
  (C3_plus_assign_disambiguation ⟨"IDENTIFIER", "a", 1⟩ ⟨"IDENTIFIER", "b", 1⟩
    ⟨"OPERATOR", "+", 1⟩ ⟨"OPERATOR", "=", 1⟩ (by decide) (by decide) rfl rfl).2.1 13
    (le_refl 13)

/-! ## More fuel never changes a result -/

theorem P.Le.refl_le {α : Type} (m : P α) : P.Le m m := fun _ _ => rfl

theorem P.Le.timeout_le {α : Type} (m : P α) : P.Le P.timeout m := fun _ h => absurd rfl h

theorem P.Le.bind_le {α β : Type} {m m1 : P α} {f f1 : α → P β} (hm : P.Le m m1)
    (hf : ∀ a, P.Le (f a) (f1 a)) : P.Le (m >>= f) (m1 >>= f1) := by
  intro s h
  simp only [P.bind_eq, P.bind] at h ⊢
  cases hms : m s with
  | ok a s1 =>
    rw [hms] at h
    have := hm s (by rw [hms]; exact fun e => Res.noConfusion e)
    rw [this, hms]
    exact hf a s1 h
  | error e =>
    have := hm s (by rw [hms]; exact fun e => Res.noConfusion e)
    rw [this, hms]
  | undefined =>
    have := hm s (by rw [hms]; exact fun e => Res.noConfusion e)
    rw [this, hms]
  | timeout => rw [hms] at h; exact absurd rfl h

theorem P.Le.ite_le {α : Type} {c : Prop} [Decidable c] {a a1 b b1 : P α} (ha : P.Le a a1)
    (hb : P.Le b b1) : P.Le (if c then a else b) (if c then a1 else b1) := by
  by_cases h : c
  · simp only [h, if_true]; exact ha
  · simp only [h, if_false]; exact hb

theorem parseStars_le (n : Nat) : ∀ node, P.Le (parseStars n node) (parseStars (n + 1) node) := by
  induction n with
  | zero => intro node; exact P.Le.timeout_le _
  | succ k ih =>
    intro node
    rw [parseStars, parseStars]
    apply P.Le.bind_le (P.Le.refl_le _)
    intro a
    exact P.Le.ite_le (ih _) (P.Le.refl_le _)

theorem parse_le (n : Nat) :
    P.Le (parseCompoundStmt n) (parseCompoundStmt (n + 1)) ∧
    P.Le (parseStmtList n) (parseStmtList (n + 1)) ∧
    (∀ node, P.Le (parseStmtListLoop n node) (parseStmtListLoop (n + 1) node)) ∧
    P.Le (parseStmt n) (parseStmt (n + 1)) ∧
    P.Le (parseIfStmt n) (parseIfStmt (n + 1)) ∧
    P.Le (parseForStmt n) (parseForStmt (n + 1)) ∧
    P.Le (parseReturnStmt n) (parseReturnStmt (n + 1)) ∧
    (∀ b, P.Le (parseDeclStmt n b) (parseDeclStmt (n + 1) b)) ∧
    (∀ node, P.Le (parseDeclarators n node) (parseDeclarators (n + 1) node)) ∧
    P.Le (parseExprStmt n) (parseExprStmt (n + 1)) ∧
    P.Le (parseExpr n) (parseExpr (n + 1)) ∧
    P.Le (parseAssignExpr n) (parseAssignExpr (n + 1)) ∧
    P.Le (parseOrExpr n) (parseOrExpr (n + 1)) ∧
    (∀ node, P.Le (parseOrLoop n node) (parseOrLoop (n + 1) node)) ∧
    P.Le (parseAndExpr n) (parseAndExpr (n + 1)) ∧
    (∀ node, P.Le (parseAndLoop n node) (parseAndLoop (n + 1) node)) ∧
    P.Le (parseEqualityExpr n) (parseEqualityExpr (n + 1)) ∧
    (∀ node, P.Le (parseEqualityLoop n node) (parseEqualityLoop (n + 1) node)) ∧
    P.Le (parseRelExpr n) (parseRelExpr (n + 1)) ∧
    (∀ node, P.Le (parseRelLoop n node) (parseRelLoop (n + 1) node)) ∧
    P.Le (parseAddExpr n) (parseAddExpr (n + 1)) ∧
    (∀ node, P.Le (parseAddLoop n node) (parseAddLoop (n + 1) node)) ∧
    P.Le (parseMulExpr n) (parseMulExpr (n + 1)) ∧
    (∀ node, P.Le (parseMulLoop n node) (parseMulLoop (n + 1) node)) ∧
    P.Le (parseUnaryExpr n) (parseUnaryExpr (n + 1)) ∧
    P.Le (parsePostfixExpr n) (parsePostfixExpr (n + 1)) ∧
    (∀ node, P.Le (parsePostfixLoop n node) (parsePostfixLoop (n + 1) node)) ∧
    (∀ node, P.Le (parseArgsLoop n node) (parseArgsLoop (n + 1) node)) ∧
    P.Le (parsePrimary n) (parsePrimary (n + 1)) := by
  induction n with
  | zero =>
    refine ⟨?_, ?_, ?_, ?_, ?_, ?_, ?_, ?_, ?_, ?_, ?_, ?_, ?_, ?_, ?_, ?_, ?_, ?_, ?_, ?_, ?_,
      ?_, ?_, ?_, ?_, ?_, ?_, ?_, ?_⟩ <;> intros <;> exact P.Le.timeout_le _
  | succ k ih =>
    obtain ⟨i1, i2, i3, i4, i5, i6, i7, i8, i9, i10, i11, i12, i13, i14, i15, i16, i17, i18,
      i19, i20, i21, i22, i23, i24, i25, i26, i27, i28, i29⟩ := ih
    have i0 := parseStars_le k
    refine ⟨?_, ?_, ?_, ?_, ?_, ?_, ?_, ?_, ?_, ?_, ?_, ?_, ?_, ?_, ?_, ?_, ?_, ?_, ?_, ?_, ?_,
      ?_, ?_, ?_, ?_, ?_, ?_, ?_, ?_⟩ <;> intros <;>
    (first
      | rw [parseCompoundStmt, parseCompoundStmt]
      | rw [parseStmtList, parseStmtList]
      | rw [parseStmtListLoop, parseStmtListLoop]
      | rw [parseStmt, parseStmt]
      | rw [parseIfStmt, parseIfStmt]
      | rw [parseForStmt, parseForStmt]
      | rw [parseReturnStmt, parseReturnStmt]
      | rw [parseDeclStmt, parseDeclStmt]
      | rw [parseDeclarators, parseDeclarators]
      | rw [parseExprStmt, parseExprStmt]
      | rw [parseExpr, parseExpr]
      | rw [parseAssignExpr, parseAssignExpr]
      | rw [parseOrExpr, parseOrExpr]
      | rw [parseOrLoop, parseOrLoop]
      | rw [parseAndExpr, parseAndExpr]
      | rw [parseAndLoop, parseAndLoop]
      | rw [parseEqualityExpr, parseEqualityExpr]
      | rw [parseEqualityLoop, parseEqualityLoop]
      | rw [parseRelExpr, parseRelExpr]
      | rw [parseRelLoop, parseRelLoop]
      | rw [parseAddExpr, parseAddExpr]
      | rw [parseAddLoop, parseAddLoop]
      | rw [parseMulExpr, parseMulExpr]
      | rw [parseMulLoop, parseMulLoop]
      | rw [parseUnaryExpr, parseUnaryExpr]
      | rw [parsePostfixExpr, parsePostfixExpr]
      | rw [parsePostfixLoop, parsePostfixLoop]
      | rw [parseArgsLoop, parseArgsLoop]
      | rw [parsePrimary, parsePrimary]) <;>
    (try dsimp only) <;>
    repeat' (with_reducible first
      | exact P.Le.refl_le _
      | assumption
      | apply i0 | apply i3 | apply i8 | apply i9 | apply i14 | apply i16 | apply i18
      | apply i20 | apply i22 | apply i24 | apply i27 | apply i28
      | apply P.Le.bind_le
      | apply P.Le.ite_le
      | intro _)

theorem parseParam_le (n : Nat) : P.Le (parseParam n) (parseParam (n + 1)) := by
  have i0 := parseStars_le n
  unfold parseParam
  dsimp only
  repeat' (with_reducible first
    | exact P.Le.refl_le _
    | apply i0
    | apply P.Le.bind_le
    | apply P.Le.ite_le
    | intro _)

theorem parseParamListLoop_le (n : Nat) :
    ∀ node, P.Le (parseParamListLoop n node) (parseParamListLoop (n + 1) node) := by
  induction n with
  | zero => intro node; exact P.Le.timeout_le _
  | succ k ih =>
    intro node
    have i1 := parseParam_le k
    rw [parseParamListLoop, parseParamListLoop]
    repeat' (with_reducible first
      | exact P.Le.refl_le _
      | assumption
      | apply ih
      | apply P.Le.bind_le
      | apply P.Le.ite_le
      | intro _)

theorem parseParamList_le (n : Nat) : P.Le (parseParamList n) (parseParamList (n + 1)) := by
  have i0 := parseParam_le n
  have i1 := parseParamListLoop_le n
  unfold parseParamList
  dsimp only
  repeat' (with_reducible first
    | exact P.Le.refl_le _
    | assumption
    | apply i1
    | apply P.Le.bind_le
    | apply P.Le.ite_le
    | intro _)

theorem parseParamListOpt_le (n : Nat) :
    P.Le (parseParamListOpt n) (parseParamListOpt (n + 1)) := by
  have i0 := parseParamList_le n
  unfold parseParamListOpt
  repeat' (with_reducible first
    | exact P.Le.refl_le _
    | assumption
    | apply P.Le.bind_le
    | apply P.Le.ite_le
    | intro _)

theorem parseFunctionDecl_le (n : Nat) :
    P.Le (parseFunctionDecl n) (parseFunctionDecl (n + 1)) := by
  have i0 := parseParamListOpt_le n
  have i1 := (parse_le n).1
  unfold parseFunctionDecl
  dsimp only
  repeat' (with_reducible first
    | exact P.Le.refl_le _
    | assumption
    | apply P.Le.bind_le
    | apply P.Le.ite_le
    | intro _)

theorem parseStructMembers_le (n : Nat) :
    ∀ node, P.Le (parseStructMembers n node) (parseStructMembers (n + 1) node) := by
  induction n with
  | zero => intro node; exact P.Le.timeout_le _
  | succ k ih =>
    intro node
    have i1 := (parse_le k).2.2.2.2.2.2.2.1 true
    rw [parseStructMembers, parseStructMembers]
    repeat' (with_reducible first
      | exact P.Le.refl_le _
      | assumption
      | apply ih
      | apply P.Le.bind_le
      | apply P.Le.ite_le
      | intro _)

theorem parseStructDecl_le (n : Nat) :
    P.Le (parseStructDecl n) (parseStructDecl (n + 1)) := by
  have i0 := parseStructMembers_le n
  unfold parseStructDecl
  dsimp only
  repeat' (with_reducible first
    | exact P.Le.refl_le _
    | apply i0
    | apply P.Le.bind_le
    | apply P.Le.ite_le
    | intro _)

theorem parseExternalDecl_le (n : Nat) :
    P.Le (parseExternalDecl n) (parseExternalDecl (n + 1)) := by
  have i0 := parseStructDecl_le n
  have i1 := parseFunctionDecl_le n
  unfold parseExternalDecl
  repeat' (with_reducible first
    | exact P.Le.refl_le _
    | assumption
    | apply P.Le.bind_le
    | apply P.Le.ite_le
    | intro _)

theorem parseProgramLoop_le (n : Nat) :
    ∀ node, P.Le (parseProgramLoop n node) (parseProgramLoop (n + 1) node) := by
  induction n with
  | zero => intro node; exact P.Le.timeout_le _
  | succ k ih =>
    intro node
    have i1 := parseExternalDecl_le k
    rw [parseProgramLoop, parseProgramLoop]
    repeat' (with_reducible first
      | exact P.Le.refl_le _
      | assumption
      | apply ih
      | apply P.Le.bind_le
      | apply P.Le.ite_le
      | intro _)

theorem parseProgram_le (n : Nat) : P.Le (parseProgram n) (parseProgram (n + 1)) :=
  parseProgramLoop_le n _

theorem P.Le.trans {α : Type} {a b c : P α} (h1 : P.Le a b) (h2 : P.Le b c) : P.Le a c := by
  intro s h
  have e1 := h1 s h
  have e2 := h2 s (by rw [e1]; exact h)
  rw [e2, e1]

theorem P.Le.of_le {α : Type} {f : Nat → P α} (h : ∀ n, P.Le (f n) (f (n + 1))) (n m : Nat)
    (hnm : n ≤ m) : P.Le (f n) (f m) := by
  induction m with
  | zero =>
    have : n = 0 := by omega
    subst this
    exact P.Le.refl_le _
  | succ k ih =>
    by_cases hk : n ≤ k
    · exact P.Le.trans (ih hk) (h k)
    · have : n = k + 1 := by omega
      subst this
      exact P.Le.refl_le _

/-- A result other than `timeout` obtained with some fuel is obtained with any larger fuel. -/
theorem returnsBy_of_eq {α : Type} {f : Nat → P α} (h : ∀ n, P.Le (f n) (f (n + 1)))
    {N : Nat} {s s1 : Parser} {a : α} (he : f N s = Res.ok a s1) : ReturnsBy N f s a s1 := by
  intro n hn
  have := P.Le.of_le h N n hn s (by rw [he]; exact fun e => Res.noConfusion e)
  rw [this, he]

theorem failsBy_of_eq {α : Type} {f : Nat → P α} (h : ∀ n, P.Le (f n) (f (n + 1)))
    {N : Nat} {s s1 : Parser} {e : ParseError} (he : f N s = Res.error e s1) :
    FailsBy N f s e s1 := by
  intro n hn
  have := P.Le.of_le h N n hn s (by rw [he]; exact fun e => Res.noConfusion e)
  rw [this, he]

/-! ## Declarations: struct or function, the missing `;`, the empty parameter list -/

theorem P.Post.bind_post {α β : Type} {m : P α} {f : α → P β} {Q : β → Prop}
    (hf : ∀ a, P.Post (f a) Q) : P.Post (m >>= f) Q := by
  intro s b s2 h
  simp only [P.bind_eq, P.bind] at h
  cases hm : m s with
  | ok a s1 => rw [hm] at h; exact hf a s1 b s2 h
  | error e => rw [hm] at h; exact Res.noConfusion h
  | undefined => rw [hm] at h; exact Res.noConfusion h
  | timeout => rw [hm] at h; exact Res.noConfusion h

theorem P.Post.pure_post {α : Type} {a : α} {Q : α → Prop} (h : Q a) :
    P.Post (Pure.pure a : P α) Q := by
  intro s b s1 hb
  simp only [P.pure_eq, P.ret] at hb
  cases hb
  exact h

theorem P.Post.ite_post {α : Type} {c : Prop} [Decidable c] {a b : P α} {Q : α → Prop}
    (ha : P.Post a Q) (hb : P.Post b Q) : P.Post (if c then a else b) Q := by
  by_cases h : c
  · simp only [h, if_true]; exact ha
  · simp only [h, if_false]; exact hb

theorem P.Post.fail_post {α : Type} {e : ParseError} {Q : α → Prop} :
    P.Post (P.fail e : P α) Q := fun _ _ _ h => Res.noConfusion h

theorem P.Post.timeout_post {α : Type} {Q : α → Prop} : P.Post (P.timeout : P α) Q :=
  fun _ _ _ h => Res.noConfusion h

theorem Node.symbol_push_back (n c : Node) : (n.push_back c).symbol = n.symbol := by
  cases n; rfl

theorem parseStructDecl_symbol (n : Nat) :
    P.Post (parseStructDecl n) (fun node => node.symbol = "StructDecl") := by
  unfold parseStructDecl
  dsimp only
  repeat' (first
    | (with_reducible apply P.Post.bind_post)
    | (apply P.Post.pure_post; simp only [Node.symbol_push_back]; rfl)
    | intro _)

theorem parseFunctionDecl_symbol (n : Nat) :
    P.Post (parseFunctionDecl n) (fun node => node.symbol = "FunctionDecl") := by
  unfold parseFunctionDecl
  dsimp only
  repeat' (first
    | (with_reducible apply P.Post.bind_post)
    | (apply P.Post.pure_post; simp only [Node.symbol_push_back]; rfl)
    | intro _)

theorem look_of_lt {s : Parser} {i : Nat} {t : Token} (h : s.tokens[s.pos + i]? = some t) :
    look s i = t := by
  have hlt : s.pos + i < s.tokens.length := by
    rcases Nat.lt_or_ge (s.pos + i) s.tokens.length with h1 | h1
    · exact h1
    · rw [List.getElem?_eq_none h1] at h; exact Option.noConfusion h
  unfold look
  rw [if_neg (by omega), h]
  rfl

theorem look_of_ge {s : Parser} {i : Nat} {t : Token} (h : s.tokens.length ≤ s.pos + i)
    (hl : s.tokens.getLast? = some t) : look s i = t := by
  unfold look
  rw [if_pos h, hl]
  rfl

theorem sentinelTerminated_ne_nil {toks : List Token} (h : sentinelTerminated toks) :
    toks ≠ [] := by
  obtain ⟨t, ht, -⟩ := h
  intro h0
  rw [h0] at ht
  exact Option.noConfusion ht

/-- On a sentinel-terminated sequence a lookahead that finds something other than the sentinel
is a real token of the sequence. -/
theorem look_in_range {s : Parser} (hs : sentinelTerminated s.tokens) (i : Nat)
    (h : (look s i).lexeme ≠ "EOF" ∨ (look s i).category ≠ "EOF") :
    s.tokens[s.pos + i]? = some (look s i) := by
  obtain ⟨t, ht, hc, hl⟩ := hs
  rcases Nat.lt_or_ge (s.pos + i) s.tokens.length with h1 | h1
  · unfold look
    rw [if_neg (by omega), List.getElem?_eq_getElem h1]
    rfl
  · have := look_of_ge h1 ht
    rw [this] at h
    rcases h with h | h
    · exact absurd hl h
    · exact absurd hc h

theorem structAhead_iff {s : Parser} (hs : sentinelTerminated s.tokens) :
    structAhead s = true ↔ ((look s 0).lexeme = "struct" ∧ (look s 1).category = "IDENTIFIER" ∧
      (look s 2).lexeme = "\x7b") := by
  constructor
  · intro h
    unfold structAhead at h
    split at h
    · rename_i t0 t1 t2 h0 h1 h2
      rw [look_of_lt (i := 0) h0, look_of_lt h1, look_of_lt h2]
      simpa [and_assoc] using h
    · exact Bool.noConfusion h
  · rintro ⟨e0, e1, e2⟩
    have h0 := look_in_range hs 0 (Or.inl (by rw [e0]; decide))
    have h1 := look_in_range hs 1 (Or.inr (by rw [e1]; decide))
    have h2 := look_in_range hs 2 (Or.inl (by rw [e2]; decide))
    unfold structAhead
    rw [Nat.add_zero] at h0
    rw [h0, h1, h2]
    simp [e0, e1, e2]

theorem parseExternalDecl_eq (n : Nat) (s : Parser) (h : s.tokens ≠ []) :
    parseExternalDecl n s =
      if (look s 0).lexeme = "struct" ∧ (look s 1).category = "IDENTIFIER" ∧
          (look s 2).lexeme = "\x7b" then parseStructDecl n s else parseFunctionDecl n s := by
  simp only [parseExternalDecl, P.bind_eq, P.bind, checkLexeme_look _ _ s h,
    checkCategory_look _ _ s h]
  by_cases h0 : (look s 0).lexeme = "struct" <;> by_cases h1 : (look s 1).category = "IDENTIFIER"
    <;> by_cases h2 : (look s 2).lexeme = "\x7b" <;> simp [h0, h1, h2]

/-- C4 (struct versus function).  On a sentinel-terminated sequence `parseExternalDecl`
returns a node labelled `StructDecl` exactly when the three tokens at the cursor exist and are
lexeme `struct`, a token of category `IDENTIFIER`, lexeme `{` (`structAhead`), and a node
labelled `FunctionDecl` exactly when they are not; it runs `parseStructDecl` in the first case
and `parseFunctionDecl` in every other.  On `struct Point { int x ; int y ; } ;` `parseProgram`
returns `Program[StructDecl[StructName(Point), StructMemberList[DeclStmt, DeclStmt]]]`, and on
`struct Point make ( ) { return p ; }` it returns `Program[FunctionDecl[TypeSpec[struct Point],
FuncName(make), ...]]`. -/
theorem C4_struct_vs_function :
    (∀ (s s1 : Parser) (fuel : Nat) (node : Node), sentinelTerminated s.tokens →
      parseExternalDecl fuel s = Res.ok node s1 →
      (node.symbol = "StructDecl" ↔ structAhead s = true) ∧
      (node.symbol = "FunctionDecl" ↔ structAhead s = false)) ∧
    (∀ (s : Parser) (fuel : Nat), sentinelTerminated s.tokens →
      parseExternalDecl fuel s =
        if structAhead s = true then parseStructDecl fuel s else parseFunctionDecl fuel s) ∧
    ReturnsBy 6 parseProgram ⟨structExample, 0⟩
      (Node.mk "Program" [Node.mk "StructDecl" [Node.mk "StructName(Point)" [],
        Node.mk "StructMemberList" [
          Node.mk "DeclStmt" [Node.mk "TypeSpec" [Node.mk "BaseType(int)" []],
            Node.mk "Declarator" [Node.mk "Var(x)" []]],
          Node.mk "DeclStmt" [Node.mk "TypeSpec" [Node.mk "BaseType(int)" []],
            Node.mk "Declarator" [Node.mk "Var(y)" []]]]]])
      ⟨structExample, 11⟩ ∧
    ReturnsBy 18 parseProgram ⟨structFunctionExample, 0⟩
      (Node.mk "Program" [Node.mk "FunctionDecl" [
        Node.mk "TypeSpec" [Node.mk "struct Point" []], Node.mk "FuncName(make)" [],
        Node.mk "ParamList(ε)" [],
        Node.mk "CompoundStmt" [Node.mk "StmtList" [
          Node.mk "ReturnStmt" [Node.mk "ID(p)" []]]]]])
      ⟨structFunctionExample, 10⟩ := by
  have key : ∀ (s : Parser) (fuel : Nat), sentinelTerminated s.tokens →
      parseExternalDecl fuel s =
        if structAhead s = true then parseStructDecl fuel s else parseFunctionDecl fuel s := by
    intro s fuel hs
    rw [parseExternalDecl_eq fuel s (sentinelTerminated_ne_nil hs)]
    by_cases h : structAhead s = true
    · rw [if_pos h, if_pos ((structAhead_iff hs).1 h)]
    · rw [if_neg h, if_neg (fun h1 => h ((structAhead_iff hs).2 h1))]
  refine ⟨?_, key, returnsBy_of_eq parseProgram_le rfl, returnsBy_of_eq parseProgram_le rfl⟩
  intro s s1 fuel node hs h
  rw [key s fuel hs] at h
  by_cases ha : structAhead s = true
  · rw [if_pos ha] at h
    have := parseStructDecl_symbol fuel s node s1 h
    simp only at this
    rw [this]
    simp [ha]
  · rw [if_neg ha] at h
    have := parseFunctionDecl_symbol fuel s node s1 h
    simp only at this
    rw [this]
    simp [ha]

theorem C4_struct_vs_function_witness :
    ((Node.mk "StructDecl" [Node.mk "StructName(Point)" [],
        Node.mk "StructMemberList" [
          Node.mk "DeclStmt" [Node.mk "TypeSpec" [Node.mk "BaseType(int)" []],
            Node.mk "Declarator" [Node.mk "Var(x)" []]],
          Node.mk "DeclStmt" [Node.mk "TypeSpec" [Node.mk "BaseType(int)" []],
            Node.mk "Declarator" [Node.mk "Var(y)" []]]]]).symbol = "StructDecl" ↔
      structAhead ⟨structExample, 0⟩ = true) :=
  (C4_struct_vs_function.1 ⟨structExample, 0⟩ ⟨structExample, 11⟩ 5 _
    ⟨eofToken, rfl, rfl, rfl⟩ rfl).1

theorem P.Post.bind_of {α β : Type} {m : P α} {f : α → P β} {Q1 : α → Prop} {Q : β → Prop}
    (hm : P.Post m Q1) (hf : ∀ a, Q1 a → P.Post (f a) Q) : P.Post (m >>= f) Q := by
  intro s b s2 h
  simp only [P.bind_eq, P.bind] at h
  cases hms : m s with
  | ok a s1 => rw [hms] at h; exact hf a (hm s a s1 hms) s1 b s2 h
  | error e => rw [hms] at h; exact Res.noConfusion h
  | undefined => rw [hms] at h; exact Res.noConfusion h
  | timeout => rw [hms] at h; exact Res.noConfusion h

/-- With the terminator requested, `parseDeclStmt` is `parseDeclStmt(false)` followed by
`expectLexeme(";")`. -/
theorem parseDeclStmt_true_eq (n : Nat) (s : Parser) :
    parseDeclStmt n true s =
      (parseDeclStmt n false >>= fun node => expectLexeme ";" >>= fun _ => pure node) s := by
  cases n with
  | zero => simp [parseDeclStmt, P.bind_eq, P.bind, P.timeout]
  | succ k =>
    simp only [parseDeclStmt, P.bind_eq, P.bind, if_true, Bool.false_eq_true, if_false,
      P.pure_eq, P.ret]
    cases parseTypeSpec s with
    | ok a s1 =>
      simp only
      cases parseDeclarators k ((Node.mk "DeclStmt" []).push_back a) s1 <;> rfl
    | error e => rfl
    | undefined => rfl
    | timeout => rfl

theorem expectLexeme_of_peek_ne {lex : String} {s : Parser} {t : Token}
    (ht : peek 0 s = Res.ok t s) (hl : t.lexeme ≠ lex) :
    expectLexeme lex s = Res.error (ParseError.unexpectedLexeme t.line lex t.lexeme) s := by
  simp [expectLexeme, checkLexeme, P.bind_eq, P.bind, ht, hl, P.pure_eq, P.ret, P.fail]

/-- C5 (missing `;` is fatal).  Whenever `parseDeclStmt(false)` returns, that is, the type
specifier and the declarator list have been read, and the token `t` then under the cursor has a
lexeme other than `;`, `parseDeclStmt(true)` from the same state returns no tree: it stops with
the unexpected-lexeme diagnostic carrying the line of `t`, the expected lexeme `;` and the lexeme
of `t`, printed in the state in which `t` is the current token.  On `int x = 1 }` both
`parseDeclStmt(true)` and `parseStmt` stop at the `}` (position 4) with line of the `}`, expected
`;`, actual `}`. -/
theorem C5_missing_semicolon_fatal :
    (∀ (fuel : Nat) (s s1 : Parser) (node : Node) (t : Token),
      parseDeclStmt fuel false s = Res.ok node s1 → peek 0 s1 = Res.ok t s1 →
      t.lexeme ≠ ";" →
      parseDeclStmt fuel true s =
        Res.error (ParseError.unexpectedLexeme t.line ";" t.lexeme) s1) ∧
    FailsBy 14 (fun n => parseDeclStmt n true) ⟨missingSemiExample, 0⟩
      (ParseError.unexpectedLexeme 8 ";" "\x7d") ⟨missingSemiExample, 4⟩ ∧
    FailsBy 15 parseStmt ⟨missingSemiExample, 0⟩
      (ParseError.unexpectedLexeme 8 ";" "\x7d") ⟨missingSemiExample, 4⟩ := by
  refine ⟨?_, ?_, ?_⟩
  · intro fuel s s1 node t hd ht hl
    rw [parseDeclStmt_true_eq, P.bind_ok hd, P.bind_error (expectLexeme_of_peek_ne ht hl)]
  · exact failsBy_of_eq (f := fun n => parseDeclStmt n true)
      (fun n => (parse_le n).2.2.2.2.2.2.2.1 true) rfl
  · exact failsBy_of_eq (fun n => (parse_le n).2.2.2.1) rfl

theorem C5_missing_semicolon_fatal_witness :
    parseDeclStmt 14 true ⟨missingSemiExample, 0⟩ =
      Res.error (ParseError.unexpectedLexeme 8 ";" "\x7d") ⟨missingSemiExample, 4⟩ :=
  C5_missing_semicolon_fatal.1 14 ⟨missingSemiExample, 0⟩ ⟨missingSemiExample, 4⟩
    (Node.mk "DeclStmt" [Node.mk "TypeSpec" [Node.mk "BaseType(int)" []],
      Node.mk "Declarator" [Node.mk "Var(x)" [], Node.mk "=" [], Node.mk "NUM(1)" []]])
    ⟨"DELIMITER", "\x7d", 8⟩ rfl rfl (by decide)

theorem Node.children_push_back (n c : Node) :
    (n.push_back c).children = n.children ++ [c] := by
  cases n; rfl

theorem parseStars_symbol (n : Nat) : ∀ node0 : Node,
    P.Post (parseStars n node0) (fun node => node.symbol = node0.symbol) := by
  induction n with
  | zero => intro node0; exact P.Post.timeout_post
  | succ k ih =>
    intro node0
    rw [parseStars]
    refine P.Post.bind_post ?_
    intro b
    refine P.Post.ite_post ?_ ?_
    · intro s a s1 h
      have := ih _ s a s1 h
      simp only [Node.symbol_push_back] at this
      exact this
    · exact P.Post.pure_post rfl

theorem parseArraySuffix_symbol (node0 : Node) :
    P.Post (parseArraySuffix node0) (fun node => node.symbol = node0.symbol) := by
  unfold parseArraySuffix
  refine P.Post.bind_post ?_
  intro b
  refine P.Post.ite_post ?_ (P.Post.pure_post rfl)
  refine @P.Post.bind_of _ _ _ _ (fun node : Node => node.symbol = node0.symbol) _ ?_ ?_
  · refine P.Post.bind_post ?_
    intro c
    refine P.Post.ite_post ?_ ?_
    · refine P.Post.bind_post ?_
      intro num
      exact P.Post.pure_post (by simp only [Node.symbol_push_back])
    · exact P.Post.pure_post (by simp only [Node.symbol_push_back])
  · intro n1 h1
    refine P.Post.bind_post ?_
    intro t
    exact P.Post.pure_post (by simp only [Node.symbol_push_back]; exact h1)

theorem parseParam_symbol (n : Nat) :
    P.Post (parseParam n) (fun node => node.symbol = "Param") := by
  unfold parseParam
  dsimp only
  refine P.Post.bind_post ?_
  intro ts
  refine P.Post.bind_of (parseStars_symbol n _) ?_
  intro node h1
  refine P.Post.bind_post ?_
  intro id
  intro s a s1 h
  have := parseArraySuffix_symbol _ s a s1 h
  simp only [Node.symbol_push_back] at this
  rw [this, h1]
  simp only [Node.symbol_push_back]
  rfl

theorem parseParamListLoop_shape (n : Nat) : ∀ node0 : Node,
    P.Post (parseParamListLoop n node0) (fun node => node.symbol = node0.symbol ∧
      ∃ cs, node.children = node0.children ++ cs ∧ ∀ c ∈ cs, c.symbol = "Param") := by
  induction n with
  | zero => intro node0; exact P.Post.timeout_post
  | succ k ih =>
    intro node0
    rw [parseParamListLoop]
    refine P.Post.bind_post ?_
    intro b
    refine P.Post.ite_post ?_ ?_
    · refine P.Post.bind_of (parseParam_symbol k) ?_
      intro prm hprm s a s1 h
      obtain ⟨h1, cs, h2, h3⟩ := ih _ s a s1 h
      rw [Node.symbol_push_back] at h1
      rw [Node.children_push_back, List.append_assoc] at h2
      refine ⟨h1, [prm] ++ cs, h2, ?_⟩
      intro c hc
      rcases List.mem_append.1 hc with hc | hc
      · rw [List.mem_singleton.1 hc]; exact hprm
      · exact h3 c hc
    · exact P.Post.pure_post ⟨rfl, [], (List.append_nil _).symm, fun c hc => absurd hc (List.not_mem_nil c)⟩

theorem parseParamList_shape (n : Nat) :
    P.Post (parseParamList n) (fun node => node.symbol = "ParamList" ∧
      node.children ≠ [] ∧ ∀ c ∈ node.children, c.symbol = "Param") := by
  unfold parseParamList
  dsimp only
  refine P.Post.bind_of (parseParam_symbol n) ?_
  intro prm hprm s a s1 h
  obtain ⟨h1, cs, h2, h3⟩ := parseParamListLoop_shape n _ s a s1 h
  rw [Node.symbol_push_back] at h1
  rw [Node.children_push_back] at h2
  refine ⟨h1, ?_, ?_⟩
  · rw [h2]; simp [Node.children]
  · intro c hc
    rw [h2] at hc
    simp only [Node.children, List.nil_append, List.cons_append, List.mem_cons] at hc
    rcases hc with hc | hc
    · rw [hc]; exact hprm
    · exact h3 c hc

/-! ## The cursor only moves forward -/

theorem P.Forward.bind_forward {α β : Type} {m : P α} {f : α → P β} (hm : P.Forward m)
    (hf : ∀ a, P.Forward (f a)) : P.Forward (m >>= f) := by
  intro s b s2 h
  simp only [P.bind_eq, P.bind] at h
  cases hms : m s with
  | ok a s1 =>
    rw [hms] at h
    obtain ⟨h1, h2⟩ := hm s a s1 hms
    obtain ⟨h3, h4⟩ := hf a s1 b s2 h
    exact ⟨h3.trans h1, le_trans h2 h4⟩
  | error e => rw [hms] at h; exact Res.noConfusion h
  | undefined => rw [hms] at h; exact Res.noConfusion h
  | timeout => rw [hms] at h; exact Res.noConfusion h

theorem P.Forward.pure_forward {α : Type} (a : α) : P.Forward (Pure.pure a : P α) := by
  intro s b s1 h
  simp only [P.pure_eq, P.ret] at h
  cases h
  exact ⟨rfl, le_refl _⟩

theorem P.Forward.ite_forward {α : Type} {c : Prop} [Decidable c] {a b : P α} (ha : P.Forward a)
    (hb : P.Forward b) : P.Forward (if c then a else b) := by
  by_cases h : c
  · simp only [h, if_true]; exact ha
  · simp only [h, if_false]; exact hb

theorem P.Forward.fail_forward {α : Type} (e : ParseError) : P.Forward (P.fail e : P α) :=
  fun _ _ _ h => Res.noConfusion h

theorem P.Forward.timeout_forward {α : Type} : P.Forward (P.timeout : P α) :=
  fun _ _ _ h => Res.noConfusion h

theorem peek_forward (i : Nat) : P.Forward (peek i) := by
  intro s a s1 h
  unfold peek at h
  dsimp only at h
  split at h
  · split at h
    · cases h; exact ⟨rfl, le_refl _⟩
    · exact Res.noConfusion h
  · split at h
    · cases h; exact ⟨rfl, le_refl _⟩
    · exact Res.noConfusion h

theorem advance_forward : P.Forward advance := by
  intro s a s1 h
  unfold advance at h
  split at h
  · cases h; exact ⟨rfl, Nat.le_succ _⟩
  · exact Res.noConfusion h

theorem checkLexeme_forward (lex : String) (i : Nat) : P.Forward (checkLexeme lex i) :=
  P.Forward.bind_forward (peek_forward i) (fun _ => P.Forward.pure_forward _)

theorem checkCategory_forward (cat : String) (i : Nat) : P.Forward (checkCategory cat i) :=
  P.Forward.bind_forward (peek_forward i) (fun _ => P.Forward.pure_forward _)

theorem expectLexeme_forward (lex : String) : P.Forward (expectLexeme lex) :=
  P.Forward.bind_forward (checkLexeme_forward lex 0) (fun _ => P.Forward.ite_forward
    (P.Forward.bind_forward (peek_forward 0) (fun _ => P.Forward.fail_forward _)) advance_forward)

theorem expectCategory_forward (cat : String) : P.Forward (expectCategory cat) :=
  P.Forward.bind_forward (checkCategory_forward cat 0) (fun _ => P.Forward.ite_forward
    (P.Forward.bind_forward (peek_forward 0) (fun _ => P.Forward.fail_forward _)) advance_forward)

theorem matchLexeme_forward (lex : String) : P.Forward (matchLexeme lex) :=
  P.Forward.bind_forward (checkLexeme_forward lex 0) (fun _ => P.Forward.ite_forward
    (P.Forward.bind_forward advance_forward (fun _ => P.Forward.pure_forward _)) (P.Forward.pure_forward _))

theorem parseTypeSpec_forward : P.Forward parseTypeSpec := by
  unfold parseTypeSpec
  repeat' (with_reducible first
    | exact P.Forward.pure_forward _
    | exact P.Forward.fail_forward _
    | exact peek_forward _
    | exact advance_forward
    | exact checkLexeme_forward _ _
    | exact checkCategory_forward _ _
    | exact expectLexeme_forward _
    | exact expectCategory_forward _
    | exact matchLexeme_forward _
    | apply P.Forward.bind_forward
    | apply P.Forward.ite_forward
    | intro _)

theorem parseArraySuffix_forward (node : Node) : P.Forward (parseArraySuffix node) := by
  unfold parseArraySuffix
  repeat' (with_reducible first
    | exact P.Forward.pure_forward _
    | exact advance_forward
    | exact checkCategory_forward _ _
    | exact expectLexeme_forward _
    | exact matchLexeme_forward _
    | apply P.Forward.bind_forward
    | apply P.Forward.ite_forward
    | intro _)

theorem parseStars_forward (n : Nat) : ∀ node, P.Forward (parseStars n node) := by
  induction n with
  | zero => intro node; exact P.Forward.timeout_forward
  | succ k ih =>
    intro node
    have i0 := ih
    rw [parseStars]
    (try dsimp only)
    repeat' (with_reducible first
      | assumption
      | exact P.Forward.pure_forward _
      | exact P.Forward.fail_forward _
      | exact peek_forward _
      | exact advance_forward
      | exact checkLexeme_forward _ _
      | exact checkCategory_forward _ _
      | exact expectLexeme_forward _
      | exact expectCategory_forward _
      | exact matchLexeme_forward _
      | exact parseTypeSpec_forward
      | exact parseArraySuffix_forward _
      | apply ih
      | apply i0
      | apply P.Forward.bind_forward
      | apply P.Forward.ite_forward
      | intro _)

theorem parse_forward (n : Nat) :
    P.Forward (parseCompoundStmt n) ∧
    P.Forward (parseStmtList n) ∧
    (∀ node, P.Forward (parseStmtListLoop n node)) ∧
    P.Forward (parseStmt n) ∧
    P.Forward (parseIfStmt n) ∧
    P.Forward (parseForStmt n) ∧
    P.Forward (parseReturnStmt n) ∧
    (∀ b, P.Forward (parseDeclStmt n b)) ∧
    (∀ node, P.Forward (parseDeclarators n node)) ∧
    P.Forward (parseExprStmt n) ∧
    P.Forward (parseExpr n) ∧
    P.Forward (parseAssignExpr n) ∧
    P.Forward (parseOrExpr n) ∧
    (∀ node, P.Forward (parseOrLoop n node)) ∧
    P.Forward (parseAndExpr n) ∧
    (∀ node, P.Forward (parseAndLoop n node)) ∧
    P.Forward (parseEqualityExpr n) ∧
    (∀ node, P.Forward (parseEqualityLoop n node)) ∧
    P.Forward (parseRelExpr n) ∧
    (∀ node, P.Forward (parseRelLoop n node)) ∧
    P.Forward (parseAddExpr n) ∧
    (∀ node, P.Forward (parseAddLoop n node)) ∧
    P.Forward (parseMulExpr n) ∧
    (∀ node, P.Forward (parseMulLoop n node)) ∧
    P.Forward (parseUnaryExpr n) ∧
    P.Forward (parsePostfixExpr n) ∧
    (∀ node, P.Forward (parsePostfixLoop n node)) ∧
    (∀ node, P.Forward (parseArgsLoop n node)) ∧
    P.Forward (parsePrimary n) := by
  induction n with
  | zero =>
    refine ⟨?_, ?_, ?_, ?_, ?_, ?_, ?_, ?_, ?_, ?_, ?_, ?_, ?_, ?_, ?_, ?_, ?_, ?_, ?_, ?_, ?_, ?_, ?_, ?_, ?_, ?_, ?_, ?_, ?_⟩ <;> intros <;> exact P.Forward.timeout_forward
  | succ k ih =>
    obtain ⟨i1, i2, i3, i4, i5, i6, i7, i8, i9, i10, i11, i12, i13, i14, i15, i16, i17, i18, i19, i20, i21, i22, i23, i24, i25, i26, i27, i28, i29⟩ := ih
    have i0 := parseStars_forward k
    refine ⟨?_, ?_, ?_, ?_, ?_, ?_, ?_, ?_, ?_, ?_, ?_, ?_, ?_, ?_, ?_, ?_, ?_, ?_, ?_, ?_, ?_, ?_, ?_, ?_, ?_, ?_, ?_, ?_, ?_⟩ <;> intros <;>
    (first
      | rw [parseCompoundStmt]
      | rw [parseStmtList]
      | rw [parseStmtListLoop]
      | rw [parseStmt]
      | rw [parseIfStmt]
      | rw [parseForStmt]
      | rw [parseReturnStmt]
      | rw [parseDeclStmt]
      | rw [parseDeclarators]
      | rw [parseExprStmt]
      | rw [parseExpr]
      | rw [parseAssignExpr]
      | rw [parseOrExpr]
      | rw [parseOrLoop]
      | rw [parseAndExpr]
      | rw [parseAndLoop]
      | rw [parseEqualityExpr]
      | rw [parseEqualityLoop]
      | rw [parseRelExpr]
      | rw [parseRelLoop]
      | rw [parseAddExpr]
      | rw [parseAddLoop]
      | rw [parseMulExpr]
      | rw [parseMulLoop]
      | rw [parseUnaryExpr]
      | rw [parsePostfixExpr]
      | rw [parsePostfixLoop]
      | rw [parseArgsLoop]
      | rw [parsePrimary]) <;>
    (try dsimp only) <;>
    repeat' (with_reducible first
      | assumption
      | apply i3 | apply i8 | apply i9 | apply i14 | apply i16 | apply i18 | apply i20 | apply i22 | apply i24 | apply i27 | apply i28
      | exact P.Forward.pure_forward _
      | exact P.Forward.fail_forward _
      | exact peek_forward _
      | exact advance_forward
      | exact checkLexeme_forward _ _
      | exact checkCategory_forward _ _
      | exact expectLexeme_forward _
      | exact expectCategory_forward _
      | exact matchLexeme_forward _
      | exact parseTypeSpec_forward
      | exact parseArraySuffix_forward _
      | apply i0
      | apply P.Forward.bind_forward
      | apply P.Forward.ite_forward
      | intro _)

theorem parseParam_forward (n : Nat) : P.Forward (parseParam n) := by
  have i0 := parseStars_forward n
  unfold parseParam
  (try dsimp only)
  repeat' (with_reducible first
    | assumption
    | exact P.Forward.pure_forward _
    | exact P.Forward.fail_forward _
    | exact peek_forward _
    | exact advance_forward
    | exact checkLexeme_forward _ _
    | exact checkCategory_forward _ _
    | exact expectLexeme_forward _
    | exact expectCategory_forward _
    | exact matchLexeme_forward _
    | exact parseTypeSpec_forward
    | exact parseArraySuffix_forward _
    | apply i0
    | apply P.Forward.bind_forward
    | apply P.Forward.ite_forward
    | intro _)

theorem parseParamListLoop_forward (n : Nat) : ∀ node, P.Forward (parseParamListLoop n node) := by
  induction n with
  | zero => intro node; exact P.Forward.timeout_forward
  | succ k ih =>
    intro node
    have i0 := parseParam_forward k
    rw [parseParamListLoop]
    (try dsimp only)
    repeat' (with_reducible first
      | assumption
      | exact P.Forward.pure_forward _
      | exact P.Forward.fail_forward _
      | exact peek_forward _
      | exact advance_forward
      | exact checkLexeme_forward _ _
      | exact checkCategory_forward _ _
      | exact expectLexeme_forward _
      | exact expectCategory_forward _
      | exact matchLexeme_forward _
      | exact parseTypeSpec_forward
      | exact parseArraySuffix_forward _
      | apply ih
      | apply i0
      | apply P.Forward.bind_forward
      | apply P.Forward.ite_forward
      | intro _)

theorem parseParamList_forward (n : Nat) : P.Forward (parseParamList n) := by
  have i0 := parseParam_forward n
  have i1 := parseParamListLoop_forward n
  unfold parseParamList
  (try dsimp only)
  repeat' (with_reducible first
    | assumption
    | exact P.Forward.pure_forward _
    | exact P.Forward.fail_forward _
    | exact peek_forward _
    | exact advance_forward
    | exact checkLexeme_forward _ _
    | exact checkCategory_forward _ _
    | exact expectLexeme_forward _
    | exact expectCategory_forward _
    | exact matchLexeme_forward _
    | exact parseTypeSpec_forward
    | exact parseArraySuffix_forward _
    | apply i0
    | apply i1
    | apply P.Forward.bind_forward
    | apply P.Forward.ite_forward
    | intro _)

theorem parseParamListOpt_forward (n : Nat) : P.Forward (parseParamListOpt n) := by
  have i0 := parseParamList_forward n
  unfold parseParamListOpt
  (try dsimp only)
  repeat' (with_reducible first
    | assumption
    | exact P.Forward.pure_forward _
    | exact P.Forward.fail_forward _
    | exact peek_forward _
    | exact advance_forward
    | exact checkLexeme_forward _ _
    | exact checkCategory_forward _ _
    | exact expectLexeme_forward _
    | exact expectCategory_forward _
    | exact matchLexeme_forward _
    | exact parseTypeSpec_forward
    | exact parseArraySuffix_forward _
    | apply i0
    | apply P.Forward.bind_forward
    | apply P.Forward.ite_forward
    | intro _)

theorem parseFunctionDecl_forward (n : Nat) : P.Forward (parseFunctionDecl n) := by
  have i0 := parseParamListOpt_forward n
  have i1 := (parse_forward n).1
  unfold parseFunctionDecl
  (try dsimp only)
  repeat' (with_reducible first
    | assumption
    | exact P.Forward.pure_forward _
    | exact P.Forward.fail_forward _
    | exact peek_forward _
    | exact advance_forward
    | exact checkLexeme_forward _ _
    | exact checkCategory_forward _ _
    | exact expectLexeme_forward _
    | exact expectCategory_forward _
    | exact matchLexeme_forward _
    | exact parseTypeSpec_forward
    | exact parseArraySuffix_forward _
    | apply i0
    | apply P.Forward.bind_forward
    | apply P.Forward.ite_forward
    | intro _)

theorem parseStructMembers_forward (n : Nat) : ∀ node, P.Forward (parseStructMembers n node) := by
  induction n with
  | zero => intro node; exact P.Forward.timeout_forward
  | succ k ih =>
    intro node
    have i0 := (parse_forward k).2.2.2.2.2.2.2.1 true
    rw [parseStructMembers]
    (try dsimp only)
    repeat' (with_reducible first
      | assumption
      | exact P.Forward.pure_forward _
      | exact P.Forward.fail_forward _
      | exact peek_forward _
      | exact advance_forward
      | exact checkLexeme_forward _ _
      | exact checkCategory_forward _ _
      | exact expectLexeme_forward _
      | exact expectCategory_forward _
      | exact matchLexeme_forward _
      | exact parseTypeSpec_forward
      | exact parseArraySuffix_forward _
      | apply ih
      | apply i0
      | apply P.Forward.bind_forward
      | apply P.Forward.ite_forward
      | intro _)

theorem parseStructDecl_forward (n : Nat) : P.Forward (parseStructDecl n) := by
  have i0 := parseStructMembers_forward n
  unfold parseStructDecl
  (try dsimp only)
  repeat' (with_reducible first
    | assumption
    | exact P.Forward.pure_forward _
    | exact P.Forward.fail_forward _
    | exact peek_forward _
    | exact advance_forward
    | exact checkLexeme_forward _ _
    | exact checkCategory_forward _ _
    | exact expectLexeme_forward _
    | exact expectCategory_forward _
    | exact matchLexeme_forward _
    | exact parseTypeSpec_forward
    | exact parseArraySuffix_forward _
    | apply i0
    | apply P.Forward.bind_forward
    | apply P.Forward.ite_forward
    | intro _)

theorem parseExternalDecl_forward (n : Nat) : P.Forward (parseExternalDecl n) := by
  have i0 := parseStructDecl_forward n
  have i1 := parseFunctionDecl_forward n
  unfold parseExternalDecl
  (try dsimp only)
  repeat' (with_reducible first
    | assumption
    | exact P.Forward.pure_forward _
    | exact P.Forward.fail_forward _
    | exact peek_forward _
    | exact advance_forward
    | exact checkLexeme_forward _ _
    | exact checkCategory_forward _ _
    | exact expectLexeme_forward _
    | exact expectCategory_forward _
    | exact matchLexeme_forward _
    | exact parseTypeSpec_forward
    | exact parseArraySuffix_forward _
    | apply i0
    | apply P.Forward.bind_forward
    | apply P.Forward.ite_forward
    | intro _)

theorem parseProgramLoop_forward (n : Nat) : ∀ node, P.Forward (parseProgramLoop n node) := by
  induction n with
  | zero => intro node; exact P.Forward.timeout_forward
  | succ k ih =>
    intro node
    have i0 := parseExternalDecl_forward k
    rw [parseProgramLoop]
    (try dsimp only)
    repeat' (with_reducible first
      | assumption
      | exact P.Forward.pure_forward _
      | exact P.Forward.fail_forward _
      | exact peek_forward _
      | exact advance_forward
      | exact checkLexeme_forward _ _
      | exact checkCategory_forward _ _
      | exact expectLexeme_forward _
      | exact expectCategory_forward _
      | exact matchLexeme_forward _
      | exact parseTypeSpec_forward
      | exact parseArraySuffix_forward _
      | apply ih
      | apply i0
      | apply P.Forward.bind_forward
      | apply P.Forward.ite_forward
      | intro _)

theorem parseProgram_forward (n : Nat) : P.Forward (parseProgram n) :=
  parseProgramLoop_forward n _

/-- C8 (cursor monotonicity).  For each cursor helper (`advance`, `matchLexeme`, `expectLexeme`,
`expectCategory`) and each grammar-rule function from `parseProgram` down to `parsePrimary`, from
every parser state and with every fuel: if the call returns normally, the token sequence of the
state afterwards is the one before and the cursor position afterwards is greater than or equal
to the position before (`P.Forward`). -/
theorem C8_cursor_monotone (fuel : Nat) (withSemi : Bool) (lex cat : String) :
    P.Forward advance ∧ P.Forward (matchLexeme lex) ∧ P.Forward (expectLexeme lex) ∧
    P.Forward (expectCategory cat) ∧
    P.Forward (parseProgram fuel) ∧
    P.Forward (parseExternalDecl fuel) ∧
    P.Forward (parseStructDecl fuel) ∧
    P.Forward (parseFunctionDecl fuel) ∧
    P.Forward parseTypeSpec ∧
    P.Forward (parseParamListOpt fuel) ∧
    P.Forward (parseParamList fuel) ∧
    P.Forward (parseParam fuel) ∧
    P.Forward (parseCompoundStmt fuel) ∧
    P.Forward (parseStmtList fuel) ∧
    P.Forward (parseStmt fuel) ∧
    P.Forward (parseIfStmt fuel) ∧
    P.Forward (parseForStmt fuel) ∧
    P.Forward (parseReturnStmt fuel) ∧
    P.Forward (parseDeclStmt fuel withSemi) ∧
    P.Forward (parseExprStmt fuel) ∧
    P.Forward (parseExpr fuel) ∧
    P.Forward (parseAssignExpr fuel) ∧
    P.Forward (parseOrExpr fuel) ∧
    P.Forward (parseAndExpr fuel) ∧
    P.Forward (parseEqualityExpr fuel) ∧
    P.Forward (parseRelExpr fuel) ∧
    P.Forward (parseAddExpr fuel) ∧
    P.Forward (parseMulExpr fuel) ∧
    P.Forward (parseUnaryExpr fuel) ∧
    P.Forward (parsePostfixExpr fuel) ∧
    P.Forward (parsePrimary fuel) :=
  ⟨advance_forward, matchLexeme_forward lex, expectLexeme_forward lex,
    expectCategory_forward cat,
    parseProgram_forward fuel,
    parseExternalDecl_forward fuel,
    parseStructDecl_forward fuel,
    parseFunctionDecl_forward fuel,
    parseTypeSpec_forward,
    parseParamListOpt_forward fuel,
    parseParamList_forward fuel,
    parseParam_forward fuel,
    (parse_forward fuel).1,
    (parse_forward fuel).2.1,
    (parse_forward fuel).2.2.2.1,
    (parse_forward fuel).2.2.2.2.1,
    (parse_forward fuel).2.2.2.2.2.1,
    (parse_forward fuel).2.2.2.2.2.2.1,
    (parse_forward fuel).2.2.2.2.2.2.2.1 withSemi,
    (parse_forward fuel).2.2.2.2.2.2.2.2.2.1,
    (parse_forward fuel).2.2.2.2.2.2.2.2.2.2.1,
    (parse_forward fuel).2.2.2.2.2.2.2.2.2.2.2.1,
    (parse_forward fuel).2.2.2.2.2.2.2.2.2.2.2.2.1,
    (parse_forward fuel).2.2.2.2.2.2.2.2.2.2.2.2.2.2.1,
    (parse_forward fuel).2.2.2.2.2.2.2.2.2.2.2.2.2.2.2.2.1,
    (parse_forward fuel).2.2.2.2.2.2.2.2.2.2.2.2.2.2.2.2.2.2.1,
    (parse_forward fuel).2.2.2.2.2.2.2.2.2.2.2.2.2.2.2.2.2.2.2.2.1,
    (parse_forward fuel).2.2.2.2.2.2.2.2.2.2.2.2.2.2.2.2.2.2.2.2.2.2.1,
    (parse_forward fuel).2.2.2.2.2.2.2.2.2.2.2.2.2.2.2.2.2.2.2.2.2.2.2.2.1,
    (parse_forward fuel).2.2.2.2.2.2.2.2.2.2.2.2.2.2.2.2.2.2.2.2.2.2.2.2.2.1,
    (parse_forward fuel).2.2.2.2.2.2.2.2.2.2.2.2.2.2.2.2.2.2.2.2.2.2.2.2.2.2.2.2⟩

theorem C8_cursor_monotone_witness :
    (⟨emptyParamsExample, 6⟩ : Parser).tokens = (⟨emptyParamsExample, 0⟩ : Parser).tokens ∧
      (⟨emptyParamsExample, 0⟩ : Parser).pos ≤ (⟨emptyParamsExample, 6⟩ : Parser).pos :=
  (C8_cursor_monotone 4 true ";" "IDENTIFIER").2.2.2.2.1 ⟨emptyParamsExample, 0⟩
    (Node.mk "Program" [Node.mk "FunctionDecl" [
        Node.mk "TypeSpec" [Node.mk "BaseType(int)" []], Node.mk "FuncName(f)" [],
        Node.mk "ParamList(ε)" [], Node.mk "CompoundStmt" [Node.mk "StmtList" []]]])
    ⟨emptyParamsExample, 6⟩ rfl

/-! ## The cursor never passes the final sentinel -/

theorem P.Safe.intro_safe {α : Type} {m : P α} (h : ∀ s, InRange s → P.SafeAt s m) : P.Safe m := h

theorem P.SafeAt.of_safe {α : Type} {m : P α} {s : Parser} (h : P.Safe m) (hs : InRange s) :
    P.SafeAt s m := h s hs

theorem P.SafeAt.pure_safeAt {α : Type} {s : Parser} (a : α) (hs : InRange s) :
    P.SafeAt s (Pure.pure a : P α) := by
  intro b s1 h
  simp only [P.pure_eq, P.ret] at h
  cases h
  exact ⟨rfl, hs.2⟩

theorem P.SafeAt.fail_safeAt {α : Type} {s : Parser} (e : ParseError) :
    P.SafeAt s (P.fail e : P α) := fun _ _ h => Res.noConfusion h

theorem P.SafeAt.timeout_safeAt {α : Type} {s : Parser} : P.SafeAt s (P.timeout : P α) :=
  fun _ _ h => Res.noConfusion h

theorem P.Safe.timeout_safe {α : Type} : P.Safe (P.timeout : P α) :=
  fun _ _ => P.SafeAt.timeout_safeAt

theorem P.SafeAt.bind_at {α β : Type} {m : P α} {f : α → P β} {s : Parser}
    (hm : P.SafeAt s m) (hs : InRange s) (hf : ∀ a s1, InRange s1 → P.SafeAt s1 (f a)) :
    P.SafeAt s (m >>= f) := by
  intro b s2 h
  simp only [P.bind_eq, P.bind] at h
  cases hms : m s with
  | ok a s1 =>
    rw [hms] at h
    obtain ⟨h1, h2⟩ := hm a s1 hms
    have hs1 : InRange s1 := ⟨by rw [h1]; exact hs.1, h2⟩
    obtain ⟨h3, h4⟩ := hf a s1 hs1 b s2 h
    exact ⟨h3.trans h1, h4⟩
  | error e => rw [hms] at h; exact Res.noConfusion h
  | undefined => rw [hms] at h; exact Res.noConfusion h
  | timeout => rw [hms] at h; exact Res.noConfusion h

theorem look_skip (s : Parser) (k i : Nat) : look (skip s k) i = look s (k + i) := by
  unfold look skip
  simp only [Nat.add_assoc]

theorem P.SafeAt.ite_safeAt {α : Type} {c : Prop} [Decidable c] {a b : P α} {s : Parser}
    (ha : c → P.SafeAt s a) (hb : ¬ c → P.SafeAt s b) : P.SafeAt s (if c then a else b) := by
  by_cases h : c
  · simp only [h, if_true]; exact ha h
  · simp only [h, if_false]; exact hb h

theorem InRange.ne_nil {s : Parser} (hs : InRange s) : s.tokens ≠ [] := tokens_ne_nil hs.2

theorem P.SafeAt.of_peek_safeAt {β : Type} {f : Token → P β} {s : Parser} (i : Nat) (hs : InRange s)
    (hf : P.SafeAt s (f (look s i))) : P.SafeAt s (peek i >>= f) := by
  intro b s2 h
  rw [P.bind_ok (peek_look i s hs.ne_nil)] at h
  exact hf b s2 h

theorem P.SafeAt.of_checkLexeme_safeAt {β : Type} {f : Bool → P β} {s : Parser} (lex : String) (i : Nat)
    (hs : InRange s) (hf : P.SafeAt s (f ((look s i).lexeme == lex))) :
    P.SafeAt s (checkLexeme lex i >>= f) := by
  intro b s2 h
  rw [P.bind_ok (checkLexeme_look lex i s hs.ne_nil)] at h
  exact hf b s2 h

theorem P.SafeAt.of_checkCategory_safeAt {β : Type} {f : Bool → P β} {s : Parser} (cat : String)
    (i : Nat) (hs : InRange s) (hf : P.SafeAt s (f ((look s i).category == cat))) :
    P.SafeAt s (checkCategory cat i >>= f) := by
  intro b s2 h
  rw [P.bind_ok (checkCategory_look cat i s hs.ne_nil)] at h
  exact hf b s2 h

/-- Moving past a token that is not the sentinel keeps the cursor in range. -/
theorem InRange.skip {s : Parser} (hs : InRange s) (hne : notSentinel (look s 0)) :
    InRange (skip s 1) := by
  obtain ⟨⟨t, ht, hc, hl⟩, hp⟩ := hs
  refine ⟨⟨t, ht, hc, hl⟩, ?_⟩
  show s.pos + 1 < s.tokens.length
  by_contra hge
  have hlast : s.pos = s.tokens.length - 1 := by omega
  have h0 : s.tokens[s.pos]? = some t := by
    rw [hlast, ← List.getLast?_eq_getElem?]; exact ht
  have : look s 0 = t := look_of_lt (i := 0) h0
  rw [this] at hne
  exact hne ⟨hl, hc⟩

theorem P.SafeAt.step_safeAt {β : Type} {f : Token → P β} {s : Parser}
    (hne : (look s 0).lexeme = "EOF" → (look s 0).category = "EOF" → False) (hs : InRange s)
    (hf : InRange (skip s 1) → P.SafeAt (skip s 1) (f (look s 0))) :
    P.SafeAt s (advance >>= f) := by
  intro b s2 h
  rw [P.bind_ok (advance_look s hs.2)] at h
  exact hf (hs.skip (fun h => hne h.1 h.2)) b s2 h

theorem P.SafeAt.last_step {s : Parser} (hne : notSentinel (look s 0)) (hs : InRange s) :
    P.SafeAt s advance := by
  intro b s2 h
  rw [advance_look s hs.2] at h
  cases h
  exact ⟨rfl, (hs.skip hne).2⟩

theorem expectLexeme_safe (lex : String) (hl : lex ≠ "EOF") : P.Safe (expectLexeme lex) := by
  intro s hs
  unfold expectLexeme
  refine P.SafeAt.of_checkLexeme_safeAt lex 0 hs (P.SafeAt.ite_safeAt (fun _ => ?_) (fun hc => ?_))
  · exact P.SafeAt.of_peek_safeAt 0 hs (P.SafeAt.fail_safeAt _)
  · refine P.SafeAt.last_step ?_ hs
    rintro ⟨h1, -⟩
    simp [h1, Ne.symm hl] at hc

theorem expectCategory_safe (cat : String) (hl : cat ≠ "EOF") :
    P.Safe (expectCategory cat) := by
  intro s hs
  unfold expectCategory
  refine P.SafeAt.of_checkCategory_safeAt cat 0 hs (P.SafeAt.ite_safeAt (fun _ => ?_) (fun hc => ?_))
  · exact P.SafeAt.of_peek_safeAt 0 hs (P.SafeAt.fail_safeAt _)
  · refine P.SafeAt.last_step ?_ hs
    rintro ⟨-, h1⟩
    simp [h1, Ne.symm hl] at hc

theorem matchLexeme_safe (lex : String) (hl : lex ≠ "EOF") : P.Safe (matchLexeme lex) := by
  intro s hs
  unfold matchLexeme
  refine P.SafeAt.of_checkLexeme_safeAt lex 0 hs (P.SafeAt.ite_safeAt (fun hc => ?_) (fun _ => ?_))
  · refine P.SafeAt.step_safeAt ?_ hs (fun h1 => P.SafeAt.pure_safeAt _ h1)
    intro h1 _
    simp [h1, Ne.symm hl] at hc
  · exact P.SafeAt.pure_safeAt _ hs

theorem parseTypeSpec_safe : P.Safe parseTypeSpec := by
  unfold parseTypeSpec
  dsimp only
  refine P.Safe.intro_safe ?_
  intro s hs
  repeat' (with_reducible first
    | (apply P.SafeAt.pure_safeAt; assumption)
    | apply P.SafeAt.fail_safeAt
    | (apply P.SafeAt.of_safe <;> assumption)
    | (apply P.SafeAt.of_safe (matchLexeme_safe _ (by decide)); assumption)
    | (apply P.SafeAt.of_safe (expectLexeme_safe _ (by decide)); assumption)
    | (apply P.SafeAt.of_safe (expectCategory_safe _ (by decide)); assumption)
    | (apply P.SafeAt.of_checkLexeme_safeAt _ _ (by assumption))
    | (apply P.SafeAt.of_checkCategory_safeAt _ _ (by assumption))
    | (apply P.SafeAt.of_peek_safeAt _ (by assumption))
    | (apply P.SafeAt.step_safeAt ?_ (by assumption) ?_; · intro h1 h2; simp [h1, h2] at hc)
    | (apply P.SafeAt.step_safeAt ?_ (by assumption) ?_; · intro h1 h2; (try simp only [look_skip] at h1 h2); simp_all)
    | (apply P.SafeAt.ite_safeAt <;> intro hc)
    | (apply P.SafeAt.bind_at ?_ (by assumption) ?_)
    | intro _)

theorem parseArraySuffix_safe (node : Node) : P.Safe (parseArraySuffix node) := by
  unfold parseArraySuffix
  refine P.Safe.intro_safe ?_
  intro s hs
  repeat' (with_reducible first
    | (apply P.SafeAt.pure_safeAt; assumption)
    | apply P.SafeAt.fail_safeAt
    | (apply P.SafeAt.of_safe <;> assumption)
    | (apply P.SafeAt.of_safe (matchLexeme_safe _ (by decide)); assumption)
    | (apply P.SafeAt.of_safe (expectLexeme_safe _ (by decide)); assumption)
    | (apply P.SafeAt.of_safe (expectCategory_safe _ (by decide)); assumption)
    | (apply P.SafeAt.of_checkLexeme_safeAt _ _ (by assumption))
    | (apply P.SafeAt.of_checkCategory_safeAt _ _ (by assumption))
    | (apply P.SafeAt.of_peek_safeAt _ (by assumption))
    | (apply P.SafeAt.step_safeAt ?_ (by assumption) ?_; · intro h1 h2; simp [h1, h2] at hc)
    | (apply P.SafeAt.step_safeAt ?_ (by assumption) ?_; · intro h1 h2; (try simp only [look_skip] at h1 h2); simp_all)
    | (apply P.SafeAt.ite_safeAt <;> intro hc)
    | (apply P.SafeAt.bind_at ?_ (by assumption) ?_)
    | intro _)

theorem parseStars_safe (n : Nat) : ∀ node, P.Safe (parseStars n node) := by
  induction n with
  | zero => intro node; exact P.Safe.timeout_safe
  | succ k ih =>
    intro node
    rw [parseStars]
    (try dsimp only)
    refine P.Safe.intro_safe ?_
    intro s hs
    repeat' (with_reducible first
      | (apply P.SafeAt.pure_safeAt; assumption)
      | apply P.SafeAt.fail_safeAt
      | (apply P.SafeAt.of_safe <;> assumption)
      | (apply P.SafeAt.of_safe (matchLexeme_safe _ (by decide)); assumption)
      | (apply P.SafeAt.of_safe (expectLexeme_safe _ (by decide)); assumption)
      | (apply P.SafeAt.of_safe (expectCategory_safe _ (by decide)); assumption)
      | (apply P.SafeAt.of_safe parseTypeSpec_safe; assumption)
      | (apply P.SafeAt.of_safe (parseArraySuffix_safe _); assumption)
      | (apply P.SafeAt.of_safe (ih _); assumption)
      | (apply P.SafeAt.of_checkLexeme_safeAt _ _ (by assumption))
      | (apply P.SafeAt.of_checkCategory_safeAt _ _ (by assumption))
      | (apply P.SafeAt.of_peek_safeAt _ (by assumption))
      | (apply P.SafeAt.step_safeAt ?_ (by assumption) ?_; · intro h1 h2; simp [h1, h2] at hc)
      | (apply P.SafeAt.step_safeAt ?_ (by assumption) ?_; · intro h1 h2; (try simp only [look_skip] at h1 h2); simp_all)
      | (apply P.SafeAt.ite_safeAt <;> intro hc)
      | (apply P.SafeAt.bind_at ?_ (by assumption) ?_)
      | intro _)

set_option maxHeartbeats 4000000 in
theorem parse_safe (n : Nat) :
    P.Safe (parseCompoundStmt n) ∧
    P.Safe (parseStmtList n) ∧
    (∀ node, P.Safe (parseStmtListLoop n node)) ∧
    P.Safe (parseStmt n) ∧
    P.Safe (parseIfStmt n) ∧
    P.Safe (parseForStmt n) ∧
    P.Safe (parseReturnStmt n) ∧
    (∀ b, P.Safe (parseDeclStmt n b)) ∧
    (∀ node, P.Safe (parseDeclarators n node)) ∧
    P.Safe (parseExprStmt n) ∧
    P.Safe (parseExpr n) ∧
    P.Safe (parseAssignExpr n) ∧
    P.Safe (parseOrExpr n) ∧
    (∀ node, P.Safe (parseOrLoop n node)) ∧
    P.Safe (parseAndExpr n) ∧
    (∀ node, P.Safe (parseAndLoop n node)) ∧
    P.Safe (parseEqualityExpr n) ∧
    (∀ node, P.Safe (parseEqualityLoop n node)) ∧
    P.Safe (parseRelExpr n) ∧
    (∀ node, P.Safe (parseRelLoop n node)) ∧
    P.Safe (parseAddExpr n) ∧
    (∀ node, P.Safe (parseAddLoop n node)) ∧
    P.Safe (parseMulExpr n) ∧
    (∀ node, P.Safe (parseMulLoop n node)) ∧
    P.Safe (parseUnaryExpr n) ∧
    P.Safe (parsePostfixExpr n) ∧
    (∀ node, P.Safe (parsePostfixLoop n node)) ∧
    (∀ node, P.Safe (parseArgsLoop n node)) ∧
    P.Safe (parsePrimary n) := by
  induction n with
  | zero =>
    refine ⟨?_, ?_, ?_, ?_, ?_, ?_, ?_, ?_, ?_, ?_, ?_, ?_, ?_, ?_, ?_, ?_, ?_, ?_, ?_, ?_, ?_, ?_, ?_, ?_, ?_, ?_, ?_, ?_, ?_⟩ <;> intros <;> exact P.Safe.timeout_safe
  | succ k ih =>
    obtain ⟨i1, i2, i3, i4, i5, i6, i7, i8, i9, i10, i11, i12, i13, i14, i15, i16, i17, i18, i19, i20, i21, i22, i23, i24, i25, i26, i27, i28, i29⟩ := ih
    have i0 := parseStars_safe k
    refine ⟨?_, ?_, ?_, ?_, ?_, ?_, ?_, ?_, ?_, ?_, ?_, ?_, ?_, ?_, ?_, ?_, ?_, ?_, ?_, ?_, ?_, ?_, ?_, ?_, ?_, ?_, ?_, ?_, ?_⟩ <;> intros
    on_goal 1 => rw [parseCompoundStmt]
    on_goal 2 => rw [parseStmtList]
    on_goal 3 => rw [parseStmtListLoop]
    on_goal 4 => rw [parseStmt]
    on_goal 5 => rw [parseIfStmt]
    on_goal 6 => rw [parseForStmt]
    on_goal 7 => rw [parseReturnStmt]
    on_goal 8 => rw [parseDeclStmt]
    on_goal 9 => rw [parseDeclarators]
    on_goal 10 => rw [parseExprStmt]
    on_goal 11 => rw [parseExpr]
    on_goal 12 => rw [parseAssignExpr]
    on_goal 13 => rw [parseOrExpr]
    on_goal 14 => rw [parseOrLoop]
    on_goal 15 => rw [parseAndExpr]
    on_goal 16 => rw [parseAndLoop]
    on_goal 17 => rw [parseEqualityExpr]
    on_goal 18 => rw [parseEqualityLoop]
    on_goal 19 => rw [parseRelExpr]
    on_goal 20 => rw [parseRelLoop]
    on_goal 21 => rw [parseAddExpr]
    on_goal 22 => rw [parseAddLoop]
    on_goal 23 => rw [parseMulExpr]
    on_goal 24 => rw [parseMulLoop]
    on_goal 25 => rw [parseUnaryExpr]
    on_goal 26 => rw [parsePostfixExpr]
    on_goal 27 => rw [parsePostfixLoop]
    on_goal 28 => rw [parseArgsLoop]
    on_goal 29 => rw [parsePrimary]
    all_goals (try dsimp only)
    all_goals refine P.Safe.intro_safe ?_
    all_goals intro s hs
    all_goals
      repeat' (with_reducible first
        | (apply P.SafeAt.pure_safeAt; assumption)
        | apply P.SafeAt.fail_safeAt
        | (apply P.SafeAt.of_safe <;> assumption)
        | (apply P.SafeAt.of_safe (matchLexeme_safe _ (by decide)); assumption)
        | (apply P.SafeAt.of_safe (expectLexeme_safe _ (by decide)); assumption)
        | (apply P.SafeAt.of_safe (expectCategory_safe _ (by decide)); assumption)
        | (apply P.SafeAt.of_safe parseTypeSpec_safe; assumption)
        | (apply P.SafeAt.of_safe (parseArraySuffix_safe _); assumption)
        | (apply P.SafeAt.of_safe (i0 _); assumption)
        | (apply P.SafeAt.of_safe (i3 _); assumption)
        | (apply P.SafeAt.of_safe (i8 _); assumption)
        | (apply P.SafeAt.of_safe (i9 _); assumption)
        | (apply P.SafeAt.of_safe (i14 _); assumption)
        | (apply P.SafeAt.of_safe (i16 _); assumption)
        | (apply P.SafeAt.of_safe (i18 _); assumption)
        | (apply P.SafeAt.of_safe (i20 _); assumption)
        | (apply P.SafeAt.of_safe (i22 _); assumption)
        | (apply P.SafeAt.of_safe (i24 _); assumption)
        | (apply P.SafeAt.of_safe (i27 _); assumption)
        | (apply P.SafeAt.of_safe (i28 _); assumption)
        | (apply P.SafeAt.of_checkLexeme_safeAt _ _ (by assumption))
        | (apply P.SafeAt.of_checkCategory_safeAt _ _ (by assumption))
        | (apply P.SafeAt.of_peek_safeAt _ (by assumption))
        | (apply P.SafeAt.step_safeAt ?_ (by assumption) ?_; · intro h1 h2; simp [h1, h2] at hc)
        | (apply P.SafeAt.step_safeAt ?_ (by assumption) ?_; · intro h1 h2; (try simp only [look_skip] at h1 h2); simp_all)
        | (apply P.SafeAt.ite_safeAt <;> intro hc)
        | (apply P.SafeAt.bind_at ?_ (by assumption) ?_)
        | intro _)

theorem parseParam_safe (n : Nat) : P.Safe (parseParam n) := by
  have i0 := parseStars_safe n
  unfold parseParam
  (try dsimp only)
  refine P.Safe.intro_safe ?_
  intro s hs
  repeat' (with_reducible first
    | (apply P.SafeAt.pure_safeAt; assumption)
    | apply P.SafeAt.fail_safeAt
    | (apply P.SafeAt.of_safe <;> assumption)
    | (apply P.SafeAt.of_safe (matchLexeme_safe _ (by decide)); assumption)
    | (apply P.SafeAt.of_safe (expectLexeme_safe _ (by decide)); assumption)
    | (apply P.SafeAt.of_safe (expectCategory_safe _ (by decide)); assumption)
    | (apply P.SafeAt.of_safe parseTypeSpec_safe; assumption)
    | (apply P.SafeAt.of_safe (parseArraySuffix_safe _); assumption)
    | (apply P.SafeAt.of_safe (i0 _); assumption)
    | (apply P.SafeAt.of_checkLexeme_safeAt _ _ (by assumption))
    | (apply P.SafeAt.of_checkCategory_safeAt _ _ (by assumption))
    | (apply P.SafeAt.of_peek_safeAt _ (by assumption))
    | (apply P.SafeAt.step_safeAt ?_ (by assumption) ?_; · intro h1 h2; simp [h1, h2] at hc)
    | (apply P.SafeAt.step_safeAt ?_ (by assumption) ?_; · intro h1 h2; (try simp only [look_skip] at h1 h2); simp_all)
    | (apply P.SafeAt.ite_safeAt <;> intro hc)
    | (apply P.SafeAt.bind_at ?_ (by assumption) ?_)
    | intro _)

theorem parseParamListLoop_safe (n : Nat) : ∀ node, P.Safe (parseParamListLoop n node) := by
  induction n with
  | zero => intro node; exact P.Safe.timeout_safe
  | succ k ih =>
    intro node
    have i0 := parseParam_safe k
    rw [parseParamListLoop]
    (try dsimp only)
    refine P.Safe.intro_safe ?_
    intro s hs
    repeat' (with_reducible first
      | (apply P.SafeAt.pure_safeAt; assumption)
      | apply P.SafeAt.fail_safeAt
      | (apply P.SafeAt.of_safe <;> assumption)
      | (apply P.SafeAt.of_safe (matchLexeme_safe _ (by decide)); assumption)
      | (apply P.SafeAt.of_safe (expectLexeme_safe _ (by decide)); assumption)
      | (apply P.SafeAt.of_safe (expectCategory_safe _ (by decide)); assumption)
      | (apply P.SafeAt.of_safe parseTypeSpec_safe; assumption)
      | (apply P.SafeAt.of_safe (parseArraySuffix_safe _); assumption)
      | (apply P.SafeAt.of_safe (ih _); assumption)
      | (apply P.SafeAt.of_checkLexeme_safeAt _ _ (by assumption))
      | (apply P.SafeAt.of_checkCategory_safeAt _ _ (by assumption))
      | (apply P.SafeAt.of_peek_safeAt _ (by assumption))
      | (apply P.SafeAt.step_safeAt ?_ (by assumption) ?_; · intro h1 h2; simp [h1, h2] at hc)
      | (apply P.SafeAt.step_safeAt ?_ (by assumption) ?_; · intro h1 h2; (try simp only [look_skip] at h1 h2); simp_all)
      | (apply P.SafeAt.ite_safeAt <;> intro hc)
      | (apply P.SafeAt.bind_at ?_ (by assumption) ?_)
      | intro _)

theorem parseParamList_safe (n : Nat) : P.Safe (parseParamList n) := by
  have i0 := parseParam_safe n
  have i1 := parseParamListLoop_safe n
  unfold parseParamList
  (try dsimp only)
  refine P.Safe.intro_safe ?_
  intro s hs
  repeat' (with_reducible first
    | (apply P.SafeAt.pure_safeAt; assumption)
    | apply P.SafeAt.fail_safeAt
    | (apply P.SafeAt.of_safe <;> assumption)
    | (apply P.SafeAt.of_safe (matchLexeme_safe _ (by decide)); assumption)
    | (apply P.SafeAt.of_safe (expectLexeme_safe _ (by decide)); assumption)
    | (apply P.SafeAt.of_safe (expectCategory_safe _ (by decide)); assumption)
    | (apply P.SafeAt.of_safe parseTypeSpec_safe; assumption)
    | (apply P.SafeAt.of_safe (parseArraySuffix_safe _); assumption)
    | (apply P.SafeAt.of_safe (i1 _); assumption)
    | (apply P.SafeAt.of_checkLexeme_safeAt _ _ (by assumption))
    | (apply P.SafeAt.of_checkCategory_safeAt _ _ (by assumption))
    | (apply P.SafeAt.of_peek_safeAt _ (by assumption))
    | (apply P.SafeAt.step_safeAt ?_ (by assumption) ?_; · intro h1 h2; simp [h1, h2] at hc)
    | (apply P.SafeAt.step_safeAt ?_ (by assumption) ?_; · intro h1 h2; (try simp only [look_skip] at h1 h2); simp_all)
    | (apply P.SafeAt.ite_safeAt <;> intro hc)
    | (apply P.SafeAt.bind_at ?_ (by assumption) ?_)
    | intro _)

theorem parseParamListOpt_safe (n : Nat) : P.Safe (parseParamListOpt n) := by
  have i0 := parseParamList_safe n
  unfold parseParamListOpt
  (try dsimp only)
  refine P.Safe.intro_safe ?_
  intro s hs
  repeat' (with_reducible first
    | (apply P.SafeAt.pure_safeAt; assumption)
    | apply P.SafeAt.fail_safeAt
    | (apply P.SafeAt.of_safe <;> assumption)
    | (apply P.SafeAt.of_safe (matchLexeme_safe _ (by decide)); assumption)
    | (apply P.SafeAt.of_safe (expectLexeme_safe _ (by decide)); assumption)
    | (apply P.SafeAt.of_safe (expectCategory_safe _ (by decide)); assumption)
    | (apply P.SafeAt.of_safe parseTypeSpec_safe; assumption)
    | (apply P.SafeAt.of_safe (parseArraySuffix_safe _); assumption)
    | (apply P.SafeAt.of_checkLexeme_safeAt _ _ (by assumption))
    | (apply P.SafeAt.of_checkCategory_safeAt _ _ (by assumption))
    | (apply P.SafeAt.of_peek_safeAt _ (by assumption))
    | (apply P.SafeAt.step_safeAt ?_ (by assumption) ?_; · intro h1 h2; simp [h1, h2] at hc)
    | (apply P.SafeAt.step_safeAt ?_ (by assumption) ?_; · intro h1 h2; (try simp only [look_skip] at h1 h2); simp_all)
    | (apply P.SafeAt.ite_safeAt <;> intro hc)
    | (apply P.SafeAt.bind_at ?_ (by assumption) ?_)
    | intro _)

theorem parseFunctionDecl_safe (n : Nat) : P.Safe (parseFunctionDecl n) := by
  have i0 := parseParamListOpt_safe n
  have i1 := (parse_safe n).1
  unfold parseFunctionDecl
  (try dsimp only)
  refine P.Safe.intro_safe ?_
  intro s hs
  repeat' (with_reducible first
    | (apply P.SafeAt.pure_safeAt; assumption)
    | apply P.SafeAt.fail_safeAt
    | (apply P.SafeAt.of_safe <;> assumption)
    | (apply P.SafeAt.of_safe (matchLexeme_safe _ (by decide)); assumption)
    | (apply P.SafeAt.of_safe (expectLexeme_safe _ (by decide)); assumption)
    | (apply P.SafeAt.of_safe (expectCategory_safe _ (by decide)); assumption)
    | (apply P.SafeAt.of_safe parseTypeSpec_safe; assumption)
    | (apply P.SafeAt.of_safe (parseArraySuffix_safe _); assumption)
    | (apply P.SafeAt.of_checkLexeme_safeAt _ _ (by assumption))
    | (apply P.SafeAt.of_checkCategory_safeAt _ _ (by assumption))
    | (apply P.SafeAt.of_peek_safeAt _ (by assumption))
    | (apply P.SafeAt.step_safeAt ?_ (by assumption) ?_; · intro h1 h2; simp [h1, h2] at hc)
    | (apply P.SafeAt.step_safeAt ?_ (by assumption) ?_; · intro h1 h2; (try simp only [look_skip] at h1 h2); simp_all)
    | (apply P.SafeAt.ite_safeAt <;> intro hc)
    | (apply P.SafeAt.bind_at ?_ (by assumption) ?_)
    | intro _)

theorem parseStructMembers_safe (n : Nat) : ∀ node, P.Safe (parseStructMembers n node) := by
  induction n with
  | zero => intro node; exact P.Safe.timeout_safe
  | succ k ih =>
    intro node
    have i0 := (parse_safe k).2.2.2.2.2.2.2.1 true
    rw [parseStructMembers]
    (try dsimp only)
    refine P.Safe.intro_safe ?_
    intro s hs
    repeat' (with_reducible first
      | (apply P.SafeAt.pure_safeAt; assumption)
      | apply P.SafeAt.fail_safeAt
      | (apply P.SafeAt.of_safe <;> assumption)
      | (apply P.SafeAt.of_safe (matchLexeme_safe _ (by decide)); assumption)
      | (apply P.SafeAt.of_safe (expectLexeme_safe _ (by decide)); assumption)
      | (apply P.SafeAt.of_safe (expectCategory_safe _ (by decide)); assumption)
      | (apply P.SafeAt.of_safe parseTypeSpec_safe; assumption)
      | (apply P.SafeAt.of_safe (parseArraySuffix_safe _); assumption)
      | (apply P.SafeAt.of_safe (ih _); assumption)
      | (apply P.SafeAt.of_checkLexeme_safeAt _ _ (by assumption))
      | (apply P.SafeAt.of_checkCategory_safeAt _ _ (by assumption))
      | (apply P.SafeAt.of_peek_safeAt _ (by assumption))
      | (apply P.SafeAt.step_safeAt ?_ (by assumption) ?_; · intro h1 h2; simp [h1, h2] at hc)
      | (apply P.SafeAt.step_safeAt ?_ (by assumption) ?_; · intro h1 h2; (try simp only [look_skip] at h1 h2); simp_all)
      | (apply P.SafeAt.ite_safeAt <;> intro hc)
      | (apply P.SafeAt.bind_at ?_ (by assumption) ?_)
      | intro _)

theorem parseStructDecl_safe (n : Nat) : P.Safe (parseStructDecl n) := by
  have i0 := parseStructMembers_safe n
  unfold parseStructDecl
  (try dsimp only)
  refine P.Safe.intro_safe ?_
  intro s hs
  repeat' (with_reducible first
    | (apply P.SafeAt.pure_safeAt; assumption)
    | apply P.SafeAt.fail_safeAt
    | (apply P.SafeAt.of_safe <;> assumption)
    | (apply P.SafeAt.of_safe (matchLexeme_safe _ (by decide)); assumption)
    | (apply P.SafeAt.of_safe (expectLexeme_safe _ (by decide)); assumption)
    | (apply P.SafeAt.of_safe (expectCategory_safe _ (by decide)); assumption)
    | (apply P.SafeAt.of_safe parseTypeSpec_safe; assumption)
    | (apply P.SafeAt.of_safe (parseArraySuffix_safe _); assumption)
    | (apply P.SafeAt.of_safe (i0 _); assumption)
    | (apply P.SafeAt.of_checkLexeme_safeAt _ _ (by assumption))
    | (apply P.SafeAt.of_checkCategory_safeAt _ _ (by assumption))
    | (apply P.SafeAt.of_peek_safeAt _ (by assumption))
    | (apply P.SafeAt.step_safeAt ?_ (by assumption) ?_; · intro h1 h2; simp [h1, h2] at hc)
    | (apply P.SafeAt.step_safeAt ?_ (by assumption) ?_; · intro h1 h2; (try simp only [look_skip] at h1 h2); simp_all)
    | (apply P.SafeAt.ite_safeAt <;> intro hc)
    | (apply P.SafeAt.bind_at ?_ (by assumption) ?_)
    | intro _)

theorem parseExternalDecl_safe (n : Nat) : P.Safe (parseExternalDecl n) := by
  have i0 := parseStructDecl_safe n
  have i1 := parseFunctionDecl_safe n
  unfold parseExternalDecl
  (try dsimp only)
  refine P.Safe.intro_safe ?_
  intro s hs
  repeat' (with_reducible first
    | (apply P.SafeAt.pure_safeAt; assumption)
    | apply P.SafeAt.fail_safeAt
    | (apply P.SafeAt.of_safe <;> assumption)
    | (apply P.SafeAt.of_safe (matchLexeme_safe _ (by decide)); assumption)
    | (apply P.SafeAt.of_safe (expectLexeme_safe _ (by decide)); assumption)
    | (apply P.SafeAt.of_safe (expectCategory_safe _ (by decide)); assumption)
    | (apply P.SafeAt.of_safe parseTypeSpec_safe; assumption)
    | (apply P.SafeAt.of_safe (parseArraySuffix_safe _); assumption)
    | (apply P.SafeAt.of_checkLexeme_safeAt _ _ (by assumption))
    | (apply P.SafeAt.of_checkCategory_safeAt _ _ (by assumption))
    | (apply P.SafeAt.of_peek_safeAt _ (by assumption))
    | (apply P.SafeAt.step_safeAt ?_ (by assumption) ?_; · intro h1 h2; simp [h1, h2] at hc)
    | (apply P.SafeAt.step_safeAt ?_ (by assumption) ?_; · intro h1 h2; (try simp only [look_skip] at h1 h2); simp_all)
    | (apply P.SafeAt.ite_safeAt <;> intro hc)
    | (apply P.SafeAt.bind_at ?_ (by assumption) ?_)
    | intro _)

theorem parseProgramLoop_safe (n : Nat) : ∀ node, P.Safe (parseProgramLoop n node) := by
  induction n with
  | zero => intro node; exact P.Safe.timeout_safe
  | succ k ih =>
    intro node
    have i0 := parseExternalDecl_safe k
    rw [parseProgramLoop]
    (try dsimp only)
    refine P.Safe.intro_safe ?_
    intro s hs
    repeat' (with_reducible first
      | (apply P.SafeAt.pure_safeAt; assumption)
      | apply P.SafeAt.fail_safeAt
      | (apply P.SafeAt.of_safe <;> assumption)
      | (apply P.SafeAt.of_safe (matchLexeme_safe _ (by decide)); assumption)
      | (apply P.SafeAt.of_safe (expectLexeme_safe _ (by decide)); assumption)
      | (apply P.SafeAt.of_safe (expectCategory_safe _ (by decide)); assumption)
      | (apply P.SafeAt.of_safe parseTypeSpec_safe; assumption)
      | (apply P.SafeAt.of_safe (parseArraySuffix_safe _); assumption)
      | (apply P.SafeAt.of_safe (ih _); assumption)
      | (apply P.SafeAt.of_checkLexeme_safeAt _ _ (by assumption))
      | (apply P.SafeAt.of_checkCategory_safeAt _ _ (by assumption))
      | (apply P.SafeAt.of_peek_safeAt _ (by assumption))
      | (apply P.SafeAt.step_safeAt ?_ (by assumption) ?_; · intro h1 h2; simp [h1, h2] at hc)
      | (apply P.SafeAt.step_safeAt ?_ (by assumption) ?_; · intro h1 h2; (try simp only [look_skip] at h1 h2); simp_all)
      | (apply P.SafeAt.ite_safeAt <;> intro hc)
      | (apply P.SafeAt.bind_at ?_ (by assumption) ?_)
      | intro _)

theorem parseProgram_safe (n : Nat) : P.Safe (parseProgram n) :=
  parseProgramLoop_safe n _

/-! ## The program loop -/

theorem checkLexeme_state {lex : String} {i : Nat} {s s1 : Parser} {b : Bool}
    (h : checkLexeme lex i s = Res.ok b s1) : s1 = s := by
  have hne : s.tokens ≠ [] := by
    intro h0
    simp [checkLexeme, P.bind_eq, P.bind, peek, h0] at h
  rw [checkLexeme_look lex i s hne] at h
  cases h
  rfl

theorem DeclRun.mono_declRun {n m : Nat} (hnm : n ≤ m) {s s1 : Parser} {ds : List Node}
    (h : DeclRun n s ds s1) : DeclRun m s ds s1 := by
  induction h with
  | done s h => exact DeclRun.done s h
  | step s s1 s2 d ds hc hd _ ih =>
    refine DeclRun.step s s1 s2 d ds hc ?_ ih
    have := P.Le.of_le parseExternalDecl_le n m hnm s (by rw [hd]; exact fun e => Res.noConfusion e)
    rw [this, hd]

theorem DeclRun.final {n : Nat} {s s1 : Parser} {ds : List Node} (h : DeclRun n s ds s1) :
    checkLexeme "EOF" 0 s1 = Res.ok true s1 := by
  induction h with
  | done s h => exact h
  | step _ _ _ _ _ _ _ _ ih => exact ih

theorem parseProgramLoop_run (n : Nat) : ∀ (node r : Node) (s s1 : Parser),
    parseProgramLoop n node s = Res.ok r s1 →
    ∃ ds, r = Node.mk node.symbol (node.children ++ ds) ∧ DeclRun n s ds s1 := by
  induction n with
  | zero =>
    intro node r s s1 h
    simp [parseProgramLoop, P.timeout] at h
  | succ k ih =>
    intro node r s s1 h
    rw [parseProgramLoop] at h
    simp only [P.bind_eq, P.bind] at h
    cases hc : checkLexeme "EOF" 0 s with
    | ok b s0 =>
      have e0 := checkLexeme_state hc
      subst e0
      rw [hc] at h
      cases b with
      | true =>
        simp only [Bool.not_true, Bool.false_eq_true, if_false, P.pure_eq, P.ret] at h
        cases h
        refine ⟨[], ?_, DeclRun.done _ hc⟩
        cases node
        simp [Node.symbol, Node.children]
      | false =>
        simp only [Bool.not_false, if_true] at h
        cases hd : parseExternalDecl k s0 with
        | ok d s2 =>
          simp only [P.bind, hd] at h
          obtain ⟨ds, hr, hrun⟩ := ih _ r s2 s1 h
          refine ⟨d :: ds, ?_, ?_⟩
          · rw [hr, Node.symbol_push_back, Node.children_push_back, List.append_assoc]
            rfl
          · refine DeclRun.step s0 s2 s1 d ds hc ?_ (hrun.mono_declRun (Nat.le_succ k))
            have := parseExternalDecl_le k s0 (by rw [hd]; exact fun e => Res.noConfusion e)
            rw [this, hd]
        | error e => simp only [P.bind, hd] at h; exact Res.noConfusion h
        | undefined => simp only [P.bind, hd] at h; exact Res.noConfusion h
        | timeout => simp only [P.bind, hd] at h; exact Res.noConfusion h
    | error e => rw [hc] at h; exact Res.noConfusion h
    | undefined => rw [hc] at h; exact Res.noConfusion h
    | timeout => rw [hc] at h; exact Res.noConfusion h

theorem parseExternalDecl_symbol (n : Nat) :
    P.Post (parseExternalDecl n)
      (fun node => node.symbol = "StructDecl" ∨ node.symbol = "FunctionDecl") := by
  unfold parseExternalDecl
  refine P.Post.bind_post (fun _ => P.Post.bind_post (fun _ => P.Post.bind_post (fun _ => P.Post.ite_post ?_ ?_)))
  · intro s a s1 h
    exact Or.inl (parseStructDecl_symbol n s a s1 h)
  · intro s a s1 h
    exact Or.inr (parseFunctionDecl_symbol n s a s1 h)

theorem DeclRun.symbols {n : Nat} {s s1 : Parser} {ds : List Node} (h : DeclRun n s ds s1) :
    ∀ d ∈ ds, d.symbol = "StructDecl" ∨ d.symbol = "FunctionDecl" := by
  induction h with
  | done s h => intro d hd; exact absurd hd (List.not_mem_nil d)
  | step s s1 s2 d ds hc hd _ ih =>
    intro x hx
    rcases List.mem_cons.1 hx with hx | hx
    · rw [hx]; exact parseExternalDecl_symbol n s d s1 hd
    · exact ih x hx

/-- C9 (program root).  Whenever `parseProgram` returns, from any state and in particular on a
sentinel-terminated sequence, the result is a node labelled `Program` whose children `ds` are
exactly the nodes returned by the successive `parseExternalDecl` calls made while the current
lexeme is not `EOF` (`DeclRun`), in that order, and every child is labelled `StructDecl` or
`FunctionDecl`.  On a sequence that holds only a token of lexeme `EOF` it returns the childless
`Program` node without moving the cursor. -/
theorem C9_program_root :
    (∀ (fuel : Nat) (s s1 : Parser) (node : Node), parseProgram fuel s = Res.ok node s1 →
      ∃ ds, node = Node.mk "Program" ds ∧ DeclRun fuel s ds s1 ∧
        ∀ d ∈ ds, d.symbol = "StructDecl" ∨ d.symbol = "FunctionDecl") ∧
    (∀ t : Token, t.lexeme = "EOF" →
      ReturnsBy 1 parseProgram ⟨[t], 0⟩ (Node.mk "Program" []) ⟨[t], 0⟩) := by
  constructor
  · intro fuel s s1 node h
    obtain ⟨ds, hr, hrun⟩ := parseProgramLoop_run fuel _ node s s1 h
    exact ⟨ds, hr, hrun, hrun.symbols⟩
  · intro t ht n hn
    obtain ⟨m, rfl, -⟩ := exists_succ_of_le hn
    simp [parseProgram, parseProgramLoop, P.bind_eq, P.bind, checkLexeme, peek, ht, P.pure_eq,
      P.ret]

theorem C9_program_root_witness :
    ∃ ds, Node.mk "Program" [Node.mk "FunctionDecl" [
        Node.mk "TypeSpec" [Node.mk "BaseType(int)" []], Node.mk "FuncName(f)" [],
        Node.mk "ParamList(ε)" [], Node.mk "CompoundStmt" [Node.mk "StmtList" []]]] =
        Node.mk "Program" ds ∧
      DeclRun 4 ⟨emptyParamsExample, 0⟩ ds ⟨emptyParamsExample, 6⟩ ∧
      ∀ d ∈ ds, d.symbol = "StructDecl" ∨ d.symbol = "FunctionDecl" :=
  C9_program_root.1 4 ⟨emptyParamsExample, 0⟩ ⟨emptyParamsExample, 6⟩ _ rfl

/-! ## Where the parse stops -/

/-- C10 as stated fails: on `int f ( ) { } EOF int g ( ) { }` with the sentinel, a
sentinel-terminated sequence whose seventh token is an identifier spelt `EOF`, `parseProgram`
returns normally with the cursor on that identifier (position 6), not on the final sentinel
(position 13). -/
theorem C10_counterexample :
    ¬ (∀ (toks : List Token) (fuel : Nat) (node : Node) (s1 : Parser),
      sentinelTerminated toks → parseProgram fuel ⟨toks, 0⟩ = Res.ok node s1 →
      s1.pos = toks.length - 1) := by
  intro h
  have := h earlyEofExample 4 _ ⟨earlyEofExample, 6⟩ ⟨eofToken, rfl, rfl, rfl⟩ rfl
  exact absurd this (by decide)

/-- C10, amended.  For every sentinel-terminated token sequence, if `parseProgram` from position
0 returns, then the token sequence is unchanged, the cursor is inside the sequence and rests on
a token whose lexeme is `EOF`, the tokens before it being those the successive declarations
consumed (`DeclRun`); and when no token before the final sentinel has the lexeme `EOF`, the
cursor rests on the final sentinel: position = length - 1. -/
theorem C10_stops_on_eof_lexeme (toks : List Token) (fuel : Nat) (node : Node) (s1 : Parser)
    (hs : sentinelTerminated toks) (h : parseProgram fuel ⟨toks, 0⟩ = Res.ok node s1) :
    s1.tokens = toks ∧ s1.pos < toks.length ∧
    (∃ t, toks[s1.pos]? = some t ∧ t.lexeme = "EOF") ∧
    (∃ ds, node = Node.mk "Program" ds ∧ DeclRun fuel ⟨toks, 0⟩ ds s1) ∧
    ((∀ (i : Nat) (t : Token), i + 1 < toks.length → toks[i]? = some t → t.lexeme ≠ "EOF") →
      s1.pos = toks.length - 1) := by
  have hne := sentinelTerminated_ne_nil hs
  have hr : InRange ⟨toks, 0⟩ := ⟨hs, List.length_pos.2 hne⟩
  obtain ⟨ht, hp⟩ := parseProgram_safe fuel ⟨toks, 0⟩ hr node s1 h
  have ht1 : s1.tokens = toks := ht
  rw [ht1] at hp
  obtain ⟨ds, hnode, hrun⟩ := parseProgramLoop_run fuel _ node _ s1 h
  have hfin := hrun.final
  rw [checkLexeme_look "EOF" 0 s1 (by rw [ht1]; exact hne)] at hfin
  have hlex : (look s1 0).lexeme = "EOF" := by
    injection hfin with h1 _
    simpa using h1
  have hget : toks[s1.pos]? = some (look s1 0) := by
    unfold look
    rw [ht1, if_neg (by omega), Nat.add_zero, List.getElem?_eq_getElem hp]
    rfl
  refine ⟨ht1, hp, ⟨look s1 0, hget, hlex⟩, ⟨ds, hnode, hrun⟩, ?_⟩
  intro hall
  by_contra hne1
  exact hall s1.pos (look s1 0) (by omega) hget hlex

theorem C10_stops_on_eof_lexeme_witness :
    (⟨emptyParamsExample, 6⟩ : Parser).pos = emptyParamsExample.length - 1 :=
  (C10_stops_on_eof_lexeme emptyParamsExample 4 _ ⟨emptyParamsExample, 6⟩
    ⟨eofToken, rfl, rfl, rfl⟩ rfl).2.2.2.2 (by
      intro i t hi hg
      have h6 : i < 6 := by simp [emptyParamsExample] at hi; omega
      interval_cases i <;> simp [emptyParamsExample] at hg <;> subst hg <;> decide)

/-! ## What the leaves record -/

theorem P.bind_assoc {α β γ : Type} (x : P α) (f : α → P β) (g : β → P γ) :
    x >>= f >>= g = x >>= fun a => f a >>= g := by
  funext s
  show P.bind (P.bind x f) g s = P.bind x (fun a => P.bind (f a) g) s
  unfold P.bind
  cases x s <;> rfl

theorem P.pure_bind {α β : Type} (a : α) (f : α → P β) : pure a >>= f = f a := rfl

theorem P.ite_bind {α β : Type} (c : Prop) [Decidable c] (a b : P α) (f : α → P β) :
    ((if c then a else b) >>= f) = if c then a >>= f else b >>= f := by
  by_cases h : c <;> simp [h]

theorem consumed_self (s : Parser) : consumed s s = [] := by
  simp [consumed]

theorem consumed_trans {s s1 s2 : Parser} (h1 : s1.tokens = s.tokens)
    (h12 : s.pos ≤ s1.pos) (h23 : s1.pos ≤ s2.pos) :
    consumed s s2 = consumed s s1 ++ consumed s1 s2 := by
  unfold consumed
  rw [h1, ← List.map_append]
  congr 1
  have e1 : s2.pos - s.pos = (s1.pos - s.pos) + (s2.pos - s1.pos) := by omega
  have e2 : List.drop s1.pos s.tokens = List.drop (s1.pos - s.pos) (List.drop s.pos s.tokens) := by
    rw [List.drop_drop]
    congr 1
    omega
  rw [e1, e2, List.take_add]

theorem consumed_skip (s : Parser) (h : s.pos < s.tokens.length) :
    consumed s (skip s 1) = [(look s 0).lexeme] := by
  have hl : look s 0 = s.tokens[s.pos] := by
    unfold look
    rw [if_neg (by omega)]
    simp [List.getElem?_eq_getElem h]
  show ((s.tokens.drop s.pos).take (s.pos + 1 - s.pos)).map Token.lexeme = _
  rw [Nat.add_sub_cancel_left, List.drop_eq_getElem_cons h, List.take_succ_cons, List.take_zero,
    hl]
  rfl

theorem Trace.refl_trace (s : Parser) : Trace s [] s := ⟨rfl, le_refl _, consumed_self s⟩

theorem Trace.append {s0 s s1 : Parser} {w : List String} (h : Trace s0 w s)
    (ht : s1.tokens = s.tokens) (hp : s.pos ≤ s1.pos) :
    Trace s0 (w ++ consumed s s1) s1 := by
  obtain ⟨h1, h2, h3⟩ := h
  refine ⟨ht.trans h1, le_trans h2 hp, ?_⟩
  rw [consumed_trans h1 h2 hp, h3]

theorem Trace.step {s0 s : Parser} {w : List String} (h : Trace s0 w s)
    (hp : s.pos < s.tokens.length) : Trace s0 (w ++ [(look s 0).lexeme]) (skip s 1) := by
  have := @Trace.append s0 s (skip s 1) w h rfl (Nat.le_succ _)
  rw [consumed_skip s hp] at this
  exact this

theorem Kept.refl_kept : ∀ v : List String, Kept v v
  | [] => Kept.nil
  | x :: v => Kept.keep x (Kept.refl_kept v)

theorem Kept.append_kept {v1 w1 v2 w2 : List String} (h1 : Kept v1 w1) (h2 : Kept v2 w2) :
    Kept (v1 ++ v2) (w1 ++ w2) := by
  induction h1 with
  | nil => exact h2
  | keep x _ ih => exact Kept.keep x ih
  | drop hx _ ih => exact Kept.drop hx ih

theorem Kept.append_dropped {v w r : List String} (h1 : Kept v w) (h2 : Kept [] r) :
    Kept v (w ++ r) := by
  have := Kept.append_kept h1 h2
  rwa [List.append_nil] at this

theorem Kept.dropped_append {v w r : List String} (h1 : Kept [] r) (h2 : Kept v w) :
    Kept v (r ++ w) := Kept.append_kept h1 h2

theorem Kept.sublist {v w : List String} (h : Kept v w) : List.Sublist v w := by
  induction h with
  | nil => exact List.Sublist.refl _
  | keep x _ ih => exact List.Sublist.cons₂ x ih
  | drop _ _ ih => exact List.Sublist.cons _ ih

theorem P.Yields.intro_yields {m : P Node} (h : ∀ s, P.YieldsAt s [] [] s m) : P.Yields m := by
  intro s a s1 hr
  obtain ⟨h1, h2, v, h3, h4⟩ := h s (Trace.refl_trace s) a s1 hr
  rw [List.nil_append] at h3
  rw [h3]
  exact ⟨h1, h2, h4⟩

theorem P.YieldsWrap.intro_yieldsWrap {f : Node → P Node} (h : ∀ node s, P.YieldsAt s (yield node) [] s (f node)) :
    P.YieldsWrap f := fun node s a s1 hr => h node s (Trace.refl_trace s) a s1 hr

theorem P.YieldsPush.intro_yieldsPush {f : Node → P Node}
    (h : ∀ node s, node.symbol ∈ ruleNames → P.YieldsAt s (yield node) [] s (f node)) :
    P.YieldsPush f := fun node s a s1 hn hr => h node s hn (Trace.refl_trace s) a s1 hr

theorem P.YieldsAt.pure_yieldsAt {s0 s : Parser} {b w : List String} {a : Node}
    (h : ∃ x, yield a = b ++ x ∧ Kept x w) : P.YieldsAt s0 b w s (Pure.pure a) := by
  intro ht a1 s1 hr
  simp only [P.pure_eq, P.ret] at hr
  cases hr
  obtain ⟨x, h1, h2⟩ := h
  exact ⟨ht.1, ht.2.1, x, h1, by rw [ht.2.2]; exact h2⟩

theorem P.YieldsAt.fail_yieldsAt {s0 s : Parser} {b w : List String} (e : ParseError) :
    P.YieldsAt s0 b w s (P.fail e) := fun _ _ _ h => Res.noConfusion h

theorem P.YieldsAt.timeout_yieldsAt {s0 s : Parser} {b w : List String} :
    P.YieldsAt s0 b w s P.timeout := fun _ _ _ h => Res.noConfusion h

theorem P.YieldsAt.ite_yieldsAt {c : Prop} [Decidable c] {s0 s : Parser} {b w : List String} {m1 m2 : P Node}
    (h1 : c → P.YieldsAt s0 b w s m1) (h2 : ¬ c → P.YieldsAt s0 b w s m2) :
    P.YieldsAt s0 b w s (if c then m1 else m2) := by
  by_cases h : c
  · simp only [h, if_true]; exact h1 h
  · simp only [h, if_false]; exact h2 h

theorem peek_nil {s : Parser} (h : s.tokens = []) (i : Nat) : peek i s = Res.undefined := by
  simp [peek, h]

theorem P.YieldsAt.of_peek_yieldsAt {s0 s : Parser} {b w : List String} {f : Token → P Node} (i : Nat)
    (hf : s.tokens ≠ [] → P.YieldsAt s0 b w s (f (look s i))) : P.YieldsAt s0 b w s (peek i >>= f) := by
  intro ht a s1 hr
  by_cases hne : s.tokens = []
  · simp [P.bind_eq, P.bind, peek_nil hne] at hr
  · rw [P.bind_ok (peek_look i s hne)] at hr
    exact hf hne ht a s1 hr

theorem P.YieldsAt.of_checkLexeme_yieldsAt {s0 s : Parser} {b w : List String} {f : Bool → P Node}
    (lex : String) (i : Nat)
    (hf : s.tokens ≠ [] → P.YieldsAt s0 b w s (f ((look s i).lexeme == lex))) :
    P.YieldsAt s0 b w s (checkLexeme lex i >>= f) := by
  intro ht a s1 hr
  by_cases hne : s.tokens = []
  · simp [checkLexeme, P.bind_eq, P.bind, peek_nil hne] at hr
  · rw [P.bind_ok (checkLexeme_look lex i s hne)] at hr
    exact hf hne ht a s1 hr

theorem P.YieldsAt.of_checkCategory_yieldsAt {s0 s : Parser} {b w : List String} {f : Bool → P Node}
    (cat : String) (i : Nat)
    (hf : s.tokens ≠ [] → P.YieldsAt s0 b w s (f ((look s i).category == cat))) :
    P.YieldsAt s0 b w s (checkCategory cat i >>= f) := by
  intro ht a s1 hr
  by_cases hne : s.tokens = []
  · simp [checkCategory, P.bind_eq, P.bind, peek_nil hne] at hr
  · rw [P.bind_ok (checkCategory_look cat i s hne)] at hr
    exact hf hne ht a s1 hr

theorem advance_ok {s s1 : Parser} {t : Token} (h : advance s = Res.ok t s1) :
    s.pos < s.tokens.length ∧ t = look s 0 ∧ s1 = skip s 1 := by
  by_cases hp : s.pos < s.tokens.length
  · rw [advance_look s hp] at h
    cases h
    exact ⟨hp, rfl, rfl⟩
  · simp [advance, List.getElem?_eq_none (Nat.le_of_not_lt hp)] at h

theorem P.YieldsAt.step_yieldsAt {s0 s : Parser} {b w : List String} {f : Token → P Node}
    (hf : s.pos < s.tokens.length →
      P.YieldsAt s0 b (w ++ [(look s 0).lexeme]) (skip s 1) (f (look s 0))) :
    P.YieldsAt s0 b w s (advance >>= f) := by
  intro ht a s1 hr
  simp only [P.bind_eq, P.bind] at hr
  cases ha : advance s with
  | ok t s2 =>
    obtain ⟨hp, rfl, rfl⟩ := advance_ok ha
    rw [ha] at hr
    exact hf hp (ht.step hp) a s1 hr
  | error e => rw [ha] at hr; exact Res.noConfusion hr
  | undefined => rw [ha] at hr; exact Res.noConfusion hr
  | timeout => rw [ha] at hr; exact Res.noConfusion hr

theorem leafLexemes_raw : ∀ l ∈ rawLexemes, leafLexemes l = [l] := by decide

theorem leafLexemes_rule : ∀ l ∈ ruleNames, leafLexemes l = [] := by decide

theorem P.YieldsAt.step_raw {s0 s : Parser} {b w : List String} {f : Token → P Node}
    (hraw : (look s 0).lexeme ∈ rawLexemes)
    (hf : leafLexemes (look s 0).lexeme = [(look s 0).lexeme] → s.pos < s.tokens.length →
      P.YieldsAt s0 b (w ++ [(look s 0).lexeme]) (skip s 1) (f (look s 0))) :
    P.YieldsAt s0 b w s (advance >>= f) :=
  P.YieldsAt.step_yieldsAt (hf (leafLexemes_raw _ hraw))

theorem expectLexeme_ok {lex : String} {s s1 : Parser} {t : Token}
    (h : expectLexeme lex s = Res.ok t s1) :
    s.pos < s.tokens.length ∧ (look s 0).lexeme = lex ∧ t = look s 0 ∧ s1 = skip s 1 := by
  by_cases hne : s.tokens = []
  · simp [expectLexeme, checkLexeme, P.bind_eq, P.bind, peek_nil hne] at h
  · by_cases hl : (look s 0).lexeme = lex
    · simp only [expectLexeme, P.bind_eq, P.bind, checkLexeme_look lex 0 s hne, hl, beq_self_eq_true,
        Bool.not_true, Bool.false_eq_true, if_false] at h
      obtain ⟨hp, h1, h2⟩ := advance_ok h
      exact ⟨hp, hl, h1, h2⟩
    · rw [expectLexeme_ne lex s hne hl] at h
      exact Res.noConfusion h

theorem expectCategory_ok {cat : String} {s s1 : Parser} {t : Token}
    (h : expectCategory cat s = Res.ok t s1) :
    s.pos < s.tokens.length ∧ (look s 0).category = cat ∧ t = look s 0 ∧ s1 = skip s 1 := by
  by_cases hne : s.tokens = []
  · simp [expectCategory, checkCategory, P.bind_eq, P.bind, peek_nil hne] at h
  · by_cases hl : (look s 0).category = cat
    · simp only [expectCategory, P.bind_eq, P.bind, checkCategory_look cat 0 s hne, hl,
        beq_self_eq_true, Bool.not_true, Bool.false_eq_true, if_false] at h
      obtain ⟨hp, h1, h2⟩ := advance_ok h
      exact ⟨hp, hl, h1, h2⟩
    · rw [expectCategory_ne cat s hne hl] at h
      exact Res.noConfusion h

theorem matchLexeme_ok {lex : String} {s s1 : Parser} {r : Bool}
    (h : matchLexeme lex s = Res.ok r s1) :
    (r = true ∧ s.pos < s.tokens.length ∧ (look s 0).lexeme = lex ∧ s1 = skip s 1) ∨
    (r = false ∧ s1 = s) := by
  by_cases hne : s.tokens = []
  · simp [matchLexeme, checkLexeme, P.bind_eq, P.bind, peek_nil hne] at h
  · by_cases hl : (look s 0).lexeme = lex
    · simp only [matchLexeme, P.bind_eq, P.bind, checkLexeme_look lex 0 s hne, hl, beq_self_eq_true,
        if_true] at h
      cases ha : advance s with
      | ok t s2 =>
        obtain ⟨hp, -, rfl⟩ := advance_ok ha
        rw [ha] at h
        simp only [P.pure_eq, P.ret] at h
        cases h
        exact Or.inl ⟨rfl, hp, hl, rfl⟩
      | error e => rw [ha] at h; exact Res.noConfusion h
      | undefined => rw [ha] at h; exact Res.noConfusion h
      | timeout => rw [ha] at h; exact Res.noConfusion h
    · rw [matchLexeme_ne lex s hne hl] at h
      cases h
      exact Or.inr ⟨rfl, rfl⟩

theorem P.YieldsAt.of_expectLexeme {s0 s : Parser} {b w : List String} {f : Token → P Node}
    (lex : String)
    (hf : (look s 0).lexeme = lex → P.YieldsAt s0 b (w ++ [lex]) (skip s 1) (f (look s 0))) :
    P.YieldsAt s0 b w s (expectLexeme lex >>= f) := by
  intro ht a s1 hr
  simp only [P.bind_eq, P.bind] at hr
  cases he : expectLexeme lex s with
  | ok t s2 =>
    obtain ⟨hp, hl, rfl, rfl⟩ := expectLexeme_ok he
    rw [he] at hr
    have ht2 := ht.step hp
    rw [hl] at ht2
    exact hf hl ht2 a s1 hr
  | error e => rw [he] at hr; exact Res.noConfusion hr
  | undefined => rw [he] at hr; exact Res.noConfusion hr
  | timeout => rw [he] at hr; exact Res.noConfusion hr

theorem P.YieldsAt.of_expectCategory {s0 s : Parser} {b w : List String} {f : Token → P Node}
    (cat : String)
    (hf : P.YieldsAt s0 b (w ++ [(look s 0).lexeme]) (skip s 1) (f (look s 0))) :
    P.YieldsAt s0 b w s (expectCategory cat >>= f) := by
  intro ht a s1 hr
  simp only [P.bind_eq, P.bind] at hr
  cases he : expectCategory cat s with
  | ok t s2 =>
    obtain ⟨hp, -, rfl, rfl⟩ := expectCategory_ok he
    rw [he] at hr
    exact hf (ht.step hp) a s1 hr
  | error e => rw [he] at hr; exact Res.noConfusion hr
  | undefined => rw [he] at hr; exact Res.noConfusion hr
  | timeout => rw [he] at hr; exact Res.noConfusion hr

theorem P.YieldsAt.of_matchLexeme {s0 s : Parser} {b w : List String} {f : Bool → P Node}
    (lex : String) (h1 : P.YieldsAt s0 b (w ++ [lex]) (skip s 1) (f true))
    (h2 : P.YieldsAt s0 b w s (f false)) : P.YieldsAt s0 b w s (matchLexeme lex >>= f) := by
  intro ht a s1 hr
  simp only [P.bind_eq, P.bind] at hr
  cases he : matchLexeme lex s with
  | ok r s2 =>
    rw [he] at hr
    rcases matchLexeme_ok he with ⟨rfl, hp, hl, rfl⟩ | ⟨rfl, rfl⟩
    · have ht2 := ht.step hp
      rw [hl] at ht2
      exact h1 ht2 a s1 hr
    · exact h2 ht a s1 hr
  | error e => rw [he] at hr; exact Res.noConfusion hr
  | undefined => rw [he] at hr; exact Res.noConfusion hr
  | timeout => rw [he] at hr; exact Res.noConfusion hr

/-- The shared step of the rules for calls: after a call that went from `s` to `s1`. -/
theorem P.YieldsAt.after {s0 s s1 : Parser} {b w : List String} {m : P Node}
    (ht : Trace s0 w s) (h1 : s1.tokens = s.tokens) (h2 : s.pos ≤ s1.pos)
    (hm : P.YieldsAt s0 b (w ++ consumed s s1) s1 m) :
    ∀ a s2, m s1 = Res.ok a s2 →
      s2.tokens = s0.tokens ∧ s0.pos ≤ s2.pos ∧
        ∃ v, yield a = b ++ v ∧ Kept v (consumed s0 s2) :=
  hm (ht.append h1 h2)

theorem P.YieldsAt.bindY {s0 s : Parser} {b w : List String} {m : P Node} {f : Node → P Node}
    (hm : P.Yields m)
    (hf : ∀ c s1 u, Kept (yield c) u → P.YieldsAt s0 b (w ++ u) s1 (f c)) :
    P.YieldsAt s0 b w s (m >>= f) := by
  intro ht a s2 hr
  simp only [P.bind_eq, P.bind] at hr
  cases he : m s with
  | ok c s1 =>
    rw [he] at hr
    obtain ⟨h1, h2, h3⟩ := hm s c s1 he
    exact P.YieldsAt.after ht h1 h2 (hf c s1 _ h3) a s2 hr
  | error e => rw [he] at hr; exact Res.noConfusion hr
  | undefined => rw [he] at hr; exact Res.noConfusion hr
  | timeout => rw [he] at hr; exact Res.noConfusion hr

theorem P.YieldsAt.tailY {s0 s : Parser} {w : List String} {m : P Node} (hm : P.Yields m)
    (hw : Kept [] w) : P.YieldsAt s0 [] w s m := by
  intro ht a s1 hr
  obtain ⟨h1, h2, h3⟩ := hm s a s1 hr
  have ht2 := ht.append h1 h2
  refine ⟨ht2.1, ht2.2.1, yield a, rfl, ?_⟩
  rw [ht2.2.2]
  exact Kept.dropped_append hw h3

theorem P.YieldsAt.bindPush {s0 s : Parser} {b w : List String} {g : Node → P Node}
    {f : Node → P Node} (hg : P.YieldsPush g) (acc : Node) (hs : acc.symbol ∈ ruleNames)
    (hf : ∀ a s1 v u, yield a = yield acc ++ v → Kept v u →
      P.YieldsAt s0 b (w ++ u) s1 (f a)) :
    P.YieldsAt s0 b w s (g acc >>= f) := by
  intro ht a s2 hr
  simp only [P.bind_eq, P.bind] at hr
  cases he : g acc s with
  | ok c s1 =>
    rw [he] at hr
    obtain ⟨h1, h2, v, h3, h4⟩ := hg acc s c s1 hs he
    exact P.YieldsAt.after ht h1 h2 (hf c s1 v _ h3 h4) a s2 hr
  | error e => rw [he] at hr; exact Res.noConfusion hr
  | undefined => rw [he] at hr; exact Res.noConfusion hr
  | timeout => rw [he] at hr; exact Res.noConfusion hr

theorem P.YieldsAt.bindPushS {s0 s : Parser} {b w : List String} {g : Node → P Node}
    {f : Node → P Node} (hg : P.YieldsPush g)
    (hsym : ∀ n, P.Post (g n) (fun a => a.symbol = n.symbol)) (acc : Node)
    (hs : acc.symbol ∈ ruleNames)
    (hf : ∀ a s1 v u, a.symbol ∈ ruleNames → yield a = yield acc ++ v → Kept v u →
      P.YieldsAt s0 b (w ++ u) s1 (f a)) :
    P.YieldsAt s0 b w s (g acc >>= f) := by
  intro ht a s2 hr
  simp only [P.bind_eq, P.bind] at hr
  cases he : g acc s with
  | ok c s1 =>
    rw [he] at hr
    obtain ⟨h1, h2, v, h3, h4⟩ := hg acc s c s1 hs he
    have h5 : c.symbol ∈ ruleNames := by
      have := hsym acc s c s1 he
      simp only at this
      rw [this]
      exact hs
    exact P.YieldsAt.after ht h1 h2 (hf c s1 v _ h5 h3 h4) a s2 hr
  | error e => rw [he] at hr; exact Res.noConfusion hr
  | undefined => rw [he] at hr; exact Res.noConfusion hr
  | timeout => rw [he] at hr; exact Res.noConfusion hr

theorem P.YieldsAt.tailPush {s0 s : Parser} {b w : List String} {g : Node → P Node}
    (hg : P.YieldsPush g) (acc : Node) (hs : acc.symbol ∈ ruleNames)
    (hacc : ∃ x, yield acc = b ++ x ∧ Kept x w) : P.YieldsAt s0 b w s (g acc) := by
  intro ht a s1 hr
  obtain ⟨h1, h2, v, h3, h4⟩ := hg acc s a s1 hs hr
  obtain ⟨x, h5, h6⟩ := hacc
  have ht2 := ht.append h1 h2
  refine ⟨ht2.1, ht2.2.1, x ++ v, ?_, ?_⟩
  · rw [h3, h5, List.append_assoc]
  · rw [ht2.2.2]
    exact Kept.append_kept h6 h4

theorem P.YieldsWrap.toPush {g : Node → P Node} (hg : P.YieldsWrap g) : P.YieldsPush g :=
  fun node s a s1 _ hr => hg node s a s1 hr

theorem P.YieldsAt.bindWrap {s0 s : Parser} {b w : List String} {g : Node → P Node}
    {f : Node → P Node} (hg : P.YieldsWrap g) (acc : Node)
    (hf : ∀ a s1 v u, yield a = yield acc ++ v → Kept v u →
      P.YieldsAt s0 b (w ++ u) s1 (f a)) :
    P.YieldsAt s0 b w s (g acc >>= f) := by
  intro ht a s2 hr
  simp only [P.bind_eq, P.bind] at hr
  cases he : g acc s with
  | ok c s1 =>
    rw [he] at hr
    obtain ⟨h1, h2, v, h3, h4⟩ := hg acc s c s1 he
    exact P.YieldsAt.after ht h1 h2 (hf c s1 v _ h3 h4) a s2 hr
  | error e => rw [he] at hr; exact Res.noConfusion hr
  | undefined => rw [he] at hr; exact Res.noConfusion hr
  | timeout => rw [he] at hr; exact Res.noConfusion hr

theorem P.YieldsAt.tailWrap {s0 s : Parser} {b w : List String} {g : Node → P Node}
    (hg : P.YieldsWrap g) (acc : Node)
    (hacc : ∃ x, yield acc = b ++ x ∧ Kept x w) : P.YieldsAt s0 b w s (g acc) := by
  intro ht a s1 hr
  obtain ⟨h1, h2, v, h3, h4⟩ := hg acc s a s1 hr
  obtain ⟨x, h5, h6⟩ := hacc
  have ht2 := ht.append h1 h2
  refine ⟨ht2.1, ht2.2.1, x ++ v, ?_, ?_⟩
  · rw [h3, h5, List.append_assoc]
  · rw [ht2.2.2]
    exact Kept.append_kept h6 h4

theorem Node.push_back_mk (sym : String) (cs : List Node) (c : Node) :
    (Node.mk sym cs).push_back c = Node.mk sym (cs ++ [c]) := rfl

theorem yield_mk_nil (sym : String) : yield (Node.mk sym []) = leafLexemes sym := by
  rw [yield]

theorem yield_mk_cons (sym : String) (c : Node) (cs : List Node) :
    yield (Node.mk sym (c :: cs)) = yield c ++ yieldList cs := by
  rw [yield]

theorem yieldList_nil : yieldList [] = [] := by
  rw [yieldList]

theorem yieldList_cons (c : Node) (cs : List Node) :
    yieldList (c :: cs) = yield c ++ yieldList cs := by
  rw [yieldList]

theorem yieldList_append (cs ds : List Node) :
    yieldList (cs ++ ds) = yieldList cs ++ yieldList ds := by
  induction cs with
  | nil => simp [yieldList_nil]
  | cons c cs ih => simp [yieldList_cons, ih, List.append_assoc]

theorem yield_mk_rule (sym : String) (cs : List Node) (h : sym ∈ ruleNames) :
    yield (Node.mk sym cs) = yieldList cs := by
  cases cs with
  | nil => rw [yield_mk_nil, yieldList_nil, leafLexemes_rule sym h]
  | cons c cs => rw [yield_mk_cons, yieldList_cons]

theorem yield_push_back (n c : Node) (h : n.symbol ∈ ruleNames) :
    yield (n.push_back c) = yield n ++ yield c := by
  cases n with
  | mk sym cs =>
    have h1 : sym ∈ ruleNames := h
    rw [Node.push_back_mk, yield_mk_rule _ _ h1, yield_mk_rule _ _ h1, yieldList_append,
      yieldList_cons, yieldList_nil, List.append_nil]

theorem dropLead_append (p l : List Char) : dropLead p (p ++ l) = some l := by
  induction p with
  | nil => rfl
  | cons c cs ih => simp [dropLead, ih]

theorem leafLexemes_wrapped (x : String) :
    leafLexemes ("ID(" ++ x ++ ")") = [x] ∧ leafLexemes ("NUM(" ++ x ++ ")") = [x] ∧
    leafLexemes ("CHAR(" ++ x ++ ")") = [x] ∧ leafLexemes ("STR(" ++ x ++ ")") = [x] ∧
    leafLexemes ("Var(" ++ x ++ ")") = [x] ∧ leafLexemes ("StructName(" ++ x ++ ")") = [x] ∧
    leafLexemes ("FuncName(" ++ x ++ ")") = [x] ∧ leafLexemes ("ParamName(" ++ x ++ ")") = [x] ∧
    leafLexemes ("Field(" ++ x ++ ")") = [x] ∧ leafLexemes ("BaseType(" ++ x ++ ")") = [x] ∧
    leafLexemes ("struct " ++ x) = ["struct", x] := by
  refine ⟨?_, ?_, ?_, ?_, ?_, ?_, ?_, ?_, ?_, ?_, ?_⟩ <;>
    simp [leafLexemes, unwrap, valueWrappers, dropLead, String.data_append]

theorem leafLexemes_plusAssign : leafLexemes "+=" = ["+", "="] := by decide

theorem symbol_mk (sym : String) (cs : List Node) : (Node.mk sym cs).symbol = sym := rfl

theorem leafLexemes_literal :
    leafLexemes "const" = ["const"] ∧ leafLexemes "*" = ["*"] ∧ leafLexemes "[" = ["["] ∧
    leafLexemes "]" = ["]"] ∧ leafLexemes "=" = ["="] ∧ leafLexemes "||" = ["||"] ∧
    leafLexemes "&&" = ["&&"] ∧ leafLexemes "==" = ["=="] ∧ leafLexemes "+=" = ["+", "="] := by decide

theorem P.Yields.timeout_yields : P.Yields P.timeout := fun _ _ _ h => Res.noConfusion h

theorem P.YieldsWrap.timeout_yieldsWrap : P.YieldsWrap (fun _ => P.timeout) := fun _ _ _ _ h => Res.noConfusion h

theorem P.YieldsPush.timeout_yieldsPush : P.YieldsPush (fun _ => P.timeout) := fun _ _ _ _ _ h => Res.noConfusion h

theorem leafLexemes_ruleName :
    leafLexemes "Program" = [] ∧ leafLexemes "StructDecl" = [] ∧
    leafLexemes "StructMemberList" = [] ∧ leafLexemes "FunctionDecl" = [] ∧
    leafLexemes "TypeSpec" = [] ∧ leafLexemes "ParamList(ε)" = [] ∧
    leafLexemes "ParamList" = [] ∧ leafLexemes "Param" = [] ∧ leafLexemes "CompoundStmt" = [] ∧
    leafLexemes "StmtList" = [] ∧ leafLexemes "IfStmt" = [] ∧ leafLexemes "Else" = [] ∧
    leafLexemes "ForStmt" = [] ∧ leafLexemes "ForInitExpr" = [] ∧
    leafLexemes "ForIterExpr" = [] ∧ leafLexemes "ReturnStmt" = [] ∧
    leafLexemes "DeclStmt" = [] ∧ leafLexemes "Declarator" = [] ∧ leafLexemes "ExprStmt" = [] ∧
    leafLexemes "AssignExpr" = [] ∧ leafLexemes "OrExpr" = [] ∧ leafLexemes "AndExpr" = [] ∧
    leafLexemes "EqExpr" = [] ∧ leafLexemes "RelExpr" = [] ∧ leafLexemes "AddExpr" = [] ∧
    leafLexemes "MulExpr" = [] ∧ leafLexemes "UnaryExpr" = [] ∧ leafLexemes "ArrayAccess" = [] ∧
    leafLexemes "FuncCall" = [] ∧ leafLexemes "Args" = [] ∧ leafLexemes "FieldAccess" = [] ∧
    leafLexemes "PostInc" = [] := by decide

theorem parseTypeSpec_yields : P.Yields parseTypeSpec := by
  unfold parseTypeSpec
  refine P.Yields.intro_yields ?_
  intro s0
  try simp only [P.bind_assoc, P.pure_bind, P.ite_bind]
  repeat' (with_reducible first
    | apply P.YieldsAt.fail_yieldsAt
    | (apply P.YieldsAt.pure_yieldsAt)
    | apply P.YieldsAt.of_checkLexeme_yieldsAt
    | apply P.YieldsAt.of_checkCategory_yieldsAt
    | apply P.YieldsAt.of_peek_yieldsAt
    | apply P.YieldsAt.of_expectLexeme
    | apply P.YieldsAt.of_expectCategory
    | (apply P.YieldsAt.of_matchLexeme <;>
      try simp only [eq_self_iff_true, if_true, Bool.false_eq_true, if_false])
    | (apply P.YieldsAt.step_raw ?_ ?_; · (simp only [Bool.or_eq_true, Bool.and_eq_true, beq_iff_eq] at hc; (repeat' (refine Or.elim hc ?_ ?_ <;> clear hc <;> intro hc)); all_goals first | (rw [hc]; decide) | (rw [hc.1]; decide)))
    | apply P.YieldsAt.step_yieldsAt
    | (apply P.YieldsAt.ite_yieldsAt <;> intro hc)
    | (apply P.YieldsAt.bindY ?_ ?_; · assumption)
    | (apply P.YieldsAt.tailY ?_ ?_; · assumption)
    | intro _)
  all_goals
    (first
      | (simp only [Node.symbol_push_back, symbol_mk]; first | assumption | decide)
      | ((try simp_all [Node.push_back_mk, List.nil_append, List.cons_append, List.append_nil,
          List.append_assoc, yield_mk_cons, yield_mk_nil, yieldList_cons, yieldList_nil,
          leafLexemes_wrapped, leafLexemes_literal, leafLexemes_ruleName, yield_push_back,
          Node.symbol_push_back, symbol_mk, look_skip]) <;>
          repeat' (first
            | exact Kept.nil
            | assumption
            | exact Kept.refl_kept _
            | apply Kept.keep
            | (apply Kept.append_kept ?_ ?_; · assumption)
            | (apply Kept.append_dropped ?_ ?_; · assumption)
            | (apply Kept.drop ?_ ?_; · decide))))

theorem parseStars_yields (n : Nat) : P.YieldsPush (parseStars n) := by
  induction n with
  | zero => exact P.YieldsPush.timeout_yieldsPush
  | succ k ih =>
    refine P.YieldsPush.intro_yieldsPush ?_
    intro node s0 hnode
    rw [parseStars]
    try simp only [P.bind_assoc, P.pure_bind, P.ite_bind]
    repeat' (with_reducible first
      | apply P.YieldsAt.fail_yieldsAt
      | (apply P.YieldsAt.pure_yieldsAt)
      | apply P.YieldsAt.of_checkLexeme_yieldsAt
      | apply P.YieldsAt.of_checkCategory_yieldsAt
      | apply P.YieldsAt.of_peek_yieldsAt
      | apply P.YieldsAt.of_expectLexeme
      | apply P.YieldsAt.of_expectCategory
      | (apply P.YieldsAt.of_matchLexeme <;>
        try simp only [eq_self_iff_true, if_true, Bool.false_eq_true, if_false])
      | (apply P.YieldsAt.step_raw ?_ ?_; · (simp only [Bool.or_eq_true, Bool.and_eq_true, beq_iff_eq] at hc; (repeat' (refine Or.elim hc ?_ ?_ <;> clear hc <;> intro hc)); all_goals first | (rw [hc]; decide) | (rw [hc.1]; decide)))
      | apply P.YieldsAt.step_yieldsAt
      | (apply P.YieldsAt.ite_yieldsAt <;> intro hc)
      | (apply P.YieldsAt.bindPush ih)
      | (apply P.YieldsAt.tailPush ih)
      | (apply P.YieldsAt.bindY ?_ ?_; · assumption)
      | (apply P.YieldsAt.tailY ?_ ?_; · assumption)
      | intro _)
    all_goals
      (first
        | (simp only [Node.symbol_push_back, symbol_mk]; first | assumption | decide)
        | ((try simp_all [Node.push_back_mk, List.nil_append, List.cons_append, List.append_nil,
            List.append_assoc, yield_mk_cons, yield_mk_nil, yieldList_cons, yieldList_nil,
            leafLexemes_wrapped, leafLexemes_literal, leafLexemes_ruleName, yield_push_back,
            Node.symbol_push_back, symbol_mk, look_skip]) <;>
            repeat' (first
              | exact Kept.nil
              | assumption
              | exact Kept.refl_kept _
              | apply Kept.keep
              | (apply Kept.append_kept ?_ ?_; · assumption)
              | (apply Kept.append_dropped ?_ ?_; · assumption)
              | (apply Kept.drop ?_ ?_; · decide))))

theorem parseArraySuffix_yields : P.YieldsPush parseArraySuffix := by
  refine P.YieldsPush.intro_yieldsPush ?_
  intro node s0 hnode
  unfold parseArraySuffix
  try simp only [P.bind_assoc, P.pure_bind, P.ite_bind]
  repeat' (with_reducible first
    | apply P.YieldsAt.fail_yieldsAt
    | (apply P.YieldsAt.pure_yieldsAt)
    | apply P.YieldsAt.of_checkLexeme_yieldsAt
    | apply P.YieldsAt.of_checkCategory_yieldsAt
    | apply P.YieldsAt.of_peek_yieldsAt
    | apply P.YieldsAt.of_expectLexeme
    | apply P.YieldsAt.of_expectCategory
    | (apply P.YieldsAt.of_matchLexeme <;>
      try simp only [eq_self_iff_true, if_true, Bool.false_eq_true, if_false])
    | (apply P.YieldsAt.step_raw ?_ ?_; · (simp only [Bool.or_eq_true, Bool.and_eq_true, beq_iff_eq] at hc; (repeat' (refine Or.elim hc ?_ ?_ <;> clear hc <;> intro hc)); all_goals first | (rw [hc]; decide) | (rw [hc.1]; decide)))
    | apply P.YieldsAt.step_yieldsAt
    | (apply P.YieldsAt.ite_yieldsAt <;> intro hc)
    | (apply P.YieldsAt.bindY ?_ ?_; · assumption)
    | (apply P.YieldsAt.tailY ?_ ?_; · assumption)
    | intro _)
  all_goals
    (first
      | (simp only [Node.symbol_push_back, symbol_mk]; first | assumption | decide)
      | ((try simp_all [Node.push_back_mk, List.nil_append, List.cons_append, List.append_nil,
          List.append_assoc, yield_mk_cons, yield_mk_nil, yieldList_cons, yieldList_nil,
          leafLexemes_wrapped, leafLexemes_literal, leafLexemes_ruleName, yield_push_back,
          Node.symbol_push_back, symbol_mk, look_skip]) <;>
          repeat' (first
            | exact Kept.nil
            | assumption
            | exact Kept.refl_kept _
            | apply Kept.keep
            | (apply Kept.append_kept ?_ ?_; · assumption)
            | (apply Kept.append_dropped ?_ ?_; · assumption)
            | (apply Kept.drop ?_ ?_; · decide))))

set_option maxHeartbeats 8000000 in
theorem parse_yields (n : Nat) :
    P.Yields (parseCompoundStmt n) ∧
    P.Yields (parseStmtList n) ∧
    P.YieldsPush (parseStmtListLoop n) ∧
    P.Yields (parseStmt n) ∧
    P.Yields (parseIfStmt n) ∧
    P.Yields (parseForStmt n) ∧
    P.Yields (parseReturnStmt n) ∧
    (∀ b, P.Yields (parseDeclStmt n b)) ∧
    P.YieldsPush (parseDeclarators n) ∧
    P.Yields (parseExprStmt n) ∧
    P.Yields (parseExpr n) ∧
    P.Yields (parseAssignExpr n) ∧
    P.Yields (parseOrExpr n) ∧
    P.YieldsWrap (parseOrLoop n) ∧
    P.Yields (parseAndExpr n) ∧
    P.YieldsWrap (parseAndLoop n) ∧
    P.Yields (parseEqualityExpr n) ∧
    P.YieldsWrap (parseEqualityLoop n) ∧
    P.Yields (parseRelExpr n) ∧
    P.YieldsWrap (parseRelLoop n) ∧
    P.Yields (parseAddExpr n) ∧
    P.YieldsWrap (parseAddLoop n) ∧
    P.Yields (parseMulExpr n) ∧
    P.YieldsWrap (parseMulLoop n) ∧
    P.Yields (parseUnaryExpr n) ∧
    P.Yields (parsePostfixExpr n) ∧
    P.YieldsWrap (parsePostfixLoop n) ∧
    P.YieldsPush (parseArgsLoop n) ∧
    P.Yields (parsePrimary n) := by
  induction n with
  | zero =>
    refine ⟨?_, ?_, ?_, ?_, ?_, ?_, ?_, ?_, ?_, ?_, ?_, ?_, ?_, ?_, ?_, ?_, ?_, ?_, ?_, ?_, ?_, ?_,
      ?_, ?_, ?_, ?_, ?_, ?_, ?_⟩
    · exact P.Yields.timeout_yields
    · exact P.Yields.timeout_yields
    · exact P.YieldsPush.timeout_yieldsPush
    · exact P.Yields.timeout_yields
    · exact P.Yields.timeout_yields
    · exact P.Yields.timeout_yields
    · exact P.Yields.timeout_yields
    · intro b; exact P.Yields.timeout_yields
    · exact P.YieldsPush.timeout_yieldsPush
    · exact P.Yields.timeout_yields
    · exact P.Yields.timeout_yields
    · exact P.Yields.timeout_yields
    · exact P.Yields.timeout_yields
    · exact P.YieldsWrap.timeout_yieldsWrap
    · exact P.Yields.timeout_yields
    · exact P.YieldsWrap.timeout_yieldsWrap
    · exact P.Yields.timeout_yields
    · exact P.YieldsWrap.timeout_yieldsWrap
    · exact P.Yields.timeout_yields
    · exact P.YieldsWrap.timeout_yieldsWrap
    · exact P.Yields.timeout_yields
    · exact P.YieldsWrap.timeout_yieldsWrap
    · exact P.Yields.timeout_yields
    · exact P.YieldsWrap.timeout_yieldsWrap
    · exact P.Yields.timeout_yields
    · exact P.Yields.timeout_yields
    · exact P.YieldsWrap.timeout_yieldsWrap
    · exact P.YieldsPush.timeout_yieldsPush
    · exact P.Yields.timeout_yields
  | succ k ih =>
    obtain ⟨i1, i2, i3, i4, i5, i6, i7, i8, i9, i10, i11, i12, i13, i14, i15, i16, i17, i18, i19,
      i20, i21, i22, i23, i24, i25, i26, i27, i28, i29⟩ := ih
    have i0 := parseTypeSpec_yields
    refine ⟨?_, ?_, ?_, ?_, ?_, ?_, ?_, ?_, ?_, ?_, ?_, ?_, ?_, ?_, ?_, ?_, ?_, ?_, ?_, ?_, ?_, ?_,
      ?_, ?_, ?_, ?_, ?_, ?_, ?_⟩
    on_goal 1 => refine P.Yields.intro_yields ?_; intro s0; rw [parseCompoundStmt]
    on_goal 2 => refine P.Yields.intro_yields ?_; intro s0; rw [parseStmtList]
    on_goal 3 => refine P.YieldsPush.intro_yieldsPush ?_; intro node s0 hnode; rw [parseStmtListLoop]
    on_goal 4 => refine P.Yields.intro_yields ?_; intro s0; rw [parseStmt]
    on_goal 5 => refine P.Yields.intro_yields ?_; intro s0; rw [parseIfStmt]
    on_goal 6 => refine P.Yields.intro_yields ?_; intro s0; rw [parseForStmt]
    on_goal 7 => refine P.Yields.intro_yields ?_; intro s0; rw [parseReturnStmt]
    on_goal 8 => intro b; refine P.Yields.intro_yields ?_; intro s0; rw [parseDeclStmt]
    on_goal 9 => refine P.YieldsPush.intro_yieldsPush ?_; intro node s0 hnode; rw [parseDeclarators]
    on_goal 10 => refine P.Yields.intro_yields ?_; intro s0; rw [parseExprStmt]
    on_goal 11 => refine P.Yields.intro_yields ?_; intro s0; rw [parseExpr]
    on_goal 12 => refine P.Yields.intro_yields ?_; intro s0; rw [parseAssignExpr]
    on_goal 13 => refine P.Yields.intro_yields ?_; intro s0; rw [parseOrExpr]
    on_goal 14 => refine P.YieldsWrap.intro_yieldsWrap ?_; intro node s0; rw [parseOrLoop]
    on_goal 15 => refine P.Yields.intro_yields ?_; intro s0; rw [parseAndExpr]
    on_goal 16 => refine P.YieldsWrap.intro_yieldsWrap ?_; intro node s0; rw [parseAndLoop]
    on_goal 17 => refine P.Yields.intro_yields ?_; intro s0; rw [parseEqualityExpr]
    on_goal 18 => refine P.YieldsWrap.intro_yieldsWrap ?_; intro node s0; rw [parseEqualityLoop]
    on_goal 19 => refine P.Yields.intro_yields ?_; intro s0; rw [parseRelExpr]
    on_goal 20 => refine P.YieldsWrap.intro_yieldsWrap ?_; intro node s0; rw [parseRelLoop]
    on_goal 21 => refine P.Yields.intro_yields ?_; intro s0; rw [parseAddExpr]
    on_goal 22 => refine P.YieldsWrap.intro_yieldsWrap ?_; intro node s0; rw [parseAddLoop]
    on_goal 23 => refine P.Yields.intro_yields ?_; intro s0; rw [parseMulExpr]
    on_goal 24 => refine P.YieldsWrap.intro_yieldsWrap ?_; intro node s0; rw [parseMulLoop]
    on_goal 25 => refine P.Yields.intro_yields ?_; intro s0; rw [parseUnaryExpr]
    on_goal 26 => refine P.Yields.intro_yields ?_; intro s0; rw [parsePostfixExpr]
    on_goal 27 => refine P.YieldsWrap.intro_yieldsWrap ?_; intro node s0; rw [parsePostfixLoop]
    on_goal 28 => refine P.YieldsPush.intro_yieldsPush ?_; intro node s0 hnode; rw [parseArgsLoop]
    on_goal 29 => refine P.Yields.intro_yields ?_; intro s0; rw [parsePrimary]
    all_goals try simp only [P.bind_assoc, P.pure_bind, P.ite_bind]
    all_goals
      repeat' (with_reducible first
        | apply P.YieldsAt.fail_yieldsAt
        | (apply P.YieldsAt.pure_yieldsAt)
        | apply P.YieldsAt.of_checkLexeme_yieldsAt
        | apply P.YieldsAt.of_checkCategory_yieldsAt
        | apply P.YieldsAt.of_peek_yieldsAt
        | apply P.YieldsAt.of_expectLexeme
        | apply P.YieldsAt.of_expectCategory
        | (apply P.YieldsAt.of_matchLexeme <;>
          try simp only [eq_self_iff_true, if_true, Bool.false_eq_true, if_false])
        | (apply P.YieldsAt.step_raw ?_ ?_; · (simp only [Bool.or_eq_true, Bool.and_eq_true, beq_iff_eq] at hc; (repeat' (refine Or.elim hc ?_ ?_ <;> clear hc <;> intro hc)); all_goals first | (rw [hc]; decide) | (rw [hc.1]; decide)))
        | apply P.YieldsAt.step_yieldsAt
        | (apply P.YieldsAt.ite_yieldsAt <;> intro hc)
        | (apply P.YieldsAt.bindPushS (parseStars_yields _) (parseStars_symbol _))
        | (apply P.YieldsAt.bindPushS parseArraySuffix_yields parseArraySuffix_symbol)
        | (apply P.YieldsAt.tailPush parseArraySuffix_yields)
        | (apply P.YieldsAt.bindY (i8 _))
        | (apply P.YieldsAt.tailY (i8 _))
        | (apply P.YieldsAt.bindWrap i14)
        | (apply P.YieldsAt.tailWrap i14)
        | (apply P.YieldsAt.bindWrap i16)
        | (apply P.YieldsAt.tailWrap i16)
        | (apply P.YieldsAt.bindWrap i18)
        | (apply P.YieldsAt.tailWrap i18)
        | (apply P.YieldsAt.bindWrap i20)
        | (apply P.YieldsAt.tailWrap i20)
        | (apply P.YieldsAt.bindWrap i22)
        | (apply P.YieldsAt.tailWrap i22)
        | (apply P.YieldsAt.bindWrap i24)
        | (apply P.YieldsAt.tailWrap i24)
        | (apply P.YieldsAt.bindWrap i27)
        | (apply P.YieldsAt.tailWrap i27)
        | (apply P.YieldsAt.bindPush i3)
        | (apply P.YieldsAt.tailPush i3)
        | (apply P.YieldsAt.bindPush i9)
        | (apply P.YieldsAt.tailPush i9)
        | (apply P.YieldsAt.bindPush i28)
        | (apply P.YieldsAt.tailPush i28)
        | (apply P.YieldsAt.bindY ?_ ?_; · assumption)
        | (apply P.YieldsAt.tailY ?_ ?_; · assumption)
        | intro _)
    all_goals
      (first
        | (simp only [Node.symbol_push_back, symbol_mk]; first | assumption | decide)
        | ((try simp_all [Node.push_back_mk, List.nil_append, List.cons_append, List.append_nil,
            List.append_assoc, yield_mk_cons, yield_mk_nil, yieldList_cons, yieldList_nil,
            leafLexemes_wrapped, leafLexemes_literal, leafLexemes_ruleName, yield_push_back,
            Node.symbol_push_back, symbol_mk, look_skip]) <;>
            repeat' (first
              | exact Kept.nil
              | assumption
              | exact Kept.refl_kept _
              | apply Kept.keep
              | (apply Kept.append_kept ?_ ?_; · assumption)
              | (apply Kept.append_dropped ?_ ?_; · assumption)
              | (apply Kept.drop ?_ ?_; · decide))))

theorem parseParam_yields (n : Nat) : P.Yields (parseParam n) := by
  have i0 := parseTypeSpec_yields
  refine P.Yields.intro_yields ?_
  intro s0
  unfold parseParam
  try simp only [P.bind_assoc, P.pure_bind, P.ite_bind]
  repeat' (with_reducible first
    | apply P.YieldsAt.fail_yieldsAt
    | (apply P.YieldsAt.pure_yieldsAt)
    | apply P.YieldsAt.of_checkLexeme_yieldsAt
    | apply P.YieldsAt.of_checkCategory_yieldsAt
    | apply P.YieldsAt.of_peek_yieldsAt
    | apply P.YieldsAt.of_expectLexeme
    | apply P.YieldsAt.of_expectCategory
    | (apply P.YieldsAt.of_matchLexeme <;>
      try simp only [eq_self_iff_true, if_true, Bool.false_eq_true, if_false])
    | (apply P.YieldsAt.step_raw ?_ ?_; · (simp only [Bool.or_eq_true, Bool.and_eq_true, beq_iff_eq] at hc; (repeat' (refine Or.elim hc ?_ ?_ <;> clear hc <;> intro hc)); all_goals first | (rw [hc]; decide) | (rw [hc.1]; decide)))
    | apply P.YieldsAt.step_yieldsAt
    | (apply P.YieldsAt.ite_yieldsAt <;> intro hc)
    | (apply P.YieldsAt.bindPushS (parseStars_yields _) (parseStars_symbol _))
    | (apply P.YieldsAt.bindPushS parseArraySuffix_yields parseArraySuffix_symbol)
    | (apply P.YieldsAt.tailPush parseArraySuffix_yields)
    | (apply P.YieldsAt.bindY ?_ ?_; · assumption)
    | (apply P.YieldsAt.tailY ?_ ?_; · assumption)
    | intro _)
  all_goals
    (first
      | (simp only [Node.symbol_push_back, symbol_mk]; first | assumption | decide)
      | ((try simp_all [Node.push_back_mk, List.nil_append, List.cons_append, List.append_nil,
          List.append_assoc, yield_mk_cons, yield_mk_nil, yieldList_cons, yieldList_nil,
          leafLexemes_wrapped, leafLexemes_literal, leafLexemes_ruleName, yield_push_back,
          Node.symbol_push_back, symbol_mk, look_skip]) <;>
          repeat' (first
            | exact Kept.nil
            | assumption
            | exact Kept.refl_kept _
            | apply Kept.keep
            | (apply Kept.append_kept ?_ ?_; · assumption)
            | (apply Kept.append_dropped ?_ ?_; · assumption)
            | (apply Kept.drop ?_ ?_; · decide))))

theorem parseParamListLoop_yields (n : Nat) : P.YieldsPush (parseParamListLoop n) := by
  induction n with
  | zero => exact P.YieldsPush.timeout_yieldsPush
  | succ k ih =>
    have h1 := parseParam_yields k
    refine P.YieldsPush.intro_yieldsPush ?_
    intro node s0 hnode
    rw [parseParamListLoop]
    try simp only [P.bind_assoc, P.pure_bind, P.ite_bind]
    repeat' (with_reducible first
      | apply P.YieldsAt.fail_yieldsAt
      | (apply P.YieldsAt.pure_yieldsAt)
      | apply P.YieldsAt.of_checkLexeme_yieldsAt
      | apply P.YieldsAt.of_checkCategory_yieldsAt
      | apply P.YieldsAt.of_peek_yieldsAt
      | apply P.YieldsAt.of_expectLexeme
      | apply P.YieldsAt.of_expectCategory
      | (apply P.YieldsAt.of_matchLexeme <;>
        try simp only [eq_self_iff_true, if_true, Bool.false_eq_true, if_false])
      | (apply P.YieldsAt.step_raw ?_ ?_; · (simp only [Bool.or_eq_true, Bool.and_eq_true, beq_iff_eq] at hc; (repeat' (refine Or.elim hc ?_ ?_ <;> clear hc <;> intro hc)); all_goals first | (rw [hc]; decide) | (rw [hc.1]; decide)))
      | apply P.YieldsAt.step_yieldsAt
      | (apply P.YieldsAt.ite_yieldsAt <;> intro hc)
      | (apply P.YieldsAt.bindPushS (parseStars_yields _) (parseStars_symbol _))
      | (apply P.YieldsAt.bindPushS parseArraySuffix_yields parseArraySuffix_symbol)
      | (apply P.YieldsAt.tailPush parseArraySuffix_yields)
      | (apply P.YieldsAt.bindPush ih)
      | (apply P.YieldsAt.tailPush ih)
      | (apply P.YieldsAt.bindY ?_ ?_; · assumption)
      | (apply P.YieldsAt.tailY ?_ ?_; · assumption)
      | intro _)
    all_goals
      (first
        | (simp only [Node.symbol_push_back, symbol_mk]; first | assumption | decide)
        | ((try simp_all [Node.push_back_mk, List.nil_append, List.cons_append, List.append_nil,
            List.append_assoc, yield_mk_cons, yield_mk_nil, yieldList_cons, yieldList_nil,
            leafLexemes_wrapped, leafLexemes_literal, leafLexemes_ruleName, yield_push_back,
            Node.symbol_push_back, symbol_mk, look_skip]) <;>
            repeat' (first
              | exact Kept.nil
              | assumption
              | exact Kept.refl_kept _
              | apply Kept.keep
              | (apply Kept.append_kept ?_ ?_; · assumption)
              | (apply Kept.append_dropped ?_ ?_; · assumption)
              | (apply Kept.drop ?_ ?_; · decide))))

theorem parseParamList_yields (n : Nat) : P.Yields (parseParamList n) := by
  have h1 := parseParam_yields n
  refine P.Yields.intro_yields ?_
  intro s0
  unfold parseParamList
  try simp only [P.bind_assoc, P.pure_bind, P.ite_bind]
  repeat' (with_reducible first
    | apply P.YieldsAt.fail_yieldsAt
    | (apply P.YieldsAt.pure_yieldsAt)
    | apply P.YieldsAt.of_checkLexeme_yieldsAt
    | apply P.YieldsAt.of_checkCategory_yieldsAt
    | apply P.YieldsAt.of_peek_yieldsAt
    | apply P.YieldsAt.of_expectLexeme
    | apply P.YieldsAt.of_expectCategory
    | (apply P.YieldsAt.of_matchLexeme <;>
      try simp only [eq_self_iff_true, if_true, Bool.false_eq_true, if_false])
    | (apply P.YieldsAt.step_raw ?_ ?_; · (simp only [Bool.or_eq_true, Bool.and_eq_true, beq_iff_eq] at hc; (repeat' (refine Or.elim hc ?_ ?_ <;> clear hc <;> intro hc)); all_goals first | (rw [hc]; decide) | (rw [hc.1]; decide)))
    | apply P.YieldsAt.step_yieldsAt
    | (apply P.YieldsAt.ite_yieldsAt <;> intro hc)
    | (apply P.YieldsAt.bindPushS (parseStars_yields _) (parseStars_symbol _))
    | (apply P.YieldsAt.bindPushS parseArraySuffix_yields parseArraySuffix_symbol)
    | (apply P.YieldsAt.tailPush parseArraySuffix_yields)
    | (apply P.YieldsAt.bindPush (parseParamListLoop_yields _))
    | (apply P.YieldsAt.tailPush (parseParamListLoop_yields _))
    | (apply P.YieldsAt.bindY ?_ ?_; · assumption)
    | (apply P.YieldsAt.tailY ?_ ?_; · assumption)
    | intro _)
  all_goals
    (first
      | (simp only [Node.symbol_push_back, symbol_mk]; first | assumption | decide)
      | ((try simp_all [Node.push_back_mk, List.nil_append, List.cons_append, List.append_nil,
          List.append_assoc, yield_mk_cons, yield_mk_nil, yieldList_cons, yieldList_nil,
          leafLexemes_wrapped, leafLexemes_literal, leafLexemes_ruleName, yield_push_back,
          Node.symbol_push_back, symbol_mk, look_skip]) <;>
          repeat' (first
            | exact Kept.nil
            | assumption
            | exact Kept.refl_kept _
            | apply Kept.keep
            | (apply Kept.append_kept ?_ ?_; · assumption)
            | (apply Kept.append_dropped ?_ ?_; · assumption)
            | (apply Kept.drop ?_ ?_; · decide))))

theorem parseParamListOpt_yields (n : Nat) : P.Yields (parseParamListOpt n) := by
  have h1 := parseParamList_yields n
  refine P.Yields.intro_yields ?_
  intro s0
  unfold parseParamListOpt
  try simp only [P.bind_assoc, P.pure_bind, P.ite_bind]
  repeat' (with_reducible first
    | apply P.YieldsAt.fail_yieldsAt
    | (apply P.YieldsAt.pure_yieldsAt)
    | apply P.YieldsAt.of_checkLexeme_yieldsAt
    | apply P.YieldsAt.of_checkCategory_yieldsAt
    | apply P.YieldsAt.of_peek_yieldsAt
    | apply P.YieldsAt.of_expectLexeme
    | apply P.YieldsAt.of_expectCategory
    | (apply P.YieldsAt.of_matchLexeme <;>
      try simp only [eq_self_iff_true, if_true, Bool.false_eq_true, if_false])
    | (apply P.YieldsAt.step_raw ?_ ?_; · (simp only [Bool.or_eq_true, Bool.and_eq_true, beq_iff_eq] at hc; (repeat' (refine Or.elim hc ?_ ?_ <;> clear hc <;> intro hc)); all_goals first | (rw [hc]; decide) | (rw [hc.1]; decide)))
    | apply P.YieldsAt.step_yieldsAt
    | (apply P.YieldsAt.ite_yieldsAt <;> intro hc)
    | (apply P.YieldsAt.bindPushS (parseStars_yields _) (parseStars_symbol _))
    | (apply P.YieldsAt.bindPushS parseArraySuffix_yields parseArraySuffix_symbol)
    | (apply P.YieldsAt.tailPush parseArraySuffix_yields)
    | (apply P.YieldsAt.bindY ?_ ?_; · assumption)
    | (apply P.YieldsAt.tailY ?_ ?_; · assumption)
    | intro _)
  all_goals
    (first
      | (simp only [Node.symbol_push_back, symbol_mk]; first | assumption | decide)
      | ((try simp_all [Node.push_back_mk, List.nil_append, List.cons_append, List.append_nil,
          List.append_assoc, yield_mk_cons, yield_mk_nil, yieldList_cons, yieldList_nil,
          leafLexemes_wrapped, leafLexemes_literal, leafLexemes_ruleName, yield_push_back,
          Node.symbol_push_back, symbol_mk, look_skip]) <;>
          repeat' (first
            | exact Kept.nil
            | assumption
            | exact Kept.refl_kept _
            | apply Kept.keep
            | (apply Kept.append_kept ?_ ?_; · assumption)
            | (apply Kept.append_dropped ?_ ?_; · assumption)
            | (apply Kept.drop ?_ ?_; · decide))))

theorem parseFunctionDecl_yields (n : Nat) : P.Yields (parseFunctionDecl n) := by
  have i0 := parseTypeSpec_yields
  have h1 := parseParamListOpt_yields n
  have h2 := (parse_yields n).1
  refine P.Yields.intro_yields ?_
  intro s0
  unfold parseFunctionDecl
  try simp only [P.bind_assoc, P.pure_bind, P.ite_bind]
  repeat' (with_reducible first
    | apply P.YieldsAt.fail_yieldsAt
    | (apply P.YieldsAt.pure_yieldsAt)
    | apply P.YieldsAt.of_checkLexeme_yieldsAt
    | apply P.YieldsAt.of_checkCategory_yieldsAt
    | apply P.YieldsAt.of_peek_yieldsAt
    | apply P.YieldsAt.of_expectLexeme
    | apply P.YieldsAt.of_expectCategory
    | (apply P.YieldsAt.of_matchLexeme <;>
      try simp only [eq_self_iff_true, if_true, Bool.false_eq_true, if_false])
    | (apply P.YieldsAt.step_raw ?_ ?_; · (simp only [Bool.or_eq_true, Bool.and_eq_true, beq_iff_eq] at hc; (repeat' (refine Or.elim hc ?_ ?_ <;> clear hc <;> intro hc)); all_goals first | (rw [hc]; decide) | (rw [hc.1]; decide)))
    | apply P.YieldsAt.step_yieldsAt
    | (apply P.YieldsAt.ite_yieldsAt <;> intro hc)
    | (apply P.YieldsAt.bindPushS (parseStars_yields _) (parseStars_symbol _))
    | (apply P.YieldsAt.bindPushS parseArraySuffix_yields parseArraySuffix_symbol)
    | (apply P.YieldsAt.tailPush parseArraySuffix_yields)
    | (apply P.YieldsAt.bindY ?_ ?_; · assumption)
    | (apply P.YieldsAt.tailY ?_ ?_; · assumption)
    | intro _)
  all_goals
    (first
      | (simp only [Node.symbol_push_back, symbol_mk]; first | assumption | decide)
      | ((try simp_all [Node.push_back_mk, List.nil_append, List.cons_append, List.append_nil,
          List.append_assoc, yield_mk_cons, yield_mk_nil, yieldList_cons, yieldList_nil,
          leafLexemes_wrapped, leafLexemes_literal, leafLexemes_ruleName, yield_push_back,
          Node.symbol_push_back, symbol_mk, look_skip]) <;>
          repeat' (first
            | exact Kept.nil
            | assumption
            | exact Kept.refl_kept _
            | apply Kept.keep
            | (apply Kept.append_kept ?_ ?_; · assumption)
            | (apply Kept.append_dropped ?_ ?_; · assumption)
            | (apply Kept.drop ?_ ?_; · decide))))

theorem parseStructMembers_yields (n : Nat) : P.YieldsPush (parseStructMembers n) := by
  induction n with
  | zero => exact P.YieldsPush.timeout_yieldsPush
  | succ k ih =>
    have h1 := (parse_yields k).2.2.2.2.2.2.2.1 true
    refine P.YieldsPush.intro_yieldsPush ?_
    intro node s0 hnode
    rw [parseStructMembers]
    try simp only [P.bind_assoc, P.pure_bind, P.ite_bind]
    repeat' (with_reducible first
      | apply P.YieldsAt.fail_yieldsAt
      | (apply P.YieldsAt.pure_yieldsAt)
      | apply P.YieldsAt.of_checkLexeme_yieldsAt
      | apply P.YieldsAt.of_checkCategory_yieldsAt
      | apply P.YieldsAt.of_peek_yieldsAt
      | apply P.YieldsAt.of_expectLexeme
      | apply P.YieldsAt.of_expectCategory
      | (apply P.YieldsAt.of_matchLexeme <;>
        try simp only [eq_self_iff_true, if_true, Bool.false_eq_true, if_false])
      | (apply P.YieldsAt.step_raw ?_ ?_; · (simp only [Bool.or_eq_true, Bool.and_eq_true, beq_iff_eq] at hc; (repeat' (refine Or.elim hc ?_ ?_ <;> clear hc <;> intro hc)); all_goals first | (rw [hc]; decide) | (rw [hc.1]; decide)))
      | apply P.YieldsAt.step_yieldsAt
      | (apply P.YieldsAt.ite_yieldsAt <;> intro hc)
      | (apply P.YieldsAt.bindPushS (parseStars_yields _) (parseStars_symbol _))
      | (apply P.YieldsAt.bindPushS parseArraySuffix_yields parseArraySuffix_symbol)
      | (apply P.YieldsAt.tailPush parseArraySuffix_yields)
      | (apply P.YieldsAt.bindPush ih)
      | (apply P.YieldsAt.tailPush ih)
      | (apply P.YieldsAt.bindY ?_ ?_; · assumption)
      | (apply P.YieldsAt.tailY ?_ ?_; · assumption)
      | intro _)
    all_goals
      (first
        | (simp only [Node.symbol_push_back, symbol_mk]; first | assumption | decide)
        | ((try simp_all [Node.push_back_mk, List.nil_append, List.cons_append, List.append_nil,
            List.append_assoc, yield_mk_cons, yield_mk_nil, yieldList_cons, yieldList_nil,
            leafLexemes_wrapped, leafLexemes_literal, leafLexemes_ruleName, yield_push_back,
            Node.symbol_push_back, symbol_mk, look_skip]) <;>
            repeat' (first
              | exact Kept.nil
              | assumption
              | exact Kept.refl_kept _
              | apply Kept.keep
              | (apply Kept.append_kept ?_ ?_; · assumption)
              | (apply Kept.append_dropped ?_ ?_; · assumption)
              | (apply Kept.drop ?_ ?_; · decide))))

theorem parseStructDecl_yields (n : Nat) : P.Yields (parseStructDecl n) := by
  refine P.Yields.intro_yields ?_
  intro s0
  unfold parseStructDecl
  try simp only [P.bind_assoc, P.pure_bind, P.ite_bind]
  repeat' (with_reducible first
    | apply P.YieldsAt.fail_yieldsAt
    | (apply P.YieldsAt.pure_yieldsAt)
    | apply P.YieldsAt.of_checkLexeme_yieldsAt
    | apply P.YieldsAt.of_checkCategory_yieldsAt
    | apply P.YieldsAt.of_peek_yieldsAt
    | apply P.YieldsAt.of_expectLexeme
    | apply P.YieldsAt.of_expectCategory
    | (apply P.YieldsAt.of_matchLexeme <;>
      try simp only [eq_self_iff_true, if_true, Bool.false_eq_true, if_false])
    | (apply P.YieldsAt.step_raw ?_ ?_; · (simp only [Bool.or_eq_true, Bool.and_eq_true, beq_iff_eq] at hc; (repeat' (refine Or.elim hc ?_ ?_ <;> clear hc <;> intro hc)); all_goals first | (rw [hc]; decide) | (rw [hc.1]; decide)))
    | apply P.YieldsAt.step_yieldsAt
    | (apply P.YieldsAt.ite_yieldsAt <;> intro hc)
    | (apply P.YieldsAt.bindPushS (parseStars_yields _) (parseStars_symbol _))
    | (apply P.YieldsAt.bindPushS parseArraySuffix_yields parseArraySuffix_symbol)
    | (apply P.YieldsAt.tailPush parseArraySuffix_yields)
    | (apply P.YieldsAt.bindPush (parseStructMembers_yields _))
    | (apply P.YieldsAt.tailPush (parseStructMembers_yields _))
    | (apply P.YieldsAt.bindY ?_ ?_; · assumption)
    | (apply P.YieldsAt.tailY ?_ ?_; · assumption)
    | intro _)
  all_goals
    (first
      | (simp only [Node.symbol_push_back, symbol_mk]; first | assumption | decide)
      | ((try simp_all [Node.push_back_mk, List.nil_append, List.cons_append, List.append_nil,
          List.append_assoc, yield_mk_cons, yield_mk_nil, yieldList_cons, yieldList_nil,
          leafLexemes_wrapped, leafLexemes_literal, leafLexemes_ruleName, yield_push_back,
          Node.symbol_push_back, symbol_mk, look_skip]) <;>
          repeat' (first
            | exact Kept.nil
            | assumption
            | exact Kept.refl_kept _
            | apply Kept.keep
            | (apply Kept.append_kept ?_ ?_; · assumption)
            | (apply Kept.append_dropped ?_ ?_; · assumption)
            | (apply Kept.drop ?_ ?_; · decide))))

theorem parseExternalDecl_yields (n : Nat) : P.Yields (parseExternalDecl n) := by
  have h1 := parseStructDecl_yields n
  have h2 := parseFunctionDecl_yields n
  refine P.Yields.intro_yields ?_
  intro s0
  unfold parseExternalDecl
  try simp only [P.bind_assoc, P.pure_bind, P.ite_bind]
  repeat' (with_reducible first
    | apply P.YieldsAt.fail_yieldsAt
    | (apply P.YieldsAt.pure_yieldsAt)
    | apply P.YieldsAt.of_checkLexeme_yieldsAt
    | apply P.YieldsAt.of_checkCategory_yieldsAt
    | apply P.YieldsAt.of_peek_yieldsAt
    | apply P.YieldsAt.of_expectLexeme
    | apply P.YieldsAt.of_expectCategory
    | (apply P.YieldsAt.of_matchLexeme <;>
      try simp only [eq_self_iff_true, if_true, Bool.false_eq_true, if_false])
    | (apply P.YieldsAt.step_raw ?_ ?_; · (simp only [Bool.or_eq_true, Bool.and_eq_true, beq_iff_eq] at hc; (repeat' (refine Or.elim hc ?_ ?_ <;> clear hc <;> intro hc)); all_goals first | (rw [hc]; decide) | (rw [hc.1]; decide)))
    | apply P.YieldsAt.step_yieldsAt
    | (apply P.YieldsAt.ite_yieldsAt <;> intro hc)
    | (apply P.YieldsAt.bindPushS (parseStars_yields _) (parseStars_symbol _))
    | (apply P.YieldsAt.bindPushS parseArraySuffix_yields parseArraySuffix_symbol)
    | (apply P.YieldsAt.tailPush parseArraySuffix_yields)
    | (apply P.YieldsAt.bindY ?_ ?_; · assumption)
    | (apply P.YieldsAt.tailY ?_ ?_; · assumption)
    | intro _)
  all_goals
    (first
      | (simp only [Node.symbol_push_back, symbol_mk]; first | assumption | decide)
      | ((try simp_all [Node.push_back_mk, List.nil_append, List.cons_append, List.append_nil,
          List.append_assoc, yield_mk_cons, yield_mk_nil, yieldList_cons, yieldList_nil,
          leafLexemes_wrapped, leafLexemes_literal, leafLexemes_ruleName, yield_push_back,
          Node.symbol_push_back, symbol_mk, look_skip]) <;>
          repeat' (first
            | exact Kept.nil
            | assumption
            | exact Kept.refl_kept _
            | apply Kept.keep
            | (apply Kept.append_kept ?_ ?_; · assumption)
            | (apply Kept.append_dropped ?_ ?_; · assumption)
            | (apply Kept.drop ?_ ?_; · decide))))

theorem parseProgramLoop_yields (n : Nat) : P.YieldsPush (parseProgramLoop n) := by
  induction n with
  | zero => exact P.YieldsPush.timeout_yieldsPush
  | succ k ih =>
    have h1 := parseExternalDecl_yields k
    refine P.YieldsPush.intro_yieldsPush ?_
    intro node s0 hnode
    rw [parseProgramLoop]
    try simp only [P.bind_assoc, P.pure_bind, P.ite_bind]
    repeat' (with_reducible first
      | apply P.YieldsAt.fail_yieldsAt
      | (apply P.YieldsAt.pure_yieldsAt)
      | apply P.YieldsAt.of_checkLexeme_yieldsAt
      | apply P.YieldsAt.of_checkCategory_yieldsAt
      | apply P.YieldsAt.of_peek_yieldsAt
      | apply P.YieldsAt.of_expectLexeme
      | apply P.YieldsAt.of_expectCategory
      | (apply P.YieldsAt.of_matchLexeme <;>
        try simp only [eq_self_iff_true, if_true, Bool.false_eq_true, if_false])
      | (apply P.YieldsAt.step_raw ?_ ?_; · (simp only [Bool.or_eq_true, Bool.and_eq_true, beq_iff_eq] at hc; (repeat' (refine Or.elim hc ?_ ?_ <;> clear hc <;> intro hc)); all_goals first | (rw [hc]; decide) | (rw [hc.1]; decide)))
      | apply P.YieldsAt.step_yieldsAt
      | (apply P.YieldsAt.ite_yieldsAt <;> intro hc)
      | (apply P.YieldsAt.bindPushS (parseStars_yields _) (parseStars_symbol _))
      | (apply P.YieldsAt.bindPushS parseArraySuffix_yields parseArraySuffix_symbol)
      | (apply P.YieldsAt.tailPush parseArraySuffix_yields)
      | (apply P.YieldsAt.bindPush ih)
      | (apply P.YieldsAt.tailPush ih)
      | (apply P.YieldsAt.bindY ?_ ?_; · assumption)
      | (apply P.YieldsAt.tailY ?_ ?_; · assumption)
      | intro _)
    all_goals
      (first
        | (simp only [Node.symbol_push_back, symbol_mk]; first | assumption | decide)
        | ((try simp_all [Node.push_back_mk, List.nil_append, List.cons_append, List.append_nil,
            List.append_assoc, yield_mk_cons, yield_mk_nil, yieldList_cons, yieldList_nil,
            leafLexemes_wrapped, leafLexemes_literal, leafLexemes_ruleName, yield_push_back,
            Node.symbol_push_back, symbol_mk, look_skip]) <;>
            repeat' (first
              | exact Kept.nil
              | assumption
              | exact Kept.refl_kept _
              | apply Kept.keep
              | (apply Kept.append_kept ?_ ?_; · assumption)
              | (apply Kept.append_dropped ?_ ?_; · assumption)
              | (apply Kept.drop ?_ ?_; · decide))))

theorem parseProgram_yields (n : Nat) : P.Yields (parseProgram n) := by
  refine P.Yields.intro_yields ?_
  intro s0
  unfold parseProgram
  try simp only [P.bind_assoc, P.pure_bind, P.ite_bind]
  repeat' (with_reducible first
    | apply P.YieldsAt.fail_yieldsAt
    | (apply P.YieldsAt.pure_yieldsAt)
    | apply P.YieldsAt.of_checkLexeme_yieldsAt
    | apply P.YieldsAt.of_checkCategory_yieldsAt
    | apply P.YieldsAt.of_peek_yieldsAt
    | apply P.YieldsAt.of_expectLexeme
    | apply P.YieldsAt.of_expectCategory
    | (apply P.YieldsAt.of_matchLexeme <;>
      try simp only [eq_self_iff_true, if_true, Bool.false_eq_true, if_false])
    | (apply P.YieldsAt.step_raw ?_ ?_; · (simp only [Bool.or_eq_true, Bool.and_eq_true, beq_iff_eq] at hc; (repeat' (refine Or.elim hc ?_ ?_ <;> clear hc <;> intro hc)); all_goals first | (rw [hc]; decide) | (rw [hc.1]; decide)))
    | apply P.YieldsAt.step_yieldsAt
    | (apply P.YieldsAt.ite_yieldsAt <;> intro hc)
    | (apply P.YieldsAt.bindPushS (parseStars_yields _) (parseStars_symbol _))
    | (apply P.YieldsAt.bindPushS parseArraySuffix_yields parseArraySuffix_symbol)
    | (apply P.YieldsAt.tailPush parseArraySuffix_yields)
    | (apply P.YieldsAt.bindPush (parseProgramLoop_yields _))
    | (apply P.YieldsAt.tailPush (parseProgramLoop_yields _))
    | (apply P.YieldsAt.bindY ?_ ?_; · assumption)
    | (apply P.YieldsAt.tailY ?_ ?_; · assumption)
    | intro _)
  all_goals
    (first
      | (simp only [Node.symbol_push_back, symbol_mk]; first | assumption | decide)
      | ((try simp_all [Node.push_back_mk, List.nil_append, List.cons_append, List.append_nil,
          List.append_assoc, yield_mk_cons, yield_mk_nil, yieldList_cons, yieldList_nil,
          leafLexemes_wrapped, leafLexemes_literal, leafLexemes_ruleName, yield_push_back,
          Node.symbol_push_back, symbol_mk, look_skip]) <;>
          repeat' (first
            | exact Kept.nil
            | assumption
            | exact Kept.refl_kept _
            | apply Kept.keep
            | (apply Kept.append_kept ?_ ?_; · assumption)
            | (apply Kept.append_dropped ?_ ?_; · assumption)
            | (apply Kept.drop ?_ ?_; · decide))))

/-! ## The round trip from the leaves to the consumed lexemes -/

/-- C7 as stated fails: on `int f ( ) { }` with the sentinel, `parseProgram` succeeds after
consuming the six lexemes `int f ( ) { }`, and the tree has the four leaves `BaseType(int)`,
`FuncName(f)`, `ParamList(ε)`, `StmtList`.  With the wrappers stripped and the synthetic leaves
ignored they read `int f`, which is not the consumed sequence; and no reading that gives at most
one lexeme per leaf can produce six lexemes from four leaves. -/
theorem C7_counterexample :
    ¬ (∀ (toks : List Token) (fuel : Nat) (node : Node) (s1 : Parser),
      sentinelTerminated toks → parseProgram fuel ⟨toks, 0⟩ = Res.ok node s1 →
      yield node = (toks.take s1.pos).map Token.lexeme) ∧
    ¬ (∀ (toks : List Token) (fuel : Nat) (node : Node) (s1 : Parser),
      sentinelTerminated toks → parseProgram fuel ⟨toks, 0⟩ = Res.ok node s1 →
      ∃ dec : String → Option String,
        (leafLabels node).filterMap dec = (toks.take s1.pos).map Token.lexeme) := by
  constructor
  · intro h
    have := h emptyParamsExample 4 _ ⟨emptyParamsExample, 6⟩ ⟨eofToken, rfl, rfl, rfl⟩ rfl
    have e1 : leafLexemes "BaseType(int)" = ["int"] := by decide
    have e2 : leafLexemes "FuncName(f)" = ["f"] := by decide
    simp [Node.push_back_mk, yield_mk_cons, yield_mk_nil, yieldList_cons, yieldList_nil,
      leafLexemes_ruleName, emptyParamsExample, e1, e2] at this
  · intro h
    obtain ⟨dec, hd⟩ :=
      h emptyParamsExample 4 _ ⟨emptyParamsExample, 6⟩ ⟨eofToken, rfl, rfl, rfl⟩ rfl
    have hl := congrArg List.length hd
    have hle := List.length_filterMap_le dec (leafLabels (Node.mk "Program" [Node.mk "FunctionDecl" [
        Node.mk "TypeSpec" [Node.mk "BaseType(int)" []], Node.mk "FuncName(f)" [],
        Node.mk "ParamList(ε)" [], Node.mk "CompoundStmt" [Node.mk "StmtList" []]]]))
    have h4 : (leafLabels (Node.mk "Program" [Node.mk "FunctionDecl" [
        Node.mk "TypeSpec" [Node.mk "BaseType(int)" []], Node.mk "FuncName(f)" [],
        Node.mk "ParamList(ε)" [], Node.mk "CompoundStmt" [Node.mk "StmtList" []]]])).length = 4 := by
      simp [leafLabels, leafLabelsList]
    have h6 : (List.map Token.lexeme (List.take 6 emptyParamsExample)).length = 6 := by
      simp [emptyParamsExample]
    have e : (leafLabels (Node.mk "Program" [Node.mk "FunctionDecl" [
        Node.mk "TypeSpec" [Node.mk "BaseType(int)" []], Node.mk "FuncName(f)" [],
        Node.mk "ParamList(ε)" [], Node.mk "CompoundStmt" [Node.mk "StmtList" []]]])).filterMap dec
        = (List.map Token.lexeme (List.take 6 emptyParamsExample)) := hd
    rw [e, h6, h4] at hle
    omega

/-- C7, amended.  Whenever `parseProgram` from position 0 returns a tree, the token sequence is
unchanged and the lexemes read off the leaves of the tree, left to right (value wrappers
stripped, rule-name and epsilon leaves ignored, the type leaf `struct n` read as `struct` `n`
and the fused `+=` as `+` `=`), are what remains of the lexemes of the consumed tokens after
deleting occurrences of the structural lexemes `( ) { } [ ] ; , . ++ if else for return struct`
and nothing else; in particular they form a subsequence of the consumed lexemes, in order. -/
theorem C7_leaves_keep_consumed (toks : List Token) (fuel : Nat) (node : Node) (s1 : Parser)
    (h : parseProgram fuel ⟨toks, 0⟩ = Res.ok node s1) :
    s1.tokens = toks ∧
    Kept (yield node) ((toks.take s1.pos).map Token.lexeme) ∧
    List.Sublist (yield node) ((toks.take s1.pos).map Token.lexeme) := by
  obtain ⟨h1, -, h3⟩ := parseProgram_yields fuel ⟨toks, 0⟩ node s1 h
  exact ⟨h1, h3, h3.sublist⟩

theorem C7_leaves_keep_consumed_witness :
    parseProgram 4 ⟨emptyParamsExample, 0⟩ =
      Res.ok (Node.mk "Program" [Node.mk "FunctionDecl" [
        Node.mk "TypeSpec" [Node.mk "BaseType(int)" []], Node.mk "FuncName(f)" [],
        Node.mk "ParamList(ε)" [], Node.mk "CompoundStmt" [Node.mk "StmtList" []]]])
        ⟨emptyParamsExample, 6⟩ ∧
    Kept (yield (Node.mk "Program" [Node.mk "FunctionDecl" [
        Node.mk "TypeSpec" [Node.mk "BaseType(int)" []], Node.mk "FuncName(f)" [],
        Node.mk "ParamList(ε)" [], Node.mk "CompoundStmt" [Node.mk "StmtList" []]]]))
      ((emptyParamsExample.take 6).map Token.lexeme) :=
  ⟨rfl, (C7_leaves_keep_consumed emptyParamsExample 4 _ ⟨emptyParamsExample, 6⟩ rfl).2.1⟩

/-! ## The sentinel is never consumed -/

/-- What a guarded run guarantees: it never reads out of range, and a normal return leaves the
token sequence unchanged and the cursor in range, not before where it was. -/
theorem GuardedAt.sound {α : Type} {s : Parser} {m : P α} (h : GuardedAt s m) :
    InRange s → m s ≠ Res.undefined ∧
      ∀ a s1, m s = Res.ok a s1 → InRange s1 ∧ s1.tokens = s.tokens ∧ s.pos ≤ s1.pos := by
  induction h with
  | atPure s a =>
    intro hs
    refine ⟨fun h => Res.noConfusion h, ?_⟩
    intro b s1 h
    simp only [P.pure_eq, P.ret] at h
    cases h
    exact ⟨hs, rfl, le_refl _⟩
  | atFail s e => intro _; exact ⟨fun h => Res.noConfusion h, fun _ _ h => Res.noConfusion h⟩
  | atTimeout s => intro _; exact ⟨fun h => Res.noConfusion h, fun _ _ h => Res.noConfusion h⟩
  | atPeek s i =>
    intro hs
    rw [peek_look i s hs.ne_nil]
    refine ⟨fun h => Res.noConfusion h, ?_⟩
    intro b s1 h
    cases h
    exact ⟨hs, rfl, le_refl _⟩
  | atAdvance s hp =>
    intro hs
    rw [advance_look s hs.2]
    refine ⟨fun h => Res.noConfusion h, ?_⟩
    intro b s1 h
    cases h
    exact ⟨⟨hs.1, hp⟩, rfl, Nat.le_succ _⟩
  | @atBind α β s m f hm hf ihm ihf =>
    intro hs
    obtain ⟨h1, h2⟩ := ihm hs
    simp only [P.bind_eq, P.bind]
    cases hms : m s with
    | ok a s1 =>
      obtain ⟨h3, h4, h5⟩ := h2 a s1 hms
      obtain ⟨h6, h7⟩ := ihf a s1 hms h3
      refine ⟨h6, ?_⟩
      intro b s2 h
      obtain ⟨h8, h9, h10⟩ := h7 b s2 h
      exact ⟨h8, h9.trans h4, le_trans h5 h10⟩
    | error e => exact ⟨fun h => Res.noConfusion h, fun _ _ h => Res.noConfusion h⟩
    | undefined => exact absurd hms h1
    | timeout => exact ⟨fun h => Res.noConfusion h, fun _ _ h => Res.noConfusion h⟩

theorem P.Guarded.intro_guarded {α : Type} {m : P α} (h : ∀ s, InRange s → GuardedAt s m) :
    P.Guarded m := h

theorem GuardedAt.of_guarded {α : Type} {m : P α} {s : Parser} (h : P.Guarded m)
    (hs : InRange s) : GuardedAt s m := h s hs

theorem GuardedAt.pure_guardedAt {α : Type} {s : Parser} (a : α) (_hs : InRange s) :
    GuardedAt s (Pure.pure a : P α) := GuardedAt.atPure s a

theorem GuardedAt.fail_guardedAt {α : Type} {s : Parser} (e : ParseError) :
    GuardedAt s (P.fail e : P α) := GuardedAt.atFail s e

theorem P.Guarded.timeout_guarded {α : Type} : P.Guarded (P.timeout : P α) :=
  fun s _ => GuardedAt.atTimeout s

theorem GuardedAt.bind_in {α β : Type} {m : P α} {f : α → P β} {s : Parser}
    (hm : GuardedAt s m) (hs : InRange s) (hf : ∀ a s1, InRange s1 → GuardedAt s1 (f a)) :
    GuardedAt s (m >>= f) :=
  GuardedAt.atBind hm (fun a s1 h => hf a s1 ((hm.sound hs).2 a s1 h).1)

theorem GuardedAt.ite_guardedAt {α : Type} {c : Prop} [Decidable c] {a b : P α} {s : Parser}
    (ha : c → GuardedAt s a) (hb : ¬ c → GuardedAt s b) : GuardedAt s (if c then a else b) := by
  by_cases h : c
  · simp only [h, if_true]; exact ha h
  · simp only [h, if_false]; exact hb h

theorem GuardedAt.of_peek_guardedAt {β : Type} {f : Token → P β} {s : Parser} (i : Nat)
    (hs : InRange s) (hf : GuardedAt s (f (look s i))) : GuardedAt s (peek i >>= f) := by
  refine GuardedAt.atBind (GuardedAt.atPeek s i) ?_
  intro a s1 h
  rw [peek_look i s hs.ne_nil] at h
  cases h
  exact hf

theorem checkLexeme_guardedAt (lex : String) (i : Nat) (s : Parser) :
    GuardedAt s (checkLexeme lex i) :=
  GuardedAt.atBind (GuardedAt.atPeek s i) (fun _ s1 _ => GuardedAt.atPure s1 _)

theorem checkCategory_guardedAt (cat : String) (i : Nat) (s : Parser) :
    GuardedAt s (checkCategory cat i) :=
  GuardedAt.atBind (GuardedAt.atPeek s i) (fun _ s1 _ => GuardedAt.atPure s1 _)

theorem GuardedAt.of_checkLexeme_guardedAt {β : Type} {f : Bool → P β} {s : Parser}
    (lex : String) (i : Nat) (hs : InRange s)
    (hf : GuardedAt s (f ((look s i).lexeme == lex))) :
    GuardedAt s (checkLexeme lex i >>= f) := by
  refine GuardedAt.atBind (checkLexeme_guardedAt lex i s) ?_
  intro a s1 h
  rw [checkLexeme_look lex i s hs.ne_nil] at h
  cases h
  exact hf

theorem GuardedAt.of_checkCategory_guardedAt {β : Type} {f : Bool → P β} {s : Parser}
    (cat : String) (i : Nat) (hs : InRange s)
    (hf : GuardedAt s (f ((look s i).category == cat))) :
    GuardedAt s (checkCategory cat i >>= f) := by
  refine GuardedAt.atBind (checkCategory_guardedAt cat i s) ?_
  intro a s1 h
  rw [checkCategory_look cat i s hs.ne_nil] at h
  cases h
  exact hf

theorem GuardedAt.last_step_guardedAt {s : Parser} (hne : notSentinel (look s 0))
    (hs : InRange s) : GuardedAt s advance :=
  GuardedAt.atAdvance s (hs.skip hne).2

theorem GuardedAt.step_guardedAt {β : Type} {f : Token → P β} {s : Parser}
    (hne : (look s 0).lexeme = "EOF" → (look s 0).category = "EOF" → False) (hs : InRange s)
    (hf : InRange (skip s 1) → GuardedAt (skip s 1) (f (look s 0))) :
    GuardedAt s (advance >>= f) := by
  have hin := hs.skip (fun h => hne h.1 h.2)
  refine GuardedAt.atBind (GuardedAt.atAdvance s hin.2) ?_
  intro a s1 h
  rw [advance_look s hs.2] at h
  cases h
  exact hf hin

theorem expectLexeme_guarded (lex : String) (hl : lex ≠ "EOF") : P.Guarded (expectLexeme lex) := by
  intro s hs
  unfold expectLexeme
  refine GuardedAt.of_checkLexeme_guardedAt lex 0 hs (GuardedAt.ite_guardedAt (fun _ => ?_) (fun hc => ?_))
  · exact GuardedAt.of_peek_guardedAt 0 hs (GuardedAt.fail_guardedAt _)
  · refine GuardedAt.last_step_guardedAt ?_ hs
    rintro ⟨h1, -⟩
    simp [h1, Ne.symm hl] at hc

theorem expectCategory_guarded (cat : String) (hl : cat ≠ "EOF") :
    P.Guarded (expectCategory cat) := by
  intro s hs
  unfold expectCategory
  refine GuardedAt.of_checkCategory_guardedAt cat 0 hs (GuardedAt.ite_guardedAt (fun _ => ?_) (fun hc => ?_))
  · exact GuardedAt.of_peek_guardedAt 0 hs (GuardedAt.fail_guardedAt _)
  · refine GuardedAt.last_step_guardedAt ?_ hs
    rintro ⟨-, h1⟩
    simp [h1, Ne.symm hl] at hc

theorem matchLexeme_guarded (lex : String) (hl : lex ≠ "EOF") : P.Guarded (matchLexeme lex) := by
  intro s hs
  unfold matchLexeme
  refine GuardedAt.of_checkLexeme_guardedAt lex 0 hs (GuardedAt.ite_guardedAt (fun hc => ?_) (fun _ => ?_))
  · refine GuardedAt.step_guardedAt ?_ hs (fun h1 => GuardedAt.pure_guardedAt _ h1)
    intro h1 _
    simp [h1, Ne.symm hl] at hc
  · exact GuardedAt.pure_guardedAt _ hs

theorem parseTypeSpec_guarded : P.Guarded parseTypeSpec := by
  unfold parseTypeSpec
  dsimp only
  refine P.Guarded.intro_guarded ?_
  intro s hs
  repeat' (with_reducible first
    | (apply GuardedAt.pure_guardedAt; assumption)
    | apply GuardedAt.fail_guardedAt
    | (apply GuardedAt.of_guarded <;> assumption)
    | (apply GuardedAt.of_guarded (matchLexeme_guarded _ (by decide)); assumption)
    | (apply GuardedAt.of_guarded (expectLexeme_guarded _ (by decide)); assumption)
    | (apply GuardedAt.of_guarded (expectCategory_guarded _ (by decide)); assumption)
    | (apply GuardedAt.of_checkLexeme_guardedAt _ _ (by assumption))
    | (apply GuardedAt.of_checkCategory_guardedAt _ _ (by assumption))
    | (apply GuardedAt.of_peek_guardedAt _ (by assumption))
    | (apply GuardedAt.step_guardedAt ?_ (by assumption) ?_; · intro h1 h2; simp [h1, h2] at hc)
    | (apply GuardedAt.step_guardedAt ?_ (by assumption) ?_; · intro h1 h2; (try simp only [look_skip] at h1 h2); simp_all)
    | (apply GuardedAt.ite_guardedAt <;> intro hc)
    | (apply GuardedAt.bind_in ?_ (by assumption) ?_)
    | intro _)

theorem parseArraySuffix_guarded (node : Node) : P.Guarded (parseArraySuffix node) := by
  unfold parseArraySuffix
  refine P.Guarded.intro_guarded ?_
  intro s hs
  repeat' (with_reducible first
    | (apply GuardedAt.pure_guardedAt; assumption)
    | apply GuardedAt.fail_guardedAt
    | (apply GuardedAt.of_guarded <;> assumption)
    | (apply GuardedAt.of_guarded (matchLexeme_guarded _ (by decide)); assumption)
    | (apply GuardedAt.of_guarded (expectLexeme_guarded _ (by decide)); assumption)
    | (apply GuardedAt.of_guarded (expectCategory_guarded _ (by decide)); assumption)
    | (apply GuardedAt.of_checkLexeme_guardedAt _ _ (by assumption))
    | (apply GuardedAt.of_checkCategory_guardedAt _ _ (by assumption))
    | (apply GuardedAt.of_peek_guardedAt _ (by assumption))
    | (apply GuardedAt.step_guardedAt ?_ (by assumption) ?_; · intro h1 h2; simp [h1, h2] at hc)
    | (apply GuardedAt.step_guardedAt ?_ (by assumption) ?_; · intro h1 h2; (try simp only [look_skip] at h1 h2); simp_all)
    | (apply GuardedAt.ite_guardedAt <;> intro hc)
    | (apply GuardedAt.bind_in ?_ (by assumption) ?_)
    | intro _)

theorem parseStars_guarded (n : Nat) : ∀ node, P.Guarded (parseStars n node) := by
  induction n with
  | zero => intro node; exact P.Guarded.timeout_guarded
  | succ k ih =>
    intro node
    rw [parseStars]
    (try dsimp only)
    refine P.Guarded.intro_guarded ?_
    intro s hs
    repeat' (with_reducible first
      | (apply GuardedAt.pure_guardedAt; assumption)
      | apply GuardedAt.fail_guardedAt
      | (apply GuardedAt.of_guarded <;> assumption)
      | (apply GuardedAt.of_guarded (matchLexeme_guarded _ (by decide)); assumption)
      | (apply GuardedAt.of_guarded (expectLexeme_guarded _ (by decide)); assumption)
      | (apply GuardedAt.of_guarded (expectCategory_guarded _ (by decide)); assumption)
      | (apply GuardedAt.of_guarded parseTypeSpec_guarded; assumption)
      | (apply GuardedAt.of_guarded (parseArraySuffix_guarded _); assumption)
      | (apply GuardedAt.of_guarded (ih _); assumption)
      | (apply GuardedAt.of_checkLexeme_guardedAt _ _ (by assumption))
      | (apply GuardedAt.of_checkCategory_guardedAt _ _ (by assumption))
      | (apply GuardedAt.of_peek_guardedAt _ (by assumption))
      | (apply GuardedAt.step_guardedAt ?_ (by assumption) ?_; · intro h1 h2; simp [h1, h2] at hc)
      | (apply GuardedAt.step_guardedAt ?_ (by assumption) ?_; · intro h1 h2; (try simp only [look_skip] at h1 h2); simp_all)
      | (apply GuardedAt.ite_guardedAt <;> intro hc)
      | (apply GuardedAt.bind_in ?_ (by assumption) ?_)
      | intro _)

set_option maxHeartbeats 4000000 in
theorem parse_guarded (n : Nat) :
    P.Guarded (parseCompoundStmt n) ∧
    P.Guarded (parseStmtList n) ∧
    (∀ node, P.Guarded (parseStmtListLoop n node)) ∧
    P.Guarded (parseStmt n) ∧
    P.Guarded (parseIfStmt n) ∧
    P.Guarded (parseForStmt n) ∧
    P.Guarded (parseReturnStmt n) ∧
    (∀ b, P.Guarded (parseDeclStmt n b)) ∧
    (∀ node, P.Guarded (parseDeclarators n node)) ∧
    P.Guarded (parseExprStmt n) ∧
    P.Guarded (parseExpr n) ∧
    P.Guarded (parseAssignExpr n) ∧
    P.Guarded (parseOrExpr n) ∧
    (∀ node, P.Guarded (parseOrLoop n node)) ∧
    P.Guarded (parseAndExpr n) ∧
    (∀ node, P.Guarded (parseAndLoop n node)) ∧
    P.Guarded (parseEqualityExpr n) ∧
    (∀ node, P.Guarded (parseEqualityLoop n node)) ∧
    P.Guarded (parseRelExpr n) ∧
    (∀ node, P.Guarded (parseRelLoop n node)) ∧
    P.Guarded (parseAddExpr n) ∧
    (∀ node, P.Guarded (parseAddLoop n node)) ∧
    P.Guarded (parseMulExpr n) ∧
    (∀ node, P.Guarded (parseMulLoop n node)) ∧
    P.Guarded (parseUnaryExpr n) ∧
    P.Guarded (parsePostfixExpr n) ∧
    (∀ node, P.Guarded (parsePostfixLoop n node)) ∧
    (∀ node, P.Guarded (parseArgsLoop n node)) ∧
    P.Guarded (parsePrimary n) := by
  induction n with
  | zero =>
    refine ⟨?_, ?_, ?_, ?_, ?_, ?_, ?_, ?_, ?_, ?_, ?_, ?_, ?_, ?_, ?_, ?_, ?_, ?_, ?_, ?_, ?_, ?_, ?_, ?_, ?_, ?_, ?_, ?_, ?_⟩ <;> intros <;> exact P.Guarded.timeout_guarded
  | succ k ih =>
    obtain ⟨i1, i2, i3, i4, i5, i6, i7, i8, i9, i10, i11, i12, i13, i14, i15, i16, i17, i18, i19, i20, i21, i22, i23, i24, i25, i26, i27, i28, i29⟩ := ih
    have i0 := parseStars_guarded k
    refine ⟨?_, ?_, ?_, ?_, ?_, ?_, ?_, ?_, ?_, ?_, ?_, ?_, ?_, ?_, ?_, ?_, ?_, ?_, ?_, ?_, ?_, ?_, ?_, ?_, ?_, ?_, ?_, ?_, ?_⟩ <;> intros
    on_goal 1 => rw [parseCompoundStmt]
    on_goal 2 => rw [parseStmtList]
    on_goal 3 => rw [parseStmtListLoop]
    on_goal 4 => rw [parseStmt]
    on_goal 5 => rw [parseIfStmt]
    on_goal 6 => rw [parseForStmt]
    on_goal 7 => rw [parseReturnStmt]
    on_goal 8 => rw [parseDeclStmt]
    on_goal 9 => rw [parseDeclarators]
    on_goal 10 => rw [parseExprStmt]
    on_goal 11 => rw [parseExpr]
    on_goal 12 => rw [parseAssignExpr]
    on_goal 13 => rw [parseOrExpr]
    on_goal 14 => rw [parseOrLoop]
    on_goal 15 => rw [parseAndExpr]
    on_goal 16 => rw [parseAndLoop]
    on_goal 17 => rw [parseEqualityExpr]
    on_goal 18 => rw [parseEqualityLoop]
    on_goal 19 => rw [parseRelExpr]
    on_goal 20 => rw [parseRelLoop]
    on_goal 21 => rw [parseAddExpr]
    on_goal 22 => rw [parseAddLoop]
    on_goal 23 => rw [parseMulExpr]
    on_goal 24 => rw [parseMulLoop]
    on_goal 25 => rw [parseUnaryExpr]
    on_goal 26 => rw [parsePostfixExpr]
    on_goal 27 => rw [parsePostfixLoop]
    on_goal 28 => rw [parseArgsLoop]
    on_goal 29 => rw [parsePrimary]
    all_goals (try dsimp only)
    all_goals refine P.Guarded.intro_guarded ?_
    all_goals intro s hs
    all_goals
      repeat' (with_reducible first
        | (apply GuardedAt.pure_guardedAt; assumption)
        | apply GuardedAt.fail_guardedAt
        | (apply GuardedAt.of_guarded <;> assumption)
        | (apply GuardedAt.of_guarded (matchLexeme_guarded _ (by decide)); assumption)
        | (apply GuardedAt.of_guarded (expectLexeme_guarded _ (by decide)); assumption)
        | (apply GuardedAt.of_guarded (expectCategory_guarded _ (by decide)); assumption)
        | (apply GuardedAt.of_guarded parseTypeSpec_guarded; assumption)
        | (apply GuardedAt.of_guarded (parseArraySuffix_guarded _); assumption)
        | (apply GuardedAt.of_guarded (i0 _); assumption)
        | (apply GuardedAt.of_guarded (i3 _); assumption)
        | (apply GuardedAt.of_guarded (i8 _); assumption)
        | (apply GuardedAt.of_guarded (i9 _); assumption)
        | (apply GuardedAt.of_guarded (i14 _); assumption)
        | (apply GuardedAt.of_guarded (i16 _); assumption)
        | (apply GuardedAt.of_guarded (i18 _); assumption)
        | (apply GuardedAt.of_guarded (i20 _); assumption)
        | (apply GuardedAt.of_guarded (i22 _); assumption)
        | (apply GuardedAt.of_guarded (i24 _); assumption)
        | (apply GuardedAt.of_guarded (i27 _); assumption)
        | (apply GuardedAt.of_guarded (i28 _); assumption)
        | (apply GuardedAt.of_checkLexeme_guardedAt _ _ (by assumption))
        | (apply GuardedAt.of_checkCategory_guardedAt _ _ (by assumption))
        | (apply GuardedAt.of_peek_guardedAt _ (by assumption))
        | (apply GuardedAt.step_guardedAt ?_ (by assumption) ?_; · intro h1 h2; simp [h1, h2] at hc)
        | (apply GuardedAt.step_guardedAt ?_ (by assumption) ?_; · intro h1 h2; (try simp only [look_skip] at h1 h2); simp_all)
        | (apply GuardedAt.ite_guardedAt <;> intro hc)
        | (apply GuardedAt.bind_in ?_ (by assumption) ?_)
        | intro _)

theorem parseParam_guarded (n : Nat) : P.Guarded (parseParam n) := by
  have i0 := parseStars_guarded n
  unfold parseParam
  (try dsimp only)
  refine P.Guarded.intro_guarded ?_
  intro s hs
  repeat' (with_reducible first
    | (apply GuardedAt.pure_guardedAt; assumption)
    | apply GuardedAt.fail_guardedAt
    | (apply GuardedAt.of_guarded <;> assumption)
    | (apply GuardedAt.of_guarded (matchLexeme_guarded _ (by decide)); assumption)
    | (apply GuardedAt.of_guarded (expectLexeme_guarded _ (by decide)); assumption)
    | (apply GuardedAt.of_guarded (expectCategory_guarded _ (by decide)); assumption)
    | (apply GuardedAt.of_guarded parseTypeSpec_guarded; assumption)
    | (apply GuardedAt.of_guarded (parseArraySuffix_guarded _); assumption)
    | (apply GuardedAt.of_guarded (i0 _); assumption)
    | (apply GuardedAt.of_checkLexeme_guardedAt _ _ (by assumption))
    | (apply GuardedAt.of_checkCategory_guardedAt _ _ (by assumption))
    | (apply GuardedAt.of_peek_guardedAt _ (by assumption))
    | (apply GuardedAt.step_guardedAt ?_ (by assumption) ?_; · intro h1 h2; simp [h1, h2] at hc)
    | (apply GuardedAt.step_guardedAt ?_ (by assumption) ?_; · intro h1 h2; (try simp only [look_skip] at h1 h2); simp_all)
    | (apply GuardedAt.ite_guardedAt <;> intro hc)
    | (apply GuardedAt.bind_in ?_ (by assumption) ?_)
    | intro _)

theorem parseParamListLoop_guarded (n : Nat) : ∀ node, P.Guarded (parseParamListLoop n node) := by
  induction n with
  | zero => intro node; exact P.Guarded.timeout_guarded
  | succ k ih =>
    intro node
    have i0 := parseParam_guarded k
    rw [parseParamListLoop]
    (try dsimp only)
    refine P.Guarded.intro_guarded ?_
    intro s hs
    repeat' (with_reducible first
      | (apply GuardedAt.pure_guardedAt; assumption)
      | apply GuardedAt.fail_guardedAt
      | (apply GuardedAt.of_guarded <;> assumption)
      | (apply GuardedAt.of_guarded (matchLexeme_guarded _ (by decide)); assumption)
      | (apply GuardedAt.of_guarded (expectLexeme_guarded _ (by decide)); assumption)
      | (apply GuardedAt.of_guarded (expectCategory_guarded _ (by decide)); assumption)
      | (apply GuardedAt.of_guarded parseTypeSpec_guarded; assumption)
      | (apply GuardedAt.of_guarded (parseArraySuffix_guarded _); assumption)
      | (apply GuardedAt.of_guarded (ih _); assumption)
      | (apply GuardedAt.of_checkLexeme_guardedAt _ _ (by assumption))
      | (apply GuardedAt.of_checkCategory_guardedAt _ _ (by assumption))
      | (apply GuardedAt.of_peek_guardedAt _ (by assumption))
      | (apply GuardedAt.step_guardedAt ?_ (by assumption) ?_; · intro h1 h2; simp [h1, h2] at hc)
      | (apply GuardedAt.step_guardedAt ?_ (by assumption) ?_; · intro h1 h2; (try simp only [look_skip] at h1 h2); simp_all)
      | (apply GuardedAt.ite_guardedAt <;> intro hc)
      | (apply GuardedAt.bind_in ?_ (by assumption) ?_)
      | intro _)

theorem parseParamList_guarded (n : Nat) : P.Guarded (parseParamList n) := by
  have i0 := parseParam_guarded n
  have i1 := parseParamListLoop_guarded n
  unfold parseParamList
  (try dsimp only)
  refine P.Guarded.intro_guarded ?_
  intro s hs
  repeat' (with_reducible first
    | (apply GuardedAt.pure_guardedAt; assumption)
    | apply GuardedAt.fail_guardedAt
    | (apply GuardedAt.of_guarded <;> assumption)
    | (apply GuardedAt.of_guarded (matchLexeme_guarded _ (by decide)); assumption)
    | (apply GuardedAt.of_guarded (expectLexeme_guarded _ (by decide)); assumption)
    | (apply GuardedAt.of_guarded (expectCategory_guarded _ (by decide)); assumption)
    | (apply GuardedAt.of_guarded parseTypeSpec_guarded; assumption)
    | (apply GuardedAt.of_guarded (parseArraySuffix_guarded _); assumption)
    | (apply GuardedAt.of_guarded (i1 _); assumption)
    | (apply GuardedAt.of_checkLexeme_guardedAt _ _ (by assumption))
    | (apply GuardedAt.of_checkCategory_guardedAt _ _ (by assumption))
    | (apply GuardedAt.of_peek_guardedAt _ (by assumption))
    | (apply GuardedAt.step_guardedAt ?_ (by assumption) ?_; · intro h1 h2; simp [h1, h2] at hc)
    | (apply GuardedAt.step_guardedAt ?_ (by assumption) ?_; · intro h1 h2; (try simp only [look_skip] at h1 h2); simp_all)
    | (apply GuardedAt.ite_guardedAt <;> intro hc)
    | (apply GuardedAt.bind_in ?_ (by assumption) ?_)
    | intro _)

theorem parseParamListOpt_guarded (n : Nat) : P.Guarded (parseParamListOpt n) := by
  have i0 := parseParamList_guarded n
  unfold parseParamListOpt
  (try dsimp only)
  refine P.Guarded.intro_guarded ?_
  intro s hs
  repeat' (with_reducible first
    | (apply GuardedAt.pure_guardedAt; assumption)
    | apply GuardedAt.fail_guardedAt
    | (apply GuardedAt.of_guarded <;> assumption)
    | (apply GuardedAt.of_guarded (matchLexeme_guarded _ (by decide)); assumption)
    | (apply GuardedAt.of_guarded (expectLexeme_guarded _ (by decide)); assumption)
    | (apply GuardedAt.of_guarded (expectCategory_guarded _ (by decide)); assumption)
    | (apply GuardedAt.of_guarded parseTypeSpec_guarded; assumption)
    | (apply GuardedAt.of_guarded (parseArraySuffix_guarded _); assumption)
    | (apply GuardedAt.of_checkLexeme_guardedAt _ _ (by assumption))
    | (apply GuardedAt.of_checkCategory_guardedAt _ _ (by assumption))
    | (apply GuardedAt.of_peek_guardedAt _ (by assumption))
    | (apply GuardedAt.step_guardedAt ?_ (by assumption) ?_; · intro h1 h2; simp [h1, h2] at hc)
    | (apply GuardedAt.step_guardedAt ?_ (by assumption) ?_; · intro h1 h2; (try simp only [look_skip] at h1 h2); simp_all)
    | (apply GuardedAt.ite_guardedAt <;> intro hc)
    | (apply GuardedAt.bind_in ?_ (by assumption) ?_)
    | intro _)

theorem parseFunctionDecl_guarded (n : Nat) : P.Guarded (parseFunctionDecl n) := by
  have i0 := parseParamListOpt_guarded n
  have i1 := (parse_guarded n).1
  unfold parseFunctionDecl
  (try dsimp only)
  refine P.Guarded.intro_guarded ?_
  intro s hs
  repeat' (with_reducible first
    | (apply GuardedAt.pure_guardedAt; assumption)
    | apply GuardedAt.fail_guardedAt
    | (apply GuardedAt.of_guarded <;> assumption)
    | (apply GuardedAt.of_guarded (matchLexeme_guarded _ (by decide)); assumption)
    | (apply GuardedAt.of_guarded (expectLexeme_guarded _ (by decide)); assumption)
    | (apply GuardedAt.of_guarded (expectCategory_guarded _ (by decide)); assumption)
    | (apply GuardedAt.of_guarded parseTypeSpec_guarded; assumption)
    | (apply GuardedAt.of_guarded (parseArraySuffix_guarded _); assumption)
    | (apply GuardedAt.of_checkLexeme_guardedAt _ _ (by assumption))
    | (apply GuardedAt.of_checkCategory_guardedAt _ _ (by assumption))
    | (apply GuardedAt.of_peek_guardedAt _ (by assumption))
    | (apply GuardedAt.step_guardedAt ?_ (by assumption) ?_; · intro h1 h2; simp [h1, h2] at hc)
    | (apply GuardedAt.step_guardedAt ?_ (by assumption) ?_; · intro h1 h2; (try simp only [look_skip] at h1 h2); simp_all)
    | (apply GuardedAt.ite_guardedAt <;> intro hc)
    | (apply GuardedAt.bind_in ?_ (by assumption) ?_)
    | intro _)

theorem parseStructMembers_guarded (n : Nat) : ∀ node, P.Guarded (parseStructMembers n node) := by
  induction n with
  | zero => intro node; exact P.Guarded.timeout_guarded
  | succ k ih =>
    intro node
    have i0 := (parse_guarded k).2.2.2.2.2.2.2.1 true
    rw [parseStructMembers]
    (try dsimp only)
    refine P.Guarded.intro_guarded ?_
    intro s hs
    repeat' (with_reducible first
      | (apply GuardedAt.pure_guardedAt; assumption)
      | apply GuardedAt.fail_guardedAt
      | (apply GuardedAt.of_guarded <;> assumption)
      | (apply GuardedAt.of_guarded (matchLexeme_guarded _ (by decide)); assumption)
      | (apply GuardedAt.of_guarded (expectLexeme_guarded _ (by decide)); assumption)
      | (apply GuardedAt.of_guarded (expectCategory_guarded _ (by decide)); assumption)
      | (apply GuardedAt.of_guarded parseTypeSpec_guarded; assumption)
      | (apply GuardedAt.of_guarded (parseArraySuffix_guarded _); assumption)
      | (apply GuardedAt.of_guarded (ih _); assumption)
      | (apply GuardedAt.of_checkLexeme_guardedAt _ _ (by assumption))
      | (apply GuardedAt.of_checkCategory_guardedAt _ _ (by assumption))
      | (apply GuardedAt.of_peek_guardedAt _ (by assumption))
      | (apply GuardedAt.step_guardedAt ?_ (by assumption) ?_; · intro h1 h2; simp [h1, h2] at hc)
      | (apply GuardedAt.step_guardedAt ?_ (by assumption) ?_; · intro h1 h2; (try simp only [look_skip] at h1 h2); simp_all)
      | (apply GuardedAt.ite_guardedAt <;> intro hc)
      | (apply GuardedAt.bind_in ?_ (by assumption) ?_)
      | intro _)

theorem parseStructDecl_guarded (n : Nat) : P.Guarded (parseStructDecl n) := by
  have i0 := parseStructMembers_guarded n
  unfold parseStructDecl
  (try dsimp only)
  refine P.Guarded.intro_guarded ?_
  intro s hs
  repeat' (with_reducible first
    | (apply GuardedAt.pure_guardedAt; assumption)
    | apply GuardedAt.fail_guardedAt
    | (apply GuardedAt.of_guarded <;> assumption)
    | (apply GuardedAt.of_guarded (matchLexeme_guarded _ (by decide)); assumption)
    | (apply GuardedAt.of_guarded (expectLexeme_guarded _ (by decide)); assumption)
    | (apply GuardedAt.of_guarded (expectCategory_guarded _ (by decide)); assumption)
    | (apply GuardedAt.of_guarded parseTypeSpec_guarded; assumption)
    | (apply GuardedAt.of_guarded (parseArraySuffix_guarded _); assumption)
    | (apply GuardedAt.of_guarded (i0 _); assumption)
    | (apply GuardedAt.of_checkLexeme_guardedAt _ _ (by assumption))
    | (apply GuardedAt.of_checkCategory_guardedAt _ _ (by assumption))
    | (apply GuardedAt.of_peek_guardedAt _ (by assumption))
    | (apply GuardedAt.step_guardedAt ?_ (by assumption) ?_; · intro h1 h2; simp [h1, h2] at hc)
    | (apply GuardedAt.step_guardedAt ?_ (by assumption) ?_; · intro h1 h2; (try simp only [look_skip] at h1 h2); simp_all)
    | (apply GuardedAt.ite_guardedAt <;> intro hc)
    | (apply GuardedAt.bind_in ?_ (by assumption) ?_)
    | intro _)

theorem parseExternalDecl_guarded (n : Nat) : P.Guarded (parseExternalDecl n) := by
  have i0 := parseStructDecl_guarded n
  have i1 := parseFunctionDecl_guarded n
  unfold parseExternalDecl
  (try dsimp only)
  refine P.Guarded.intro_guarded ?_
  intro s hs
  repeat' (with_reducible first
    | (apply GuardedAt.pure_guardedAt; assumption)
    | apply GuardedAt.fail_guardedAt
    | (apply GuardedAt.of_guarded <;> assumption)
    | (apply GuardedAt.of_guarded (matchLexeme_guarded _ (by decide)); assumption)
    | (apply GuardedAt.of_guarded (expectLexeme_guarded _ (by decide)); assumption)
    | (apply GuardedAt.of_guarded (expectCategory_guarded _ (by decide)); assumption)
    | (apply GuardedAt.of_guarded parseTypeSpec_guarded; assumption)
    | (apply GuardedAt.of_guarded (parseArraySuffix_guarded _); assumption)
    | (apply GuardedAt.of_checkLexeme_guardedAt _ _ (by assumption))
    | (apply GuardedAt.of_checkCategory_guardedAt _ _ (by assumption))
    | (apply GuardedAt.of_peek_guardedAt _ (by assumption))
    | (apply GuardedAt.step_guardedAt ?_ (by assumption) ?_; · intro h1 h2; simp [h1, h2] at hc)
    | (apply GuardedAt.step_guardedAt ?_ (by assumption) ?_; · intro h1 h2; (try simp only [look_skip] at h1 h2); simp_all)
    | (apply GuardedAt.ite_guardedAt <;> intro hc)
    | (apply GuardedAt.bind_in ?_ (by assumption) ?_)
    | intro _)

theorem parseProgramLoop_guarded (n : Nat) : ∀ node, P.Guarded (parseProgramLoop n node) := by
  induction n with
  | zero => intro node; exact P.Guarded.timeout_guarded
  | succ k ih =>
    intro node
    have i0 := parseExternalDecl_guarded k
    rw [parseProgramLoop]
    (try dsimp only)
    refine P.Guarded.intro_guarded ?_
    intro s hs
    repeat' (with_reducible first
      | (apply GuardedAt.pure_guardedAt; assumption)
      | apply GuardedAt.fail_guardedAt
      | (apply GuardedAt.of_guarded <;> assumption)
      | (apply GuardedAt.of_guarded (matchLexeme_guarded _ (by decide)); assumption)
      | (apply GuardedAt.of_guarded (expectLexeme_guarded _ (by decide)); assumption)
      | (apply GuardedAt.of_guarded (expectCategory_guarded _ (by decide)); assumption)
      | (apply GuardedAt.of_guarded parseTypeSpec_guarded; assumption)
      | (apply GuardedAt.of_guarded (parseArraySuffix_guarded _); assumption)
      | (apply GuardedAt.of_guarded (ih _); assumption)
      | (apply GuardedAt.of_checkLexeme_guardedAt _ _ (by assumption))
      | (apply GuardedAt.of_checkCategory_guardedAt _ _ (by assumption))
      | (apply GuardedAt.of_peek_guardedAt _ (by assumption))
      | (apply GuardedAt.step_guardedAt ?_ (by assumption) ?_; · intro h1 h2; simp [h1, h2] at hc)
      | (apply GuardedAt.step_guardedAt ?_ (by assumption) ?_; · intro h1 h2; (try simp only [look_skip] at h1 h2); simp_all)
      | (apply GuardedAt.ite_guardedAt <;> intro hc)
      | (apply GuardedAt.bind_in ?_ (by assumption) ?_)
      | intro _)

theorem parseProgram_guarded (n : Nat) : P.Guarded (parseProgram n) :=
  parseProgramLoop_guarded n _

/-! ## The program loop -/

/-- On an in-range state, `advance` itself is guarded exactly when the cursor is strictly below
the last position: no way of putting a run together makes a call at the last token count as
guarded. -/
theorem GuardedAt.advance_iff {s : Parser} (hs : InRange s) :
    GuardedAt s advance ↔ s.pos + 1 < s.tokens.length := by
  constructor
  · intro h
    exact ((h.sound hs).2 _ _ (advance_look s hs.2)).1.2
  · exact GuardedAt.atAdvance s

/-- C11.  For every token sequence that ends in the sentinel (category `EOF`, lexeme `EOF`) and
every fuel, the run of `parseProgram` from position 0 is guarded: every call of `advance` in it
is made at a position strictly below `length - 1` (`GuardedAt`, for which `advance` at the last
position does not qualify).  So the run never reads the vector out of range (it is never
`undefined`), and when it returns, the token sequence is unchanged and the position is at most
`length - 1`: the final sentinel has not been consumed. -/
theorem C11_sentinel_never_consumed (toks : List Token) (fuel : Nat)
    (hs : sentinelTerminated toks) :
    GuardedAt ⟨toks, 0⟩ (parseProgram fuel) ∧
    parseProgram fuel ⟨toks, 0⟩ ≠ Res.undefined ∧
    (∀ node s1, parseProgram fuel ⟨toks, 0⟩ = Res.ok node s1 →
      s1.tokens = toks ∧ s1.pos ≤ toks.length - 1) := by
  have hr : InRange ⟨toks, 0⟩ := ⟨hs, List.length_pos.2 (sentinelTerminated_ne_nil hs)⟩
  have hg := parseProgram_guarded fuel ⟨toks, 0⟩ hr
  obtain ⟨h1, h2⟩ := hg.sound hr
  refine ⟨hg, h1, ?_⟩
  intro node s1 h
  obtain ⟨h3, h4, -⟩ := h2 node s1 h
  have h5 : s1.pos < s1.tokens.length := h3.2
  have h6 : s1.tokens = toks := h4
  rw [h6] at h5
  exact ⟨h6, by omega⟩

theorem C11_sentinel_never_consumed_witness :
    GuardedAt ⟨emptyParamsExample, 0⟩ (parseProgram 4) ∧
    parseProgram 4 ⟨emptyParamsExample, 0⟩ ≠ Res.undefined ∧
    (∀ node s1, parseProgram 4 ⟨emptyParamsExample, 0⟩ = Res.ok node s1 →
      s1.tokens = emptyParamsExample ∧ s1.pos ≤ emptyParamsExample.length - 1) :=
  C11_sentinel_never_consumed emptyParamsExample 4 ⟨eofToken, rfl, rfl, rfl⟩

/-! ## Diagnostics name the current token -/

theorem look_mem (toks : List Token) (p : Nat) (h : toks ≠ []) :
    ∃ q : Nat, toks[q]? = some (look ⟨toks, p⟩ 0) := by
  rcases Nat.lt_or_ge p toks.length with h1 | h1
  · refine ⟨p, ?_⟩
    unfold look
    rw [if_neg (by simpa using h1)]
    simp [List.getElem?_eq_getElem h1]
  · refine ⟨toks.length - 1, ?_⟩
    unfold look
    rw [if_pos (by simpa using h1), ← List.getLast?_eq_getElem?]
    cases hl : toks.getLast? with
    | none => simp [List.getLast?_eq_none_iff] at hl; exact absurd hl h
    | some t => rfl

/-- The part of `parseTypeSpec` after the optional `const`, run on the node built so far. -/
theorem typeSpec_tail_cases (node0 : Node) {s : Parser} (hs : InRange s) (m : P Node)
    (hm : m = (do
      if (← checkLexeme "struct" 0) then
        let _ ← advance
        let id ← expectCategory "IDENTIFIER"
        pure (node0.push_back (Node.mk ("struct " ++ id.lexeme) []))
      else if (← checkLexeme "int" 0) || (← checkLexeme "char" 0) || (← checkLexeme "float" 0)
          || (← checkLexeme "void" 0) || (← checkLexeme "size_t" 0) then
        let base ← advance
        pure (node0.push_back (Node.mk ("BaseType(" ++ base.lexeme ++ ")") []))
      else
        let t ← peek 0
        P.fail (ParseError.invalidType t.line))) :
    ((look s 0).lexeme ∉ typeLexemes →
      m s = Res.error (ParseError.invalidType (look s 0).line) s) ∧
    ((look s 0).lexeme ∈ baseTypeLexemes →
      m s = Res.ok (node0.push_back (Node.mk ("BaseType(" ++ (look s 0).lexeme ++ ")") []))
        (skip s 1)) ∧
    ((look s 0).lexeme = "struct" → (look s 1).category = "IDENTIFIER" →
      m s = Res.ok (node0.push_back (Node.mk ("struct " ++ (look s 1).lexeme) [])) (skip s 2)) ∧
    ((look s 0).lexeme = "struct" → (look s 1).category ≠ "IDENTIFIER" →
      m s = Res.error (ParseError.unexpectedCategory (look s 1).line "IDENTIFIER"
        (look s 1).category (look s 1).lexeme) (skip s 1)) := by
  have hne := hs.ne_nil
  have hp := hs.2
  subst hm
  refine ⟨?_, ?_, ?_, ?_⟩
  · intro h
    simp only [typeLexemes, List.mem_cons, List.mem_singleton, List.not_mem_nil, or_false,
      not_or] at h
    simp [P.bind_eq, P.bind, checkLexeme_look _ 0 s hne, peek_look 0 s hne, h, P.fail]
  · intro h
    have h0 : (look s 0).lexeme ≠ "struct" := by
      intro h1
      rw [h1] at h
      exact absurd h (by decide)
    simp only [baseTypeLexemes, List.mem_cons, List.mem_singleton, List.not_mem_nil,
      or_false] at h
    simp [P.bind_eq, P.bind, checkLexeme_look _ 0 s hne, h0, or_assoc, h, advance_look s hp,
      P.pure_eq, P.ret]
  · intro h hc
    have hs1 : InRange (skip s 1) :=
      hs.skip (by rintro ⟨h1, -⟩; rw [h] at h1; exact absurd h1 (by decide))
    have e := expectCategory_eq "IDENTIFIER" (skip s 1) hs1.2 (by rw [look_skip]; exact hc)
    simp [P.bind_eq, P.bind, checkLexeme_look _ 0 s hne, h, advance_look s hp, e, look_skip,
      skip_skip, P.pure_eq, P.ret]
  · intro h hc
    have hs1 : InRange (skip s 1) :=
      hs.skip (by rintro ⟨h1, -⟩; rw [h] at h1; exact absurd h1 (by decide))
    have e := expectCategory_ne "IDENTIFIER" (skip s 1) hs1.ne_nil (by rw [look_skip]; exact hc)
    simp [P.bind_eq, P.bind, checkLexeme_look _ 0 s hne, h, advance_look s hp, e, look_skip]

theorem parseTypeSpec_cases {s : Parser} (hs : InRange s) :
    ((look s (constCount s)).lexeme ∉ typeLexemes →
      parseTypeSpec s = Res.error (ParseError.invalidType (look s (constCount s)).line)
        (skip s (constCount s))) ∧
    ((look s (constCount s)).lexeme ∈ baseTypeLexemes →
      parseTypeSpec s = Res.ok (Node.mk "TypeSpec" (constNodes s ++
        [Node.mk ("BaseType(" ++ (look s (constCount s)).lexeme ++ ")") []]))
        (skip s (constCount s + 1))) ∧
    ((look s (constCount s)).lexeme = "struct" →
      (look s (constCount s + 1)).category = "IDENTIFIER" →
      parseTypeSpec s = Res.ok (Node.mk "TypeSpec" (constNodes s ++
        [Node.mk ("struct " ++ (look s (constCount s + 1)).lexeme) []]))
        (skip s (constCount s + 2))) ∧
    ((look s (constCount s)).lexeme = "struct" →
      (look s (constCount s + 1)).category ≠ "IDENTIFIER" →
      parseTypeSpec s = Res.error (ParseError.unexpectedCategory
        (look s (constCount s + 1)).line "IDENTIFIER" (look s (constCount s + 1)).category
        (look s (constCount s + 1)).lexeme) (skip s (constCount s + 1))) := by
  have hne := hs.ne_nil
  have hp := hs.2
  by_cases hc : (look s 0).lexeme = "const"
  · have hs1 : InRange (skip s 1) :=
      hs.skip (by rintro ⟨h1, -⟩; rw [hc] at h1; exact absurd h1 (by decide))
    have ht := typeSpec_tail_cases ((Node.mk "TypeSpec" []).push_back (Node.mk "const" [])) hs1
      _ rfl
    unfold parseTypeSpec
    rw [P.bind_ok (matchLexeme_eq "const" s hp hc)]
    simpa [constCount, constNodes, hc, look_skip, skip_skip, skip_zero, Nat.add_comm,
      Node.push_back] using ht
  · have ht := typeSpec_tail_cases (Node.mk "TypeSpec" []) hs _ rfl
    unfold parseTypeSpec
    rw [P.bind_ok (matchLexeme_ne "const" s hne hc)]
    simpa [constCount, constNodes, hc, skip_zero, Node.push_back] using ht

/-- C13.  From every in-range state of a sentinel-terminated sequence, with `c` the number of
tokens of the optional leading `const` (0 or 1) and `t` the token after it: `parseTypeSpec`
fails with the invalid-type diagnostic (carrying the line of `t`, printed with `t` as the
current token) exactly when the lexeme of `t` is none of `struct`, `int`, `char`, `float`, `void`, `size_t`; on a base-type keyword it returns
`TypeSpec[(const,)? BaseType(k)]` after `c + 1` tokens; on `struct` followed by an `IDENTIFIER`
token `n` it returns `TypeSpec[(const,)? struct n]` after `c + 2` tokens; on `struct` followed by
a token of another category it fails with the unexpected-category diagnostic about that token;
and every success consumes between 1 and 3 tokens. -/
theorem C13_type_specifier (s : Parser) (hs : InRange s) :
    ((∃ l s1, parseTypeSpec s = Res.error (ParseError.invalidType l) s1) ↔
      (look s (constCount s)).lexeme ∉ typeLexemes) ∧
    ((look s (constCount s)).lexeme ∉ typeLexemes →
      parseTypeSpec s = Res.error (ParseError.invalidType (look s (constCount s)).line)
        (skip s (constCount s))) ∧
    ((look s (constCount s)).lexeme ∈ baseTypeLexemes →
      parseTypeSpec s = Res.ok (Node.mk "TypeSpec" (constNodes s ++
        [Node.mk ("BaseType(" ++ (look s (constCount s)).lexeme ++ ")") []]))
        (skip s (constCount s + 1))) ∧
    ((look s (constCount s)).lexeme = "struct" →
      (look s (constCount s + 1)).category = "IDENTIFIER" →
      parseTypeSpec s = Res.ok (Node.mk "TypeSpec" (constNodes s ++
        [Node.mk ("struct " ++ (look s (constCount s + 1)).lexeme) []]))
        (skip s (constCount s + 2))) ∧
    ((look s (constCount s)).lexeme = "struct" →
      (look s (constCount s + 1)).category ≠ "IDENTIFIER" →
      parseTypeSpec s = Res.error (ParseError.unexpectedCategory
        (look s (constCount s + 1)).line "IDENTIFIER" (look s (constCount s + 1)).category
        (look s (constCount s + 1)).lexeme) (skip s (constCount s + 1))) ∧
    (∀ node s1, parseTypeSpec s = Res.ok node s1 →
      s1.tokens = s.tokens ∧ s.pos + 1 ≤ s1.pos ∧ s1.pos ≤ s.pos + 3) := by
  obtain ⟨h1, h2, h3, h4⟩ := parseTypeSpec_cases hs
  have hsplit : (look s (constCount s)).lexeme ∈ typeLexemes →
      (look s (constCount s)).lexeme = "struct" ∨
        (look s (constCount s)).lexeme ∈ baseTypeLexemes := by
    intro h
    simpa [typeLexemes, baseTypeLexemes] using h
  have hc : constCount s ≤ 1 := by
    unfold constCount
    split <;> omega
  refine ⟨⟨?_, fun h => ⟨_, _, h1 h⟩⟩, h1, h2, h3, h4, ?_⟩
  · rintro ⟨l, sF, hl⟩ hmem
    rcases hsplit hmem with hst | hb
    · by_cases hcat : (look s (constCount s + 1)).category = "IDENTIFIER"
      · rw [h3 hst hcat] at hl
        exact Res.noConfusion hl
      · rw [h4 hst hcat] at hl
        injection hl with hl
        exact ParseError.noConfusion hl
    · rw [h2 hb] at hl
      exact Res.noConfusion hl
  · intro node s1 h
    by_cases hmem : (look s (constCount s)).lexeme ∈ typeLexemes
    · rcases hsplit hmem with hst | hb
      · by_cases hcat : (look s (constCount s + 1)).category = "IDENTIFIER"
        · rw [h3 hst hcat] at h
          injection h with _ h
          subst h
          exact ⟨rfl, by simp only [skip_pos]; omega, by simp only [skip_pos]; omega⟩
        · rw [h4 hst hcat] at h
          exact Res.noConfusion h
      · rw [h2 hb] at h
        injection h with _ h
        subst h
        exact ⟨rfl, by simp only [skip_pos]; omega, by simp only [skip_pos]; omega⟩
    · rw [h1 hmem] at h
      exact Res.noConfusion h

theorem C13_type_specifier_witness :
    parseTypeSpec ⟨constStructExample, 0⟩ =
      Res.ok (Node.mk "TypeSpec" [Node.mk "const" [], Node.mk "struct Point" []])
        ⟨constStructExample, 3⟩ :=
  (C13_type_specifier ⟨constStructExample, 0⟩ ⟨⟨eofToken, rfl, rfl, rfl⟩, by decide⟩).2.2.2.1
    (by decide) (by decide)

/-! ## Statement dispatch -/

theorem parseCompoundStmt_symbol (n : Nat) :
    P.Post (parseCompoundStmt n) (fun node => node.symbol = "CompoundStmt") := by
  cases n with
  | zero => exact P.Post.timeout_post
  | succ k =>
    rw [parseCompoundStmt]
    dsimp only
    repeat' (first
      | (with_reducible apply P.Post.bind_post)
      | (apply P.Post.pure_post; (try simp only [Node.symbol_push_back]); first | rfl | assumption)
      | intro _)

theorem parseIfStmt_symbol (n : Nat) :
    P.Post (parseIfStmt n) (fun node => node.symbol = "IfStmt") := by
  cases n with
  | zero => exact P.Post.timeout_post
  | succ k =>
    rw [parseIfStmt]
    dsimp only
    repeat' (first
      | (with_reducible apply P.Post.bind_post)
      | (with_reducible apply P.Post.ite_post)
      | (apply P.Post.pure_post; (try simp only [Node.symbol_push_back]); first | rfl | assumption)
      | intro _)

theorem parseExprStmt_symbol (n : Nat) :
    P.Post (parseExprStmt n) (fun node => node.symbol = "ExprStmt") := by
  cases n with
  | zero => exact P.Post.timeout_post
  | succ k =>
    rw [parseExprStmt]
    dsimp only
    repeat' (first
      | (with_reducible apply P.Post.bind_post)
      | (apply P.Post.pure_post; (try simp only [Node.symbol_push_back]); first | rfl | assumption)
      | intro _)

theorem parseReturnStmt_symbol (n : Nat) :
    P.Post (parseReturnStmt n) (fun node => node.symbol = "ReturnStmt") := by
  cases n with
  | zero => exact P.Post.timeout_post
  | succ k =>
    rw [parseReturnStmt]
    dsimp only
    refine P.Post.bind_post (fun _ => ?_)
    refine @P.Post.bind_of _ _ _ _ (fun a => a.symbol = "ReturnStmt") _ ?_ ?_
    · repeat' (first
        | (with_reducible apply P.Post.bind_post)
        | (with_reducible apply P.Post.ite_post)
        | (apply P.Post.pure_post; (try simp only [Node.symbol_push_back]); first | rfl | assumption)
        | intro _)
    · intro a ha
      refine P.Post.bind_post (fun _ => P.Post.pure_post ha)

theorem parseForStmt_symbol (n : Nat) :
    P.Post (parseForStmt n) (fun node => node.symbol = "ForStmt") := by
  cases n with
  | zero => exact P.Post.timeout_post
  | succ k =>
    rw [parseForStmt]
    dsimp only
    refine P.Post.bind_post (fun _ => P.Post.bind_post (fun _ => ?_))
    refine @P.Post.bind_of _ _ _ _ (fun a => a.symbol = "ForStmt") _ ?_ ?_
    · repeat' (first
        | (with_reducible apply P.Post.bind_post)
        | (with_reducible apply P.Post.ite_post)
        | (apply P.Post.pure_post; (try simp only [Node.symbol_push_back]); first | rfl | assumption)
        | intro _)
    intro a ha
    refine P.Post.bind_post (fun _ => ?_)
    refine @P.Post.bind_of _ _ _ _ (fun a => a.symbol = "ForStmt") _ ?_ ?_
    · repeat' (first
        | (with_reducible apply P.Post.bind_post)
        | (with_reducible apply P.Post.ite_post)
        | (apply P.Post.pure_post; (try simp only [Node.symbol_push_back]); first | rfl | assumption)
        | intro _)
    intro b hb
    refine P.Post.bind_post (fun _ => ?_)
    refine @P.Post.bind_of _ _ _ _ (fun a => a.symbol = "ForStmt") _ ?_ ?_
    · repeat' (first
        | (with_reducible apply P.Post.bind_post)
        | (with_reducible apply P.Post.ite_post)
        | (apply P.Post.pure_post; (try simp only [Node.symbol_push_back]); first | rfl | assumption)
        | intro _)
    intro c hc
    repeat' (first
      | (with_reducible apply P.Post.bind_post)
      | (apply P.Post.pure_post; (try simp only [Node.symbol_push_back]); first | rfl | assumption)
      | intro _)

theorem parseDeclarators_symbol (n : Nat) : ∀ node0 : Node,
    P.Post (parseDeclarators n node0) (fun node => node.symbol = node0.symbol) := by
  induction n with
  | zero => intro node0; exact P.Post.timeout_post
  | succ k ih =>
    intro node0
    rw [parseDeclarators]
    dsimp only
    repeat' (first
      | (with_reducible apply P.Post.bind_post)
      | (with_reducible apply P.Post.ite_post)
      | (apply P.Post.pure_post; simp only [Node.symbol_push_back])
      | (intro s a s1 h; have := ih _ s a s1 h; simpa only [Node.symbol_push_back] using this)
      | intro _)

theorem parseDeclStmt_symbol (n : Nat) (b : Bool) :
    P.Post (parseDeclStmt n b) (fun node => node.symbol = "DeclStmt") := by
  cases n with
  | zero => exact P.Post.timeout_post
  | succ k =>
    rw [parseDeclStmt]
    dsimp only
    refine P.Post.bind_post (fun ts => ?_)
    refine P.Post.bind_of (parseDeclarators_symbol k _) ?_
    intro a ha
    simp only [Node.symbol_push_back] at ha
    repeat' (first
      | (with_reducible apply P.Post.bind_post)
      | (with_reducible apply P.Post.ite_post)
      | (apply P.Post.pure_post; exact ha)
      | intro _)

theorem parseStmt_dispatch (n : Nat) (s : Parser) (hne : s.tokens ≠ []) :
    parseStmt (n + 1) s =
      if (look s 0).lexeme = "if" then parseIfStmt n s
      else if (look s 0).lexeme = "for" then parseForStmt n s
      else if (look s 0).lexeme = "return" then parseReturnStmt n s
      else if (look s 0).lexeme = "\x7b" then parseCompoundStmt n s
      else if (look s 0).lexeme ∈ declStartLexemes then parseDeclStmt n true s
      else parseExprStmt n s := by
  rw [parseStmt]
  simp only [declStartLexemes, List.mem_cons, List.mem_singleton, List.not_mem_nil, or_false]
  split_ifs with h1 h2 h3 h4 h5 <;>
    simp [P.bind_eq, P.bind, checkLexeme_look _ 0 s hne, *]
  · rw [if_pos (by simpa only [or_assoc] using h5)]
  · rw [if_neg (by simpa only [or_assoc] using h5)]

/-- C14.  Whenever `parseStmt` returns a node, its label is determined by the lexeme of the
current token with the priority `if`, `for`, `return`, `{`, type-introducing keyword, anything
else (`stmtLabel`); and on a type-introducing keyword the node and the state afterwards are
those of `parseDeclStmt(true)`, the declaration with its terminating `;`. -/
theorem C14_statement_dispatch (fuel : Nat) (s : Parser) (node : Node) (s1 : Parser)
    (h : parseStmt fuel s = Res.ok node s1) :
    node.symbol = stmtLabel (look s 0).lexeme ∧
    ((look s 0).lexeme ∈ declStartLexemes →
      ∃ n, fuel = n + 1 ∧ parseDeclStmt n true s = Res.ok node s1) := by
  cases fuel with
  | zero => exact Res.noConfusion h
  | succ n =>
    have hne : s.tokens ≠ [] := by
      intro h0
      rw [parseStmt] at h
      simp [P.bind_eq, P.bind, checkLexeme, peek_nil h0] at h
    rw [parseStmt_dispatch n s hne] at h
    unfold stmtLabel
    split_ifs at h ⊢ with h1 h2 h3 h4 h5
    · exact ⟨parseIfStmt_symbol n s node s1 h, fun hd => absurd hd (by rw [h1]; decide)⟩
    · exact ⟨parseForStmt_symbol n s node s1 h, fun hd => absurd hd (by rw [h2]; decide)⟩
    · exact ⟨parseReturnStmt_symbol n s node s1 h, fun hd => absurd hd (by rw [h3]; decide)⟩
    · exact ⟨parseCompoundStmt_symbol n s node s1 h, fun hd => absurd hd (by rw [h4]; decide)⟩
    · exact ⟨parseDeclStmt_symbol n true s node s1 h, fun _ => ⟨n, rfl, h⟩⟩
    · exact ⟨parseExprStmt_symbol n s node s1 h, fun hd => absurd hd h5⟩

theorem C14_statement_dispatch_witness :
    (Node.mk "DeclStmt" [Node.mk "TypeSpec" [Node.mk "BaseType(int)" []],
        Node.mk "Declarator" [Node.mk "Var(x)" []]]).symbol =
      stmtLabel (look ⟨declStmtExample, 0⟩ 0).lexeme ∧
    ((look ⟨declStmtExample, 0⟩ 0).lexeme ∈ declStartLexemes →
      ∃ n, 4 = n + 1 ∧ parseDeclStmt n true ⟨declStmtExample, 0⟩ =
        Res.ok (Node.mk "DeclStmt" [Node.mk "TypeSpec" [Node.mk "BaseType(int)" []],
          Node.mk "Declarator" [Node.mk "Var(x)" []]]) ⟨declStmtExample, 3⟩) :=
  C14_statement_dispatch 4 ⟨declStmtExample, 0⟩ _ ⟨declStmtExample, 3⟩ rfl

/-! ## The shape of `for` and `if` statements -/

theorem P.bind_inv {α β : Type} {m : P α} {f : α → P β} {s s2 : Parser} {b : β}
    (h : (m >>= f) s = Res.ok b s2) : ∃ a s1, m s = Res.ok a s1 ∧ f a s1 = Res.ok b s2 := by
  simp only [P.bind_eq, P.bind] at h
  cases hm : m s with
  | ok a s1 => rw [hm] at h; exact ⟨a, s1, rfl, h⟩
  | error e => rw [hm] at h; exact Res.noConfusion h
  | undefined => rw [hm] at h; exact Res.noConfusion h
  | timeout => rw [hm] at h; exact Res.noConfusion h

theorem P.pure_inv {α : Type} {a b : α} {s s1 : Parser}
    (h : (pure a : P α) s = Res.ok b s1) : b = a ∧ s1 = s := by
  simp only [P.pure_eq, P.ret] at h
  cases h
  exact ⟨rfl, rfl⟩

theorem checkLexeme_bind {β : Type} (lex : String) (i : Nat) (f : Bool → P β) (s : Parser)
    (hne : s.tokens ≠ []) :
    (checkLexeme lex i >>= f) s = f ((look s i).lexeme == lex) s :=
  P.bind_ok (checkLexeme_look lex i s hne)

/-- An optional clause `if (!checkLexeme(lex)) node = wrap(parseExpr());`: either the current
lexeme is `lex` and nothing happens, or the expression is parsed and wrapped. -/
theorem optClause_inv {lex : String} {n : Nat} {wrap : Node → Node} {node0 nodeX : Node}
    {x sX : Parser} (hne : x.tokens ≠ [])
    (h : (checkLexeme lex 0 >>= fun b =>
        if (!b) = true then (parseExpr n >>= fun e => pure (wrap e)) else pure node0) x =
      Res.ok nodeX sX) :
    ((look x 0).lexeme = lex ∧ nodeX = node0 ∧ sX = x) ∨
    ((look x 0).lexeme ≠ lex ∧ ∃ e, parseExpr n x = Res.ok e sX ∧ nodeX = wrap e) := by
  rw [checkLexeme_bind _ _ _ _ hne] at h
  by_cases hl : (look x 0).lexeme = lex
  · simp only [hl, beq_self_eq_true, Bool.not_true, Bool.false_eq_true, if_false] at h
    obtain ⟨rfl, rfl⟩ := P.pure_inv h
    exact Or.inl ⟨hl, rfl, rfl⟩
  · have hb : ((look x 0).lexeme == lex) = false := by simpa using hl
    simp only [hb, Bool.not_false, if_true] at h
    obtain ⟨e, sE, he, h⟩ := P.bind_inv h
    obtain ⟨rfl, rfl⟩ := P.pure_inv h
    exact Or.inr ⟨hl, e, he, rfl⟩

/-- The init clause of `parseForStmt`: absent before `;`, a declaration (without its `;`) on a
type-introducing keyword, an expression wrapped in `ForInitExpr` otherwise. -/
theorem forInit_inv {n : Nat} {nodeA : Node} {x sA : Parser} (hne : x.tokens ≠ [])
    (h : (checkLexeme ";" 0 >>= fun b =>
        if (!b) = true then do
          if (← checkLexeme "int" 0) || (← checkLexeme "char" 0) || (← checkLexeme "float" 0)
              || (← checkLexeme "void" 0) || (← checkLexeme "size_t" 0)
              || (← checkLexeme "struct" 0) || (← checkLexeme "const" 0) then
            pure ((Node.mk "ForStmt" []).push_back (← parseDeclStmt n false))
          else
            let init := Node.mk "ForInitExpr" []
            let init := init.push_back (← parseExpr n)
            pure ((Node.mk "ForStmt" []).push_back init)
        else pure (Node.mk "ForStmt" [])) x = Res.ok nodeA sA) :
    ((look x 0).lexeme = ";" ∧ nodeA = Node.mk "ForStmt" [] ∧ sA = x) ∨
    ((look x 0).lexeme ≠ ";" ∧ (look x 0).lexeme ∈ declStartLexemes ∧
      ∃ d, parseDeclStmt n false x = Res.ok d sA ∧ d.symbol = "DeclStmt" ∧
        nodeA = Node.mk "ForStmt" [d]) ∨
    ((look x 0).lexeme ≠ ";" ∧ (look x 0).lexeme ∉ declStartLexemes ∧
      ∃ e, parseExpr n x = Res.ok e sA ∧
        nodeA = Node.mk "ForStmt" [Node.mk "ForInitExpr" [e]]) := by
  rw [checkLexeme_bind _ _ _ _ hne] at h
  by_cases hl : (look x 0).lexeme = ";"
  · simp only [hl, beq_self_eq_true, Bool.not_true, Bool.false_eq_true, if_false] at h
    obtain ⟨rfl, rfl⟩ := P.pure_inv h
    exact Or.inl ⟨hl, rfl, rfl⟩
  · have hb : ((look x 0).lexeme == ";") = false := by simpa using hl
    simp only [hb, Bool.not_false, if_true, checkLexeme_bind _ _ _ _ hne] at h
    by_cases hd : (look x 0).lexeme ∈ declStartLexemes
    · have hd1 : ((look x 0).lexeme == "int" || (look x 0).lexeme == "char" ||
          (look x 0).lexeme == "float" || (look x 0).lexeme == "void" ||
          (look x 0).lexeme == "size_t" || (look x 0).lexeme == "struct" ||
          (look x 0).lexeme == "const") = true := by
        simpa [declStartLexemes, or_assoc] using hd
      rw [if_pos hd1] at h
      obtain ⟨d, sD, hdd, h⟩ := P.bind_inv h
      obtain ⟨rfl, rfl⟩ := P.pure_inv h
      exact Or.inr (Or.inl ⟨hl, hd, d, hdd, parseDeclStmt_symbol n false x d _ hdd, rfl⟩)
    · have hd1 : ¬ ((look x 0).lexeme == "int" || (look x 0).lexeme == "char" ||
          (look x 0).lexeme == "float" || (look x 0).lexeme == "void" ||
          (look x 0).lexeme == "size_t" || (look x 0).lexeme == "struct" ||
          (look x 0).lexeme == "const") = true := by
        simpa [declStartLexemes, or_assoc] using hd
      rw [if_neg hd1] at h
      obtain ⟨e, sE, he, h⟩ := P.bind_inv h
      obtain ⟨rfl, rfl⟩ := P.pure_inv h
      exact Or.inr (Or.inr ⟨hl, hd, e, he, rfl⟩)

/-- C15 as stated fails: on `for ( int i ; ; ) { }` the init clause is present and
`parseForStmt` succeeds, but the first child of the `ForStmt` node is the `DeclStmt` itself, not
a `ForInitExpr` wrapping it. -/
theorem C15_counterexample :
    ¬ (∀ (fuel : Nat) (s : Parser) (node : Node) (s1 : Parser),
      parseForStmt fuel s = Res.ok node s1 → (look s 2).lexeme ≠ ";" →
      ∃ c, node.children.head? = some c ∧ c.symbol = "ForInitExpr") := by
  intro h
  obtain ⟨c, h1, h2⟩ := h 6 ⟨forDeclExample, 0⟩
    (Node.mk "ForStmt" [Node.mk "DeclStmt" [Node.mk "TypeSpec" [Node.mk "BaseType(int)" []],
      Node.mk "Declarator" [Node.mk "Var(i)" []]],
      Node.mk "CompoundStmt" [Node.mk "StmtList" []]])
    ⟨forDeclExample, 9⟩ rfl (by decide)
  simp only [Node.children, List.head?_cons, Option.some.injEq] at h1
  subst h1
  exact absurd h2 (by decide)

/-- C15, amended.  Whenever `parseForStmt` returns, the tokens at the cursor were `for` `(`, and
the node is `ForStmt` with the children init, condition, iteration, body in this order, each of
the first three present or absent on its own: the init clause is absent exactly when the token
after `(` is `;`, and when present it is the `DeclStmt` of `parseDeclStmt(false)` itself if that
token is a type-introducing keyword, and otherwise `ForInitExpr` wrapping the expression; the
condition is absent exactly when the token after the first `;` is `;`, and when present it is
the expression unwrapped; the iteration clause is absent exactly when the token after the second
`;` is `)`, and when present it is `ForIterExpr` wrapping the expression; the body statement is
the last child. -/
theorem C15_for_clauses (n : Nat) (s : Parser) (node : Node) (s1 : Parser)
    (h : parseForStmt (n + 1) s = Res.ok node s1) :
    (look s 0).lexeme = "for" ∧ (look s 1).lexeme = "(" ∧
    ∃ (init cond iter : List Node) (body : Node) (sA sB sC : Parser),
      node = Node.mk "ForStmt" (init ++ cond ++ iter ++ [body]) ∧
      (((look s 2).lexeme = ";" ∧ init = [] ∧ sA = skip s 2) ∨
       ((look s 2).lexeme ≠ ";" ∧ (look s 2).lexeme ∈ declStartLexemes ∧
          ∃ d, parseDeclStmt n false (skip s 2) = Res.ok d sA ∧ d.symbol = "DeclStmt" ∧
            init = [d]) ∨
       ((look s 2).lexeme ≠ ";" ∧ (look s 2).lexeme ∉ declStartLexemes ∧
          ∃ e, parseExpr n (skip s 2) = Res.ok e sA ∧ init = [Node.mk "ForInitExpr" [e]])) ∧
      (look sA 0).lexeme = ";" ∧
      (((look sA 1).lexeme = ";" ∧ cond = [] ∧ sB = skip sA 1) ∨
       ((look sA 1).lexeme ≠ ";" ∧ ∃ e, parseExpr n (skip sA 1) = Res.ok e sB ∧ cond = [e])) ∧
      (look sB 0).lexeme = ";" ∧
      (((look sB 1).lexeme = ")" ∧ iter = [] ∧ sC = skip sB 1) ∨
       ((look sB 1).lexeme ≠ ")" ∧
          ∃ e, parseExpr n (skip sB 1) = Res.ok e sC ∧ iter = [Node.mk "ForIterExpr" [e]])) ∧
      (look sC 0).lexeme = ")" ∧
      parseStmt n (skip sC 1) = Res.ok body s1 := by
  rw [parseForStmt] at h
  dsimp only at h
  obtain ⟨t1, x1, h1, h⟩ := P.bind_inv h
  obtain ⟨hp1, hl1, -, rfl⟩ := expectLexeme_ok h1
  obtain ⟨t2, x2, h2, h⟩ := P.bind_inv h
  obtain ⟨hp2, hl2, -, rfl⟩ := expectLexeme_ok h2
  obtain ⟨nodeA, sA, hA, h⟩ := P.bind_inv h
  obtain ⟨t3, x3, h3, h⟩ := P.bind_inv h
  obtain ⟨hp3, hl3, -, rfl⟩ := expectLexeme_ok h3
  obtain ⟨nodeB, sB, hB, h⟩ := P.bind_inv h
  obtain ⟨t4, x4, h4, h⟩ := P.bind_inv h
  obtain ⟨hp4, hl4, -, rfl⟩ := expectLexeme_ok h4
  obtain ⟨nodeC, sC, hC, h⟩ := P.bind_inv h
  obtain ⟨t5, x5, h5, h⟩ := P.bind_inv h
  obtain ⟨hp5, hl5, -, rfl⟩ := expectLexeme_ok h5
  obtain ⟨body, x6, h6, h⟩ := P.bind_inv h
  obtain ⟨rfl, rfl⟩ := P.pure_inv h
  have hne : s.tokens ≠ [] := tokens_ne_nil hp1
  rw [look_skip] at hl2
  have iA := forInit_inv (show (skip (skip s 1) 1).tokens ≠ [] from hne) hA
  have iB := @optClause_inv ";" n (fun e => nodeA.push_back e) nodeA nodeB (skip sA 1) sB
    (@tokens_ne_nil sA hp3) hB
  have iC := @optClause_inv ")" n
    (fun e => nodeB.push_back ((Node.mk "ForIterExpr" []).push_back e)) nodeB nodeC (skip sB 1)
    sC (@tokens_ne_nil sB hp4) hC
  simp only [skip_skip, look_skip, Nat.reduceAdd, Nat.add_zero] at iA iB iC
  refine ⟨hl1, hl2, ?_⟩
  obtain ⟨init, hnA, hiA⟩ : ∃ init, nodeA = Node.mk "ForStmt" init ∧
      (((look s 2).lexeme = ";" ∧ init = [] ∧ sA = skip s 2) ∨
       ((look s 2).lexeme ≠ ";" ∧ (look s 2).lexeme ∈ declStartLexemes ∧
          ∃ d, parseDeclStmt n false (skip s 2) = Res.ok d sA ∧ d.symbol = "DeclStmt" ∧
            init = [d]) ∨
       ((look s 2).lexeme ≠ ";" ∧ (look s 2).lexeme ∉ declStartLexemes ∧
          ∃ e, parseExpr n (skip s 2) = Res.ok e sA ∧
            init = [Node.mk "ForInitExpr" [e]])) := by
    rcases iA with ⟨a1, a2, a3⟩ | ⟨a1, a2, d, a3, a4, a5⟩ | ⟨a1, a2, e, a3, a4⟩
    · exact ⟨[], a2, Or.inl ⟨a1, rfl, a3⟩⟩
    · exact ⟨[d], a5, Or.inr (Or.inl ⟨a1, a2, d, a3, a4, rfl⟩)⟩
    · exact ⟨[Node.mk "ForInitExpr" [e]], a4, Or.inr (Or.inr ⟨a1, a2, e, a3, rfl⟩)⟩
  obtain ⟨cond, hnB, hiB⟩ : ∃ cond, nodeB = Node.mk "ForStmt" (init ++ cond) ∧
      (((look sA 1).lexeme = ";" ∧ cond = [] ∧ sB = skip sA 1) ∨
       ((look sA 1).lexeme ≠ ";" ∧
          ∃ e, parseExpr n (skip sA 1) = Res.ok e sB ∧ cond = [e])) := by
    rcases iB with ⟨b1, b2, b3⟩ | ⟨b1, e, b2, b3⟩
    · exact ⟨[], by rw [b2, hnA, List.append_nil], Or.inl ⟨b1, rfl, b3⟩⟩
    · exact ⟨[e], by rw [b3, hnA]; rfl, Or.inr ⟨b1, e, b2, rfl⟩⟩
  obtain ⟨iter, hnC, hiC⟩ : ∃ iter, nodeC = Node.mk "ForStmt" (init ++ cond ++ iter) ∧
      (((look sB 1).lexeme = ")" ∧ iter = [] ∧ sC = skip sB 1) ∨
       ((look sB 1).lexeme ≠ ")" ∧
          ∃ e, parseExpr n (skip sB 1) = Res.ok e sC ∧
            iter = [Node.mk "ForIterExpr" [e]])) := by
    rcases iC with ⟨c1, c2, c3⟩ | ⟨c1, e, c2, c3⟩
    · exact ⟨[], by rw [c2, hnB, List.append_nil], Or.inl ⟨c1, rfl, c3⟩⟩
    · exact ⟨[Node.mk "ForIterExpr" [e]], by rw [c3, hnB]; rfl, Or.inr ⟨c1, e, c2, rfl⟩⟩
  exact ⟨init, cond, iter, body, sA, sB, sC, by rw [hnC]; rfl, hiA, hl3, hiB, hl4, hiC, hl5, h6⟩

theorem C15_for_clauses_witness :
    (look ⟨forExprExample, 0⟩ 0).lexeme = "for" ∧ (look ⟨forExprExample, 0⟩ 1).lexeme = "(" ∧
    ∃ (init cond iter : List Node) (body : Node) (sA sB sC : Parser),
      Node.mk "ForStmt" [Node.mk "ForInitExpr" [Node.mk "ID(i)" []], Node.mk "ID(j)" [],
        Node.mk "ForIterExpr" [Node.mk "ID(k)" []],
        Node.mk "CompoundStmt" [Node.mk "StmtList" []]] =
        Node.mk "ForStmt" (init ++ cond ++ iter ++ [body]) ∧
      (((look ⟨forExprExample, 0⟩ 2).lexeme = ";" ∧ init = [] ∧
          sA = skip ⟨forExprExample, 0⟩ 2) ∨
       ((look ⟨forExprExample, 0⟩ 2).lexeme ≠ ";" ∧
          (look ⟨forExprExample, 0⟩ 2).lexeme ∈ declStartLexemes ∧
          ∃ d, parseDeclStmt 13 false (skip ⟨forExprExample, 0⟩ 2) = Res.ok d sA ∧
            d.symbol = "DeclStmt" ∧ init = [d]) ∨
       ((look ⟨forExprExample, 0⟩ 2).lexeme ≠ ";" ∧
          (look ⟨forExprExample, 0⟩ 2).lexeme ∉ declStartLexemes ∧
          ∃ e, parseExpr 13 (skip ⟨forExprExample, 0⟩ 2) = Res.ok e sA ∧
            init = [Node.mk "ForInitExpr" [e]])) ∧
      (look sA 0).lexeme = ";" ∧
      (((look sA 1).lexeme = ";" ∧ cond = [] ∧ sB = skip sA 1) ∨
       ((look sA 1).lexeme ≠ ";" ∧
          ∃ e, parseExpr 13 (skip sA 1) = Res.ok e sB ∧ cond = [e])) ∧
      (look sB 0).lexeme = ";" ∧
      (((look sB 1).lexeme = ")" ∧ iter = [] ∧ sC = skip sB 1) ∨
       ((look sB 1).lexeme ≠ ")" ∧
          ∃ e, parseExpr 13 (skip sB 1) = Res.ok e sC ∧
            iter = [Node.mk "ForIterExpr" [e]])) ∧
      (look sC 0).lexeme = ")" ∧
      parseStmt 13 (skip sC 1) = Res.ok (body) ⟨forExprExample, 10⟩ :=
  C15_for_clauses 13 ⟨forExprExample, 0⟩ _ ⟨forExprExample, 10⟩ rfl

theorem matchLexeme_inv {lex : String} {s s1 : Parser} {r : Bool}
    (h : matchLexeme lex s = Res.ok r s1) :
    (r = true ∧ s.pos < s.tokens.length ∧ (look s 0).lexeme = lex ∧ s1 = skip s 1) ∨
    (r = false ∧ (look s 0).lexeme ≠ lex ∧ s1 = s) := by
  rcases matchLexeme_ok h with h1 | ⟨h1, h2⟩
  · exact Or.inl h1
  · refine Or.inr ⟨h1, ?_, h2⟩
    intro hl
    subst h1 h2
    by_cases hp : s1.pos < s1.tokens.length
    · rw [matchLexeme_eq lex s1 hp hl] at h
      injection h with h3 _
      exact Bool.noConfusion h3
    · have hne : s1.tokens ≠ [] := by
        intro h0
        simp [matchLexeme, checkLexeme, P.bind_eq, P.bind, peek_nil h0] at h
      simp [matchLexeme, P.bind_eq, P.bind, checkLexeme_look lex 0 s1 hne, hl, advance,
        List.getElem?_eq_none (Nat.le_of_not_lt hp)] at h

/-- C16.  Whenever `parseIfStmt` returns, the tokens at the cursor were `if` `(`, a condition
`c` was parsed up to a `)`, then a statement `t`; if the token after `t` is not `else`, the node
is `IfStmt[c, t]` and the cursor stays before that token; if it is `else`, it is consumed, one
more statement `e` is parsed and the node is `IfStmt[c, t, Else[e]]`. -/
theorem C16_if_shape (n : Nat) (s : Parser) (node : Node) (s1 : Parser)
    (h : parseIfStmt (n + 1) s = Res.ok node s1) :
    (look s 0).lexeme = "if" ∧ (look s 1).lexeme = "(" ∧
    ∃ (c : Node) (sA : Parser) (t : Node) (sB : Parser),
      parseExpr n (skip s 2) = Res.ok c sA ∧ (look sA 0).lexeme = ")" ∧
      parseStmt n (skip sA 1) = Res.ok t sB ∧
      (((look sB 0).lexeme ≠ "else" ∧ node = Node.mk "IfStmt" [c, t] ∧ s1 = sB) ∨
       ((look sB 0).lexeme = "else" ∧
          ∃ e, parseStmt n (skip sB 1) = Res.ok e s1 ∧
            node = Node.mk "IfStmt" [c, t, Node.mk "Else" [e]])) := by
  rw [parseIfStmt] at h
  dsimp only at h
  obtain ⟨t1, x1, h1, h⟩ := P.bind_inv h
  obtain ⟨hp1, hl1, -, rfl⟩ := expectLexeme_ok h1
  obtain ⟨t2, x2, h2, h⟩ := P.bind_inv h
  obtain ⟨hp2, hl2, -, rfl⟩ := expectLexeme_ok h2
  obtain ⟨c, sA, hc, h⟩ := P.bind_inv h
  obtain ⟨t3, x3, h3, h⟩ := P.bind_inv h
  obtain ⟨hp3, hl3, -, rfl⟩ := expectLexeme_ok h3
  obtain ⟨t, sB, ht, h⟩ := P.bind_inv h
  obtain ⟨r, x4, h4, h⟩ := P.bind_inv h
  rw [look_skip] at hl2
  rw [skip_skip] at hc
  refine ⟨hl1, hl2, c, sA, t, sB, hc, hl3, ht, ?_⟩
  rcases matchLexeme_inv h4 with ⟨hr, -, hl4, hx⟩ | ⟨hr, hl4, hx⟩
  · rw [hr, hx, if_pos rfl] at h
    obtain ⟨e, x5, he, h⟩ := P.bind_inv h
    obtain ⟨rfl, rfl⟩ := P.pure_inv h
    exact Or.inr ⟨hl4, e, he, rfl⟩
  · rw [hr, hx] at h
    simp only [Bool.false_eq_true, if_false] at h
    obtain ⟨rfl, rfl⟩ := P.pure_inv h
    exact Or.inl ⟨hl4, rfl, rfl⟩

theorem C16_if_shape_witness :
    (look ⟨ifElseExample, 0⟩ 0).lexeme = "if" ∧ (look ⟨ifElseExample, 0⟩ 1).lexeme = "(" ∧
    ∃ (c : Node) (sA : Parser) (t : Node) (sB : Parser),
      parseExpr 13 (skip ⟨ifElseExample, 0⟩ 2) = Res.ok c sA ∧ (look sA 0).lexeme = ")" ∧
      parseStmt 13 (skip sA 1) = Res.ok t sB ∧
      (((look sB 0).lexeme ≠ "else" ∧
          Node.mk "IfStmt" [Node.mk "ID(a)" [], Node.mk "ExprStmt" [Node.mk "ID(b)" []],
            Node.mk "Else" [Node.mk "ExprStmt" [Node.mk "ID(c)" []]]] =
            Node.mk "IfStmt" [c, t] ∧ (⟨ifElseExample, 9⟩ : Parser) = sB) ∨
       ((look sB 0).lexeme = "else" ∧
          ∃ e, parseStmt 13 (skip sB 1) = Res.ok e ⟨ifElseExample, 9⟩ ∧
            Node.mk "IfStmt" [Node.mk "ID(a)" [], Node.mk "ExprStmt" [Node.mk "ID(b)" []],
              Node.mk "Else" [Node.mk "ExprStmt" [Node.mk "ID(c)" []]]] =
              Node.mk "IfStmt" [c, t, Node.mk "Else" [e]])) :=
  C16_if_shape 13 ⟨ifElseExample, 0⟩ _ ⟨ifElseExample, 9⟩ rfl

/-! ## The postfix chain wraps left to right -/

theorem expectCategory_inv {cat : String} {s s1 : Parser} {t : Token}
    (h : expectCategory cat s = Res.ok t s1) :
    s.pos < s.tokens.length ∧ (look s 0).category = cat ∧ t = look s 0 ∧ s1 = skip s 1 :=
  expectCategory_ok h

theorem parsePostfixLoop_run (n : Nat) : ∀ (node : Node) (s : Parser) (r : Node) (s1 : Parser),
    parsePostfixLoop n node s = Res.ok r s1 →
    ∃ ops, PostfixRun n s ops s1 ∧ r = ops.foldl PostfixOp.wrap node := by
  induction n with
  | zero => intro node s r s1 h; exact Res.noConfusion h
  | succ k ih =>
    intro node s r s1 h
    rw [parsePostfixLoop] at h
    obtain ⟨b1, x1, hm1, h⟩ := P.bind_inv h
    rcases matchLexeme_inv hm1 with ⟨hb, hp, hl, hx⟩ | ⟨hb, hl1, hx⟩
    · rw [hb, hx, if_pos rfl] at h
      obtain ⟨e, sA, he, h⟩ := P.bind_inv h
      obtain ⟨t, x2, h2, h⟩ := P.bind_inv h
      obtain ⟨-, hc, -, rfl⟩ := expectLexeme_ok h2
      obtain ⟨ops, hr, rfl⟩ := ih _ _ _ _ h
      exact ⟨PostfixOp.index e :: ops, PostfixRun.index k s sA s1 e ops hl he hc hr, rfl⟩
    rw [hb, hx] at h
    simp only [Bool.false_eq_true, if_false] at h
    obtain ⟨b2, x2, hm2, h⟩ := P.bind_inv h
    rcases matchLexeme_inv hm2 with ⟨hb, hp, hl, hx⟩ | ⟨hb, hl2, hx⟩
    · rw [hb, hx, if_pos rfl] at h
      obtain ⟨args, sA, ha, h⟩ := P.bind_inv h
      obtain ⟨t, x3, h3, h⟩ := P.bind_inv h
      obtain ⟨hp3, hc, -, rfl⟩ := expectLexeme_ok h3
      obtain ⟨ops, hr, rfl⟩ := ih _ _ _ _ h
      refine ⟨PostfixOp.call args :: ops, PostfixRun.call k s sA s1 args ops hl ?_ hc hr, rfl⟩
      rw [checkLexeme_bind _ _ _ (skip s 1) (@tokens_ne_nil s hp)] at ha
      by_cases hq : (look (skip s 1) 0).lexeme = ")"
      · simp only [hq, beq_self_eq_true, Bool.not_true, Bool.false_eq_true, if_false] at ha
        obtain ⟨rfl, rfl⟩ := P.pure_inv ha
        exact Or.inl ⟨hq, rfl, rfl⟩
      · have hb : ((look (skip s 1) 0).lexeme == ")") = false := by simpa using hq
        simp only [hb, Bool.not_false, if_true] at ha
        obtain ⟨e, s', he, ha⟩ := P.bind_inv ha
        exact Or.inr ⟨hq, e, s', he, ha⟩
    rw [hb, hx] at h
    simp only [Bool.false_eq_true, if_false] at h
    obtain ⟨b3, x3, hm3, h⟩ := P.bind_inv h
    rcases matchLexeme_inv hm3 with ⟨hb, hp, hl, hx⟩ | ⟨hb, hl3, hx⟩
    · rw [hb, hx, if_pos rfl] at h
      obtain ⟨t, x4, h4, h⟩ := P.bind_inv h
      obtain ⟨-, hc, rfl, rfl⟩ := expectCategory_inv h4
      obtain ⟨ops, hr, rfl⟩ := ih _ _ _ _ h
      rw [look_skip] at hc
      rw [skip_skip] at hr
      refine ⟨PostfixOp.field (look s 1).lexeme :: ops,
        PostfixRun.field k s s1 ops hl hc hr, ?_⟩
      simp only [look_skip]
      rfl
    rw [hb, hx] at h
    simp only [Bool.false_eq_true, if_false] at h
    obtain ⟨b4, x4, hm4, h⟩ := P.bind_inv h
    rcases matchLexeme_inv hm4 with ⟨hb, hp, hl, hx⟩ | ⟨hb, hl4, hx⟩
    · rw [hb, hx, if_pos rfl] at h
      obtain ⟨ops, hr, rfl⟩ := ih _ _ _ _ h
      exact ⟨PostfixOp.inc :: ops, PostfixRun.inc k s s1 ops hl hr, rfl⟩
    rw [hb, hx] at h
    simp only [Bool.false_eq_true, if_false] at h
    obtain ⟨rfl, rfl⟩ := P.pure_inv h
    have hne : s1.tokens ≠ [] := by
      intro h0
      simp [matchLexeme, checkLexeme, P.bind_eq, P.bind, peek_nil h0] at hm1
    refine ⟨[], PostfixRun.done k s1 hne ?_, rfl⟩
    simp [postfixOps, hl1, hl2, hl3, hl4]

theorem parsePostfixExpr_le (n : Nat) : P.Le (parsePostfixExpr n) (parsePostfixExpr (n + 1)) :=
  (parse_le n).2.2.2.2.2.2.2.2.2.2.2.2.2.2.2.2.2.2.2.2.2.2.2.2.2.1

/-- C17.  Whenever `parsePostfixExpr` returns, it has parsed one primary `p` and then the
postfix operators `ops` in the order they occur (`PostfixRun`), and the result is `p` wrapped
once per operator from left to right (a left fold), so that the first operator is innermost.
And `a . b [ 0 ] ( x ) ++` parses, with fuel 20 or more, to
`PostInc[FuncCall[ArrayAccess[FieldAccess[ID(a), Field(b)], NUM(0)], Args[ID(x)]]]`, the cursor
ending after all ten tokens, on the sentinel. -/
theorem C17_postfix_chain :
    (∀ (n : Nat) (s : Parser) (r : Node) (s1 : Parser),
      parsePostfixExpr (n + 1) s = Res.ok r s1 →
      ∃ p sP ops, parsePrimary n s = Res.ok p sP ∧ PostfixRun n sP ops s1 ∧
        r = ops.foldl PostfixOp.wrap p) ∧
    ReturnsBy 20 parsePostfixExpr ⟨postfixExample, 0⟩
      (Node.mk "PostInc" [Node.mk "FuncCall" [Node.mk "ArrayAccess" [
        Node.mk "FieldAccess" [Node.mk "ID(a)" [], Node.mk "Field(b)" []],
        Node.mk "NUM(0)" []], Node.mk "Args" [Node.mk "ID(x)" []]]])
      ⟨postfixExample, 10⟩ := by
  constructor
  · intro n s r s1 h
    rw [parsePostfixExpr] at h
    obtain ⟨p, sP, hp, h⟩ := P.bind_inv h
    obtain ⟨ops, hr, he⟩ := parsePostfixLoop_run n p sP r s1 h
    exact ⟨p, sP, ops, hp, hr, he⟩
  · exact returnsBy_of_eq parsePostfixExpr_le rfl

theorem C17_postfix_chain_witness :
    ∃ p sP ops, parsePrimary 19 ⟨postfixExample, 0⟩ = Res.ok p sP ∧
      PostfixRun 19 sP ops ⟨postfixExample, 10⟩ ∧
      Node.mk "PostInc" [Node.mk "FuncCall" [Node.mk "ArrayAccess" [
        Node.mk "FieldAccess" [Node.mk "ID(a)" [], Node.mk "Field(b)" []],
        Node.mk "NUM(0)" []], Node.mk "Args" [Node.mk "ID(x)" []]]] =
        ops.foldl PostfixOp.wrap p :=
  C17_postfix_chain.1 19 ⟨postfixExample, 0⟩ _ ⟨postfixExample, 10⟩ rfl

/-! ## `peek` clamps -/

/-- C18.  For every state with a non-empty token sequence and every offset, `peek` returns
normally and leaves the state as it is; the token returned is `tokens[pos + offset]` when
`pos + offset` is less than the length, and the last token of the sequence otherwise. -/
theorem C18_peek_clamps (s : Parser) (offset : Nat) (hne : s.tokens ≠ []) :
    (∀ h : s.pos + offset < s.tokens.length,
      peek offset s = Res.ok (s.tokens.get ⟨s.pos + offset, h⟩) s) ∧
    (s.tokens.length ≤ s.pos + offset → peek offset s = Res.ok (s.tokens.getLast hne) s) ∧
    (∃ t, peek offset s = Res.ok t s) := by
  refine ⟨?_, ?_, ?_⟩
  · intro h
    unfold peek
    simp only [ge_iff_le]
    rw [if_neg (by omega), List.getElem?_eq_getElem h]
    rfl
  · intro h
    unfold peek
    simp only [ge_iff_le]
    rw [if_pos h, List.getLast?_eq_getLast _ hne]
  · exact ⟨look s offset, peek_look offset s hne⟩

theorem C18_peek_clamps_witness :
    (∀ h : (⟨emptyParamsExample, 5⟩ : Parser).pos + 3 < emptyParamsExample.length,
      peek 3 ⟨emptyParamsExample, 5⟩ =
        Res.ok (emptyParamsExample.get ⟨5 + 3, h⟩) ⟨emptyParamsExample, 5⟩) ∧
    (emptyParamsExample.length ≤ 5 + 3 →
      peek 3 ⟨emptyParamsExample, 5⟩ =
        Res.ok (emptyParamsExample.getLast (by decide)) ⟨emptyParamsExample, 5⟩) ∧
    (∃ t, peek 3 ⟨emptyParamsExample, 5⟩ = Res.ok t ⟨emptyParamsExample, 5⟩) :=
  C18_peek_clamps ⟨emptyParamsExample, 5⟩ 3 (by decide)

/-! ## `withSemi` only controls the terminator -/

/-- C20.  From every state, `parseDeclStmt(true)` returns a node and a state exactly when
`parseDeclStmt(false)` returns the same node, the token at the cursor it stops at has the lexeme
`;`, and the state is one token further.  And in a `for` statement whose initialiser is a
declaration, `parseDeclStmt(false)` stops with the loop's `;` still under the cursor, where
`parseForStmt` itself consumes it. -/
theorem C20_with_semi_only_terminator :
    (∀ (fuel : Nat) (s : Parser) (node : Node) (s1 : Parser),
      parseDeclStmt fuel true s = Res.ok node s1 ↔
        ∃ s0 t, parseDeclStmt fuel false s = Res.ok node s0 ∧ s0.tokens[s0.pos]? = some t ∧
          t.lexeme = ";" ∧ s1 = ⟨s0.tokens, s0.pos + 1⟩) ∧
    (∀ (n : Nat) (s : Parser) (node : Node) (s1 : Parser),
      parseForStmt (n + 1) s = Res.ok node s1 → (look s 2).lexeme ∈ declStartLexemes →
      ∃ d sA t, parseDeclStmt n false (skip s 2) = Res.ok d sA ∧
        sA.tokens[sA.pos]? = some t ∧ t.lexeme = ";") := by
  constructor
  · intro fuel s node s1
    rw [parseDeclStmt_true_eq]
    constructor
    · intro h
      obtain ⟨d, s0, hd, h⟩ := P.bind_inv h
      obtain ⟨t, x, ht, h⟩ := P.bind_inv h
      obtain ⟨rfl, rfl⟩ := P.pure_inv h
      obtain ⟨hp, hl, rfl, rfl⟩ := expectLexeme_ok ht
      refine ⟨s0, look s0 0, hd, ?_, hl, rfl⟩
      unfold look
      rw [if_neg (by simpa using hp)]
      simp [List.getElem?_eq_getElem hp]
    · rintro ⟨s0, t, hd, ht, hl, rfl⟩
      have hlk : look s0 0 = t := look_of_lt (by simpa using ht)
      have hp : s0.pos < s0.tokens.length := by
        rcases Nat.lt_or_ge s0.pos s0.tokens.length with h1 | h1
        · exact h1
        · rw [List.getElem?_eq_none h1] at ht
          exact Option.noConfusion ht
      rw [P.bind_ok hd, P.bind_ok (expectLexeme_eq ";" s0 hp (by rw [hlk]; exact hl))]
      rfl
  · intro n s node s1 h hd
    rw [parseForStmt] at h
    dsimp only at h
    obtain ⟨t1, x1, h1, h⟩ := P.bind_inv h
    obtain ⟨hp1, hl1, -, rfl⟩ := expectLexeme_ok h1
    obtain ⟨t2, x2, h2, h⟩ := P.bind_inv h
    obtain ⟨hp2, hl2, -, rfl⟩ := expectLexeme_ok h2
    obtain ⟨nodeA, sA, hA, h⟩ := P.bind_inv h
    obtain ⟨t3, x3, h3, h⟩ := P.bind_inv h
    obtain ⟨hp3, hl3, -, rfl⟩ := expectLexeme_ok h3
    have hne : s.tokens ≠ [] := tokens_ne_nil hp1
    have iA := forInit_inv (show (skip (skip s 1) 1).tokens ≠ [] from hne) hA
    simp only [skip_skip, look_skip, Nat.reduceAdd, Nat.add_zero] at iA
    have hget : sA.tokens[sA.pos]? = some (look sA 0) := by
      unfold look
      rw [if_neg (by simpa using hp3)]
      simp [List.getElem?_eq_getElem hp3]
    rcases iA with ⟨a1, -, -⟩ | ⟨-, -, d, a3, -, -⟩ | ⟨-, a2, -⟩
    · rw [a1] at hd
      exact absurd hd (by decide)
    · exact ⟨d, sA, look sA 0, a3, hget, hl3⟩
    · exact absurd hd a2

theorem C20_with_semi_only_terminator_witness :
    ∃ d sA t, parseDeclStmt 5 false (skip ⟨forDeclExample, 0⟩ 2) = Res.ok d sA ∧
      sA.tokens[sA.pos]? = some t ∧ t.lexeme = ";" :=
  C20_with_semi_only_terminator.2 5 ⟨forDeclExample, 0⟩ _ ⟨forDeclExample, 9⟩ rfl (by decide)

/-! ## The precedence ladder -/

theorem level_pass {N : Nat} (i : Nat) (hi : i < 6) {s s1 : Parser} {a : Node}
    (ho : ReturnsBy N (levelExpr (i + 1)) s a s1) (h : s1.tokens ≠ []) (hst : stops i s1) :
    ReturnsBy (N + 1) (levelExpr i) s a s1 := by
  interval_cases i
  · exact parseOrExpr_pass ho h hst
  · exact parseAndExpr_pass ho h hst
  · exact parseEqualityExpr_pass ho h hst
  · exact parseRelExpr_pass ho h hst
  · exact parseAddExpr_pass ho h hst.1 hst.2
  · exact parseMulExpr_pass ho h hst

theorem level_pass_to {N : Nat} (d : Nat) : ∀ (i : Nat), i + d ≤ 6 → ∀ {s s1 : Parser}
    {a : Node}, ReturnsBy N (levelExpr (i + d)) s a s1 → s1.tokens ≠ [] →
    (∀ k, i ≤ k → stops k s1) → ReturnsBy (N + d) (levelExpr i) s a s1 := by
  induction d with
  | zero => intro i _ s s1 a ho _ _; exact ho
  | succ d ih =>
    intro i hi s s1 a ho h hst
    have h1 : ReturnsBy (N + d) (levelExpr (i + 1)) s a s1 :=
      ih (i + 1) (by omega) (by rw [Nat.add_assoc, Nat.add_comm 1 d]; exact ho) h
        (fun k hk => hst k (by omega))
    exact level_pass i (by omega) h1 h (hst i (le_refl i))

theorem level_ident (i : Nat) (hi : i ≤ 6) (s : Parser) (h : s.pos < s.tokens.length)
    (hid : isIdentifier (look s 0) = true) (hcl : closes i (skip s 1)) :
    ReturnsBy (3 + (6 - i)) (levelExpr i) s (idNode (look s 0)) (skip s 1) := by
  have hu : ReturnsBy 3 (levelExpr (i + (6 - i))) s (idNode (look s 0)) (skip s 1) := by
    have e : i + (6 - i) = 6 := by omega
    rw [e]
    exact parseUnaryExpr_ident s h hid hcl.1
  exact level_pass_to (6 - i) i (by omega) hu (skip_ne_nil h 1) hcl.2

theorem level_binary {N : Nat} (i : Nat) (hi : i < 6) {s s1 s2 : Parser} {l r : Node}
    (hl : ReturnsBy N (levelExpr (i + 1)) s l s1) (hp : s1.pos < s1.tokens.length)
    (hop : (look s1 0).lexeme ∈ levelOps i)
    (hplus : (look s1 0).lexeme = "+" → (look s1 1).lexeme ≠ "=")
    (hr : ReturnsBy N (levelExpr (i + 1)) (skip s1 1) r s2) (hne : s2.tokens ≠ [])
    (hst : stops i s2) :
    ReturnsBy (N + 2) (levelExpr i) s
      (Node.mk (levelLabel i) [l, Node.mk (look s1 0).lexeme [], r]) s2 := by
  have h1 : 1 ≤ N := by
    by_contra hN
    have hz : N = 0 := by omega
    subst hz
    have := hl 0 (le_refl 0)
    interval_cases i <;> exact Res.noConfusion this
  interval_cases i
  · exact parseOrExpr_of (hl.mono (Nat.le_succ N))
      (parseOrLoop_step s1 l hp hop hr ((parseOrLoop_stop s2 _ hne hst).mono h1))
  · exact parseAndExpr_of (hl.mono (Nat.le_succ N))
      (parseAndLoop_step s1 l hp hop hr ((parseAndLoop_stop s2 _ hne hst).mono h1))
  · exact parseEqualityExpr_of (hl.mono (Nat.le_succ N))
      (parseEqualityLoop_step s1 l hp hop hr ((parseEqualityLoop_stop s2 _ hne hst).mono h1))
  · exact parseRelExpr_of (hl.mono (Nat.le_succ N))
      (parseRelLoop_step s1 l hp hop hr ((parseRelLoop_stop s2 _ hne hst).mono h1))
  · exact parseAddExpr_of (hl.mono (Nat.le_succ N))
      (parseAddLoop_step s1 l hp hop hplus hr
        ((parseAddLoop_stop s2 _ hne hst.1 hst.2).mono h1))
  · exact parseMulExpr_of (hl.mono (Nat.le_succ N))
      (parseMulLoop_step s1 l hp hop hr ((parseMulLoop_stop s2 _ hne hst).mono h1))

theorem levelOps_disjoint (i k : Nat) (hik : i ≠ k) : ∀ x ∈ levelOps i, x ∉ levelOps k := by
  by_cases hi : i < 6
  · by_cases hk : k < 6
    · interval_cases i <;> interval_cases k <;> first | exact absurd rfl hik | decide
    · have e : levelOps k = [] := by
        match k, hk with
        | k + 6, _ => rfl
      rw [e]
      exact fun _ _ h => List.not_mem_nil _ h
  · have e : levelOps i = [] := by
      match i, hi with
      | i + 6, _ => rfl
    rw [e]
    exact fun _ h => absurd h (List.not_mem_nil _)

theorem levelOps_not_postfixOps (i : Nat) : ∀ x ∈ levelOps i, x ∉ postfixOps := by
  by_cases hi : i < 6
  · interval_cases i <;> decide
  · have e : levelOps i = [] := by
      match i, hi with
      | i + 6, _ => rfl
    rw [e]
    exact fun _ h => absurd h (List.not_mem_nil _)

theorem levelOps_continuing (i : Nat) : ∀ x ∈ levelOps i, x ∈ continuingOps := by
  by_cases hi : i < 6
  · interval_cases i <;> decide
  · have e : levelOps i = [] := by
      match i, hi with
      | i + 6, _ => rfl
    rw [e]
    exact fun _ h => absurd h (List.not_mem_nil _)

theorem stops_of_not_mem {k : Nat} {s : Parser} (h : (look s 0).lexeme ∉ levelOps k) :
    stops k s := by
  unfold stops
  split
  · next hk =>
    subst hk
    exact addStops_of_not_mem h
  · exact h

theorem stops_of_mem {i k : Nat} (hik : i ≠ k) {s : Parser}
    (h : (look s 0).lexeme ∈ levelOps i) : stops k s :=
  stops_of_not_mem (levelOps_disjoint i k hik _ h)

theorem closes_of_mem {i k : Nat} (hik : i < k) {s : Parser}
    (h : (look s 0).lexeme ∈ levelOps i) : closes k s :=
  ⟨levelOps_not_postfixOps i _ h, fun j hj => stops_of_mem (by omega) h⟩

theorem closes_of_not_continuing (i : Nat) {s : Parser}
    (hp : (look s 0).lexeme ∉ postfixOps) (h : (look s 0).lexeme ∉ continuingOps) :
    closes i s :=
  ⟨hp, fun k _ => stops_of_not_mem (fun hm => h (levelOps_continuing k _ hm))⟩

theorem closes_of_assign (i : Nat) {s : Parser} (h : (look s 0).lexeme = "=") :
    closes i s := by
  refine ⟨by rw [h]; decide, fun k _ => stops_of_not_mem ?_⟩
  intro hm
  rw [h] at hm
  by_cases hk : k < 6
  · interval_cases k <;> exact absurd hm (by decide)
  · have e : levelOps k = [] := by
      match k, hk with
      | k + 6, _ => rfl
    rw [e] at hm
    exact absurd hm (List.not_mem_nil _)

theorem closes_of_plusAssign (i : Nat) {s : Parser} (h : (look s 0).lexeme = "+")
    (he : (look s 1).lexeme = "=") : closes i s := by
  refine ⟨by rw [h]; decide, fun k _ => ?_⟩
  by_cases hk : k = 4
  · subst hk
    unfold stops
    rw [if_pos rfl]
    exact ⟨by rw [h]; decide, fun _ => he⟩
  · refine stops_of_not_mem ?_
    intro hm
    rw [h] at hm
    by_cases hk6 : k < 6
    · interval_cases k <;> first | exact absurd rfl hk | exact absurd hm (by decide)
    · have e : levelOps k = [] := by
        match k, hk6 with
        | k + 6, _ => rfl
      rw [e] at hm
      exact absurd hm (List.not_mem_nil _)

theorem level_to_or {N : Nat} (i : Nat) (hi : i ≤ 6) {s s1 : Parser} {a : Node}
    (ho : ReturnsBy N (levelExpr i) s a s1) (h : s1.tokens ≠ [])
    (hst : ∀ k, stops k s1) : ReturnsBy (N + i) parseOrExpr s a s1 :=
  level_pass_to i 0 (by omega) (by rw [Nat.zero_add]; exact ho) h (fun k _ => hst k)

theorem level_to_expr {N : Nat} (i : Nat) (hi : i ≤ 6) {s s1 : Parser} {a : Node}
    (ho : ReturnsBy N (levelExpr i) s a s1) (h : s1.tokens ≠ [])
    (hl : (look s1 0).lexeme ∉ continuingOps) : ReturnsBy (N + i + 2) parseExpr s a s1 :=
  parseExpr_of_or (level_to_or i hi ho h
    (fun k => stops_of_not_mem (fun hm => hl (levelOps_continuing k _ hm)))) h hl

theorem closes_eof (i : Nat) {s : Parser} (h : (look s 0).lexeme = "EOF") : closes i s :=
  closes_of_not_continuing i (by rw [h]; decide) (by rw [h]; decide)

/-- `a oL b oT c` with `oL` of the looser level `i` and `oT` of the tighter level `j`. -/
theorem ladder_loose_first (a b c oL oT : Token) (ha : isIdentifier a = true)
    (hb : isIdentifier b = true) (hc : isIdentifier c = true) (i j : Nat) (hij : i < j)
    (hj : j < 6) (hL : oL.lexeme ∈ levelOps i) (hT : oT.lexeme ∈ levelOps j) :
    ReturnsBy 13 parseExpr ⟨[a, oL, b, oT, c, eofToken], 0⟩
      (Node.mk (levelLabel i) [idNode a, Node.mk oL.lexeme [],
        Node.mk (levelLabel j) [idNode b, Node.mk oT.lexeme [], idNode c]])
      ⟨[a, oL, b, oT, c, eofToken], 5⟩ := by
  have B0 := level_ident (j + 1) (by omega) ⟨[a, oL, b, oT, c, eofToken], 2⟩ (by simp) hb
    (@closes_of_mem j (j + 1) (by omega) ⟨[a, oL, b, oT, c, eofToken], 3⟩ hT)
  have C0 := level_ident (j + 1) (by omega) ⟨[a, oL, b, oT, c, eofToken], 4⟩ (by simp) hc
    (@closes_eof (j + 1) ⟨[a, oL, b, oT, c, eofToken], 5⟩ rfl)
  have T := @level_binary _ j hj ⟨[a, oL, b, oT, c, eofToken], 2⟩
    ⟨[a, oL, b, oT, c, eofToken], 3⟩ ⟨[a, oL, b, oT, c, eofToken], 5⟩ _ _ B0 (by simp) hT
    (fun _ => isIdentifier_ne hc "=" (by decide)) C0 (by simp)
    ((@closes_eof j ⟨[a, oL, b, oT, c, eofToken], 5⟩ rfl).2 j (le_refl j))
  have e1 : j = (i + 1) + (j - (i + 1)) := by omega
  rw [e1] at T
  have T1 := level_pass_to (j - (i + 1)) (i + 1) (by omega) T (by simp)
    (@closes_eof (i + 1) ⟨[a, oL, b, oT, c, eofToken], 5⟩ rfl).2
  rw [← e1] at T1
  have A0 := level_ident (i + 1) (by omega) ⟨[a, oL, b, oT, c, eofToken], 0⟩ (by simp) ha
    (@closes_of_mem i (i + 1) (by omega) ⟨[a, oL, b, oT, c, eofToken], 1⟩ hL)
  have L := @level_binary _ i (by omega) ⟨[a, oL, b, oT, c, eofToken], 0⟩
    ⟨[a, oL, b, oT, c, eofToken], 1⟩ ⟨[a, oL, b, oT, c, eofToken], 5⟩ _ _
    (A0.mono (show 3 + (6 - (i + 1)) ≤ 3 + (6 - (j + 1)) + 2 + (j - (i + 1)) by omega))
    (by simp) hL (fun _ => isIdentifier_ne hb "=" (by decide)) T1 (by simp)
    ((@closes_eof i ⟨[a, oL, b, oT, c, eofToken], 5⟩ rfl).2 i (le_refl i))
  exact (level_to_expr i (by omega) L (by simp)
    (show eofToken.lexeme ∉ continuingOps by decide)).mono (by omega)

/-- `a oT b oL c` with `oT` of the tighter level `j` and `oL` of the looser level `i`. -/
theorem ladder_tight_first (a b c oL oT : Token) (ha : isIdentifier a = true)
    (hb : isIdentifier b = true) (hc : isIdentifier c = true) (i j : Nat) (hij : i < j)
    (hj : j < 6) (hL : oL.lexeme ∈ levelOps i) (hT : oT.lexeme ∈ levelOps j) :
    ReturnsBy 13 parseExpr ⟨[a, oT, b, oL, c, eofToken], 0⟩
      (Node.mk (levelLabel i) [Node.mk (levelLabel j) [idNode a, Node.mk oT.lexeme [],
        idNode b], Node.mk oL.lexeme [], idNode c])
      ⟨[a, oT, b, oL, c, eofToken], 5⟩ := by
  have A0 := level_ident (j + 1) (by omega) ⟨[a, oT, b, oL, c, eofToken], 0⟩ (by simp) ha
    (@closes_of_mem j (j + 1) (by omega) ⟨[a, oT, b, oL, c, eofToken], 1⟩ hT)
  have B0 := level_ident (j + 1) (by omega) ⟨[a, oT, b, oL, c, eofToken], 2⟩ (by simp) hb
    (@closes_of_mem i (j + 1) (by omega) ⟨[a, oT, b, oL, c, eofToken], 3⟩ hL)
  have T := @level_binary _ j hj ⟨[a, oT, b, oL, c, eofToken], 0⟩
    ⟨[a, oT, b, oL, c, eofToken], 1⟩ ⟨[a, oT, b, oL, c, eofToken], 3⟩ _ _ A0 (by simp) hT
    (fun _ => isIdentifier_ne hb "=" (by decide)) B0 (by simp)
    (@stops_of_mem i j (by omega) ⟨[a, oT, b, oL, c, eofToken], 3⟩ hL)
  have e1 : j = (i + 1) + (j - (i + 1)) := by omega
  rw [e1] at T
  have T1 := level_pass_to (j - (i + 1)) (i + 1) (by omega) T (by simp)
    (@closes_of_mem i (i + 1) (by omega) ⟨[a, oT, b, oL, c, eofToken], 3⟩ hL).2
  rw [← e1] at T1
  have C0 := level_ident (i + 1) (by omega) ⟨[a, oT, b, oL, c, eofToken], 4⟩ (by simp) hc
    (@closes_eof (i + 1) ⟨[a, oT, b, oL, c, eofToken], 5⟩ rfl)
  have L := @level_binary _ i (by omega) ⟨[a, oT, b, oL, c, eofToken], 0⟩
    ⟨[a, oT, b, oL, c, eofToken], 3⟩ ⟨[a, oT, b, oL, c, eofToken], 5⟩ _ _ T1 (by simp) hL
    (fun _ => isIdentifier_ne hc "=" (by decide))
    (C0.mono (show 3 + (6 - (i + 1)) ≤ 3 + (6 - (j + 1)) + 2 + (j - (i + 1)) by omega))
    (by simp)
    ((@closes_eof i ⟨[a, oT, b, oL, c, eofToken], 5⟩ rfl).2 i (le_refl i))
  exact (level_to_expr i (by omega) L (by simp)
    (show eofToken.lexeme ∉ continuingOps by decide)).mono (by omega)

/-- `b oT c` as one operand of an assignment: a binary node of level `j` read up to the
logical-or level. -/
theorem ladder_operand {N : Nat} (j : Nat) (hj : j < 6) {s s1 s2 : Parser} {l r : Node}
    (hl : ReturnsBy N (levelExpr (j + 1)) s l s1) (hp : s1.pos < s1.tokens.length)
    (hop : (look s1 0).lexeme ∈ levelOps j)
    (hplus : (look s1 0).lexeme = "+" → (look s1 1).lexeme ≠ "=")
    (hr : ReturnsBy N (levelExpr (j + 1)) (skip s1 1) r s2) (hne : s2.tokens ≠ [])
    (hst : ∀ k, stops k s2) :
    ReturnsBy (N + 2 + j) parseOrExpr s
      (Node.mk (levelLabel j) [l, Node.mk (look s1 0).lexeme [], r]) s2 :=
  level_to_or j (by omega) (level_binary j hj hl hp hop hplus hr hne (hst j)) hne hst

theorem ladder_assign_first (a b c eq oT : Token) (ha : isIdentifier a = true)
    (hb : isIdentifier b = true) (hc : isIdentifier c = true) (j : Nat) (hj : j < 6)
    (he : eq.lexeme = "=") (hT : oT.lexeme ∈ levelOps j) :
    ReturnsBy 13 parseExpr ⟨[a, eq, b, oT, c, eofToken], 0⟩
      (Node.mk "AssignExpr" [idNode a, Node.mk "=" [],
        Node.mk (levelLabel j) [idNode b, Node.mk oT.lexeme [], idNode c]])
      ⟨[a, eq, b, oT, c, eofToken], 5⟩ := by
  have A0 := level_ident 0 (by omega) ⟨[a, eq, b, oT, c, eofToken], 0⟩ (by simp) ha
    (@closes_of_assign 0 ⟨[a, eq, b, oT, c, eofToken], 1⟩ he)
  have B0 := level_ident (j + 1) (by omega) ⟨[a, eq, b, oT, c, eofToken], 2⟩ (by simp) hb
    (@closes_of_mem j (j + 1) (by omega) ⟨[a, eq, b, oT, c, eofToken], 3⟩ hT)
  have C0 := level_ident (j + 1) (by omega) ⟨[a, eq, b, oT, c, eofToken], 4⟩ (by simp) hc
    (@closes_eof (j + 1) ⟨[a, eq, b, oT, c, eofToken], 5⟩ rfl)
  have T := @ladder_operand _ j hj ⟨[a, eq, b, oT, c, eofToken], 2⟩
    ⟨[a, eq, b, oT, c, eofToken], 3⟩ ⟨[a, eq, b, oT, c, eofToken], 5⟩ _ _ B0 (by simp) hT
    (fun _ => isIdentifier_ne hc "=" (by decide)) C0 (by simp)
    (fun k => (@closes_eof 0 ⟨[a, eq, b, oT, c, eofToken], 5⟩ rfl).2 k (Nat.zero_le k))
  have R := parseAssignExpr_plain T (by simp)
    (show eofToken.lexeme ≠ "=" by decide)
    (fun h => absurd h (show eofToken.lexeme ≠ "+" by decide))
  have M := @parseAssignExpr_assign _ ⟨[a, eq, b, oT, c, eofToken], 0⟩
    ⟨[a, eq, b, oT, c, eofToken], 1⟩ ⟨[a, eq, b, oT, c, eofToken], 5⟩ _ _
    (A0.mono (show 3 + (6 - 0) ≤ 3 + (6 - (j + 1)) + 2 + j + 1 by omega)) (by simp) he R
  exact (parseExpr_of M).mono (by omega)

theorem ladder_assign_last (a b c eq oT : Token) (ha : isIdentifier a = true)
    (hb : isIdentifier b = true) (hc : isIdentifier c = true) (j : Nat) (hj : j < 6)
    (he : eq.lexeme = "=") (hT : oT.lexeme ∈ levelOps j) :
    ReturnsBy 13 parseExpr ⟨[a, oT, b, eq, c, eofToken], 0⟩
      (Node.mk "AssignExpr" [Node.mk (levelLabel j) [idNode a, Node.mk oT.lexeme [],
        idNode b], Node.mk "=" [], idNode c])
      ⟨[a, oT, b, eq, c, eofToken], 5⟩ := by
  have A0 := level_ident (j + 1) (by omega) ⟨[a, oT, b, eq, c, eofToken], 0⟩ (by simp) ha
    (@closes_of_mem j (j + 1) (by omega) ⟨[a, oT, b, eq, c, eofToken], 1⟩ hT)
  have B0 := level_ident (j + 1) (by omega) ⟨[a, oT, b, eq, c, eofToken], 2⟩ (by simp) hb
    (@closes_of_assign (j + 1) ⟨[a, oT, b, eq, c, eofToken], 3⟩ he)
  have T := @ladder_operand _ j hj ⟨[a, oT, b, eq, c, eofToken], 0⟩
    ⟨[a, oT, b, eq, c, eofToken], 1⟩ ⟨[a, oT, b, eq, c, eofToken], 3⟩ _ _ A0 (by simp) hT
    (fun _ => isIdentifier_ne hb "=" (by decide)) B0 (by simp)
    (fun k => (@closes_of_assign 0 ⟨[a, oT, b, eq, c, eofToken], 3⟩ he).2 k (Nat.zero_le k))
  have C0 := level_ident 0 (by omega) ⟨[a, oT, b, eq, c, eofToken], 4⟩ (by simp) hc
    (@closes_eof 0 ⟨[a, oT, b, eq, c, eofToken], 5⟩ rfl)
  have R := parseAssignExpr_plain C0 (by simp [skip])
    (show eofToken.lexeme ≠ "=" by decide)
    (fun h => absurd h (show eofToken.lexeme ≠ "+" by decide))
  have M := @parseAssignExpr_assign _ ⟨[a, oT, b, eq, c, eofToken], 0⟩
    ⟨[a, oT, b, eq, c, eofToken], 3⟩ ⟨[a, oT, b, eq, c, eofToken], 5⟩ _ _
    (T.mono (show 3 + (6 - (j + 1)) + 2 + j ≤ 3 + (6 - 0) + 1 by omega)) (by simp) he R
  exact (parseExpr_of M).mono (by omega)

theorem ladder_plusAssign_first (a b c p e oT : Token) (ha : isIdentifier a = true)
    (hb : isIdentifier b = true) (hc : isIdentifier c = true) (j : Nat) (hj : j < 6)
    (hp : p.lexeme = "+") (he : e.lexeme = "=") (hT : oT.lexeme ∈ levelOps j) :
    ReturnsBy 13 parseExpr ⟨[a, p, e, b, oT, c, eofToken], 0⟩
      (Node.mk "AssignExpr" [idNode a, Node.mk "+=" [],
        Node.mk (levelLabel j) [idNode b, Node.mk oT.lexeme [], idNode c]])
      ⟨[a, p, e, b, oT, c, eofToken], 6⟩ := by
  have A0 := level_ident 0 (by omega) ⟨[a, p, e, b, oT, c, eofToken], 0⟩ (by simp) ha
    (@closes_of_plusAssign 0 ⟨[a, p, e, b, oT, c, eofToken], 1⟩ hp he)
  have B0 := level_ident (j + 1) (by omega) ⟨[a, p, e, b, oT, c, eofToken], 3⟩ (by simp) hb
    (@closes_of_mem j (j + 1) (by omega) ⟨[a, p, e, b, oT, c, eofToken], 4⟩ hT)
  have C0 := level_ident (j + 1) (by omega) ⟨[a, p, e, b, oT, c, eofToken], 5⟩ (by simp) hc
    (@closes_eof (j + 1) ⟨[a, p, e, b, oT, c, eofToken], 6⟩ rfl)
  have T := @ladder_operand _ j hj ⟨[a, p, e, b, oT, c, eofToken], 3⟩
    ⟨[a, p, e, b, oT, c, eofToken], 4⟩ ⟨[a, p, e, b, oT, c, eofToken], 6⟩ _ _ B0 (by simp) hT
    (fun _ => isIdentifier_ne hc "=" (by decide)) C0 (by simp)
    (fun k => (@closes_eof 0 ⟨[a, p, e, b, oT, c, eofToken], 6⟩ rfl).2 k (Nat.zero_le k))
  have R := parseAssignExpr_plain T (by simp)
    (show eofToken.lexeme ≠ "=" by decide)
    (fun h => absurd h (show eofToken.lexeme ≠ "+" by decide))
  have M := @parseAssignExpr_plusAssign _ ⟨[a, p, e, b, oT, c, eofToken], 0⟩
    ⟨[a, p, e, b, oT, c, eofToken], 1⟩ ⟨[a, p, e, b, oT, c, eofToken], 6⟩ _ _
    (A0.mono (show 3 + (6 - 0) ≤ 3 + (6 - (j + 1)) + 2 + j + 1 by omega)) (by simp) hp he R
  exact (parseExpr_of M).mono (by omega)

theorem ladder_plusAssign_last (a b c p e oT : Token) (ha : isIdentifier a = true)
    (hb : isIdentifier b = true) (hc : isIdentifier c = true) (j : Nat) (hj : j < 6)
    (hp : p.lexeme = "+") (he : e.lexeme = "=") (hT : oT.lexeme ∈ levelOps j) :
    ReturnsBy 13 parseExpr ⟨[a, oT, b, p, e, c, eofToken], 0⟩
      (Node.mk "AssignExpr" [Node.mk (levelLabel j) [idNode a, Node.mk oT.lexeme [],
        idNode b], Node.mk "+=" [], idNode c])
      ⟨[a, oT, b, p, e, c, eofToken], 6⟩ := by
  have A0 := level_ident (j + 1) (by omega) ⟨[a, oT, b, p, e, c, eofToken], 0⟩ (by simp) ha
    (@closes_of_mem j (j + 1) (by omega) ⟨[a, oT, b, p, e, c, eofToken], 1⟩ hT)
  have B0 := level_ident (j + 1) (by omega) ⟨[a, oT, b, p, e, c, eofToken], 2⟩ (by simp) hb
    (@closes_of_plusAssign (j + 1) ⟨[a, oT, b, p, e, c, eofToken], 3⟩ hp he)
  have T := @ladder_operand _ j hj ⟨[a, oT, b, p, e, c, eofToken], 0⟩
    ⟨[a, oT, b, p, e, c, eofToken], 1⟩ ⟨[a, oT, b, p, e, c, eofToken], 3⟩ _ _ A0 (by simp) hT
    (fun _ => isIdentifier_ne hb "=" (by decide)) B0 (by simp)
    (fun k => (@closes_of_plusAssign 0 ⟨[a, oT, b, p, e, c, eofToken], 3⟩ hp he).2 k
      (Nat.zero_le k))
  have C0 := level_ident 0 (by omega) ⟨[a, oT, b, p, e, c, eofToken], 5⟩ (by simp) hc
    (@closes_eof 0 ⟨[a, oT, b, p, e, c, eofToken], 6⟩ rfl)
  have R := parseAssignExpr_plain C0 (by simp [skip])
    (show eofToken.lexeme ≠ "=" by decide)
    (fun h => absurd h (show eofToken.lexeme ≠ "+" by decide))
  have M := @parseAssignExpr_plusAssign _ ⟨[a, oT, b, p, e, c, eofToken], 0⟩
    ⟨[a, oT, b, p, e, c, eofToken], 3⟩ ⟨[a, oT, b, p, e, c, eofToken], 6⟩ _ _
    (T.mono (show 3 + (6 - (j + 1)) + 2 + j ≤ 3 + (6 - 0) + 1 by omega)) (by simp) hp he R
  exact (parseExpr_of M).mono (by omega)

theorem ladder_unary (a b u o : Token) (ha : isIdentifier a = true)
    (hb : isIdentifier b = true) (i : Nat) (hi : i < 6) (hu : u.lexeme ∈ unaryOps)
    (ho : o.lexeme ∈ levelOps i) :
    ReturnsBy 13 parseExpr ⟨[u, a, o, b, eofToken], 0⟩
      (Node.mk (levelLabel i) [Node.mk "UnaryExpr" [Node.mk u.lexeme [], idNode a],
        Node.mk o.lexeme [], idNode b])
      ⟨[u, a, o, b, eofToken], 4⟩ := by
  have U0 := parseUnaryExpr_ident ⟨[u, a, o, b, eofToken], 1⟩ (by simp) ha
    (levelOps_not_postfixOps i _ ho)
  have U := @parseUnaryExpr_op _ ⟨[u, a, o, b, eofToken], 0⟩ ⟨[u, a, o, b, eofToken], 2⟩ _
    (by simp) hu U0
  have e1 : 6 = (i + 1) + (5 - i) := by omega
  have U1 : ReturnsBy 4 (levelExpr ((i + 1) + (5 - i))) ⟨[u, a, o, b, eofToken], 0⟩
      (Node.mk "UnaryExpr" [Node.mk u.lexeme [], idNode a]) ⟨[u, a, o, b, eofToken], 2⟩ := by
    rw [← e1]
    exact U
  have U2 := level_pass_to (5 - i) (i + 1) (by omega) U1 (by simp)
    (@closes_of_mem i (i + 1) (by omega) ⟨[u, a, o, b, eofToken], 2⟩ ho).2
  have B0 := level_ident (i + 1) (by omega) ⟨[u, a, o, b, eofToken], 3⟩ (by simp) hb
    (@closes_eof (i + 1) ⟨[u, a, o, b, eofToken], 4⟩ rfl)
  have L := @level_binary _ i hi ⟨[u, a, o, b, eofToken], 0⟩
    ⟨[u, a, o, b, eofToken], 2⟩ ⟨[u, a, o, b, eofToken], 4⟩ _ _ U2 (by simp) ho
    (fun _ => isIdentifier_ne hb "=" (by decide))
    (B0.mono (show 3 + (6 - (i + 1)) ≤ 4 + (5 - i) by omega)) (by simp)
    ((@closes_eof i ⟨[u, a, o, b, eofToken], 4⟩ rfl).2 i (le_refl i))
  exact (level_to_expr i (by omega) L (by simp)
    (show eofToken.lexeme ∉ continuingOps by decide)).mono (by omega)

theorem ladder_unary_assign (a b u eq : Token) (ha : isIdentifier a = true)
    (hb : isIdentifier b = true) (hu : u.lexeme ∈ unaryOps) (he : eq.lexeme = "=") :
    ReturnsBy 13 parseExpr ⟨[u, a, eq, b, eofToken], 0⟩
      (Node.mk "AssignExpr" [Node.mk "UnaryExpr" [Node.mk u.lexeme [], idNode a],
        Node.mk "=" [], idNode b])
      ⟨[u, a, eq, b, eofToken], 4⟩ := by
  have U0 := parseUnaryExpr_ident ⟨[u, a, eq, b, eofToken], 1⟩ (by simp) ha
    (@closes_of_assign 0 ⟨[u, a, eq, b, eofToken], 2⟩ he).1
  have U := @parseUnaryExpr_op _ ⟨[u, a, eq, b, eofToken], 0⟩ ⟨[u, a, eq, b, eofToken], 2⟩ _
    (by simp) hu U0
  have U1 : ReturnsBy 4 (levelExpr 6) ⟨[u, a, eq, b, eofToken], 0⟩
      (Node.mk "UnaryExpr" [Node.mk u.lexeme [], idNode a]) ⟨[u, a, eq, b, eofToken], 2⟩ := U
  have U2 := level_to_or 6 (le_refl 6) U1 (by simp)
    (fun k => (@closes_of_assign 0 ⟨[u, a, eq, b, eofToken], 2⟩ he).2 k (Nat.zero_le k))
  have B0 := level_ident 0 (by omega) ⟨[u, a, eq, b, eofToken], 3⟩ (by simp) hb
    (@closes_eof 0 ⟨[u, a, eq, b, eofToken], 4⟩ rfl)
  have R := parseAssignExpr_plain B0 (by simp [skip])
    (show eofToken.lexeme ≠ "=" by decide)
    (fun h => absurd h (show eofToken.lexeme ≠ "+" by decide))
  have M := @parseAssignExpr_assign _ ⟨[u, a, eq, b, eofToken], 0⟩
    ⟨[u, a, eq, b, eofToken], 2⟩ ⟨[u, a, eq, b, eofToken], 4⟩ _ _ U2 (by simp) he R
  exact (parseExpr_of M).mono (by omega)

/-- The entry of `binaryLevels` at index `i` is the label and operator set of ladder level
`i`. -/
theorem binaryLevels_index {i : Nat} {lab : String} {ops : List String}
    (h : binaryLevels[i]? = some (lab, ops)) :
    i < 6 ∧ lab = levelLabel i ∧ ops = levelOps i := by
  have hi : i < 6 := by
    by_contra hn
    have : binaryLevels[i]? = none := List.getElem?_eq_none (by
      have : binaryLevels.length = 6 := rfl
      omega)
    rw [this] at h
    cases h
  refine ⟨hi, ?_⟩
  interval_cases i <;>
    · simp only [binaryLevels, List.getElem?_cons_zero, List.getElem?_cons_succ,
        Option.some.injEq, Prod.mk.injEq] at h
      exact ⟨h.1.symm, h.2.symm⟩

theorem binaryLevels_mem {lab : String} {ops : List String}
    (h : (lab, ops) ∈ binaryLevels) : ∃ j, j < 6 ∧ lab = levelLabel j ∧ ops = levelOps j := by
  simp only [binaryLevels, List.mem_cons, Prod.mk.injEq, List.mem_singleton, List.not_mem_nil,
    or_false] at h
  rcases h with ⟨rfl, rfl⟩ | ⟨rfl, rfl⟩ | ⟨rfl, rfl⟩ | ⟨rfl, rfl⟩ | ⟨rfl, rfl⟩ | ⟨rfl, rfl⟩
  · exact ⟨0, by decide, rfl, rfl⟩
  · exact ⟨1, by decide, rfl, rfl⟩
  · exact ⟨2, by decide, rfl, rfl⟩
  · exact ⟨3, by decide, rfl, rfl⟩
  · exact ⟨4, by decide, rfl, rfl⟩
  · exact ⟨5, by decide, rfl, rfl⟩

/-- C19 (precedence ladder).  `binaryLevels` lists the binary levels from loosest to tightest
(`||`, `&&`, `==`, relational, additive, multiplicative).  For identifier tokens `a`, `b`, `c`,
with fuel 13 or more and the sentinel after the expression, `parseExpr` returns and stops on the
sentinel, and:
(1) for a looser level at index `i` and a tighter level at index `j > i`, with operator tokens
`oL` and `oT` of those levels, `a oL b oT c` gives `L[ID(a), oL, T[ID(b), oT, ID(c)]]` and
`a oT b oL c` gives `L[T[ID(a), oT, ID(b)], oL, ID(c)]`;
(2) assignment is looser than every binary level: with `=` (one token) or `+=` (the two tokens
`+`, `=`) in the place of `oL`, the same two shapes hold with the label `AssignExpr`;
(3) a unary prefix `u` is tighter than every binary level and than assignment: `u a o b` gives
`L[UnaryExpr[u, ID(a)], o, ID(b)]` and `u a = b` gives `AssignExpr[UnaryExpr[u, ID(a)], =, ID(b)]`. -/
theorem C19_precedence_ladder (a b c : Token) (ha : isIdentifier a = true)
    (hb : isIdentifier b = true) (hc : isIdentifier c = true) :
    (∀ (i j : Nat) (labL labT : String) (opsL opsT : List String) (oL oT : Token), i < j →
      binaryLevels[i]? = some (labL, opsL) → binaryLevels[j]? = some (labT, opsT) →
      oL.lexeme ∈ opsL → oT.lexeme ∈ opsT →
      ReturnsBy 13 parseExpr ⟨[a, oL, b, oT, c, eofToken], 0⟩
        (Node.mk labL [idNode a, Node.mk oL.lexeme [],
          Node.mk labT [idNode b, Node.mk oT.lexeme [], idNode c]])
        ⟨[a, oL, b, oT, c, eofToken], 5⟩ ∧
      ReturnsBy 13 parseExpr ⟨[a, oT, b, oL, c, eofToken], 0⟩
        (Node.mk labL [Node.mk labT [idNode a, Node.mk oT.lexeme [], idNode b],
          Node.mk oL.lexeme [], idNode c])
        ⟨[a, oT, b, oL, c, eofToken], 5⟩) ∧
    (∀ (labT : String) (opsT : List String) (eq p oT : Token), (labT, opsT) ∈ binaryLevels →
      eq.lexeme = "=" → p.lexeme = "+" → oT.lexeme ∈ opsT →
      ReturnsBy 13 parseExpr ⟨[a, eq, b, oT, c, eofToken], 0⟩
        (Node.mk "AssignExpr" [idNode a, Node.mk "=" [],
          Node.mk labT [idNode b, Node.mk oT.lexeme [], idNode c]])
        ⟨[a, eq, b, oT, c, eofToken], 5⟩ ∧
      ReturnsBy 13 parseExpr ⟨[a, oT, b, eq, c, eofToken], 0⟩
        (Node.mk "AssignExpr" [Node.mk labT [idNode a, Node.mk oT.lexeme [], idNode b],
          Node.mk "=" [], idNode c])
        ⟨[a, oT, b, eq, c, eofToken], 5⟩ ∧
      ReturnsBy 13 parseExpr ⟨[a, p, eq, b, oT, c, eofToken], 0⟩
        (Node.mk "AssignExpr" [idNode a, Node.mk "+=" [],
          Node.mk labT [idNode b, Node.mk oT.lexeme [], idNode c]])
        ⟨[a, p, eq, b, oT, c, eofToken], 6⟩ ∧
      ReturnsBy 13 parseExpr ⟨[a, oT, b, p, eq, c, eofToken], 0⟩
        (Node.mk "AssignExpr" [Node.mk labT [idNode a, Node.mk oT.lexeme [], idNode b],
          Node.mk "+=" [], idNode c])
        ⟨[a, oT, b, p, eq, c, eofToken], 6⟩) ∧
    (∀ (lab : String) (ops : List String) (u o eq : Token), (lab, ops) ∈ binaryLevels →
      u.lexeme ∈ unaryOps → o.lexeme ∈ ops → eq.lexeme = "=" →
      ReturnsBy 13 parseExpr ⟨[u, a, o, b, eofToken], 0⟩
        (Node.mk lab [Node.mk "UnaryExpr" [Node.mk u.lexeme [], idNode a],
          Node.mk o.lexeme [], idNode b])
        ⟨[u, a, o, b, eofToken], 4⟩ ∧
      ReturnsBy 13 parseExpr ⟨[u, a, eq, b, eofToken], 0⟩
        (Node.mk "AssignExpr" [Node.mk "UnaryExpr" [Node.mk u.lexeme [], idNode a],
          Node.mk "=" [], idNode b])
        ⟨[u, a, eq, b, eofToken], 4⟩) := by
  refine ⟨?_, ?_, ?_⟩
  · intro i j labL labT opsL opsT oL oT hij hi hj hL hT
    obtain ⟨_, rfl, rfl⟩ := binaryLevels_index hi
    obtain ⟨hj6, rfl, rfl⟩ := binaryLevels_index hj
    exact ⟨ladder_loose_first a b c oL oT ha hb hc i j hij hj6 hL hT,
      ladder_tight_first a b c oL oT ha hb hc i j hij hj6 hL hT⟩
  · intro labT opsT eq p oT hm he hp hT
    obtain ⟨j, hj6, rfl, rfl⟩ := binaryLevels_mem hm
    exact ⟨ladder_assign_first a b c eq oT ha hb hc j hj6 he hT,
      ladder_assign_last a b c eq oT ha hb hc j hj6 he hT,
      ladder_plusAssign_first a b c p eq oT ha hb hc j hj6 hp he hT,
      ladder_plusAssign_last a b c p eq oT ha hb hc j hj6 hp he hT⟩
  · intro lab ops u o eq hm hu ho he
    obtain ⟨i, hi6, rfl, rfl⟩ := binaryLevels_mem hm
    exact ⟨ladder_unary a b u o ha hb i hi6 hu ho, ladder_unary_assign a b u eq ha hb hu he⟩

theorem C19_precedence_ladder_witness :
    parseExpr 13 ⟨[⟨"IDENTIFIER", "a", 1⟩, ⟨"OPERATOR", "+", 1⟩, ⟨"IDENTIFIER", "b", 1⟩,
      ⟨"OPERATOR", "*", 1⟩, ⟨"IDENTIFIER", "c", 1⟩, eofToken], 0⟩ =
    Res.ok (Node.mk "AddExpr" [Node.mk "ID(a)" [], Node.mk "+" [],
        Node.mk "MulExpr" [Node.mk "ID(b)" [], Node.mk "*" [], Node.mk "ID(c)" []]])
      ⟨[⟨"IDENTIFIER", "a", 1⟩, ⟨"OPERATOR", "+", 1⟩, ⟨"IDENTIFIER", "b", 1⟩,
      ⟨"OPERATOR", "*", 1⟩, ⟨"IDENTIFIER", "c", 1⟩, eofToken], 5⟩ ∧
    parseExpr 13 ⟨[⟨"IDENTIFIER", "a", 1⟩, ⟨"OPERATOR", "*", 1⟩, ⟨"IDENTIFIER", "b", 1⟩,
      ⟨"OPERATOR", "+", 1⟩, ⟨"IDENTIFIER", "c", 1⟩, eofToken], 0⟩ =
    Res.ok (Node.mk "AddExpr" [Node.mk "MulExpr" [Node.mk "ID(a)" [], Node.mk "*" [],
        Node.mk "ID(b)" []], Node.mk "+" [], Node.mk "ID(c)" []])
      ⟨[⟨"IDENTIFIER", "a", 1⟩, ⟨"OPERATOR", "*", 1⟩, ⟨"IDENTIFIER", "b", 1⟩,
      ⟨"OPERATOR", "+", 1⟩, ⟨"IDENTIFIER", "c", 1⟩, eofToken], 5⟩ ∧
    parseExpr 13 ⟨[⟨"OPERATOR", "-", 1⟩, ⟨"IDENTIFIER", "a", 1⟩, ⟨"OPERATOR", "*", 1⟩,
      ⟨"IDENTIFIER", "b", 1⟩, eofToken], 0⟩ =
    Res.ok (Node.mk "MulExpr" [Node.mk "UnaryExpr" [Node.mk "-" [], Node.mk "ID(a)" []],
        Node.mk "*" [], Node.mk "ID(b)" []])
      ⟨[⟨"OPERATOR", "-", 1⟩, ⟨"IDENTIFIER", "a", 1⟩, ⟨"OPERATOR", "*", 1⟩,
      ⟨"IDENTIFIER", "b", 1⟩, eofToken], 4⟩ :=
  ⟨((C19_precedence_ladder ⟨"IDENTIFIER", "a", 1⟩ ⟨"IDENTIFIER", "b", 1⟩ ⟨"IDENTIFIER", "c", 1⟩
      (by decide) (by decide) (by decide)).1 4 5 "AddExpr" "MulExpr" addOps mulOps
      ⟨"OPERATOR", "+", 1⟩ ⟨"OPERATOR", "*", 1⟩ (by decide) rfl rfl (by decide)
      (by decide)).1 13 (le_refl 13),
   ((C19_precedence_ladder ⟨"IDENTIFIER", "a", 1⟩ ⟨"IDENTIFIER", "b", 1⟩ ⟨"IDENTIFIER", "c", 1⟩
      (by decide) (by decide) (by decide)).1 4 5 "AddExpr" "MulExpr" addOps mulOps
      ⟨"OPERATOR", "+", 1⟩ ⟨"OPERATOR", "*", 1⟩ (by decide) rfl rfl (by decide)
      (by decide)).2 13 (le_refl 13),
   ((C19_precedence_ladder ⟨"IDENTIFIER", "a", 1⟩ ⟨"IDENTIFIER", "b", 1⟩ ⟨"IDENTIFIER", "b", 1⟩
      (by decide) (by decide) (by decide)).2.2 "MulExpr" mulOps ⟨"OPERATOR", "-", 1⟩
      ⟨"OPERATOR", "*", 1⟩ ⟨"OPERATOR", "=", 1⟩ (by decide) (by decide) (by decide)
      rfl).1 13 (le_refl 13)⟩

/-! ## Every successful rule consumes a token -/

theorem P.Forward.keeps {α : Type} {m : P α} (h : P.Forward m) : P.Keeps m := by
  intro s a s1 hr
  obtain ⟨h1, h2⟩ := h s a s1 hr
  unfold remaining
  rw [h1]
  omega

theorem P.Drops.intro_drops {α : Type} {m : P α}
    (h : ∀ s, P.DropsAt (remaining s) s m) : P.Drops m :=
  fun s a s1 hr => h s a s1 hr

theorem P.Drops.timeout_drops {α : Type} : P.Drops (P.timeout : P α) :=
  fun _ _ _ h => Res.noConfusion h

theorem P.DropsAt.pure_dropsAt {α : Type} {r : Nat} {s : Parser} (a : α)
    (h : remaining s < r) : P.DropsAt r s (Pure.pure a : P α) := by
  intro b s1 hr
  simp only [P.pure_eq, P.ret] at hr
  cases hr
  exact h

theorem P.DropsAt.fail_dropsAt {α : Type} {r : Nat} {s : Parser} (e : ParseError) :
    P.DropsAt r s (P.fail e : P α) := fun _ _ h => Res.noConfusion h

theorem P.DropsAt.ite_dropsAt {α : Type} {c : Prop} [Decidable c] {a b : P α} {r : Nat}
    {s : Parser} (ha : c → P.DropsAt r s a) (hb : ¬ c → P.DropsAt r s b) :
    P.DropsAt r s (if c then a else b) := by
  by_cases h : c
  · simp only [h, if_true]; exact ha h
  · simp only [h, if_false]; exact hb h

/-- The common shape of the sequencing rules: what is known about the states `m` returns to
is handed to the continuation. -/
theorem P.DropsAt.bind_dropsAt {α β : Type} {m : P α} {f : α → P β} {r : Nat} {s : Parser}
    (hf : ∀ a s1, m s = Res.ok a s1 → P.DropsAt r s1 (f a)) : P.DropsAt r s (m >>= f) := by
  intro b s2 h
  simp only [P.bind_eq, P.bind] at h
  cases hms : m s with
  | ok a s1 => rw [hms] at h; exact hf a s1 hms b s2 h
  | error e => rw [hms] at h; exact Res.noConfusion h
  | undefined => rw [hms] at h; exact Res.noConfusion h
  | timeout => rw [hms] at h; exact Res.noConfusion h

theorem P.DropsAt.drops_bind {α β : Type} {m : P α} {f : α → P β} {r : Nat} {s : Parser}
    (hm : P.Drops m) (hf : ∀ a s1, remaining s1 < remaining s → P.DropsAt r s1 (f a)) :
    P.DropsAt r s (m >>= f) :=
  P.DropsAt.bind_dropsAt (fun a s1 h => hf a s1 (hm s a s1 h))

theorem P.DropsAt.keeps_bind {α β : Type} {m : P α} {f : α → P β} {r : Nat} {s : Parser}
    (hm : P.Keeps m) (hf : ∀ a s1, remaining s1 ≤ remaining s → P.DropsAt r s1 (f a)) :
    P.DropsAt r s (m >>= f) :=
  P.DropsAt.bind_dropsAt (fun a s1 h => hf a s1 (hm s a s1 h))

theorem P.DropsAt.drops_tail {α : Type} {m : P α} {r : Nat} {s : Parser}
    (hm : P.Drops m) (h : remaining s ≤ r) : P.DropsAt r s m :=
  fun a s1 hr => lt_of_lt_of_le (hm s a s1 hr) h

theorem P.DropsAt.keeps_tail {α : Type} {m : P α} {r : Nat} {s : Parser}
    (hm : P.Keeps m) (h : remaining s < r) : P.DropsAt r s m :=
  fun a s1 hr => lt_of_le_of_lt (hm s a s1 hr) h

theorem peek_state {i : Nat} {s s1 : Parser} {t : Token} (h : peek i s = Res.ok t s1) :
    s1 = s := by
  by_cases hne : s.tokens = []
  · rw [peek_nil hne] at h
    exact Res.noConfusion h
  · rw [peek_look i s hne] at h
    cases h
    rfl

theorem checkLexeme_stays {lex : String} {i : Nat} {s s1 : Parser} {c : Bool}
    (h : checkLexeme lex i s = Res.ok c s1) : s1 = s := by
  by_cases hne : s.tokens = []
  · simp [checkLexeme, P.bind_eq, P.bind, peek_nil hne] at h
  · rw [checkLexeme_look lex i s hne] at h
    cases h
    rfl

theorem checkCategory_stays {cat : String} {i : Nat} {s s1 : Parser} {c : Bool}
    (h : checkCategory cat i s = Res.ok c s1) : s1 = s := by
  by_cases hne : s.tokens = []
  · simp [checkCategory, P.bind_eq, P.bind, peek_nil hne] at h
  · rw [checkCategory_look cat i s hne] at h
    cases h
    rfl

theorem P.DropsAt.of_peek_dropsAt {β : Type} {f : Token → P β} {r : Nat} {s : Parser} (i : Nat)
    (hf : ∀ t, P.DropsAt r s (f t)) : P.DropsAt r s (peek i >>= f) :=
  P.DropsAt.bind_dropsAt (fun a s1 h => by rw [peek_state h]; exact hf a)

theorem P.DropsAt.of_checkLexeme_dropsAt {β : Type} {f : Bool → P β} {r : Nat} {s : Parser}
    (lex : String) (i : Nat) (hf : ∀ c, P.DropsAt r s (f c)) :
    P.DropsAt r s (checkLexeme lex i >>= f) :=
  P.DropsAt.bind_dropsAt (fun a s1 h => by rw [checkLexeme_stays h]; exact hf a)

theorem P.DropsAt.of_checkCategory_dropsAt {β : Type} {f : Bool → P β} {r : Nat} {s : Parser}
    (cat : String) (i : Nat) (hf : ∀ c, P.DropsAt r s (f c)) :
    P.DropsAt r s (checkCategory cat i >>= f) :=
  P.DropsAt.bind_dropsAt (fun a s1 h => by rw [checkCategory_stays h]; exact hf a)

theorem remaining_skip {s : Parser} (h : s.pos < s.tokens.length) :
    remaining (skip s 1) < remaining s := by
  unfold remaining skip
  show s.tokens.length - (s.pos + 1) < s.tokens.length - s.pos
  omega

/-- `matchLexeme` consumes a token exactly when it answers `true`. -/
theorem P.DropsAt.of_matchLexeme_dropsAt {β : Type} {f : Bool → P β} {r : Nat} {s : Parser}
    (lex : String) (ht : ∀ s1, remaining s1 < remaining s → P.DropsAt r s1 (f true))
    (hf : P.DropsAt r s (f false)) : P.DropsAt r s (matchLexeme lex >>= f) := by
  refine P.DropsAt.bind_dropsAt (fun a s1 h => ?_)
  rcases matchLexeme_ok h with ⟨rfl, hp, -, rfl⟩ | ⟨rfl, rfl⟩
  · exact ht _ (remaining_skip hp)
  · exact hf

theorem advance_drops : P.Drops advance := by
  intro s a s1 h
  obtain ⟨hp, -, rfl⟩ := advance_ok h
  exact remaining_skip hp

theorem expectLexeme_drops (lex : String) : P.Drops (expectLexeme lex) := by
  intro s a s1 h
  obtain ⟨hp, -, -, rfl⟩ := expectLexeme_ok h
  exact remaining_skip hp

theorem expectCategory_drops (cat : String) : P.Drops (expectCategory cat) := by
  intro s a s1 h
  obtain ⟨hp, -, -, rfl⟩ := expectCategory_ok h
  exact remaining_skip hp

theorem parseTypeSpec_drops : P.Drops parseTypeSpec := by
  unfold parseTypeSpec
  (try dsimp only)
  (try simp only [P.bind_assoc, P.pure_bind, P.ite_bind])
  refine P.Drops.intro_drops ?_
  intro s
  repeat' (with_reducible first
    | (apply P.DropsAt.pure_dropsAt; omega)
    | apply P.DropsAt.fail_dropsAt
    | (apply P.DropsAt.ite_dropsAt <;> intro hc <;> (try (first | exact absurd rfl hc | exact Bool.noConfusion hc)))
    | apply P.DropsAt.of_checkLexeme_dropsAt
    | apply P.DropsAt.of_checkCategory_dropsAt
    | apply P.DropsAt.of_peek_dropsAt
    | apply P.DropsAt.of_matchLexeme_dropsAt
    | apply P.DropsAt.drops_bind advance_drops
    | apply P.DropsAt.drops_bind (expectLexeme_drops _)
    | apply P.DropsAt.drops_bind (expectCategory_drops _)
    | (apply P.DropsAt.drops_tail advance_drops; omega)
    | (apply P.DropsAt.drops_tail (expectLexeme_drops _); omega)
    | (apply P.DropsAt.drops_tail (expectCategory_drops _); omega)
    | intro _)

theorem parseArraySuffix_keeps (node : Node) : P.Keeps (parseArraySuffix node) :=
  (parseArraySuffix_forward node).keeps

theorem parseStars_keeps (n : Nat) (node : Node) : P.Keeps (parseStars n node) :=
  (parseStars_forward n node).keeps

set_option maxHeartbeats 4000000 in
/-- Every rule function that reads an operand, a statement or a declaration consumes at least
one token whenever it returns. -/
theorem parse_drops (n : Nat) :
    P.Drops (parseCompoundStmt n) ∧
    P.Drops (parseStmt n) ∧
    P.Drops (parseIfStmt n) ∧
    P.Drops (parseForStmt n) ∧
    P.Drops (parseReturnStmt n) ∧
    (∀ b, P.Drops (parseDeclStmt n b)) ∧
    (∀ node, P.Drops (parseDeclarators n node)) ∧
    P.Drops (parseExprStmt n) ∧
    P.Drops (parseExpr n) ∧
    P.Drops (parseAssignExpr n) ∧
    P.Drops (parseOrExpr n) ∧
    P.Drops (parseAndExpr n) ∧
    P.Drops (parseEqualityExpr n) ∧
    P.Drops (parseRelExpr n) ∧
    P.Drops (parseAddExpr n) ∧
    P.Drops (parseMulExpr n) ∧
    P.Drops (parseUnaryExpr n) ∧
    P.Drops (parsePostfixExpr n) ∧
    P.Drops (parsePrimary n) := by
  induction n with
  | zero =>
    refine ⟨?_, ?_, ?_, ?_, ?_, ?_, ?_, ?_, ?_, ?_, ?_, ?_, ?_, ?_, ?_, ?_, ?_, ?_, ?_⟩ <;> intros <;>
      exact P.Drops.timeout_drops
  | succ k ih =>
    obtain ⟨i1, i2, i3, i4, i5, i6, i7, i8, i9, i10, i11, i12, i13, i14, i15, i16, i17, i18, i19⟩ := ih
    have w2 : P.Keeps (parseStmtList k) := (parse_forward k).2.1.keeps
    have w3 : ∀ node, P.Keeps (parseStmtListLoop k node) :=
      fun node => ((parse_forward k).2.2.1 node).keeps
    have w14 : ∀ node, P.Keeps (parseOrLoop k node) :=
      fun node => ((parse_forward k).2.2.2.2.2.2.2.2.2.2.2.2.2.1 node).keeps
    have w16 : ∀ node, P.Keeps (parseAndLoop k node) :=
      fun node => ((parse_forward k).2.2.2.2.2.2.2.2.2.2.2.2.2.2.2.1 node).keeps
    have w18 : ∀ node, P.Keeps (parseEqualityLoop k node) :=
      fun node => ((parse_forward k).2.2.2.2.2.2.2.2.2.2.2.2.2.2.2.2.2.1 node).keeps
    have w20 : ∀ node, P.Keeps (parseRelLoop k node) :=
      fun node => ((parse_forward k).2.2.2.2.2.2.2.2.2.2.2.2.2.2.2.2.2.2.2.1 node).keeps
    have w22 : ∀ node, P.Keeps (parseAddLoop k node) :=
      fun node => ((parse_forward k).2.2.2.2.2.2.2.2.2.2.2.2.2.2.2.2.2.2.2.2.2.1 node).keeps
    have w24 : ∀ node, P.Keeps (parseMulLoop k node) :=
      fun node => ((parse_forward k).2.2.2.2.2.2.2.2.2.2.2.2.2.2.2.2.2.2.2.2.2.2.2.1 node).keeps
    have w27 : ∀ node, P.Keeps (parsePostfixLoop k node) :=
      fun node => ((parse_forward k).2.2.2.2.2.2.2.2.2.2.2.2.2.2.2.2.2.2.2.2.2.2.2.2.2.2.1 node).keeps
    have w28 : ∀ node, P.Keeps (parseArgsLoop k node) :=
      fun node => ((parse_forward k).2.2.2.2.2.2.2.2.2.2.2.2.2.2.2.2.2.2.2.2.2.2.2.2.2.2.2.1 node).keeps
    refine ⟨?_, ?_, ?_, ?_, ?_, ?_, ?_, ?_, ?_, ?_, ?_, ?_, ?_, ?_, ?_, ?_, ?_, ?_, ?_⟩ <;> intros
    on_goal 1 => rw [parseCompoundStmt]
    on_goal 2 => rw [parseStmt]
    on_goal 3 => rw [parseIfStmt]
    on_goal 4 => rw [parseForStmt]
    on_goal 5 => rw [parseReturnStmt]
    on_goal 6 => rw [parseDeclStmt]
    on_goal 7 => rw [parseDeclarators]
    on_goal 8 => rw [parseExprStmt]
    on_goal 9 => rw [parseExpr]
    on_goal 10 => rw [parseAssignExpr]
    on_goal 11 => rw [parseOrExpr]
    on_goal 12 => rw [parseAndExpr]
    on_goal 13 => rw [parseEqualityExpr]
    on_goal 14 => rw [parseRelExpr]
    on_goal 15 => rw [parseAddExpr]
    on_goal 16 => rw [parseMulExpr]
    on_goal 17 => rw [parseUnaryExpr]
    on_goal 18 => rw [parsePostfixExpr]
    on_goal 19 => rw [parsePrimary]
    all_goals (try dsimp only)
    all_goals (try simp only [P.bind_assoc, P.pure_bind, P.ite_bind])
    all_goals refine P.Drops.intro_drops ?_
    all_goals intro s
    all_goals
      repeat' (with_reducible first
        | (apply P.DropsAt.pure_dropsAt; omega)
        | apply P.DropsAt.fail_dropsAt
        | (apply P.DropsAt.ite_dropsAt <;> intro hc <;> (try (first | exact absurd rfl hc | exact Bool.noConfusion hc)))
        | apply P.DropsAt.of_checkLexeme_dropsAt
        | apply P.DropsAt.of_checkCategory_dropsAt
        | apply P.DropsAt.of_peek_dropsAt
        | apply P.DropsAt.of_matchLexeme_dropsAt
        | apply P.DropsAt.drops_bind advance_drops
        | apply P.DropsAt.drops_bind (expectLexeme_drops _)
        | apply P.DropsAt.drops_bind (expectCategory_drops _)
        | apply P.DropsAt.drops_bind parseTypeSpec_drops
        | apply P.DropsAt.drops_bind i1
        | apply P.DropsAt.drops_bind i2
        | apply P.DropsAt.drops_bind i3
        | apply P.DropsAt.drops_bind i4
        | apply P.DropsAt.drops_bind i5
        | apply P.DropsAt.drops_bind (i6 _)
        | apply P.DropsAt.drops_bind (i7 _)
        | apply P.DropsAt.drops_bind i8
        | apply P.DropsAt.drops_bind i9
        | apply P.DropsAt.drops_bind i10
        | apply P.DropsAt.drops_bind i11
        | apply P.DropsAt.drops_bind i12
        | apply P.DropsAt.drops_bind i13
        | apply P.DropsAt.drops_bind i14
        | apply P.DropsAt.drops_bind i15
        | apply P.DropsAt.drops_bind i16
        | apply P.DropsAt.drops_bind i17
        | apply P.DropsAt.drops_bind i18
        | apply P.DropsAt.drops_bind i19
        | apply P.DropsAt.keeps_bind (parseArraySuffix_keeps _)
        | apply P.DropsAt.keeps_bind (parseStars_keeps _ _)
        | apply P.DropsAt.keeps_bind w2
        | apply P.DropsAt.keeps_bind (w3 _)
        | apply P.DropsAt.keeps_bind (w14 _)
        | apply P.DropsAt.keeps_bind (w16 _)
        | apply P.DropsAt.keeps_bind (w18 _)
        | apply P.DropsAt.keeps_bind (w20 _)
        | apply P.DropsAt.keeps_bind (w22 _)
        | apply P.DropsAt.keeps_bind (w24 _)
        | apply P.DropsAt.keeps_bind (w27 _)
        | apply P.DropsAt.keeps_bind (w28 _)
        | (apply P.DropsAt.drops_tail advance_drops; omega)
        | (apply P.DropsAt.drops_tail (expectLexeme_drops _); omega)
        | (apply P.DropsAt.drops_tail (expectCategory_drops _); omega)
        | (apply P.DropsAt.drops_tail parseTypeSpec_drops; omega)
        | (apply P.DropsAt.drops_tail i1; omega)
        | (apply P.DropsAt.drops_tail i2; omega)
        | (apply P.DropsAt.drops_tail i3; omega)
        | (apply P.DropsAt.drops_tail i4; omega)
        | (apply P.DropsAt.drops_tail i5; omega)
        | (apply P.DropsAt.drops_tail (i6 _); omega)
        | (apply P.DropsAt.drops_tail (i7 _); omega)
        | (apply P.DropsAt.drops_tail i8; omega)
        | (apply P.DropsAt.drops_tail i9; omega)
        | (apply P.DropsAt.drops_tail i10; omega)
        | (apply P.DropsAt.drops_tail i11; omega)
        | (apply P.DropsAt.drops_tail i12; omega)
        | (apply P.DropsAt.drops_tail i13; omega)
        | (apply P.DropsAt.drops_tail i14; omega)
        | (apply P.DropsAt.drops_tail i15; omega)
        | (apply P.DropsAt.drops_tail i16; omega)
        | (apply P.DropsAt.drops_tail i17; omega)
        | (apply P.DropsAt.drops_tail i18; omega)
        | (apply P.DropsAt.drops_tail i19; omega)
        | (apply P.DropsAt.keeps_tail (parseArraySuffix_keeps _); omega)
        | (apply P.DropsAt.keeps_tail (parseStars_keeps _ _); omega)
        | (apply P.DropsAt.keeps_tail w2; omega)
        | (apply P.DropsAt.keeps_tail (w3 _); omega)
        | (apply P.DropsAt.keeps_tail (w14 _); omega)
        | (apply P.DropsAt.keeps_tail (w16 _); omega)
        | (apply P.DropsAt.keeps_tail (w18 _); omega)
        | (apply P.DropsAt.keeps_tail (w20 _); omega)
        | (apply P.DropsAt.keeps_tail (w22 _); omega)
        | (apply P.DropsAt.keeps_tail (w24 _); omega)
        | (apply P.DropsAt.keeps_tail (w27 _); omega)
        | (apply P.DropsAt.keeps_tail (w28 _); omega)
        | intro _)

theorem parseParam_drops (n : Nat) : P.Drops (parseParam n) := by
  unfold parseParam
  (try dsimp only)
  (try simp only [P.bind_assoc, P.pure_bind, P.ite_bind])
  refine P.Drops.intro_drops ?_
  intro s
  repeat' (with_reducible first
    | (apply P.DropsAt.pure_dropsAt; omega)
    | apply P.DropsAt.fail_dropsAt
    | (apply P.DropsAt.ite_dropsAt <;> intro hc <;> (try (first | exact absurd rfl hc | exact Bool.noConfusion hc)))
    | apply P.DropsAt.of_checkLexeme_dropsAt
    | apply P.DropsAt.of_checkCategory_dropsAt
    | apply P.DropsAt.of_peek_dropsAt
    | apply P.DropsAt.of_matchLexeme_dropsAt
    | apply P.DropsAt.drops_bind advance_drops
    | apply P.DropsAt.drops_bind (expectLexeme_drops _)
    | apply P.DropsAt.drops_bind (expectCategory_drops _)
    | apply P.DropsAt.drops_bind parseTypeSpec_drops
    | apply P.DropsAt.keeps_bind (parseArraySuffix_keeps _)
    | apply P.DropsAt.keeps_bind (parseStars_keeps _ _)
    | (apply P.DropsAt.drops_tail advance_drops; omega)
    | (apply P.DropsAt.drops_tail (expectLexeme_drops _); omega)
    | (apply P.DropsAt.drops_tail (expectCategory_drops _); omega)
    | (apply P.DropsAt.drops_tail parseTypeSpec_drops; omega)
    | (apply P.DropsAt.keeps_tail (parseArraySuffix_keeps _); omega)
    | (apply P.DropsAt.keeps_tail (parseStars_keeps _ _); omega)
    | intro _)

theorem parseParamList_drops (n : Nat) : P.Drops (parseParamList n) := by
  have h1 := parseParam_drops n
  unfold parseParamList
  (try dsimp only)
  (try simp only [P.bind_assoc, P.pure_bind, P.ite_bind])
  refine P.Drops.intro_drops ?_
  intro s
  repeat' (with_reducible first
    | (apply P.DropsAt.pure_dropsAt; omega)
    | apply P.DropsAt.fail_dropsAt
    | (apply P.DropsAt.ite_dropsAt <;> intro hc <;> (try (first | exact absurd rfl hc | exact Bool.noConfusion hc)))
    | apply P.DropsAt.of_checkLexeme_dropsAt
    | apply P.DropsAt.of_checkCategory_dropsAt
    | apply P.DropsAt.of_peek_dropsAt
    | apply P.DropsAt.of_matchLexeme_dropsAt
    | apply P.DropsAt.drops_bind advance_drops
    | apply P.DropsAt.drops_bind (expectLexeme_drops _)
    | apply P.DropsAt.drops_bind (expectCategory_drops _)
    | apply P.DropsAt.drops_bind parseTypeSpec_drops
    | apply P.DropsAt.drops_bind h1
    | apply P.DropsAt.keeps_bind (parseArraySuffix_keeps _)
    | apply P.DropsAt.keeps_bind (parseStars_keeps _ _)
    | apply P.DropsAt.keeps_bind (parseParamListLoop_forward n _).keeps
    | (apply P.DropsAt.drops_tail advance_drops; omega)
    | (apply P.DropsAt.drops_tail (expectLexeme_drops _); omega)
    | (apply P.DropsAt.drops_tail (expectCategory_drops _); omega)
    | (apply P.DropsAt.drops_tail parseTypeSpec_drops; omega)
    | (apply P.DropsAt.drops_tail h1; omega)
    | (apply P.DropsAt.keeps_tail (parseArraySuffix_keeps _); omega)
    | (apply P.DropsAt.keeps_tail (parseStars_keeps _ _); omega)
    | (apply P.DropsAt.keeps_tail (parseParamListLoop_forward n _).keeps; omega)
    | intro _)

theorem parseFunctionDecl_drops (n : Nat) : P.Drops (parseFunctionDecl n) := by
  have h1 := (parse_drops n).1
  unfold parseFunctionDecl
  (try dsimp only)
  (try simp only [P.bind_assoc, P.pure_bind, P.ite_bind])
  refine P.Drops.intro_drops ?_
  intro s
  repeat' (with_reducible first
    | (apply P.DropsAt.pure_dropsAt; omega)
    | apply P.DropsAt.fail_dropsAt
    | (apply P.DropsAt.ite_dropsAt <;> intro hc <;> (try (first | exact absurd rfl hc | exact Bool.noConfusion hc)))
    | apply P.DropsAt.of_checkLexeme_dropsAt
    | apply P.DropsAt.of_checkCategory_dropsAt
    | apply P.DropsAt.of_peek_dropsAt
    | apply P.DropsAt.of_matchLexeme_dropsAt
    | apply P.DropsAt.drops_bind advance_drops
    | apply P.DropsAt.drops_bind (expectLexeme_drops _)
    | apply P.DropsAt.drops_bind (expectCategory_drops _)
    | apply P.DropsAt.drops_bind parseTypeSpec_drops
    | apply P.DropsAt.drops_bind h1
    | apply P.DropsAt.keeps_bind (parseArraySuffix_keeps _)
    | apply P.DropsAt.keeps_bind (parseStars_keeps _ _)
    | apply P.DropsAt.keeps_bind (parseParamListOpt_forward n).keeps
    | (apply P.DropsAt.drops_tail advance_drops; omega)
    | (apply P.DropsAt.drops_tail (expectLexeme_drops _); omega)
    | (apply P.DropsAt.drops_tail (expectCategory_drops _); omega)
    | (apply P.DropsAt.drops_tail parseTypeSpec_drops; omega)
    | (apply P.DropsAt.drops_tail h1; omega)
    | (apply P.DropsAt.keeps_tail (parseArraySuffix_keeps _); omega)
    | (apply P.DropsAt.keeps_tail (parseStars_keeps _ _); omega)
    | (apply P.DropsAt.keeps_tail (parseParamListOpt_forward n).keeps; omega)
    | intro _)

theorem parseStructDecl_drops (n : Nat) : P.Drops (parseStructDecl n) := by
  unfold parseStructDecl
  (try dsimp only)
  (try simp only [P.bind_assoc, P.pure_bind, P.ite_bind])
  refine P.Drops.intro_drops ?_
  intro s
  repeat' (with_reducible first
    | (apply P.DropsAt.pure_dropsAt; omega)
    | apply P.DropsAt.fail_dropsAt
    | (apply P.DropsAt.ite_dropsAt <;> intro hc <;> (try (first | exact absurd rfl hc | exact Bool.noConfusion hc)))
    | apply P.DropsAt.of_checkLexeme_dropsAt
    | apply P.DropsAt.of_checkCategory_dropsAt
    | apply P.DropsAt.of_peek_dropsAt
    | apply P.DropsAt.of_matchLexeme_dropsAt
    | apply P.DropsAt.drops_bind advance_drops
    | apply P.DropsAt.drops_bind (expectLexeme_drops _)
    | apply P.DropsAt.drops_bind (expectCategory_drops _)
    | apply P.DropsAt.drops_bind parseTypeSpec_drops
    | apply P.DropsAt.keeps_bind (parseArraySuffix_keeps _)
    | apply P.DropsAt.keeps_bind (parseStars_keeps _ _)
    | apply P.DropsAt.keeps_bind (parseStructMembers_forward n _).keeps
    | (apply P.DropsAt.drops_tail advance_drops; omega)
    | (apply P.DropsAt.drops_tail (expectLexeme_drops _); omega)
    | (apply P.DropsAt.drops_tail (expectCategory_drops _); omega)
    | (apply P.DropsAt.drops_tail parseTypeSpec_drops; omega)
    | (apply P.DropsAt.keeps_tail (parseArraySuffix_keeps _); omega)
    | (apply P.DropsAt.keeps_tail (parseStars_keeps _ _); omega)
    | (apply P.DropsAt.keeps_tail (parseStructMembers_forward n _).keeps; omega)
    | intro _)

theorem parseExternalDecl_drops (n : Nat) : P.Drops (parseExternalDecl n) := by
  have h1 := parseStructDecl_drops n
  have h2 := parseFunctionDecl_drops n
  unfold parseExternalDecl
  (try dsimp only)
  (try simp only [P.bind_assoc, P.pure_bind, P.ite_bind])
  refine P.Drops.intro_drops ?_
  intro s
  repeat' (with_reducible first
    | (apply P.DropsAt.pure_dropsAt; omega)
    | apply P.DropsAt.fail_dropsAt
    | (apply P.DropsAt.ite_dropsAt <;> intro hc <;> (try (first | exact absurd rfl hc | exact Bool.noConfusion hc)))
    | apply P.DropsAt.of_checkLexeme_dropsAt
    | apply P.DropsAt.of_checkCategory_dropsAt
    | apply P.DropsAt.of_peek_dropsAt
    | apply P.DropsAt.of_matchLexeme_dropsAt
    | apply P.DropsAt.drops_bind advance_drops
    | apply P.DropsAt.drops_bind (expectLexeme_drops _)
    | apply P.DropsAt.drops_bind (expectCategory_drops _)
    | apply P.DropsAt.drops_bind parseTypeSpec_drops
    | apply P.DropsAt.drops_bind h1
    | apply P.DropsAt.drops_bind h2
    | apply P.DropsAt.keeps_bind (parseArraySuffix_keeps _)
    | apply P.DropsAt.keeps_bind (parseStars_keeps _ _)
    | (apply P.DropsAt.drops_tail advance_drops; omega)
    | (apply P.DropsAt.drops_tail (expectLexeme_drops _); omega)
    | (apply P.DropsAt.drops_tail (expectCategory_drops _); omega)
    | (apply P.DropsAt.drops_tail parseTypeSpec_drops; omega)
    | (apply P.DropsAt.drops_tail h1; omega)
    | (apply P.DropsAt.drops_tail h2; omega)
    | (apply P.DropsAt.keeps_tail (parseArraySuffix_keeps _); omega)
    | (apply P.DropsAt.keeps_tail (parseStars_keeps _ _); omega)
    | intro _)

/-! ## Fuel proportional to the remaining tokens is enough -/

theorem P.HaltsAt.pure_haltsAt {α : Type} {s : Parser} (a : α) :
    P.HaltsAt s (Pure.pure a : P α) := fun h => Res.noConfusion h

theorem P.HaltsAt.fail_haltsAt {α : Type} {s : Parser} (e : ParseError) :
    P.HaltsAt s (P.fail e : P α) := fun h => Res.noConfusion h

theorem P.HaltsAt.ite_haltsAt {α : Type} {c : Prop} [Decidable c] {a b : P α} {s : Parser}
    (ha : c → P.HaltsAt s a) (hb : ¬ c → P.HaltsAt s b) : P.HaltsAt s (if c then a else b) := by
  by_cases h : c
  · simp only [h, if_true]; exact ha h
  · simp only [h, if_false]; exact hb h

theorem P.HaltsAt.bind_haltsAt {α β : Type} {m : P α} {f : α → P β} {s : Parser}
    (hm : P.HaltsAt s m) (hf : ∀ a s1, m s = Res.ok a s1 → P.HaltsAt s1 (f a)) :
    P.HaltsAt s (m >>= f) := by
  intro h
  simp only [P.bind_eq, P.bind] at h
  cases hms : m s with
  | ok a s1 => rw [hms] at h; exact hf a s1 hms h
  | error e => rw [hms] at h; exact Res.noConfusion h
  | undefined => rw [hms] at h; exact Res.noConfusion h
  | timeout => exact hm hms

theorem P.HaltsAt.drops_bind_haltsAt {α β : Type} {m : P α} {f : α → P β} {s : Parser}
    (hd : P.Drops m) (hm : P.HaltsAt s m)
    (hf : ∀ a s1, remaining s1 < remaining s → P.HaltsAt s1 (f a)) : P.HaltsAt s (m >>= f) :=
  P.HaltsAt.bind_haltsAt hm (fun a s1 h => hf a s1 (hd s a s1 h))

theorem P.HaltsAt.keeps_bind_haltsAt {α β : Type} {m : P α} {f : α → P β} {s : Parser}
    (hk : P.Keeps m) (hm : P.HaltsAt s m)
    (hf : ∀ a s1, remaining s1 ≤ remaining s → P.HaltsAt s1 (f a)) : P.HaltsAt s (m >>= f) :=
  P.HaltsAt.bind_haltsAt hm (fun a s1 h => hf a s1 (hk s a s1 h))

theorem peek_halts (i : Nat) (s : Parser) : P.HaltsAt s (peek i) := by
  intro h
  by_cases hne : s.tokens = []
  · rw [peek_nil hne] at h
    exact Res.noConfusion h
  · rw [peek_look i s hne] at h
    exact Res.noConfusion h

theorem advance_halts (s : Parser) : P.HaltsAt s advance := by
  intro h
  unfold advance at h
  split at h <;> exact Res.noConfusion h

theorem checkLexeme_halts (lex : String) (i : Nat) (s : Parser) :
    P.HaltsAt s (checkLexeme lex i) :=
  P.HaltsAt.bind_haltsAt (peek_halts i _) (fun _ _ _ => P.HaltsAt.pure_haltsAt _)

theorem checkCategory_halts (cat : String) (i : Nat) (s : Parser) :
    P.HaltsAt s (checkCategory cat i) :=
  P.HaltsAt.bind_haltsAt (peek_halts i _) (fun _ _ _ => P.HaltsAt.pure_haltsAt _)

theorem P.HaltsAt.of_peek_haltsAt {β : Type} {f : Token → P β} {s : Parser} (i : Nat)
    (hf : ∀ t, P.HaltsAt s (f t)) : P.HaltsAt s (peek i >>= f) :=
  P.HaltsAt.bind_haltsAt (peek_halts i s) (fun a s1 h => by rw [peek_state h]; exact hf a)

theorem P.HaltsAt.of_checkLexeme_haltsAt {β : Type} {f : Bool → P β} {s : Parser}
    (lex : String) (i : Nat) (hf : ∀ c, P.HaltsAt s (f c)) :
    P.HaltsAt s (checkLexeme lex i >>= f) :=
  P.HaltsAt.bind_haltsAt (checkLexeme_halts lex i s)
    (fun a s1 h => by rw [checkLexeme_stays h]; exact hf a)

theorem P.HaltsAt.of_checkCategory_haltsAt {β : Type} {f : Bool → P β} {s : Parser}
    (cat : String) (i : Nat) (hf : ∀ c, P.HaltsAt s (f c)) :
    P.HaltsAt s (checkCategory cat i >>= f) :=
  P.HaltsAt.bind_haltsAt (checkCategory_halts cat i s)
    (fun a s1 h => by rw [checkCategory_stays h]; exact hf a)

theorem expectLexeme_halts (lex : String) (s : Parser) : P.HaltsAt s (expectLexeme lex) := by
  unfold expectLexeme
  refine P.HaltsAt.of_checkLexeme_haltsAt lex 0 (fun c => P.HaltsAt.ite_haltsAt (fun _ => ?_)
    (fun _ => advance_halts s))
  exact P.HaltsAt.of_peek_haltsAt 0 (fun _ => P.HaltsAt.fail_haltsAt _)

theorem expectCategory_halts (cat : String) (s : Parser) : P.HaltsAt s (expectCategory cat) := by
  unfold expectCategory
  refine P.HaltsAt.of_checkCategory_haltsAt cat 0 (fun c => P.HaltsAt.ite_haltsAt (fun _ => ?_)
    (fun _ => advance_halts s))
  exact P.HaltsAt.of_peek_haltsAt 0 (fun _ => P.HaltsAt.fail_haltsAt _)

theorem matchLexeme_halts (lex : String) (s : Parser) : P.HaltsAt s (matchLexeme lex) := by
  unfold matchLexeme
  refine P.HaltsAt.of_checkLexeme_haltsAt lex 0 (fun c => P.HaltsAt.ite_haltsAt (fun _ => ?_)
    (fun _ => P.HaltsAt.pure_haltsAt _))
  exact P.HaltsAt.bind_haltsAt (advance_halts s) (fun _ _ _ => P.HaltsAt.pure_haltsAt _)

/-- `matchLexeme` consumes a token exactly when it answers `true`. -/
theorem P.HaltsAt.of_matchLexeme_haltsAt {β : Type} {f : Bool → P β} {s : Parser}
    (lex : String) (ht : ∀ s1, remaining s1 < remaining s → P.HaltsAt s1 (f true))
    (hf : P.HaltsAt s (f false)) : P.HaltsAt s (matchLexeme lex >>= f) := by
  refine P.HaltsAt.bind_haltsAt (matchLexeme_halts lex s) (fun a s1 h => ?_)
  rcases matchLexeme_ok h with ⟨rfl, hp, -, rfl⟩ | ⟨rfl, rfl⟩
  · exact ht _ (remaining_skip hp)
  · exact hf

theorem parseTypeSpec_halts (s : Parser) : P.HaltsAt s parseTypeSpec := by
  unfold parseTypeSpec
  (try dsimp only)
  (try simp only [P.bind_assoc, P.pure_bind, P.ite_bind])
  repeat' (with_reducible first
    | apply P.HaltsAt.pure_haltsAt
    | apply P.HaltsAt.fail_haltsAt
    | (apply P.HaltsAt.ite_haltsAt <;> intro hc)
    | apply P.HaltsAt.of_checkLexeme_haltsAt
    | apply P.HaltsAt.of_checkCategory_haltsAt
    | apply P.HaltsAt.of_peek_haltsAt
    | apply P.HaltsAt.of_matchLexeme_haltsAt
    | apply P.HaltsAt.drops_bind_haltsAt advance_drops (advance_halts _)
    | apply P.HaltsAt.drops_bind_haltsAt (expectLexeme_drops _) (expectLexeme_halts _ _)
    | apply P.HaltsAt.drops_bind_haltsAt (expectCategory_drops _) (expectCategory_halts _ _)
    | apply advance_halts
    | apply expectLexeme_halts
    | apply expectCategory_halts
    | intro _)

theorem parseArraySuffix_halts (node : Node) (s : Parser) :
    P.HaltsAt s (parseArraySuffix node) := by
  unfold parseArraySuffix
  (try dsimp only)
  (try simp only [P.bind_assoc, P.pure_bind, P.ite_bind])
  repeat' (with_reducible first
    | apply P.HaltsAt.pure_haltsAt
    | apply P.HaltsAt.fail_haltsAt
    | (apply P.HaltsAt.ite_haltsAt <;> intro hc)
    | apply P.HaltsAt.of_checkLexeme_haltsAt
    | apply P.HaltsAt.of_checkCategory_haltsAt
    | apply P.HaltsAt.of_peek_haltsAt
    | apply P.HaltsAt.of_matchLexeme_haltsAt
    | apply P.HaltsAt.drops_bind_haltsAt advance_drops (advance_halts _)
    | apply P.HaltsAt.drops_bind_haltsAt (expectLexeme_drops _) (expectLexeme_halts _ _)
    | apply P.HaltsAt.drops_bind_haltsAt (expectCategory_drops _) (expectCategory_halts _ _)
    | apply advance_halts
    | apply expectLexeme_halts
    | apply expectCategory_halts
    | intro _)

theorem parseStars_halts (n : Nat) :
    ∀ node s, 20 * remaining s + 1 ≤ n → P.HaltsAt s (parseStars n node) := by
  induction n with
  | zero => intro node s h; omega
  | succ k ih =>
    intro node s hfuel
    rw [parseStars]
    (try dsimp only)
    (try simp only [P.bind_assoc, P.pure_bind, P.ite_bind])
    repeat' (with_reducible first
      | apply P.HaltsAt.pure_haltsAt
      | apply P.HaltsAt.fail_haltsAt
      | (apply P.HaltsAt.ite_haltsAt <;> intro hc <;> (try (first | exact absurd rfl hc | exact Bool.noConfusion hc)))
      | apply P.HaltsAt.of_checkLexeme_haltsAt
      | apply P.HaltsAt.of_checkCategory_haltsAt
      | apply P.HaltsAt.of_peek_haltsAt
      | apply P.HaltsAt.of_matchLexeme_haltsAt
      | apply P.HaltsAt.drops_bind_haltsAt advance_drops (advance_halts _)
      | apply P.HaltsAt.drops_bind_haltsAt (expectLexeme_drops _) (expectLexeme_halts _ _)
      | apply P.HaltsAt.drops_bind_haltsAt (expectCategory_drops _) (expectCategory_halts _ _)
      | apply P.HaltsAt.drops_bind_haltsAt parseTypeSpec_drops (parseTypeSpec_halts _)
      | apply P.HaltsAt.keeps_bind_haltsAt (parseArraySuffix_keeps _) (parseArraySuffix_halts _ _)
      | apply advance_halts
      | apply expectLexeme_halts
      | apply expectCategory_halts
      | apply parseTypeSpec_halts
      | apply parseArraySuffix_halts
      | (apply P.HaltsAt.keeps_bind_haltsAt (parseStars_keeps _ _) (ih _ _ ?_) ?_; · omega)
      | (apply ih; omega)
      | intro _)

set_option maxHeartbeats 4000000 in
/-- Fuel `20 * remaining s + c` is enough for every rule function of the statement and
expression layer, where the constant `c` orders the functions that call one another before a
token is consumed: a callee reached at the same position has a smaller constant, and a callee
reached after a token was consumed has 20 units more to spend. -/
theorem parse_halts (n : Nat) :
    (∀ s, 20 * remaining s + 1 ≤ n → P.HaltsAt s (parseCompoundStmt n)) ∧
    (∀ s, 20 * remaining s + 15 ≤ n → P.HaltsAt s (parseStmtList n)) ∧
    (∀ node s, 20 * remaining s + 14 ≤ n → P.HaltsAt s (parseStmtListLoop n node)) ∧
    (∀ s, 20 * remaining s + 13 ≤ n → P.HaltsAt s (parseStmt n)) ∧
    (∀ s, 20 * remaining s + 1 ≤ n → P.HaltsAt s (parseIfStmt n)) ∧
    (∀ s, 20 * remaining s + 1 ≤ n → P.HaltsAt s (parseForStmt n)) ∧
    (∀ s, 20 * remaining s + 1 ≤ n → P.HaltsAt s (parseReturnStmt n)) ∧
    (∀ b s, 20 * remaining s + 1 ≤ n → P.HaltsAt s (parseDeclStmt n b)) ∧
    (∀ node s, 20 * remaining s + 2 ≤ n → P.HaltsAt s (parseDeclarators n node)) ∧
    (∀ s, 20 * remaining s + 12 ≤ n → P.HaltsAt s (parseExprStmt n)) ∧
    (∀ s, 20 * remaining s + 11 ≤ n → P.HaltsAt s (parseExpr n)) ∧
    (∀ s, 20 * remaining s + 10 ≤ n → P.HaltsAt s (parseAssignExpr n)) ∧
    (∀ s, 20 * remaining s + 9 ≤ n → P.HaltsAt s (parseOrExpr n)) ∧
    (∀ node s, 20 * remaining s + 1 ≤ n → P.HaltsAt s (parseOrLoop n node)) ∧
    (∀ s, 20 * remaining s + 8 ≤ n → P.HaltsAt s (parseAndExpr n)) ∧
    (∀ node s, 20 * remaining s + 1 ≤ n → P.HaltsAt s (parseAndLoop n node)) ∧
    (∀ s, 20 * remaining s + 7 ≤ n → P.HaltsAt s (parseEqualityExpr n)) ∧
    (∀ node s, 20 * remaining s + 1 ≤ n → P.HaltsAt s (parseEqualityLoop n node)) ∧
    (∀ s, 20 * remaining s + 6 ≤ n → P.HaltsAt s (parseRelExpr n)) ∧
    (∀ node s, 20 * remaining s + 1 ≤ n → P.HaltsAt s (parseRelLoop n node)) ∧
    (∀ s, 20 * remaining s + 5 ≤ n → P.HaltsAt s (parseAddExpr n)) ∧
    (∀ node s, 20 * remaining s + 1 ≤ n → P.HaltsAt s (parseAddLoop n node)) ∧
    (∀ s, 20 * remaining s + 4 ≤ n → P.HaltsAt s (parseMulExpr n)) ∧
    (∀ node s, 20 * remaining s + 1 ≤ n → P.HaltsAt s (parseMulLoop n node)) ∧
    (∀ s, 20 * remaining s + 3 ≤ n → P.HaltsAt s (parseUnaryExpr n)) ∧
    (∀ s, 20 * remaining s + 2 ≤ n → P.HaltsAt s (parsePostfixExpr n)) ∧
    (∀ node s, 20 * remaining s + 1 ≤ n → P.HaltsAt s (parsePostfixLoop n node)) ∧
    (∀ node s, 20 * remaining s + 1 ≤ n → P.HaltsAt s (parseArgsLoop n node)) ∧
    (∀ s, 20 * remaining s + 1 ≤ n → P.HaltsAt s (parsePrimary n)) := by
  induction n with
  | zero =>
    refine ⟨?_, ?_, ?_, ?_, ?_, ?_, ?_, ?_, ?_, ?_, ?_, ?_, ?_, ?_, ?_, ?_, ?_, ?_, ?_, ?_, ?_, ?_,
      ?_, ?_, ?_, ?_, ?_, ?_, ?_⟩ <;> intros <;> omega
  | succ k ih =>
    obtain ⟨h1, h2, h3, h4, h5, h6, h7, h8, h9, h10, h11, h12, h13, h14, h15, h16, h17, h18, h19,
      h20, h21, h22, h23, h24, h25, h26, h27, h28, h29⟩ := ih
    have d1 := (parse_drops k).1
    have w2 : P.Keeps (parseStmtList k) := (parse_forward k).2.1.keeps
    have w3 : ∀ node, P.Keeps (parseStmtListLoop k node) :=
      fun node => ((parse_forward k).2.2.1 node).keeps
    have d4 := (parse_drops k).2.1
    have d5 := (parse_drops k).2.2.1
    have d6 := (parse_drops k).2.2.2.1
    have d7 := (parse_drops k).2.2.2.2.1
    have d8 := (parse_drops k).2.2.2.2.2.1
    have d9 := (parse_drops k).2.2.2.2.2.2.1
    have d10 := (parse_drops k).2.2.2.2.2.2.2.1
    have d11 := (parse_drops k).2.2.2.2.2.2.2.2.1
    have d12 := (parse_drops k).2.2.2.2.2.2.2.2.2.1
    have d13 := (parse_drops k).2.2.2.2.2.2.2.2.2.2.1
    have w14 : ∀ node, P.Keeps (parseOrLoop k node) :=
      fun node => ((parse_forward k).2.2.2.2.2.2.2.2.2.2.2.2.2.1 node).keeps
    have d15 := (parse_drops k).2.2.2.2.2.2.2.2.2.2.2.1
    have w16 : ∀ node, P.Keeps (parseAndLoop k node) :=
      fun node => ((parse_forward k).2.2.2.2.2.2.2.2.2.2.2.2.2.2.2.1 node).keeps
    have d17 := (parse_drops k).2.2.2.2.2.2.2.2.2.2.2.2.1
    have w18 : ∀ node, P.Keeps (parseEqualityLoop k node) :=
      fun node => ((parse_forward k).2.2.2.2.2.2.2.2.2.2.2.2.2.2.2.2.2.1 node).keeps
    have d19 := (parse_drops k).2.2.2.2.2.2.2.2.2.2.2.2.2.1
    have w20 : ∀ node, P.Keeps (parseRelLoop k node) :=
      fun node => ((parse_forward k).2.2.2.2.2.2.2.2.2.2.2.2.2.2.2.2.2.2.2.1 node).keeps
    have d21 := (parse_drops k).2.2.2.2.2.2.2.2.2.2.2.2.2.2.1
    have w22 : ∀ node, P.Keeps (parseAddLoop k node) :=
      fun node => ((parse_forward k).2.2.2.2.2.2.2.2.2.2.2.2.2.2.2.2.2.2.2.2.2.1 node).keeps
    have d23 := (parse_drops k).2.2.2.2.2.2.2.2.2.2.2.2.2.2.2.1
    have w24 : ∀ node, P.Keeps (parseMulLoop k node) :=
      fun node => ((parse_forward k).2.2.2.2.2.2.2.2.2.2.2.2.2.2.2.2.2.2.2.2.2.2.2.1 node).keeps
    have d25 := (parse_drops k).2.2.2.2.2.2.2.2.2.2.2.2.2.2.2.2.1
    have d26 := (parse_drops k).2.2.2.2.2.2.2.2.2.2.2.2.2.2.2.2.2.1
    have w27 : ∀ node, P.Keeps (parsePostfixLoop k node) :=
      fun node => ((parse_forward k).2.2.2.2.2.2.2.2.2.2.2.2.2.2.2.2.2.2.2.2.2.2.2.2.2.2.1 node).keeps
    have w28 : ∀ node, P.Keeps (parseArgsLoop k node) :=
      fun node => ((parse_forward k).2.2.2.2.2.2.2.2.2.2.2.2.2.2.2.2.2.2.2.2.2.2.2.2.2.2.2.1 node).keeps
    have d29 := (parse_drops k).2.2.2.2.2.2.2.2.2.2.2.2.2.2.2.2.2.2
    refine ⟨?_, ?_, ?_, ?_, ?_, ?_, ?_, ?_, ?_, ?_, ?_, ?_, ?_, ?_, ?_, ?_, ?_, ?_, ?_, ?_, ?_, ?_,
      ?_, ?_, ?_, ?_, ?_, ?_, ?_⟩ <;> intros
    on_goal 1 => rw [parseCompoundStmt]
    on_goal 2 => rw [parseStmtList]
    on_goal 3 => rw [parseStmtListLoop]
    on_goal 4 => rw [parseStmt]
    on_goal 5 => rw [parseIfStmt]
    on_goal 6 => rw [parseForStmt]
    on_goal 7 => rw [parseReturnStmt]
    on_goal 8 => rw [parseDeclStmt]
    on_goal 9 => rw [parseDeclarators]
    on_goal 10 => rw [parseExprStmt]
    on_goal 11 => rw [parseExpr]
    on_goal 12 => rw [parseAssignExpr]
    on_goal 13 => rw [parseOrExpr]
    on_goal 14 => rw [parseOrLoop]
    on_goal 15 => rw [parseAndExpr]
    on_goal 16 => rw [parseAndLoop]
    on_goal 17 => rw [parseEqualityExpr]
    on_goal 18 => rw [parseEqualityLoop]
    on_goal 19 => rw [parseRelExpr]
    on_goal 20 => rw [parseRelLoop]
    on_goal 21 => rw [parseAddExpr]
    on_goal 22 => rw [parseAddLoop]
    on_goal 23 => rw [parseMulExpr]
    on_goal 24 => rw [parseMulLoop]
    on_goal 25 => rw [parseUnaryExpr]
    on_goal 26 => rw [parsePostfixExpr]
    on_goal 27 => rw [parsePostfixLoop]
    on_goal 28 => rw [parseArgsLoop]
    on_goal 29 => rw [parsePrimary]
    all_goals (try dsimp only)
    all_goals (try simp only [P.bind_assoc, P.pure_bind, P.ite_bind])
    all_goals
      repeat' (with_reducible first
        | apply P.HaltsAt.pure_haltsAt
        | apply P.HaltsAt.fail_haltsAt
        | (apply P.HaltsAt.ite_haltsAt <;> intro hc <;> (try (first | exact absurd rfl hc | exact Bool.noConfusion hc)))
        | apply P.HaltsAt.of_checkLexeme_haltsAt
        | apply P.HaltsAt.of_checkCategory_haltsAt
        | apply P.HaltsAt.of_peek_haltsAt
        | apply P.HaltsAt.of_matchLexeme_haltsAt
        | apply P.HaltsAt.drops_bind_haltsAt advance_drops (advance_halts _)
        | apply P.HaltsAt.drops_bind_haltsAt (expectLexeme_drops _) (expectLexeme_halts _ _)
        | apply P.HaltsAt.drops_bind_haltsAt (expectCategory_drops _) (expectCategory_halts _ _)
        | apply P.HaltsAt.drops_bind_haltsAt parseTypeSpec_drops (parseTypeSpec_halts _)
        | apply P.HaltsAt.keeps_bind_haltsAt (parseArraySuffix_keeps _) (parseArraySuffix_halts _ _)
        | apply advance_halts
        | apply expectLexeme_halts
        | apply expectCategory_halts
        | apply parseTypeSpec_halts
        | apply parseArraySuffix_halts
        | (apply P.HaltsAt.keeps_bind_haltsAt (parseStars_keeps _ _) (parseStars_halts _ _ _ ?_) ?_; · omega)
        | (apply P.HaltsAt.drops_bind_haltsAt d1 (h1 _ ?_) ?_; · omega)
        | (apply P.HaltsAt.keeps_bind_haltsAt w2 (h2 _ ?_) ?_; · omega)
        | (apply P.HaltsAt.keeps_bind_haltsAt (w3 _) (h3 _ _ ?_) ?_; · omega)
        | (apply P.HaltsAt.drops_bind_haltsAt d4 (h4 _ ?_) ?_; · omega)
        | (apply P.HaltsAt.drops_bind_haltsAt d5 (h5 _ ?_) ?_; · omega)
        | (apply P.HaltsAt.drops_bind_haltsAt d6 (h6 _ ?_) ?_; · omega)
        | (apply P.HaltsAt.drops_bind_haltsAt d7 (h7 _ ?_) ?_; · omega)
        | (apply P.HaltsAt.drops_bind_haltsAt (d8 _) (h8 _ _ ?_) ?_; · omega)
        | (apply P.HaltsAt.drops_bind_haltsAt (d9 _) (h9 _ _ ?_) ?_; · omega)
        | (apply P.HaltsAt.drops_bind_haltsAt d10 (h10 _ ?_) ?_; · omega)
        | (apply P.HaltsAt.drops_bind_haltsAt d11 (h11 _ ?_) ?_; · omega)
        | (apply P.HaltsAt.drops_bind_haltsAt d12 (h12 _ ?_) ?_; · omega)
        | (apply P.HaltsAt.drops_bind_haltsAt d13 (h13 _ ?_) ?_; · omega)
        | (apply P.HaltsAt.keeps_bind_haltsAt (w14 _) (h14 _ _ ?_) ?_; · omega)
        | (apply P.HaltsAt.drops_bind_haltsAt d15 (h15 _ ?_) ?_; · omega)
        | (apply P.HaltsAt.keeps_bind_haltsAt (w16 _) (h16 _ _ ?_) ?_; · omega)
        | (apply P.HaltsAt.drops_bind_haltsAt d17 (h17 _ ?_) ?_; · omega)
        | (apply P.HaltsAt.keeps_bind_haltsAt (w18 _) (h18 _ _ ?_) ?_; · omega)
        | (apply P.HaltsAt.drops_bind_haltsAt d19 (h19 _ ?_) ?_; · omega)
        | (apply P.HaltsAt.keeps_bind_haltsAt (w20 _) (h20 _ _ ?_) ?_; · omega)
        | (apply P.HaltsAt.drops_bind_haltsAt d21 (h21 _ ?_) ?_; · omega)
        | (apply P.HaltsAt.keeps_bind_haltsAt (w22 _) (h22 _ _ ?_) ?_; · omega)
        | (apply P.HaltsAt.drops_bind_haltsAt d23 (h23 _ ?_) ?_; · omega)
        | (apply P.HaltsAt.keeps_bind_haltsAt (w24 _) (h24 _ _ ?_) ?_; · omega)
        | (apply P.HaltsAt.drops_bind_haltsAt d25 (h25 _ ?_) ?_; · omega)
        | (apply P.HaltsAt.drops_bind_haltsAt d26 (h26 _ ?_) ?_; · omega)
        | (apply P.HaltsAt.keeps_bind_haltsAt (w27 _) (h27 _ _ ?_) ?_; · omega)
        | (apply P.HaltsAt.keeps_bind_haltsAt (w28 _) (h28 _ _ ?_) ?_; · omega)
        | (apply P.HaltsAt.drops_bind_haltsAt d29 (h29 _ ?_) ?_; · omega)
        | (apply parseStars_halts; omega)
        | (apply h1; omega)
        | (apply h2; omega)
        | (apply h3; omega)
        | (apply h4; omega)
        | (apply h5; omega)
        | (apply h6; omega)
        | (apply h7; omega)
        | (apply h8; omega)
        | (apply h9; omega)
        | (apply h10; omega)
        | (apply h11; omega)
        | (apply h12; omega)
        | (apply h13; omega)
        | (apply h14; omega)
        | (apply h15; omega)
        | (apply h16; omega)
        | (apply h17; omega)
        | (apply h18; omega)
        | (apply h19; omega)
        | (apply h20; omega)
        | (apply h21; omega)
        | (apply h22; omega)
        | (apply h23; omega)
        | (apply h24; omega)
        | (apply h25; omega)
        | (apply h26; omega)
        | (apply h27; omega)
        | (apply h28; omega)
        | (apply h29; omega)
        | intro _)

theorem parseParam_halts (n : Nat) :
    ∀ s, 20 * remaining s + 1 ≤ n → P.HaltsAt s (parseParam n) := by
  intro s hfuel
  unfold parseParam
  (try dsimp only)
  (try simp only [P.bind_assoc, P.pure_bind, P.ite_bind])
  repeat' (with_reducible first
    | apply P.HaltsAt.pure_haltsAt
    | apply P.HaltsAt.fail_haltsAt
    | (apply P.HaltsAt.ite_haltsAt <;> intro hc <;> (try (first | exact absurd rfl hc | exact Bool.noConfusion hc)))
    | apply P.HaltsAt.of_checkLexeme_haltsAt
    | apply P.HaltsAt.of_checkCategory_haltsAt
    | apply P.HaltsAt.of_peek_haltsAt
    | apply P.HaltsAt.of_matchLexeme_haltsAt
    | apply P.HaltsAt.drops_bind_haltsAt advance_drops (advance_halts _)
    | apply P.HaltsAt.drops_bind_haltsAt (expectLexeme_drops _) (expectLexeme_halts _ _)
    | apply P.HaltsAt.drops_bind_haltsAt (expectCategory_drops _) (expectCategory_halts _ _)
    | apply P.HaltsAt.drops_bind_haltsAt parseTypeSpec_drops (parseTypeSpec_halts _)
    | apply P.HaltsAt.keeps_bind_haltsAt (parseArraySuffix_keeps _) (parseArraySuffix_halts _ _)
    | apply advance_halts
    | apply expectLexeme_halts
    | apply expectCategory_halts
    | apply parseTypeSpec_halts
    | apply parseArraySuffix_halts
    | (apply P.HaltsAt.keeps_bind_haltsAt (parseStars_keeps _ _) (parseStars_halts _ _ _ ?_) ?_; · omega)
    | (apply parseStars_halts; omega)
    | intro _)

theorem parseParamListLoop_halts (n : Nat) :
    ∀ node s, 20 * remaining s + 1 ≤ n → P.HaltsAt s (parseParamListLoop n node) := by
  induction n with
  | zero => intro node s h; omega
  | succ k ih =>
    intro node s hfuel
    rw [parseParamListLoop]
    (try dsimp only)
    (try simp only [P.bind_assoc, P.pure_bind, P.ite_bind])
    repeat' (with_reducible first
      | apply P.HaltsAt.pure_haltsAt
      | apply P.HaltsAt.fail_haltsAt
      | (apply P.HaltsAt.ite_haltsAt <;> intro hc <;> (try (first | exact absurd rfl hc | exact Bool.noConfusion hc)))
      | apply P.HaltsAt.of_checkLexeme_haltsAt
      | apply P.HaltsAt.of_checkCategory_haltsAt
      | apply P.HaltsAt.of_peek_haltsAt
      | apply P.HaltsAt.of_matchLexeme_haltsAt
      | apply P.HaltsAt.drops_bind_haltsAt advance_drops (advance_halts _)
      | apply P.HaltsAt.drops_bind_haltsAt (expectLexeme_drops _) (expectLexeme_halts _ _)
      | apply P.HaltsAt.drops_bind_haltsAt (expectCategory_drops _) (expectCategory_halts _ _)
      | apply P.HaltsAt.drops_bind_haltsAt parseTypeSpec_drops (parseTypeSpec_halts _)
      | apply P.HaltsAt.keeps_bind_haltsAt (parseArraySuffix_keeps _) (parseArraySuffix_halts _ _)
      | apply advance_halts
      | apply expectLexeme_halts
      | apply expectCategory_halts
      | apply parseTypeSpec_halts
      | apply parseArraySuffix_halts
      | (apply P.HaltsAt.keeps_bind_haltsAt (parseStars_keeps _ _) (parseStars_halts _ _ _ ?_) ?_; · omega)
      | (apply P.HaltsAt.keeps_bind_haltsAt (parseParamListLoop_forward _ _).keeps (ih _ _ ?_) ?_; · omega)
      | (apply P.HaltsAt.drops_bind_haltsAt (parseParam_drops _) (parseParam_halts _ _ ?_) ?_; · omega)
      | (apply parseStars_halts; omega)
      | (apply ih; omega)
      | (apply parseParam_halts; omega)
      | intro _)

theorem parseParamList_halts (n : Nat) :
    ∀ s, 20 * remaining s + 1 ≤ n → P.HaltsAt s (parseParamList n) := by
  intro s hfuel
  unfold parseParamList
  (try dsimp only)
  (try simp only [P.bind_assoc, P.pure_bind, P.ite_bind])
  repeat' (with_reducible first
    | apply P.HaltsAt.pure_haltsAt
    | apply P.HaltsAt.fail_haltsAt
    | (apply P.HaltsAt.ite_haltsAt <;> intro hc <;> (try (first | exact absurd rfl hc | exact Bool.noConfusion hc)))
    | apply P.HaltsAt.of_checkLexeme_haltsAt
    | apply P.HaltsAt.of_checkCategory_haltsAt
    | apply P.HaltsAt.of_peek_haltsAt
    | apply P.HaltsAt.of_matchLexeme_haltsAt
    | apply P.HaltsAt.drops_bind_haltsAt advance_drops (advance_halts _)
    | apply P.HaltsAt.drops_bind_haltsAt (expectLexeme_drops _) (expectLexeme_halts _ _)
    | apply P.HaltsAt.drops_bind_haltsAt (expectCategory_drops _) (expectCategory_halts _ _)
    | apply P.HaltsAt.drops_bind_haltsAt parseTypeSpec_drops (parseTypeSpec_halts _)
    | apply P.HaltsAt.keeps_bind_haltsAt (parseArraySuffix_keeps _) (parseArraySuffix_halts _ _)
    | apply advance_halts
    | apply expectLexeme_halts
    | apply expectCategory_halts
    | apply parseTypeSpec_halts
    | apply parseArraySuffix_halts
    | (apply P.HaltsAt.keeps_bind_haltsAt (parseStars_keeps _ _) (parseStars_halts _ _ _ ?_) ?_; · omega)
    | (apply P.HaltsAt.drops_bind_haltsAt (parseParam_drops _) (parseParam_halts _ _ ?_) ?_; · omega)
    | (apply P.HaltsAt.keeps_bind_haltsAt (parseParamListLoop_forward _ _).keeps (parseParamListLoop_halts _ _ _ ?_) ?_; · omega)
    | (apply parseStars_halts; omega)
    | (apply parseParam_halts; omega)
    | (apply parseParamListLoop_halts; omega)
    | intro _)

theorem parseParamListOpt_halts (n : Nat) :
    ∀ s, 20 * remaining s + 1 ≤ n → P.HaltsAt s (parseParamListOpt n) := by
  intro s hfuel
  unfold parseParamListOpt
  (try dsimp only)
  (try simp only [P.bind_assoc, P.pure_bind, P.ite_bind])
  repeat' (with_reducible first
    | apply P.HaltsAt.pure_haltsAt
    | apply P.HaltsAt.fail_haltsAt
    | (apply P.HaltsAt.ite_haltsAt <;> intro hc <;> (try (first | exact absurd rfl hc | exact Bool.noConfusion hc)))
    | apply P.HaltsAt.of_checkLexeme_haltsAt
    | apply P.HaltsAt.of_checkCategory_haltsAt
    | apply P.HaltsAt.of_peek_haltsAt
    | apply P.HaltsAt.of_matchLexeme_haltsAt
    | apply P.HaltsAt.drops_bind_haltsAt advance_drops (advance_halts _)
    | apply P.HaltsAt.drops_bind_haltsAt (expectLexeme_drops _) (expectLexeme_halts _ _)
    | apply P.HaltsAt.drops_bind_haltsAt (expectCategory_drops _) (expectCategory_halts _ _)
    | apply P.HaltsAt.drops_bind_haltsAt parseTypeSpec_drops (parseTypeSpec_halts _)
    | apply P.HaltsAt.keeps_bind_haltsAt (parseArraySuffix_keeps _) (parseArraySuffix_halts _ _)
    | apply advance_halts
    | apply expectLexeme_halts
    | apply expectCategory_halts
    | apply parseTypeSpec_halts
    | apply parseArraySuffix_halts
    | (apply P.HaltsAt.keeps_bind_haltsAt (parseStars_keeps _ _) (parseStars_halts _ _ _ ?_) ?_; · omega)
    | (apply P.HaltsAt.drops_bind_haltsAt (parseParamList_drops _) (parseParamList_halts _ _ ?_) ?_; · omega)
    | (apply parseStars_halts; omega)
    | (apply parseParamList_halts; omega)
    | intro _)

theorem parseFunctionDecl_halts (n : Nat) :
    ∀ s, 20 * remaining s + 1 ≤ n → P.HaltsAt s (parseFunctionDecl n) := by
  have d1 := (parse_drops n).1
  have h1 := (parse_halts n).1
  intro s hfuel
  unfold parseFunctionDecl
  (try dsimp only)
  (try simp only [P.bind_assoc, P.pure_bind, P.ite_bind])
  repeat' (with_reducible first
    | apply P.HaltsAt.pure_haltsAt
    | apply P.HaltsAt.fail_haltsAt
    | (apply P.HaltsAt.ite_haltsAt <;> intro hc <;> (try (first | exact absurd rfl hc | exact Bool.noConfusion hc)))
    | apply P.HaltsAt.of_checkLexeme_haltsAt
    | apply P.HaltsAt.of_checkCategory_haltsAt
    | apply P.HaltsAt.of_peek_haltsAt
    | apply P.HaltsAt.of_matchLexeme_haltsAt
    | apply P.HaltsAt.drops_bind_haltsAt advance_drops (advance_halts _)
    | apply P.HaltsAt.drops_bind_haltsAt (expectLexeme_drops _) (expectLexeme_halts _ _)
    | apply P.HaltsAt.drops_bind_haltsAt (expectCategory_drops _) (expectCategory_halts _ _)
    | apply P.HaltsAt.drops_bind_haltsAt parseTypeSpec_drops (parseTypeSpec_halts _)
    | apply P.HaltsAt.keeps_bind_haltsAt (parseArraySuffix_keeps _) (parseArraySuffix_halts _ _)
    | apply advance_halts
    | apply expectLexeme_halts
    | apply expectCategory_halts
    | apply parseTypeSpec_halts
    | apply parseArraySuffix_halts
    | (apply P.HaltsAt.keeps_bind_haltsAt (parseStars_keeps _ _) (parseStars_halts _ _ _ ?_) ?_; · omega)
    | (apply P.HaltsAt.keeps_bind_haltsAt (parseParamListOpt_forward _).keeps (parseParamListOpt_halts _ _ ?_) ?_; · omega)
    | (apply P.HaltsAt.drops_bind_haltsAt d1 (h1 _ ?_) ?_; · omega)
    | (apply parseStars_halts; omega)
    | (apply parseParamListOpt_halts; omega)
    | (apply h1; omega)
    | intro _)

theorem parseStructMembers_halts (n : Nat) :
    ∀ node s, 20 * remaining s + 2 ≤ n → P.HaltsAt s (parseStructMembers n node) := by
  induction n with
  | zero => intro node s h; omega
  | succ k ih =>
    have d1 := (parse_drops k).2.2.2.2.2.1
    have h1 := (parse_halts k).2.2.2.2.2.2.2.1
    intro node s hfuel
    rw [parseStructMembers]
    (try dsimp only)
    (try simp only [P.bind_assoc, P.pure_bind, P.ite_bind])
    repeat' (with_reducible first
      | apply P.HaltsAt.pure_haltsAt
      | apply P.HaltsAt.fail_haltsAt
      | (apply P.HaltsAt.ite_haltsAt <;> intro hc <;> (try (first | exact absurd rfl hc | exact Bool.noConfusion hc)))
      | apply P.HaltsAt.of_checkLexeme_haltsAt
      | apply P.HaltsAt.of_checkCategory_haltsAt
      | apply P.HaltsAt.of_peek_haltsAt
      | apply P.HaltsAt.of_matchLexeme_haltsAt
      | apply P.HaltsAt.drops_bind_haltsAt advance_drops (advance_halts _)
      | apply P.HaltsAt.drops_bind_haltsAt (expectLexeme_drops _) (expectLexeme_halts _ _)
      | apply P.HaltsAt.drops_bind_haltsAt (expectCategory_drops _) (expectCategory_halts _ _)
      | apply P.HaltsAt.drops_bind_haltsAt parseTypeSpec_drops (parseTypeSpec_halts _)
      | apply P.HaltsAt.keeps_bind_haltsAt (parseArraySuffix_keeps _) (parseArraySuffix_halts _ _)
      | apply advance_halts
      | apply expectLexeme_halts
      | apply expectCategory_halts
      | apply parseTypeSpec_halts
      | apply parseArraySuffix_halts
      | (apply P.HaltsAt.keeps_bind_haltsAt (parseStars_keeps _ _) (parseStars_halts _ _ _ ?_) ?_; · omega)
      | (apply P.HaltsAt.keeps_bind_haltsAt (parseStructMembers_forward _ _).keeps (ih _ _ ?_) ?_; · omega)
      | (apply P.HaltsAt.drops_bind_haltsAt (d1 _) (h1 _ _ ?_) ?_; · omega)
      | (apply parseStars_halts; omega)
      | (apply ih; omega)
      | (apply h1; omega)
      | intro _)

theorem parseStructDecl_halts (n : Nat) :
    ∀ s, 20 * remaining s + 1 ≤ n → P.HaltsAt s (parseStructDecl n) := by
  intro s hfuel
  unfold parseStructDecl
  (try dsimp only)
  (try simp only [P.bind_assoc, P.pure_bind, P.ite_bind])
  repeat' (with_reducible first
    | apply P.HaltsAt.pure_haltsAt
    | apply P.HaltsAt.fail_haltsAt
    | (apply P.HaltsAt.ite_haltsAt <;> intro hc <;> (try (first | exact absurd rfl hc | exact Bool.noConfusion hc)))
    | apply P.HaltsAt.of_checkLexeme_haltsAt
    | apply P.HaltsAt.of_checkCategory_haltsAt
    | apply P.HaltsAt.of_peek_haltsAt
    | apply P.HaltsAt.of_matchLexeme_haltsAt
    | apply P.HaltsAt.drops_bind_haltsAt advance_drops (advance_halts _)
    | apply P.HaltsAt.drops_bind_haltsAt (expectLexeme_drops _) (expectLexeme_halts _ _)
    | apply P.HaltsAt.drops_bind_haltsAt (expectCategory_drops _) (expectCategory_halts _ _)
    | apply P.HaltsAt.drops_bind_haltsAt parseTypeSpec_drops (parseTypeSpec_halts _)
    | apply P.HaltsAt.keeps_bind_haltsAt (parseArraySuffix_keeps _) (parseArraySuffix_halts _ _)
    | apply advance_halts
    | apply expectLexeme_halts
    | apply expectCategory_halts
    | apply parseTypeSpec_halts
    | apply parseArraySuffix_halts
    | (apply P.HaltsAt.keeps_bind_haltsAt (parseStars_keeps _ _) (parseStars_halts _ _ _ ?_) ?_; · omega)
    | (apply P.HaltsAt.keeps_bind_haltsAt (parseStructMembers_forward _ _).keeps (parseStructMembers_halts _ _ _ ?_) ?_; · omega)
    | (apply parseStars_halts; omega)
    | (apply parseStructMembers_halts; omega)
    | intro _)

theorem parseExternalDecl_halts (n : Nat) :
    ∀ s, 20 * remaining s + 1 ≤ n → P.HaltsAt s (parseExternalDecl n) := by
  intro s hfuel
  unfold parseExternalDecl
  (try dsimp only)
  (try simp only [P.bind_assoc, P.pure_bind, P.ite_bind])
  repeat' (with_reducible first
    | apply P.HaltsAt.pure_haltsAt
    | apply P.HaltsAt.fail_haltsAt
    | (apply P.HaltsAt.ite_haltsAt <;> intro hc <;> (try (first | exact absurd rfl hc | exact Bool.noConfusion hc)))
    | apply P.HaltsAt.of_checkLexeme_haltsAt
    | apply P.HaltsAt.of_checkCategory_haltsAt
    | apply P.HaltsAt.of_peek_haltsAt
    | apply P.HaltsAt.of_matchLexeme_haltsAt
    | apply P.HaltsAt.drops_bind_haltsAt advance_drops (advance_halts _)
    | apply P.HaltsAt.drops_bind_haltsAt (expectLexeme_drops _) (expectLexeme_halts _ _)
    | apply P.HaltsAt.drops_bind_haltsAt (expectCategory_drops _) (expectCategory_halts _ _)
    | apply P.HaltsAt.drops_bind_haltsAt parseTypeSpec_drops (parseTypeSpec_halts _)
    | apply P.HaltsAt.keeps_bind_haltsAt (parseArraySuffix_keeps _) (parseArraySuffix_halts _ _)
    | apply advance_halts
    | apply expectLexeme_halts
    | apply expectCategory_halts
    | apply parseTypeSpec_halts
    | apply parseArraySuffix_halts
    | (apply P.HaltsAt.keeps_bind_haltsAt (parseStars_keeps _ _) (parseStars_halts _ _ _ ?_) ?_; · omega)
    | (apply P.HaltsAt.drops_bind_haltsAt (parseStructDecl_drops _) (parseStructDecl_halts _ _ ?_) ?_; · omega)
    | (apply P.HaltsAt.drops_bind_haltsAt (parseFunctionDecl_drops _) (parseFunctionDecl_halts _ _ ?_) ?_; · omega)
    | (apply parseStars_halts; omega)
    | (apply parseStructDecl_halts; omega)
    | (apply parseFunctionDecl_halts; omega)
    | intro _)

theorem parseProgramLoop_halts (n : Nat) :
    ∀ node s, 20 * remaining s + 2 ≤ n → P.HaltsAt s (parseProgramLoop n node) := by
  induction n with
  | zero => intro node s h; omega
  | succ k ih =>
    intro node s hfuel
    rw [parseProgramLoop]
    (try dsimp only)
    (try simp only [P.bind_assoc, P.pure_bind, P.ite_bind])
    repeat' (with_reducible first
      | apply P.HaltsAt.pure_haltsAt
      | apply P.HaltsAt.fail_haltsAt
      | (apply P.HaltsAt.ite_haltsAt <;> intro hc <;> (try (first | exact absurd rfl hc | exact Bool.noConfusion hc)))
      | apply P.HaltsAt.of_checkLexeme_haltsAt
      | apply P.HaltsAt.of_checkCategory_haltsAt
      | apply P.HaltsAt.of_peek_haltsAt
      | apply P.HaltsAt.of_matchLexeme_haltsAt
      | apply P.HaltsAt.drops_bind_haltsAt advance_drops (advance_halts _)
      | apply P.HaltsAt.drops_bind_haltsAt (expectLexeme_drops _) (expectLexeme_halts _ _)
      | apply P.HaltsAt.drops_bind_haltsAt (expectCategory_drops _) (expectCategory_halts _ _)
      | apply P.HaltsAt.drops_bind_haltsAt parseTypeSpec_drops (parseTypeSpec_halts _)
      | apply P.HaltsAt.keeps_bind_haltsAt (parseArraySuffix_keeps _) (parseArraySuffix_halts _ _)
      | apply advance_halts
      | apply expectLexeme_halts
      | apply expectCategory_halts
      | apply parseTypeSpec_halts
      | apply parseArraySuffix_halts
      | (apply P.HaltsAt.keeps_bind_haltsAt (parseStars_keeps _ _) (parseStars_halts _ _ _ ?_) ?_; · omega)
      | (apply P.HaltsAt.keeps_bind_haltsAt (parseProgramLoop_forward _ _).keeps (ih _ _ ?_) ?_; · omega)
      | (apply P.HaltsAt.drops_bind_haltsAt (parseExternalDecl_drops _) (parseExternalDecl_halts _ _ ?_) ?_; · omega)
      | (apply parseStars_halts; omega)
      | (apply ih; omega)
      | (apply parseExternalDecl_halts; omega)
      | intro _)

theorem parseProgram_halts (n : Nat) :
    ∀ s, 20 * remaining s + 2 ≤ n → P.HaltsAt s (parseProgram n) :=
  fun s h => parseProgramLoop_halts n _ s h

/-! ## A loop is entered again only after the cursor has moved -/

theorem pos_lt_of_remaining {s s1 : Parser} (ht : s1.tokens = s.tokens)
    (h : remaining s1 < remaining s) : s.pos < s1.pos := by
  unfold remaining at h
  rw [ht] at h
  omega

theorem P.Forward.advances {α : Type} {m : P α} (hf : P.Forward m) (hd : P.Drops m) :
    P.Advances m :=
  fun s a s1 h => ⟨(hf s a s1 h).1, pos_lt_of_remaining (hf s a s1 h).1 (hd s a s1 h)⟩

theorem P.RepeatsAt.pure_repeatsAt {L : Node → P Node} {E : Node → Parser → Prop}
    {s0 s : Parser} (a : Node) (h : E a s) : P.RepeatsAt L E s0 s (Pure.pure a : P Node) := by
  intro _ r s2 hr
  simp only [P.pure_eq, P.ret] at hr
  cases hr
  exact Or.inl h

theorem P.RepeatsAt.fail_repeatsAt {L : Node → P Node} {E : Node → Parser → Prop}
    {s0 s : Parser} (e : ParseError) : P.RepeatsAt L E s0 s (P.fail e : P Node) :=
  fun _ _ _ h => Res.noConfusion h

theorem P.RepeatsAt.ite_repeatsAt {L : Node → P Node} {E : Node → Parser → Prop}
    {c : Prop} [Decidable c] {a b : P Node} {s0 s : Parser}
    (ha : c → P.RepeatsAt L E s0 s a) (hb : ¬ c → P.RepeatsAt L E s0 s b) :
    P.RepeatsAt L E s0 s (if c then a else b) := by
  by_cases h : c
  · simp only [h, if_true]; exact ha h
  · simp only [h, if_false]; exact hb h

/-- The loop is entered again, in tail position, after a token has been consumed. -/
theorem P.RepeatsAt.again {L : Node → P Node} {E : Node → Parser → Prop} {s0 s : Parser}
    (node1 : Node) (h : remaining s < remaining s0) : P.RepeatsAt L E s0 s (L node1) :=
  fun ht _ _ hr => Or.inr ⟨node1, s, ht, h, hr⟩

theorem P.RepeatsAt.bind_repeatsAt {α : Type} {L : Node → P Node} {E : Node → Parser → Prop}
    {m : P α} {f : α → P Node} {s0 s : Parser}
    (hf : ∀ a s1, m s = Res.ok a s1 → s1.tokens = s.tokens → P.RepeatsAt L E s0 s1 (f a))
    (hm : P.Forward m) : P.RepeatsAt L E s0 s (m >>= f) := by
  intro ht r s2 h
  simp only [P.bind_eq, P.bind] at h
  cases hms : m s with
  | ok a s1 =>
    rw [hms] at h
    have h1 := (hm s a s1 hms).1
    exact hf a s1 hms h1 (h1.trans ht) r s2 h
  | error e => rw [hms] at h; exact Res.noConfusion h
  | undefined => rw [hms] at h; exact Res.noConfusion h
  | timeout => rw [hms] at h; exact Res.noConfusion h

theorem P.RepeatsAt.drops_bind_repeatsAt {α : Type} {L : Node → P Node}
    {E : Node → Parser → Prop} {m : P α} {f : α → P Node} {s0 s : Parser}
    (hm : P.Forward m) (hd : P.Drops m)
    (hf : ∀ a s1, remaining s1 < remaining s → P.RepeatsAt L E s0 s1 (f a)) :
    P.RepeatsAt L E s0 s (m >>= f) :=
  P.RepeatsAt.bind_repeatsAt (fun a s1 h _ => hf a s1 (hd s a s1 h)) hm

theorem P.RepeatsAt.forward_bind {α : Type} {L : Node → P Node}
    {E : Node → Parser → Prop} {m : P α} {f : α → P Node} {s0 s : Parser}
    (hm : P.Forward m)
    (hf : ∀ a s1, remaining s1 ≤ remaining s → P.RepeatsAt L E s0 s1 (f a)) :
    P.RepeatsAt L E s0 s (m >>= f) :=
  P.RepeatsAt.bind_repeatsAt (fun a s1 h _ => hf a s1 (hm.keeps s a s1 h)) hm

theorem P.RepeatsAt.of_peek_repeatsAt {L : Node → P Node} {E : Node → Parser → Prop}
    {f : Token → P Node} {s0 s : Parser} (i : Nat)
    (hf : ∀ t, P.RepeatsAt L E s0 s (f t)) : P.RepeatsAt L E s0 s (peek i >>= f) :=
  P.RepeatsAt.bind_repeatsAt (fun a s1 h _ => by rw [peek_state h]; exact hf a)
    (peek_forward i)

theorem P.RepeatsAt.of_checkLexeme_repeatsAt {L : Node → P Node} {E : Node → Parser → Prop}
    {f : Bool → P Node} {s0 s : Parser} (lex : String) (i : Nat)
    (hf : ∀ c, P.RepeatsAt L E s0 s (f c)) : P.RepeatsAt L E s0 s (checkLexeme lex i >>= f) :=
  P.RepeatsAt.bind_repeatsAt (fun a s1 h _ => by rw [checkLexeme_stays h]; exact hf a)
    (checkLexeme_forward lex i)

theorem P.RepeatsAt.of_checkCategory_repeatsAt {L : Node → P Node}
    {E : Node → Parser → Prop} {f : Bool → P Node} {s0 s : Parser} (cat : String) (i : Nat)
    (hf : ∀ c, P.RepeatsAt L E s0 s (f c)) :
    P.RepeatsAt L E s0 s (checkCategory cat i >>= f) :=
  P.RepeatsAt.bind_repeatsAt (fun a s1 h _ => by rw [checkCategory_stays h]; exact hf a)
    (checkCategory_forward cat i)

theorem P.RepeatsAt.of_matchLexeme_repeatsAt {L : Node → P Node} {E : Node → Parser → Prop}
    {f : Bool → P Node} {s0 s : Parser} (lex : String)
    (ht : ∀ s1, remaining s1 < remaining s → P.RepeatsAt L E s0 s1 (f true))
    (hf : P.RepeatsAt L E s0 s (f false)) : P.RepeatsAt L E s0 s (matchLexeme lex >>= f) := by
  refine P.RepeatsAt.bind_repeatsAt (fun a s1 h _ => ?_) (matchLexeme_forward lex)
  rcases matchLexeme_ok h with ⟨rfl, hp, -, rfl⟩ | ⟨rfl, rfl⟩
  · exact ht _ (remaining_skip hp)
  · exact hf

/-- From the passes of a loop, stated with the tokens that remain, to the cursor. -/
theorem Repeats.intro_repeats {L : Nat → Node → P Node}
    (h : ∀ n node s, P.RepeatsAt (L n) (fun r s2 => r = node ∧ s2 = s) s s (L (n + 1) node)) :
    Repeats L := by
  intro n node s r s2 hr
  rcases h n node s rfl r s2 hr with h1 | ⟨node1, s1, ht, hlt, h2⟩
  · exact Or.inl h1
  · exact Or.inr ⟨node1, s1, ht, pos_lt_of_remaining ht hlt, h2⟩

theorem parseProgramLoop_repeats : Repeats parseProgramLoop := by
  refine Repeats.intro_repeats ?_
  intro n node s
  rw [parseProgramLoop]
  (try dsimp only)
  (try simp only [P.bind_assoc, P.pure_bind, P.ite_bind])
  repeat' (with_reducible first
    | (apply P.RepeatsAt.pure_repeatsAt; first | exact ⟨rfl, rfl⟩ | exact ⟨_, rfl⟩)
    | apply P.RepeatsAt.fail_repeatsAt
    | (apply P.RepeatsAt.ite_repeatsAt <;> intro hc <;> (try (first | exact absurd rfl hc | exact Bool.noConfusion hc)))
    | apply P.RepeatsAt.of_checkLexeme_repeatsAt
    | apply P.RepeatsAt.of_checkCategory_repeatsAt
    | apply P.RepeatsAt.of_peek_repeatsAt
    | apply P.RepeatsAt.of_matchLexeme_repeatsAt
    | apply P.RepeatsAt.drops_bind_repeatsAt advance_forward advance_drops
    | apply P.RepeatsAt.drops_bind_repeatsAt (expectLexeme_forward _) (expectLexeme_drops _)
    | apply P.RepeatsAt.drops_bind_repeatsAt (expectCategory_forward _) (expectCategory_drops _)
    | apply P.RepeatsAt.forward_bind (parseArraySuffix_forward _)
    | apply P.RepeatsAt.drops_bind_repeatsAt (parseExternalDecl_forward n) (parseExternalDecl_drops n)
    | (apply P.RepeatsAt.again; omega)
    | intro _)

theorem parseStructMembers_repeats : Repeats parseStructMembers := by
  refine Repeats.intro_repeats ?_
  intro n node s
  rw [parseStructMembers]
  (try dsimp only)
  (try simp only [P.bind_assoc, P.pure_bind, P.ite_bind])
  repeat' (with_reducible first
    | (apply P.RepeatsAt.pure_repeatsAt; first | exact ⟨rfl, rfl⟩ | exact ⟨_, rfl⟩)
    | apply P.RepeatsAt.fail_repeatsAt
    | (apply P.RepeatsAt.ite_repeatsAt <;> intro hc <;> (try (first | exact absurd rfl hc | exact Bool.noConfusion hc)))
    | apply P.RepeatsAt.of_checkLexeme_repeatsAt
    | apply P.RepeatsAt.of_checkCategory_repeatsAt
    | apply P.RepeatsAt.of_peek_repeatsAt
    | apply P.RepeatsAt.of_matchLexeme_repeatsAt
    | apply P.RepeatsAt.drops_bind_repeatsAt advance_forward advance_drops
    | apply P.RepeatsAt.drops_bind_repeatsAt (expectLexeme_forward _) (expectLexeme_drops _)
    | apply P.RepeatsAt.drops_bind_repeatsAt (expectCategory_forward _) (expectCategory_drops _)
    | apply P.RepeatsAt.forward_bind (parseArraySuffix_forward _)
    | apply P.RepeatsAt.drops_bind_repeatsAt ((parse_forward n).2.2.2.2.2.2.2.1 _) ((parse_drops n).2.2.2.2.2.1 _)
    | (apply P.RepeatsAt.again; omega)
    | intro _)

theorem parseStmtListLoop_repeats : Repeats parseStmtListLoop := by
  refine Repeats.intro_repeats ?_
  intro n node s
  rw [parseStmtListLoop]
  (try dsimp only)
  (try simp only [P.bind_assoc, P.pure_bind, P.ite_bind])
  repeat' (with_reducible first
    | (apply P.RepeatsAt.pure_repeatsAt; first | exact ⟨rfl, rfl⟩ | exact ⟨_, rfl⟩)
    | apply P.RepeatsAt.fail_repeatsAt
    | (apply P.RepeatsAt.ite_repeatsAt <;> intro hc <;> (try (first | exact absurd rfl hc | exact Bool.noConfusion hc)))
    | apply P.RepeatsAt.of_checkLexeme_repeatsAt
    | apply P.RepeatsAt.of_checkCategory_repeatsAt
    | apply P.RepeatsAt.of_peek_repeatsAt
    | apply P.RepeatsAt.of_matchLexeme_repeatsAt
    | apply P.RepeatsAt.drops_bind_repeatsAt advance_forward advance_drops
    | apply P.RepeatsAt.drops_bind_repeatsAt (expectLexeme_forward _) (expectLexeme_drops _)
    | apply P.RepeatsAt.drops_bind_repeatsAt (expectCategory_forward _) (expectCategory_drops _)
    | apply P.RepeatsAt.forward_bind (parseArraySuffix_forward _)
    | apply P.RepeatsAt.drops_bind_repeatsAt (parse_forward n).2.2.2.1 (parse_drops n).2.1
    | (apply P.RepeatsAt.again; omega)
    | intro _)

theorem parseOrLoop_repeats : Repeats parseOrLoop := by
  refine Repeats.intro_repeats ?_
  intro n node s
  rw [parseOrLoop]
  (try dsimp only)
  (try simp only [P.bind_assoc, P.pure_bind, P.ite_bind])
  repeat' (with_reducible first
    | (apply P.RepeatsAt.pure_repeatsAt; first | exact ⟨rfl, rfl⟩ | exact ⟨_, rfl⟩)
    | apply P.RepeatsAt.fail_repeatsAt
    | (apply P.RepeatsAt.ite_repeatsAt <;> intro hc <;> (try (first | exact absurd rfl hc | exact Bool.noConfusion hc)))
    | apply P.RepeatsAt.of_checkLexeme_repeatsAt
    | apply P.RepeatsAt.of_checkCategory_repeatsAt
    | apply P.RepeatsAt.of_peek_repeatsAt
    | apply P.RepeatsAt.of_matchLexeme_repeatsAt
    | apply P.RepeatsAt.drops_bind_repeatsAt advance_forward advance_drops
    | apply P.RepeatsAt.drops_bind_repeatsAt (expectLexeme_forward _) (expectLexeme_drops _)
    | apply P.RepeatsAt.drops_bind_repeatsAt (expectCategory_forward _) (expectCategory_drops _)
    | apply P.RepeatsAt.forward_bind (parseArraySuffix_forward _)
    | apply P.RepeatsAt.drops_bind_repeatsAt (parse_forward n).2.2.2.2.2.2.2.2.2.2.2.2.2.2.1 (parse_drops n).2.2.2.2.2.2.2.2.2.2.2.1
    | (apply P.RepeatsAt.again; omega)
    | intro _)

theorem parseAndLoop_repeats : Repeats parseAndLoop := by
  refine Repeats.intro_repeats ?_
  intro n node s
  rw [parseAndLoop]
  (try dsimp only)
  (try simp only [P.bind_assoc, P.pure_bind, P.ite_bind])
  repeat' (with_reducible first
    | (apply P.RepeatsAt.pure_repeatsAt; first | exact ⟨rfl, rfl⟩ | exact ⟨_, rfl⟩)
    | apply P.RepeatsAt.fail_repeatsAt
    | (apply P.RepeatsAt.ite_repeatsAt <;> intro hc <;> (try (first | exact absurd rfl hc | exact Bool.noConfusion hc)))
    | apply P.RepeatsAt.of_checkLexeme_repeatsAt
    | apply P.RepeatsAt.of_checkCategory_repeatsAt
    | apply P.RepeatsAt.of_peek_repeatsAt
    | apply P.RepeatsAt.of_matchLexeme_repeatsAt
    | apply P.RepeatsAt.drops_bind_repeatsAt advance_forward advance_drops
    | apply P.RepeatsAt.drops_bind_repeatsAt (expectLexeme_forward _) (expectLexeme_drops _)
    | apply P.RepeatsAt.drops_bind_repeatsAt (expectCategory_forward _) (expectCategory_drops _)
    | apply P.RepeatsAt.forward_bind (parseArraySuffix_forward _)
    | apply P.RepeatsAt.drops_bind_repeatsAt (parse_forward n).2.2.2.2.2.2.2.2.2.2.2.2.2.2.2.2.1 (parse_drops n).2.2.2.2.2.2.2.2.2.2.2.2.1
    | (apply P.RepeatsAt.again; omega)
    | intro _)

theorem parseEqualityLoop_repeats : Repeats parseEqualityLoop := by
  refine Repeats.intro_repeats ?_
  intro n node s
  rw [parseEqualityLoop]
  (try dsimp only)
  (try simp only [P.bind_assoc, P.pure_bind, P.ite_bind])
  repeat' (with_reducible first
    | (apply P.RepeatsAt.pure_repeatsAt; first | exact ⟨rfl, rfl⟩ | exact ⟨_, rfl⟩)
    | apply P.RepeatsAt.fail_repeatsAt
    | (apply P.RepeatsAt.ite_repeatsAt <;> intro hc <;> (try (first | exact absurd rfl hc | exact Bool.noConfusion hc)))
    | apply P.RepeatsAt.of_checkLexeme_repeatsAt
    | apply P.RepeatsAt.of_checkCategory_repeatsAt
    | apply P.RepeatsAt.of_peek_repeatsAt
    | apply P.RepeatsAt.of_matchLexeme_repeatsAt
    | apply P.RepeatsAt.drops_bind_repeatsAt advance_forward advance_drops
    | apply P.RepeatsAt.drops_bind_repeatsAt (expectLexeme_forward _) (expectLexeme_drops _)
    | apply P.RepeatsAt.drops_bind_repeatsAt (expectCategory_forward _) (expectCategory_drops _)
    | apply P.RepeatsAt.forward_bind (parseArraySuffix_forward _)
    | apply P.RepeatsAt.drops_bind_repeatsAt (parse_forward n).2.2.2.2.2.2.2.2.2.2.2.2.2.2.2.2.2.2.1 (parse_drops n).2.2.2.2.2.2.2.2.2.2.2.2.2.1
    | (apply P.RepeatsAt.again; omega)
    | intro _)

theorem parseRelLoop_repeats : Repeats parseRelLoop := by
  refine Repeats.intro_repeats ?_
  intro n node s
  rw [parseRelLoop]
  (try dsimp only)
  (try simp only [P.bind_assoc, P.pure_bind, P.ite_bind])
  repeat' (with_reducible first
    | (apply P.RepeatsAt.pure_repeatsAt; first | exact ⟨rfl, rfl⟩ | exact ⟨_, rfl⟩)
    | apply P.RepeatsAt.fail_repeatsAt
    | (apply P.RepeatsAt.ite_repeatsAt <;> intro hc <;> (try (first | exact absurd rfl hc | exact Bool.noConfusion hc)))
    | apply P.RepeatsAt.of_checkLexeme_repeatsAt
    | apply P.RepeatsAt.of_checkCategory_repeatsAt
    | apply P.RepeatsAt.of_peek_repeatsAt
    | apply P.RepeatsAt.of_matchLexeme_repeatsAt
    | apply P.RepeatsAt.drops_bind_repeatsAt advance_forward advance_drops
    | apply P.RepeatsAt.drops_bind_repeatsAt (expectLexeme_forward _) (expectLexeme_drops _)
    | apply P.RepeatsAt.drops_bind_repeatsAt (expectCategory_forward _) (expectCategory_drops _)
    | apply P.RepeatsAt.forward_bind (parseArraySuffix_forward _)
    | apply P.RepeatsAt.drops_bind_repeatsAt (parse_forward n).2.2.2.2.2.2.2.2.2.2.2.2.2.2.2.2.2.2.2.2.1 (parse_drops n).2.2.2.2.2.2.2.2.2.2.2.2.2.2.1
    | (apply P.RepeatsAt.again; omega)
    | intro _)

theorem parseAddLoop_repeats : Repeats parseAddLoop := by
  refine Repeats.intro_repeats ?_
  intro n node s
  rw [parseAddLoop]
  (try dsimp only)
  (try simp only [P.bind_assoc, P.pure_bind, P.ite_bind])
  repeat' (with_reducible first
    | (apply P.RepeatsAt.pure_repeatsAt; first | exact ⟨rfl, rfl⟩ | exact ⟨_, rfl⟩)
    | apply P.RepeatsAt.fail_repeatsAt
    | (apply P.RepeatsAt.ite_repeatsAt <;> intro hc <;> (try (first | exact absurd rfl hc | exact Bool.noConfusion hc)))
    | apply P.RepeatsAt.of_checkLexeme_repeatsAt
    | apply P.RepeatsAt.of_checkCategory_repeatsAt
    | apply P.RepeatsAt.of_peek_repeatsAt
    | apply P.RepeatsAt.of_matchLexeme_repeatsAt
    | apply P.RepeatsAt.drops_bind_repeatsAt advance_forward advance_drops
    | apply P.RepeatsAt.drops_bind_repeatsAt (expectLexeme_forward _) (expectLexeme_drops _)
    | apply P.RepeatsAt.drops_bind_repeatsAt (expectCategory_forward _) (expectCategory_drops _)
    | apply P.RepeatsAt.forward_bind (parseArraySuffix_forward _)
    | apply P.RepeatsAt.drops_bind_repeatsAt (parse_forward n).2.2.2.2.2.2.2.2.2.2.2.2.2.2.2.2.2.2.2.2.2.2.1 (parse_drops n).2.2.2.2.2.2.2.2.2.2.2.2.2.2.2.1
    | (apply P.RepeatsAt.again; omega)
    | intro _)

theorem parseMulLoop_repeats : Repeats parseMulLoop := by
  refine Repeats.intro_repeats ?_
  intro n node s
  rw [parseMulLoop]
  (try dsimp only)
  (try simp only [P.bind_assoc, P.pure_bind, P.ite_bind])
  repeat' (with_reducible first
    | (apply P.RepeatsAt.pure_repeatsAt; first | exact ⟨rfl, rfl⟩ | exact ⟨_, rfl⟩)
    | apply P.RepeatsAt.fail_repeatsAt
    | (apply P.RepeatsAt.ite_repeatsAt <;> intro hc <;> (try (first | exact absurd rfl hc | exact Bool.noConfusion hc)))
    | apply P.RepeatsAt.of_checkLexeme_repeatsAt
    | apply P.RepeatsAt.of_checkCategory_repeatsAt
    | apply P.RepeatsAt.of_peek_repeatsAt
    | apply P.RepeatsAt.of_matchLexeme_repeatsAt
    | apply P.RepeatsAt.drops_bind_repeatsAt advance_forward advance_drops
    | apply P.RepeatsAt.drops_bind_repeatsAt (expectLexeme_forward _) (expectLexeme_drops _)
    | apply P.RepeatsAt.drops_bind_repeatsAt (expectCategory_forward _) (expectCategory_drops _)
    | apply P.RepeatsAt.forward_bind (parseArraySuffix_forward _)
    | apply P.RepeatsAt.drops_bind_repeatsAt (parse_forward n).2.2.2.2.2.2.2.2.2.2.2.2.2.2.2.2.2.2.2.2.2.2.2.2.1 (parse_drops n).2.2.2.2.2.2.2.2.2.2.2.2.2.2.2.2.1
    | (apply P.RepeatsAt.again; omega)
    | intro _)

theorem parsePostfixLoop_repeats : Repeats parsePostfixLoop := by
  refine Repeats.intro_repeats ?_
  intro n node s
  rw [parsePostfixLoop]
  (try dsimp only)
  (try simp only [P.bind_assoc, P.pure_bind, P.ite_bind])
  repeat' (with_reducible first
    | (apply P.RepeatsAt.pure_repeatsAt; first | exact ⟨rfl, rfl⟩ | exact ⟨_, rfl⟩)
    | apply P.RepeatsAt.fail_repeatsAt
    | (apply P.RepeatsAt.ite_repeatsAt <;> intro hc <;> (try (first | exact absurd rfl hc | exact Bool.noConfusion hc)))
    | apply P.RepeatsAt.of_checkLexeme_repeatsAt
    | apply P.RepeatsAt.of_checkCategory_repeatsAt
    | apply P.RepeatsAt.of_peek_repeatsAt
    | apply P.RepeatsAt.of_matchLexeme_repeatsAt
    | apply P.RepeatsAt.drops_bind_repeatsAt advance_forward advance_drops
    | apply P.RepeatsAt.drops_bind_repeatsAt (expectLexeme_forward _) (expectLexeme_drops _)
    | apply P.RepeatsAt.drops_bind_repeatsAt (expectCategory_forward _) (expectCategory_drops _)
    | apply P.RepeatsAt.forward_bind (parseArraySuffix_forward _)
    | apply P.RepeatsAt.drops_bind_repeatsAt (parse_forward n).2.2.2.2.2.2.2.2.2.2.1 (parse_drops n).2.2.2.2.2.2.2.2.1
    | apply P.RepeatsAt.forward_bind ((parse_forward n).2.2.2.2.2.2.2.2.2.2.2.2.2.2.2.2.2.2.2.2.2.2.2.2.2.2.2.1 _)
    | (apply P.RepeatsAt.again; omega)
    | intro _)

theorem parseArgsLoop_repeats : Repeats parseArgsLoop := by
  refine Repeats.intro_repeats ?_
  intro n node s
  rw [parseArgsLoop]
  (try dsimp only)
  (try simp only [P.bind_assoc, P.pure_bind, P.ite_bind])
  repeat' (with_reducible first
    | (apply P.RepeatsAt.pure_repeatsAt; first | exact ⟨rfl, rfl⟩ | exact ⟨_, rfl⟩)
    | apply P.RepeatsAt.fail_repeatsAt
    | (apply P.RepeatsAt.ite_repeatsAt <;> intro hc <;> (try (first | exact absurd rfl hc | exact Bool.noConfusion hc)))
    | apply P.RepeatsAt.of_checkLexeme_repeatsAt
    | apply P.RepeatsAt.of_checkCategory_repeatsAt
    | apply P.RepeatsAt.of_peek_repeatsAt
    | apply P.RepeatsAt.of_matchLexeme_repeatsAt
    | apply P.RepeatsAt.drops_bind_repeatsAt advance_forward advance_drops
    | apply P.RepeatsAt.drops_bind_repeatsAt (expectLexeme_forward _) (expectLexeme_drops _)
    | apply P.RepeatsAt.drops_bind_repeatsAt (expectCategory_forward _) (expectCategory_drops _)
    | apply P.RepeatsAt.forward_bind (parseArraySuffix_forward _)
    | apply P.RepeatsAt.drops_bind_repeatsAt (parse_forward n).2.2.2.2.2.2.2.2.2.2.1 (parse_drops n).2.2.2.2.2.2.2.2.1
    | (apply P.RepeatsAt.again; omega)
    | intro _)

theorem parseParamListLoop_repeats : Repeats parseParamListLoop := by
  refine Repeats.intro_repeats ?_
  intro n node s
  rw [parseParamListLoop]
  (try dsimp only)
  (try simp only [P.bind_assoc, P.pure_bind, P.ite_bind])
  repeat' (with_reducible first
    | (apply P.RepeatsAt.pure_repeatsAt; first | exact ⟨rfl, rfl⟩ | exact ⟨_, rfl⟩)
    | apply P.RepeatsAt.fail_repeatsAt
    | (apply P.RepeatsAt.ite_repeatsAt <;> intro hc <;> (try (first | exact absurd rfl hc | exact Bool.noConfusion hc)))
    | apply P.RepeatsAt.of_checkLexeme_repeatsAt
    | apply P.RepeatsAt.of_checkCategory_repeatsAt
    | apply P.RepeatsAt.of_peek_repeatsAt
    | apply P.RepeatsAt.of_matchLexeme_repeatsAt
    | apply P.RepeatsAt.drops_bind_repeatsAt advance_forward advance_drops
    | apply P.RepeatsAt.drops_bind_repeatsAt (expectLexeme_forward _) (expectLexeme_drops _)
    | apply P.RepeatsAt.drops_bind_repeatsAt (expectCategory_forward _) (expectCategory_drops _)
    | apply P.RepeatsAt.forward_bind (parseArraySuffix_forward _)
    | apply P.RepeatsAt.drops_bind_repeatsAt (parseParam_forward n) (parseParam_drops n)
    | (apply P.RepeatsAt.again; omega)
    | intro _)

theorem parseStars_repeats : Repeats parseStars := by
  refine Repeats.intro_repeats ?_
  intro n node s
  rw [parseStars]
  (try dsimp only)
  (try simp only [P.bind_assoc, P.pure_bind, P.ite_bind])
  repeat' (with_reducible first
    | (apply P.RepeatsAt.pure_repeatsAt; first | exact ⟨rfl, rfl⟩ | exact ⟨_, rfl⟩)
    | apply P.RepeatsAt.fail_repeatsAt
    | (apply P.RepeatsAt.ite_repeatsAt <;> intro hc <;> (try (first | exact absurd rfl hc | exact Bool.noConfusion hc)))
    | apply P.RepeatsAt.of_checkLexeme_repeatsAt
    | apply P.RepeatsAt.of_checkCategory_repeatsAt
    | apply P.RepeatsAt.of_peek_repeatsAt
    | apply P.RepeatsAt.of_matchLexeme_repeatsAt
    | apply P.RepeatsAt.drops_bind_repeatsAt advance_forward advance_drops
    | apply P.RepeatsAt.drops_bind_repeatsAt (expectLexeme_forward _) (expectLexeme_drops _)
    | apply P.RepeatsAt.drops_bind_repeatsAt (expectCategory_forward _) (expectCategory_drops _)
    | apply P.RepeatsAt.forward_bind (parseArraySuffix_forward _)
    | (apply P.RepeatsAt.again; omega)
    | intro _)

/-- The `do ... while` loop of `parseDeclStmt`: a pass either is the last one, and appends its
one declarator to the node, or enters the loop again with the cursor strictly further on. -/
theorem parseDeclarators_repeats (n : Nat) (node : Node) (s : Parser) (r : Node) (s2 : Parser)
    (h : parseDeclarators (n + 1) node s = Res.ok r s2) :
    (∃ decl, r = node.push_back decl) ∨
    ∃ node1 s1, s1.tokens = s.tokens ∧ s.pos < s1.pos ∧
      parseDeclarators n node1 s1 = Res.ok r s2 := by
  have key : P.RepeatsAt (parseDeclarators n) (fun r _ => ∃ decl, r = node.push_back decl) s s
      (parseDeclarators (n + 1) node) := by
    rw [parseDeclarators]
    (try dsimp only)
    (try simp only [P.bind_assoc, P.pure_bind, P.ite_bind])
    repeat' (with_reducible first
      | (apply P.RepeatsAt.pure_repeatsAt; first | exact ⟨rfl, rfl⟩ | exact ⟨_, rfl⟩)
      | apply P.RepeatsAt.fail_repeatsAt
      | (apply P.RepeatsAt.ite_repeatsAt <;> intro hc <;> (try (first | exact absurd rfl hc | exact Bool.noConfusion hc)))
      | apply P.RepeatsAt.of_checkLexeme_repeatsAt
      | apply P.RepeatsAt.of_checkCategory_repeatsAt
      | apply P.RepeatsAt.of_peek_repeatsAt
      | apply P.RepeatsAt.of_matchLexeme_repeatsAt
      | apply P.RepeatsAt.drops_bind_repeatsAt advance_forward advance_drops
      | apply P.RepeatsAt.drops_bind_repeatsAt (expectLexeme_forward _) (expectLexeme_drops _)
      | apply P.RepeatsAt.drops_bind_repeatsAt (expectCategory_forward _) (expectCategory_drops _)
      | apply P.RepeatsAt.forward_bind (parseArraySuffix_forward _)
      | apply P.RepeatsAt.drops_bind_repeatsAt (parse_forward n).2.2.2.2.2.2.2.2.2.2.1 (parse_drops n).2.2.2.2.2.2.2.2.1
      | apply P.RepeatsAt.forward_bind (parseStars_forward n _)
      | (apply P.RepeatsAt.again; omega)
      | intro _)
  rcases key rfl r s2 h with h1 | ⟨node1, s1, ht, hlt, h2⟩
  · exact Or.inl h1
  · exact Or.inr ⟨node1, s1, ht, pos_lt_of_remaining ht hlt, h2⟩

/-- The recursion of `parseUnaryExpr`: after a prefix operator the function is entered again one
token further on. -/
theorem parseUnaryExpr_reenters {n : Nat} {s s2 : Parser} {r : Node}
    (h : parseUnaryExpr (n + 1) s = Res.ok r s2) (hl : (look s 0).lexeme ∈ unaryOps) :
    ∃ d, parseUnaryExpr n (skip s 1) = Res.ok d s2 := by
  have hne : s.tokens ≠ [] := by
    intro h0
    simp [parseUnaryExpr, P.bind_eq, P.bind, checkLexeme, peek_nil h0] at h
  have hc : ((look s 0).lexeme == "+" || (look s 0).lexeme == "-"
      || (look s 0).lexeme == "!") = true := by
    simp only [unaryOps, List.mem_cons, List.mem_singleton, List.not_mem_nil, or_false] at hl
    rcases hl with h1 | h1 | h1 <;> simp [h1]
  rw [parseUnaryExpr] at h
  simp only [checkLexeme_bind _ _ _ _ hne, hc, if_true] at h
  obtain ⟨op, s1, ha, h1⟩ := P.bind_inv h
  obtain ⟨-, -, rfl⟩ := advance_ok ha
  obtain ⟨d, s3, hd, h2⟩ := P.bind_inv h1
  obtain ⟨-, rfl⟩ := P.pure_inv h2
  exact ⟨d, hd⟩

/-- The recursion through `parsePrimary`: after `(` the expression ladder is entered again one
token further on. -/
theorem parsePrimary_reenters {n : Nat} {s s2 : Parser} {r : Node}
    (h : parsePrimary (n + 1) s = Res.ok r s2) (hl : (look s 0).lexeme = "(") :
    ∃ s1, parseExpr n (skip s 1) = Res.ok r s1 := by
  rw [parsePrimary] at h
  obtain ⟨b, s1, hm, h1⟩ := P.bind_inv h
  rcases matchLexeme_inv hm with ⟨hb, -, -, hs⟩ | ⟨-, hne, -⟩
  · subst hb hs
    simp only [if_true] at h1
    obtain ⟨e, s3, he, h2⟩ := P.bind_inv h1
    obtain ⟨t, s4, -, h3⟩ := P.bind_inv h2
    obtain ⟨rfl, -⟩ := P.pure_inv h3
    exact ⟨s3, he⟩
  · exact absurd hl hne

/-! ## Termination by progress -/

/-- With fuel `20 * length + 2` or more, `parseProgram` on a sentinel-terminated sequence has one
outcome, the same for every such fuel, and it is a tree or a diagnostic. -/
theorem parseProgram_settles (toks : List Token) (hs : sentinelTerminated toks) :
    ∃ r, (∀ n, 20 * toks.length + 2 ≤ n → parseProgram n ⟨toks, 0⟩ = r) ∧
      ((∃ tree s1, r = Res.ok tree s1) ∨ ∃ e s1, r = Res.error e s1) := by
  have hr : InRange ⟨toks, 0⟩ := ⟨hs, List.length_pos.2 (sentinelTerminated_ne_nil hs)⟩
  have hh : parseProgram (20 * toks.length + 2) ⟨toks, 0⟩ ≠ Res.timeout :=
    parseProgram_halts _ ⟨toks, 0⟩ (le_of_eq rfl)
  have hu := ((parseProgram_guarded (20 * toks.length + 2) ⟨toks, 0⟩ hr).sound hr).1
  refine ⟨parseProgram (20 * toks.length + 2) ⟨toks, 0⟩, ?_, ?_⟩
  · intro n hn
    exact P.Le.of_le parseProgram_le _ n hn ⟨toks, 0⟩ hh
  · cases hres : parseProgram (20 * toks.length + 2) ⟨toks, 0⟩ with
    | ok a s1 => exact Or.inl ⟨a, s1, rfl⟩
    | error e s1 => exact Or.inr ⟨e, s1, rfl⟩
    | undefined => exact absurd hres hu
    | timeout => exact absurd hres hh

/-- Every rule function that must read at least one token moves the cursor strictly forward
whenever it returns. -/
theorem parse_advances (n : Nat) :
    P.Advances (parseExternalDecl n) ∧
      P.Advances (parseStructDecl n) ∧
      P.Advances (parseFunctionDecl n) ∧
      P.Advances (parseParamList n) ∧
      P.Advances (parseParam n) ∧
      P.Advances (parseCompoundStmt n) ∧
      P.Advances (parseStmt n) ∧
      P.Advances (parseIfStmt n) ∧
      P.Advances (parseForStmt n) ∧
      P.Advances (parseReturnStmt n) ∧
      (∀ b, P.Advances (parseDeclStmt n b)) ∧
      (∀ node, P.Advances (parseDeclarators n node)) ∧
      P.Advances (parseExprStmt n) ∧
      P.Advances (parseExpr n) ∧
      P.Advances (parseAssignExpr n) ∧
      P.Advances (parseOrExpr n) ∧
      P.Advances (parseAndExpr n) ∧
      P.Advances (parseEqualityExpr n) ∧
      P.Advances (parseRelExpr n) ∧
      P.Advances (parseAddExpr n) ∧
      P.Advances (parseMulExpr n) ∧
      P.Advances (parseUnaryExpr n) ∧
      P.Advances (parsePostfixExpr n) ∧
      P.Advances (parsePrimary n) := by
  obtain ⟨f1, f2, f3, f4, f5, f6, f7, f8, f9, f10, f11, f12, f13, f14, f15, f16, f17, f18, f19,
    f20, f21, f22, f23, f24, f25, f26, f27, f28, f29⟩ := parse_forward n
  obtain ⟨d1, d2, d3, d4, d5, d6, d7, d8, d9, d10, d11, d12, d13, d14, d15, d16, d17, d18, d19⟩ :=
    parse_drops n
  exact ⟨(parseExternalDecl_forward n).advances (parseExternalDecl_drops n),
    (parseStructDecl_forward n).advances (parseStructDecl_drops n),
    (parseFunctionDecl_forward n).advances (parseFunctionDecl_drops n),
    (parseParamList_forward n).advances (parseParamList_drops n),
    (parseParam_forward n).advances (parseParam_drops n),
    f1.advances d1,
    f4.advances d2,
    f5.advances d3,
    f6.advances d4,
    f7.advances d5,
    fun x => (f8 x).advances (d6 x),
    fun x => (f9 x).advances (d7 x),
    f10.advances d8,
    f11.advances d9,
    f12.advances d10,
    f13.advances d11,
    f15.advances d12,
    f17.advances d13,
    f19.advances d14,
    f21.advances d15,
    f23.advances d16,
    f25.advances d17,
    f26.advances d18,
    f29.advances d19⟩

/-- C21 (termination by progress).  In the model the fuel bounds the depth of nested calls
of rule functions and loop iterations, so "terminates" reads "some fuel is enough".

(1) For every token sequence `toks` that ends in the sentinel (category `EOF`, lexeme `EOF`),
`parseProgram` from position 0 has one outcome for every fuel from `20 * length + 2` on, and this
outcome is a returned tree or a reported diagnostic (never an out-of-range read, never
exhausted fuel).

The reason, for every token sequence, every state and every fuel:
(2) from any state `s`, fuel `20 * remaining s + 2` is enough for `parseProgram`, where
`remaining s` counts the tokens from the cursor to the end: the depth of nested calls and
iterations is bounded by the tokens still to be read;
(3) each loop (`parseProgram`, `parseStructDecl`, `parseStmtList`, the six binary levels, the
postfix loop, the argument, parameter and `*` loops) satisfies `Repeats`: a pass either leaves
the loop at once, with the node and the state it was given, or the loop is entered again with
the same tokens and the cursor strictly further on;
(4) a pass of the `do ... while` loop of `parseDeclStmt` either is the last one, appending one
declarator, or the loop is entered again with the cursor strictly further on;
(5) `parseUnaryExpr` calls itself only after consuming the prefix operator, and `parsePrimary`
calls `parseExpr` only after consuming `(`: the callee starts one token further on;
(6) every rule function that can be reached again through a cycle (declarations, statements,
every expression level down to `parsePrimary`) returns only with the same tokens and the cursor
strictly further on (`P.Advances`). -/
theorem C21_termination_by_progress (toks : List Token) (hs : sentinelTerminated toks) :
    (∃ r, (∀ n, 20 * toks.length + 2 ≤ n → parseProgram n ⟨toks, 0⟩ = r) ∧
      ((∃ tree s1, r = Res.ok tree s1) ∨ ∃ e s1, r = Res.error e s1)) ∧
    (∀ n s, 20 * remaining s + 2 ≤ n → parseProgram n s ≠ Res.timeout) ∧
    (Repeats parseProgramLoop ∧ Repeats parseStructMembers ∧ Repeats parseStmtListLoop ∧
      Repeats parseOrLoop ∧ Repeats parseAndLoop ∧ Repeats parseEqualityLoop ∧
      Repeats parseRelLoop ∧ Repeats parseAddLoop ∧ Repeats parseMulLoop ∧
      Repeats parsePostfixLoop ∧ Repeats parseArgsLoop ∧ Repeats parseParamListLoop ∧
      Repeats parseStars) ∧
    (∀ n node s r s2, parseDeclarators (n + 1) node s = Res.ok r s2 →
      (∃ decl, r = node.push_back decl) ∨
      ∃ node1 s1, s1.tokens = s.tokens ∧ s.pos < s1.pos ∧
        parseDeclarators n node1 s1 = Res.ok r s2) ∧
    (∀ n s r s2, parseUnaryExpr (n + 1) s = Res.ok r s2 → (look s 0).lexeme ∈ unaryOps →
      ∃ d, parseUnaryExpr n (skip s 1) = Res.ok d s2) ∧
    (∀ n s r s2, parsePrimary (n + 1) s = Res.ok r s2 → (look s 0).lexeme = "(" →
      ∃ s1, parseExpr n (skip s 1) = Res.ok r s1) ∧
    (∀ n,
      P.Advances (parseExternalDecl n) ∧
      P.Advances (parseStructDecl n) ∧
      P.Advances (parseFunctionDecl n) ∧
      P.Advances (parseParamList n) ∧
      P.Advances (parseParam n) ∧
      P.Advances (parseCompoundStmt n) ∧
      P.Advances (parseStmt n) ∧
      P.Advances (parseIfStmt n) ∧
      P.Advances (parseForStmt n) ∧
      P.Advances (parseReturnStmt n) ∧
      (∀ b, P.Advances (parseDeclStmt n b)) ∧
      (∀ node, P.Advances (parseDeclarators n node)) ∧
      P.Advances (parseExprStmt n) ∧
      P.Advances (parseExpr n) ∧
      P.Advances (parseAssignExpr n) ∧
      P.Advances (parseOrExpr n) ∧
      P.Advances (parseAndExpr n) ∧
      P.Advances (parseEqualityExpr n) ∧
      P.Advances (parseRelExpr n) ∧
      P.Advances (parseAddExpr n) ∧
      P.Advances (parseMulExpr n) ∧
      P.Advances (parseUnaryExpr n) ∧
      P.Advances (parsePostfixExpr n) ∧
      P.Advances (parsePrimary n)) :=
  ⟨parseProgram_settles toks hs,
    fun n s h => parseProgram_halts n s h,
    ⟨parseProgramLoop_repeats, parseStructMembers_repeats, parseStmtListLoop_repeats,
      parseOrLoop_repeats, parseAndLoop_repeats, parseEqualityLoop_repeats, parseRelLoop_repeats,
      parseAddLoop_repeats, parseMulLoop_repeats, parsePostfixLoop_repeats, parseArgsLoop_repeats,
      parseParamListLoop_repeats, parseStars_repeats⟩,
    parseDeclarators_repeats,
    fun _ _ _ _ h hl => parseUnaryExpr_reenters h hl,
    fun _ _ _ _ h hl => parsePrimary_reenters h hl,
    parse_advances⟩

theorem C21_termination_by_progress_witness :
    ∃ r, (∀ n, 20 * emptyParamsExample.length + 2 ≤ n →
        parseProgram n ⟨emptyParamsExample, 0⟩ = r) ∧
      ((∃ tree s1, r = Res.ok tree s1) ∨ ∃ e s1, r = Res.error e s1) :=
  (C21_termination_by_progress emptyParamsExample ⟨eofToken, rfl, rfl, rfl⟩).1

/-! ## The parameter list is always present -/

theorem parseTypeSpec_symbol :
    P.Post parseTypeSpec (fun node => node.symbol = "TypeSpec") := by
  unfold parseTypeSpec
  dsimp only
  repeat' (first
    | (with_reducible apply P.Post.bind_post)
    | (with_reducible apply P.Post.ite_post)
    | (with_reducible apply P.Post.fail_post)
    | (apply P.Post.pure_post; simp only [Node.symbol_push_back]; split <;> rfl)
    | intro _)

/-- Whenever `parseFunctionDecl` returns, it has read a type specifier, an `IDENTIFIER`, `(`, the
parameter list through `parseParamListOpt`, `)` and a compound statement, and the node is
`FunctionDecl` with exactly these four children in this order. -/
theorem parseFunctionDecl_inv {fuel : Nat} {s s1 : Parser} {node : Node}
    (h : parseFunctionDecl fuel s = Res.ok node s1) :
    ∃ (ty : Node) (sA : Parser) (params : Node) (sB : Parser) (body : Node),
      parseTypeSpec s = Res.ok ty sA ∧ (look sA 0).category = "IDENTIFIER" ∧
      (look sA 1).lexeme = "(" ∧ sA.pos + 1 < sA.tokens.length ∧
      parseParamListOpt fuel (skip sA 2) = Res.ok params sB ∧ (look sB 0).lexeme = ")" ∧
      parseCompoundStmt fuel (skip sB 1) = Res.ok body s1 ∧
      node = Node.mk "FunctionDecl"
        [ty, Node.mk ("FuncName(" ++ (look sA 0).lexeme ++ ")") [], params, body] := by
  unfold parseFunctionDecl at h
  dsimp only at h
  obtain ⟨ty, sA, hty, h⟩ := P.bind_inv h
  obtain ⟨fname, x1, h1, h⟩ := P.bind_inv h
  obtain ⟨hp1, hc1, rfl, rfl⟩ := expectCategory_ok h1
  obtain ⟨t2, x2, h2, h⟩ := P.bind_inv h
  obtain ⟨hp2, hl2, -, rfl⟩ := expectLexeme_ok h2
  obtain ⟨params, sB, hpar, h⟩ := P.bind_inv h
  obtain ⟨t3, x3, h3, h⟩ := P.bind_inv h
  obtain ⟨hp3, hl3, -, rfl⟩ := expectLexeme_ok h3
  obtain ⟨body, x4, hb, h⟩ := P.bind_inv h
  obtain ⟨rfl, rfl⟩ := P.pure_inv h
  rw [look_skip] at hl2
  rw [skip_skip] at hpar
  exact ⟨ty, sA, params, sB, body, hty, hc1, hl2, hp2, hpar, hl3, hb, rfl⟩

/-- C6 (epsilon marker).  When the current token is `)`, `parseParamListOpt` returns, with any
fuel and without moving the cursor, the childless node `ParamList(ε)`; when the current token
is anything else and it returns, the node is labelled `ParamList` and has at least one child,
every child labelled `Param`.

Whenever `parseFunctionDecl` returns, the node is `FunctionDecl` with exactly four children
`[ty, FuncName(name), params, body]`: `ty` is the `TypeSpec` read first, `name` the lexeme of the
identifier after it, `params` the node `parseParamListOpt` returns from the token after `(`, and
`body` the `CompoundStmt` read after `)`.  So the parameter-list child is always present, as the
third child; it is the childless `ParamList(ε)` exactly when the token after `(` is `)`, and
otherwise it is labelled `ParamList` and has at least one child, every child labelled `Param`.

On `int f ( ) { }` `parseProgram` returns a `FunctionDecl` with exactly the four children
`TypeSpec[BaseType(int)]`, `FuncName(f)`, `ParamList(ε)`, `CompoundStmt[StmtList]`, and on
`int f ( int a ) { }` the third child is `ParamList[Param[TypeSpec[BaseType(int)],
ParamName(a)]]`. -/
theorem C6_epsilon_marker :
    (∀ (fuel : Nat) (s : Parser) (t : Token), peek 0 s = Res.ok t s → t.lexeme = ")" →
      parseParamListOpt fuel s = Res.ok (Node.mk "ParamList(ε)" []) s) ∧
    (∀ (fuel : Nat) (s s1 : Parser) (t : Token) (node : Node), peek 0 s = Res.ok t s →
      t.lexeme ≠ ")" → parseParamListOpt fuel s = Res.ok node s1 →
      node.symbol = "ParamList" ∧ node.children ≠ [] ∧
        ∀ c ∈ node.children, c.symbol = "Param") ∧
    (∀ (fuel : Nat) (s s1 : Parser) (node : Node),
      parseFunctionDecl fuel s = Res.ok node s1 →
      ∃ (ty : Node) (sA : Parser) (params : Node) (sB : Parser) (body : Node),
        parseTypeSpec s = Res.ok ty sA ∧
        parseParamListOpt fuel (skip sA 2) = Res.ok params sB ∧
        parseCompoundStmt fuel (skip sB 1) = Res.ok body s1 ∧
        node = Node.mk "FunctionDecl"
          [ty, Node.mk ("FuncName(" ++ (look sA 0).lexeme ++ ")") [], params, body] ∧
        ty.symbol = "TypeSpec" ∧ body.symbol = "CompoundStmt" ∧
        (params.symbol = "ParamList(ε)" ↔ (look sA 2).lexeme = ")") ∧
        (((look sA 2).lexeme = ")" ∧ params = Node.mk "ParamList(ε)" [] ∧ sB = skip sA 2) ∨
          ((look sA 2).lexeme ≠ ")" ∧ params.symbol = "ParamList" ∧ params.children ≠ [] ∧
            ∀ c ∈ params.children, c.symbol = "Param"))) ∧
    ReturnsBy 4 parseProgram ⟨emptyParamsExample, 0⟩
      (Node.mk "Program" [Node.mk "FunctionDecl" [
        Node.mk "TypeSpec" [Node.mk "BaseType(int)" []], Node.mk "FuncName(f)" [],
        Node.mk "ParamList(ε)" [], Node.mk "CompoundStmt" [Node.mk "StmtList" []]]])
      ⟨emptyParamsExample, 6⟩ ∧
    ReturnsBy 4 parseProgram ⟨oneParamExample, 0⟩
      (Node.mk "Program" [Node.mk "FunctionDecl" [
        Node.mk "TypeSpec" [Node.mk "BaseType(int)" []], Node.mk "FuncName(f)" [],
        Node.mk "ParamList" [Node.mk "Param" [Node.mk "TypeSpec" [Node.mk "BaseType(int)" []],
          Node.mk "ParamName(a)" []]],
        Node.mk "CompoundStmt" [Node.mk "StmtList" []]]])
      ⟨oneParamExample, 8⟩ := by
  have c1 : ∀ (fuel : Nat) (s : Parser) (t : Token), peek 0 s = Res.ok t s → t.lexeme = ")" →
      parseParamListOpt fuel s = Res.ok (Node.mk "ParamList(ε)" []) s := by
    intro fuel s t ht hl
    simp [parseParamListOpt, checkLexeme, P.bind_eq, P.bind, ht, hl, P.pure_eq, P.ret]
  have c2 : ∀ (fuel : Nat) (s s1 : Parser) (t : Token) (node : Node), peek 0 s = Res.ok t s →
      t.lexeme ≠ ")" → parseParamListOpt fuel s = Res.ok node s1 →
      node.symbol = "ParamList" ∧ node.children ≠ [] ∧
        ∀ c ∈ node.children, c.symbol = "Param" := by
    intro fuel s s1 t node ht hl h
    have e : parseParamListOpt fuel s = parseParamList fuel s := by
      simp [parseParamListOpt, checkLexeme, P.bind_eq, P.bind, ht, hl, P.pure_eq, P.ret]
    rw [e] at h
    exact parseParamList_shape fuel s node s1 h
  refine ⟨c1, c2, ?_, returnsBy_of_eq parseProgram_le rfl, returnsBy_of_eq parseProgram_le rfl⟩
  intro fuel s s1 node h
  obtain ⟨ty, sA, params, sB, body, hty, -, -, hp, hpar, -, hb, hnode⟩ :=
    parseFunctionDecl_inv h
  have hne : (skip sA 2).tokens ≠ [] := @tokens_ne_nil sA (by omega)
  have hpk := peek_look 0 (skip sA 2) hne
  rw [look_skip] at hpk
  have hcases : ((look sA 2).lexeme = ")" ∧ params = Node.mk "ParamList(ε)" [] ∧
        sB = skip sA 2) ∨
      ((look sA 2).lexeme ≠ ")" ∧ params.symbol = "ParamList" ∧ params.children ≠ [] ∧
        ∀ c ∈ params.children, c.symbol = "Param") := by
    by_cases hcl : (look sA 2).lexeme = ")"
    · rw [c1 fuel (skip sA 2) _ hpk hcl] at hpar
      injection hpar with h1 h2
      exact Or.inl ⟨hcl, h1.symm, h2.symm⟩
    · exact Or.inr ⟨hcl, c2 fuel (skip sA 2) sB _ params hpk hcl hpar⟩
  refine ⟨ty, sA, params, sB, body, hty, hpar, hb, hnode, parseTypeSpec_symbol s ty sA hty,
    parseCompoundStmt_symbol fuel (skip sB 1) body s1 hb, ?_, hcases⟩
  rcases hcases with ⟨h1, h2, -⟩ | ⟨h1, h2, -⟩
  · exact ⟨fun _ => h1, fun _ => by rw [h2]; rfl⟩
  · constructor
    · intro h3
      rw [h2] at h3
      exact absurd h3 (by decide)
    · intro h3
      exact absurd h3 h1

theorem C6_epsilon_marker_witness :
    parseParamListOpt 0 ⟨emptyParamsExample, 3⟩ =
      Res.ok (Node.mk "ParamList(ε)" []) ⟨emptyParamsExample, 3⟩ :=
  C6_epsilon_marker.1 0 ⟨emptyParamsExample, 3⟩ ⟨"DELIMITER", ")", 1⟩ rfl rfl

end Parser

end RDP
